import Mathlib

/-! Rocket-league game core: the simulation world.

A shallow embedding of `backend/internal/simulation/world.go` (with the value
types of `backend/internal/shared/types/types.go`) and theorems about it.

Modelling conventions.

* `float64` values are exact rationals (`ℚ`): the theorems are about the
  algorithm, not about IEEE-754 rounding, NaN or infinities. Two exceptions:
  the product `dt * 1000` of the timer is rounded (`f64`), since `int` cuts it
  at the integer it reaches; and the steps whose claims turn on exact values
  have a second embedding in which every operation is rounded
  (`updateCarYawF64`, `updateBallF64`, `clampBallBoundsF64`,
  `resolveCarBallF64`), used to evaluate them as the code does.
* The functions of Go's `math` package that are not rational (`Sqrt`, `Hypot`,
  `Cos`, `Sin`, `Atan2`, the constant `Pi`) are the fields of a `MathOps`
  record that every function using them takes as its first argument. Theorems
  hold for every such record; `refOps` is a concrete one used to run the
  code on concrete inputs.
* `time.Now()` readings are explicit arguments (Unix milliseconds).
* A Go `map[string]T` is an association list `List (String × T)`; a `range`
  loop over the map visits the list in order. Go leaves that order
  unspecified; theorems quantify over every list, hence over every order.
* `uint64` and `int` counters (tick, score, timer) are `Nat` and `Int`.
* A `for cond { ... }` loop is a function with a fuel argument that returns
  `none` when the fuel runs out.
-/

namespace Simulation

/-! ## Go `math` functions -/

/-- The non-rational functions of Go's `math` package used by `world.go`. -/
structure MathOps where
  sqrt : ℚ → ℚ
  hypot : ℚ → ℚ → ℚ
  cos : ℚ → ℚ
  sin : ℚ → ℚ
  atan2 : ℚ → ℚ → ℚ
  pi : ℚ

/-- Integer square root by bisection: the largest `r` in `[lo, hi)` with `r * r ≤ n`,
provided `lo * lo ≤ n < hi * hi` and the fuel is at least the bit length of `hi - lo`
(the search stops as soon as the interval is a single number). -/
def isqrtAux (n : Nat) : Nat → Nat → Nat → Nat
  | 0, lo, _ => lo
  | fuel + 1, lo, hi =>
    if hi ≤ lo + 1 then lo
    else
      let mid := (lo + hi) / 2
      if mid * mid ≤ n then isqrtAux n fuel mid hi else isqrtAux n fuel lo mid

/-- Integer square root, floor of the real square root. -/
def isqrt (n : Nat) : Nat := isqrtAux n (n + 1) 0 (n + 1)

/-- Square root on rationals: exact on squares of rationals, otherwise truncated
to twelve decimal places of the numerator; `0` on negative arguments. -/
def refSqrt (q : ℚ) : ℚ :=
  if q ≤ 0 then 0
  else (isqrt (q.num.toNat * q.den * 10 ^ 24) : ℚ) / ((q.den : ℚ) * 10 ^ 12)

/-- Taylor polynomial of the cosine, degree 16. -/
def refCos (x : ℚ) : ℚ :=
  let y := x * x
  1 - y / 2 * (1 - y / 12 * (1 - y / 30 * (1 - y / 56 * (1 - y / 90 * (1 - y / 132 *
    (1 - y / 182 * (1 - y / 240)))))))

/-- Taylor polynomial of the sine, degree 17. -/
def refSin (x : ℚ) : ℚ :=
  let y := x * x
  x * (1 - y / 6 * (1 - y / 20 * (1 - y / 42 * (1 - y / 72 * (1 - y / 110 * (1 - y / 156 *
    (1 - y / 210 * (1 - y / 272))))))))

/-- The value of `math.Pi` as a `float64`, to sixteen digits. -/
def refPi : ℚ := 3.141592653589793

/-- Polynomial approximation of the arctangent on `[-1, 1]` (error below `1e-5`). -/
def refAtan (t : ℚ) : ℚ :=
  let y := t * t
  t * (0.9998660 + y * (-0.3302995 + y * (0.1801410 + y * (-0.0851330 + y * 0.0208351))))

/-- Two-argument arctangent built on `refAtan`, in radians in `(-π, π]`. -/
def refAtan2 (y x : ℚ) : ℚ :=
  if x = 0 ∧ y = 0 then 0
  else if |y| ≤ |x| then
    if 0 < x then refAtan (y / x)
    else if 0 ≤ y then refAtan (y / x) + refPi else refAtan (y / x) - refPi
  else
    if 0 < y then refPi / 2 - refAtan (x / y) else -(refPi / 2) - refAtan (x / y)

/-- Rational reference implementation of the `math` functions. -/
def refOps : MathOps where
  sqrt := refSqrt
  hypot := fun x y => refSqrt (x * x + y * y)
  cos := refCos
  sin := refSin
  atan2 := refAtan2
  pi := refPi

/-! ## `float64` arithmetic

The simulation is embedded over the rationals: a `float64` operation is taken with its
exact result. Where the rounding of a single operation decides what the code does it is
written out, with `f64`, on the lines concerned. -/

/-- Number of binary digits of `n`; the first argument bounds the recursion. -/
def bitLength : Nat → Nat → Nat
  | 0, _ => 0
  | fuel + 1, n => if n = 0 then 0 else bitLength fuel (n / 2) + 1

/-- The power `2 ^ e` for an integer exponent. -/
def pow2 (e : Int) : ℚ := if 0 ≤ e then (2 : ℚ) ^ e.toNat else 1 / (2 : ℚ) ^ (-e).toNat

/-- The binary exponent of a non-zero `x`: the `e` with `2 ^ e ≤ |x| < 2 ^ (e + 1)`. -/
def binExp (x : ℚ) : Int :=
  let e : Int := (bitLength x.num.natAbs x.num.natAbs : Int) - (bitLength x.den x.den : Int)
  if pow2 e ≤ |x| then e else e - 1

/-- Rounding to the nearest integer, a tie going to the even one. -/
def roundEven (x : ℚ) : Int :=
  let f := ⌊x⌋
  let r := x - f
  if r < 1 / 2 then f else if 1 / 2 < r then f + 1 else if f % 2 = 0 then f else f + 1

/-- The `float64` nearest to the real `x` (IEEE 754 binary64: 53 binary digits, least
exponent -1022, round to nearest, ties to even): the value that an operation with the
exact result `x` stores. Results beyond the largest finite `float64`, which the machine
stores as infinities, are outside the model. -/
def f64 (x : ℚ) : ℚ :=
  if x = 0 then 0
  else
    let e := max (binExp x) (-1022)
    let q := pow2 (e - 52)
    (roundEven (x / q) : ℚ) * q

/-- Go `math.Sqrt` on a `float64`: the square root, correctly rounded. The root is taken
on integers with 130 binary digits behind the point; an inexact one is replaced by the
midpoint to the next such number, which rounds as the real root does. -/
def sqrtF64 (x : ℚ) : ℚ :=
  if x ≤ 0 then 0
  else
    let n := x.num.natAbs * x.den * 2 ^ 260
    let r := isqrt n
    let d : ℚ := (x.den : ℚ) * 2 ^ 130
    if r * r = n then f64 ((r : ℚ) / d) else f64 ((2 * (r : ℚ) + 1) / (2 * d))

/-! ## Constants (`world.go` lines 11-52) -/

def ArenaLength : ℚ := 8192
def ArenaWidth : ℚ := 10240
def ArenaHeight : ℚ := 2044
def GoalWidth : ℚ := 1785.51
def GoalHeight : ℚ := 642.775
def CarRadius : ℚ := 95
def BallRadius : ℚ := 91.25
def MaxCarSpeed : ℚ := 2300
def MaxBoostSpeed : ℚ := 2300
def MaxDriveSpeed : ℚ := 1410
def ThrottleAccel : ℚ := 1600
def BrakeAccel : ℚ := 3500
def BoostAccel : ℚ := 991.666
def TurnRate : ℚ := 3.4
def Gravity : ℚ := -650
def JumpVelocity : ℚ := 292
def JumpHoldAccel : ℚ := 1460
def JumpHoldMax : ℚ := 0.2
def StickyForce : ℚ := 325
def StickyTime : ℚ := 3 / 120
def DoubleJumpMax : ℚ := 1.25
def BallRestitution : ℚ := 0.60
def WallRestitution : ℚ := 0.78
def CarBallElasticity : ℚ := 0.94
def GroundFriction : ℚ := 0.9965
def CoastFriction : ℚ := 0.9960
def LateralGrip : ℚ := 0.78
def HandbrakeGrip : ℚ := 0.90
def HandbrakeTurnBoost : ℚ := 1.35
def AirResistance : ℚ := 0.9992
def AirThrottleAccel : ℚ := 66.667
def AirReverseAccel : ℚ := 33.334
def BallMaxSpeed : ℚ := 6000
def BotSteerNormalization : ℚ := 35

/-! ## Value types (`types.go`) -/

structure Vec3 where
  x : ℚ
  y : ℚ
  z : ℚ
deriving DecidableEq

structure Rotator where
  pitch : ℚ
  yaw : ℚ
  roll : ℚ
deriving DecidableEq

structure CarInput where
  playerID : String
  sequence : Nat
  throttle : ℚ
  steer : ℚ
  boost : Bool
  jump : Bool
  handbrake : Bool
  clientMS : Int
deriving DecidableEq

structure CarState where
  playerID : String
  displayName : String
  team : String
  isBot : Bool
  position : Vec3
  velocity : Vec3
  rotation : Rotator
  boost : ℚ
  isGrounded : Bool
  lastInput : CarInput
deriving DecidableEq

structure BallState where
  position : Vec3
  velocity : Vec3
  radius : ℚ
deriving DecidableEq

structure ScoreState where
  orange : Int
  blue : Int
  timeRemainingMS : Int
deriving DecidableEq

structure GameplayEvent where
  type : String
  playerID : String
  team : String
  occurredMS : Int
deriving DecidableEq

structure MatchState where
  matchID : String
  tick : Nat
  createdAt : Int
  cars : List (String × CarState)
  ball : BallState
  score : ScoreState
  events : List GameplayEvent
deriving DecidableEq

/-- Go zero value `types.Vec3{}`. -/
def Vec3.zero : Vec3 := ⟨0, 0, 0⟩

/-- Go zero value `types.CarInput{}`. -/
def CarInput.zero : CarInput := ⟨"", 0, 0, 0, false, false, false, 0⟩

/-! ## World (`world.go` lines 54-75) -/

structure PlayerSpawn where
  playerID : String
  displayName : String
  team : String
deriving DecidableEq

structure jumpContext where
  usedJumps : Nat
  timeSinceJump : ℚ
  holdTime : ℚ
  stickyTime : ℚ
deriving DecidableEq

/-- Go zero value `jumpContext{}`. -/
def jumpContext.zero : jumpContext := ⟨0, 0, 0, 0⟩

/-- The authoritative simulation state. The lock is not modelled; the two-key map
`lastShotByTeam` is the pair of fields `lastShotOrange`, `lastShotBlue`. -/
structure World where
  state : MatchState
  input : List (String × CarInput)
  jump : List (String × jumpContext)
  lastShotOrange : Int
  lastShotBlue : Int
deriving DecidableEq

/-! ## Map helpers -/

/-- Map assignment `m[k] = v`: replaces the entry under `k`, or adds one. -/
def setKey {α : Type} : List (String × α) → String → α → List (String × α)
  | [], k, v => [(k, v)]
  | (k1, v1) :: t, k, v => if k1 = k then (k, v) :: t else (k1, v1) :: setKey t k v

/-- Map deletion `delete(m, k)`. -/
def delKey {α : Type} (l : List (String × α)) (k : String) : List (String × α) :=
  l.filter (fun e => e.1 ≠ k)

/-- Map read `w.input[id]`, the zero input when absent. -/
def getInput (input : List (String × CarInput)) (id : String) : CarInput :=
  (input.lookup id).getD CarInput.zero

/-- Map read `teamSlots[team]`, zero when absent. -/
def getSlot (slots : List (String × Nat)) (team : String) : Nat :=
  (slots.lookup team).getD 0

/-! ## Small numeric helpers (`world.go` lines 818-851) -/

/-- The loop `for d >= 360 { d -= 360 }`. -/
def subLoop : Nat → ℚ → Option ℚ
  | 0, _ => none
  | n + 1, d => if d ≥ 360 then subLoop n (d - 360) else some d

/-- The loop `for d < 0 { d += 360 }`. -/
def addLoop : Nat → ℚ → Option ℚ
  | 0, _ => none
  | n + 1, d => if d < 0 then addLoop n (d + 360) else some d

/-- The body of `normalizeDeg` with both loops bounded by `fuel` iterations. -/
def normalizeDegFuel (fuel : Nat) (d : ℚ) : Option ℚ :=
  (subLoop fuel d).bind (addLoop fuel)

/-- A number of iterations that suffices for the loops over `d`. -/
def degFuel (d : ℚ) : Nat := (|d| / 360).floor.toNat + 2

/-- Source `normalizeDeg`, run with `degFuel d` iterations (which suffice,
see `normalizeDegFuel_degFuel`). -/
def normalizeDeg (d : ℚ) : ℚ := (normalizeDegFuel (degFuel d) d).getD d

/-- The loop `for d > 180 { d -= 360 }`. -/
def subLoopSigned : Nat → ℚ → Option ℚ
  | 0, _ => none
  | n + 1, d => if d > 180 then subLoopSigned n (d - 360) else some d

/-- The loop `for d < -180 { d += 360 }`. -/
def addLoopSigned : Nat → ℚ → Option ℚ
  | 0, _ => none
  | n + 1, d => if d < -180 then addLoopSigned n (d + 360) else some d

/-- The body of `normalizeSignedDeg` with both loops bounded by `fuel` iterations. -/
def normalizeSignedDegFuel (fuel : Nat) (d : ℚ) : Option ℚ :=
  (subLoopSigned fuel d).bind (addLoopSigned fuel)

/-- Source `normalizeSignedDeg`, run with `degFuel d` iterations. -/
def normalizeSignedDeg (d : ℚ) : ℚ := (normalizeSignedDegFuel (degFuel d) d).getD d

/-- Source `clamp`. -/
def clamp (v minV maxV : ℚ) : ℚ :=
  if v < minV then minV else if v > maxV then maxV else v

/-- Source `kickoffSlotOffset`: `offsets[slot % 3]` with offsets `0, -500, 500`. -/
def kickoffSlotOffset (slot : Nat) : ℚ :=
  match slot % 3 with
  | 0 => 0
  | 1 => -500
  | _ => 500

/-- Go conversion `int(x)` of a float: truncation toward zero. -/
def truncToInt (x : ℚ) : Int := if 0 ≤ x then x.floor else -(-x).floor

/-- Go conversion `int(x)` of a `float64` where the value may leave the range of `int`:
truncation toward zero within the range; outside of it the Go specification leaves the
result to the implementation, and amd64 gives the least `int`. -/
def intOfF64 (x : ℚ) : Int :=
  let t := truncToInt x
  if -9223372036854775808 ≤ t ∧ t < 9223372036854775808 then t else -9223372036854775808

/-! ## Inputs (`world.go` lines 150-155, 412-451, 532-546) -/

/-- Source `clampInput`. -/
def clampInput (inp : CarInput) : CarInput :=
  let inp := if inp.throttle > 1 then { inp with throttle := 1 } else inp
  let inp := if inp.throttle < -1 then { inp with throttle := -1 } else inp
  let inp := if inp.steer > 1 then { inp with steer := 1 } else inp
  let inp := if inp.steer < -1 then { inp with steer := -1 } else inp
  inp

/-- Source `World.ApplyInput`. -/
def ApplyInput (w : World) (inp : CarInput) : World :=
  { w with input := setKey w.input inp.playerID (clampInput inp) }

/-- Source `botInputFor`. -/
def botInputFor (m : MathOps) (car : CarState) (ball : BallState) : CarInput :=
  let dx := ball.position.x - car.position.x
  let dy := ball.position.y - car.position.y
  let dz := ball.position.z - car.position.z
  let dist2D := m.hypot dx dy
  let targetYaw := m.atan2 dy dx * 180 / m.pi
  let delta := normalizeSignedDeg (targetYaw - car.rotation.yaw)
  let steer := clamp (delta / BotSteerNormalization) (-1) 1
  let throttle : ℚ := if |delta| > 120 then -0.25 else 1
  let boost := decide (|delta| < 12) && decide (dist2D > 600) && decide (car.boost > 15)
  let handbrake := decide (|delta| > 75)
  let jump := car.isGrounded && decide (dist2D < 250) && decide (dz > 110)
  { playerID := "", sequence := 0, throttle := throttle, steer := steer, boost := boost,
    jump := jump, handbrake := handbrake, clientMS := 0 }

/-- The loop of `World.computeBotInputs` over the cars: `tick` is `w.state.Tick`,
`now` the clock reading taken before the loop. -/
def botInputs (m : MathOps) (ball : BallState) (tick : Nat) (now : Int) :
    List (String × CarState) → List (String × CarInput) → List (String × CarInput)
  | [], input => input
  | (id, car) :: rest, input =>
    if !car.isBot then botInputs m ball tick now rest input
    else
      let inp := botInputFor m car ball
      botInputs m ball tick now rest
        (setKey input id { inp with playerID := id, sequence := tick, clientMS := now })

/-- Source `World.computeBotInputs`. -/
def computeBotInputs (m : MathOps) (w : World) (now : Int) : World :=
  { w with input := botInputs m w.state.ball w.state.tick now w.state.cars w.input }

/-! ## Car integrator (`world.go` lines 548-715) -/

/-- Lines 549-558 of `updateCar`: the new yaw in degrees. -/
def updateCarYaw (m : MathOps) (car : CarState) (inp : CarInput) (dt : ℚ) : ℚ :=
  let speed2D := m.hypot car.velocity.x car.velocity.y
  let turnScale := 1 - min (speed2D / MaxBoostSpeed) 0.75
  let turnRate := TurnRate * (0.55 + turnScale)
  let turnRate := if inp.handbrake && car.isGrounded then turnRate * HandbrakeTurnBoost else turnRate
  normalizeDeg (car.rotation.yaw + inp.steer * turnRate * dt * 180 / m.pi)

/-- Lines 584-596 of `updateCar`: the new boost amount. -/
def updateCarBoost (car : CarState) (inp : CarInput) (dt : ℚ) : ℚ :=
  let usingBoost := inp.boost && decide (car.boost > 0)
  if usingBoost && decide (inp.throttle > 0) then
    let b := car.boost - 34 * dt
    if b < 0 then 0 else b
  else
    let b := car.boost + 8 * dt
    if b > 100 then 100 else b

/-- Lines 566-619 of `updateCar`: the planar velocity `(vx, vy)` rebuilt from the
forward and lateral speeds, `(forwardX, forwardY)` being the new heading. -/
def updateCarPlanar (car : CarState) (inp : CarInput) (dt forwardX forwardY : ℚ) : ℚ × ℚ :=
  let rightX := -forwardY
  let rightY := forwardX
  let forwardSpeed := car.velocity.x * forwardX + car.velocity.y * forwardY
  let lateralSpeed := car.velocity.x * rightX + car.velocity.y * rightY
  let accel :=
    if car.isGrounded then
      if inp.throttle * forwardSpeed < 0 then inp.throttle * BrakeAccel
      else inp.throttle * ThrottleAccel
    else
      if inp.throttle ≥ 0 then inp.throttle * AirThrottleAccel
      else inp.throttle * AirReverseAccel
  let forwardSpeed := forwardSpeed + accel * dt
  let usingBoost := inp.boost && decide (car.boost > 0)
  let forwardSpeed :=
    if usingBoost && decide (inp.throttle > 0) then forwardSpeed + BoostAccel * dt
    else forwardSpeed
  let forwardSpeed :=
    if decide (|inp.throttle| < 0.05) && car.isGrounded then forwardSpeed * CoastFriction
    else forwardSpeed
  let maxSpeed := if !usingBoost then MaxDriveSpeed else MaxCarSpeed
  let forwardSpeed := clamp forwardSpeed (-MaxCarSpeed) maxSpeed
  let grip := if inp.handbrake && car.isGrounded then HandbrakeGrip else LateralGrip
  let lateralSpeed := if car.isGrounded then lateralSpeed * grip else lateralSpeed * 0.985
  (forwardX * forwardSpeed + rightX * lateralSpeed, forwardY * forwardSpeed + rightY * lateralSpeed)

/-- What the jump section of `updateCar` leaves behind. -/
structure JumpOut where
  vx : ℚ
  vy : ℚ
  vz : ℚ
  grounded : Bool
  jc : jumpContext
deriving DecidableEq

/-- Lines 621-666 of `updateCar`: the jump state machine, on the velocity
`(vx, vy, vz)` and grounded flag the car has on entry to line 621. -/
def updateCarJump (m : MathOps) (inp prev : CarInput) (forwardX forwardY vx vy vz : ℚ)
    (grounded : Bool) (jc : jumpContext) (dt : ℚ) : JumpOut :=
  let rightX := -forwardY
  let rightY := forwardX
  let jumpPressed := inp.jump && !prev.jump
  let jc := if grounded then
      { jc with usedJumps := 0, timeSinceJump := 0, holdTime := 0, stickyTime := 0 }
    else jc
  let didFirstJump := jumpPressed && decide (jc.usedJumps = 0) && grounded
  let vz := if didFirstJump then vz + JumpVelocity else vz
  let grounded := if didFirstJump then false else grounded
  let jc := if didFirstJump then
      { jc with usedJumps := 1, timeSinceJump := 0, holdTime := 0, stickyTime := StickyTime }
    else jc
  if decide (jc.usedJumps > 0) && !grounded then
    let jc := { jc with timeSinceJump := jc.timeSinceJump + dt }
    let hold := inp.jump && decide (jc.holdTime < JumpHoldMax) && decide (jc.usedJumps = 1)
    let vz := if hold then vz + JumpHoldAccel * dt else vz
    let jc := if hold then { jc with holdTime := jc.holdTime + dt } else jc
    let sticky := decide (jc.stickyTime > 0)
    let vz := if sticky then vz - StickyForce * dt else vz
    let jc := if sticky then { jc with stickyTime := jc.stickyTime - dt } else jc
    if jumpPressed && !didFirstJump && decide (jc.usedJumps = 1)
        && decide (jc.timeSinceJump ≤ DoubleJumpMax) then
      let dodgeX := forwardX * inp.throttle + rightX * inp.steer
      let dodgeY := forwardY * inp.throttle + rightY * inp.steer
      let mag := m.hypot dodgeX dodgeY
      let small := decide (mag < 0.1)
      let dodgeX := if small then forwardX else dodgeX
      let dodgeY := if small then forwardY else dodgeY
      let mag := if small then 1 else mag
      let dodgeX := dodgeX / mag
      let dodgeY := dodgeY / mag
      { vx := vx + dodgeX * 500, vy := vy + dodgeY * 500, vz := vz + JumpVelocity,
        grounded := grounded,
        jc := { jc with usedJumps := 2, holdTime := JumpHoldMax, stickyTime := 0 } }
    else { vx := vx, vy := vy, vz := vz, grounded := grounded, jc := jc }
  else { vx := vx, vy := vy, vz := vz, grounded := grounded, jc := jc }

/-- Source `updateCar`: the car and jump context after the call. -/
def updateCar (m : MathOps) (car : CarState) (inp prev : CarInput) (jc : jumpContext) (dt : ℚ) :
    CarState × jumpContext :=
  let yaw := updateCarYaw m car inp dt
  let yawRad := yaw * m.pi / 180
  let forwardX := m.cos yawRad
  let forwardY := m.sin yawRad
  let planar := updateCarPlanar car inp dt forwardX forwardY
  let j := updateCarJump m inp prev forwardX forwardY planar.1 planar.2 car.velocity.z
    car.isGrounded jc dt
  let vz := j.vz + Gravity * dt
  let vx := if j.grounded then j.vx * GroundFriction else j.vx * AirResistance
  let vy := if j.grounded then j.vy * GroundFriction else j.vy * AirResistance
  let px := car.position.x + vx * dt
  let py := car.position.y + vy * dt
  let pz := car.position.z + vz * dt
  let snap := decide (pz ≤ CarRadius)
  let vz := if snap then (if vz < 0 then 0 else vz) else vz
  let grounded := if snap then true else j.grounded
  let jc := if snap then { j.jc with stickyTime := 0 } else j.jc
  let pz := if snap then CarRadius else pz
  let ceil := decide (pz > ArenaHeight - CarRadius)
  let vz := if ceil then vz * (-0.25) else vz
  let pz := if ceil then ArenaHeight - CarRadius else pz
  ({ car with
      position := ⟨px, py, pz⟩, velocity := ⟨vx, vy, vz⟩,
      rotation := { car.rotation with yaw := yaw },
      boost := updateCarBoost car inp dt, isGrounded := grounded }, jc)

/-- Source `clampCarBounds`. -/
def clampCarBounds (car : CarState) : CarState :=
  let halfL := ArenaLength / 2
  let halfW := ArenaWidth / 2
  let car := if car.position.x < -halfL + CarRadius then
      { car with position := { car.position with x := -halfL + CarRadius },
                 velocity := { car.velocity with x := car.velocity.x * (-0.3) } }
    else car
  let car := if car.position.x > halfL - CarRadius then
      { car with position := { car.position with x := halfL - CarRadius },
                 velocity := { car.velocity with x := car.velocity.x * (-0.3) } }
    else car
  let car := if car.position.y < -halfW + CarRadius then
      { car with position := { car.position with y := -halfW + CarRadius },
                 velocity := { car.velocity with y := car.velocity.y * (-0.3) } }
    else car
  let car := if car.position.y > halfW - CarRadius then
      { car with position := { car.position with y := halfW - CarRadius },
                 velocity := { car.velocity with y := car.velocity.y * (-0.3) } }
    else car
  car

/-! ## Ball integrator and contact (`world.go` lines 717-816) -/

/-- Source `updateBall`. -/
def updateBall (m : MathOps) (ball : BallState) (dt : ℚ) : BallState :=
  let vz := ball.velocity.z + Gravity * dt
  let px := ball.position.x + ball.velocity.x * dt
  let py := ball.position.y + ball.velocity.y * dt
  let pz := ball.position.z + vz * dt
  let drag : ℚ := if pz ≤ ball.radius + 8 then 0.9975 else 0.9995
  let vx := ball.velocity.x * drag
  let vy := ball.velocity.y * drag
  let vz := vz * 0.9994
  let speed := m.sqrt (vx * vx + vy * vy + vz * vz)
  if speed > BallMaxSpeed ∧ speed > 0 then
    let scale := BallMaxSpeed / speed
    { ball with position := ⟨px, py, pz⟩, velocity := ⟨vx * scale, vy * scale, vz * scale⟩ }
  else
    { ball with position := ⟨px, py, pz⟩, velocity := ⟨vx, vy, vz⟩ }

/-- Source `clampBallBounds`. -/
def clampBallBounds (ball : BallState) : BallState :=
  let halfL := ArenaLength / 2
  let halfW := ArenaWidth / 2
  let ball := if ball.position.z < ball.radius then
      { ball with position := { ball.position with z := ball.radius },
                  velocity := { ball.velocity with z := -ball.velocity.z * BallRestitution } }
    else ball
  let ball := if ball.position.z > ArenaHeight - ball.radius then
      { ball with position := { ball.position with z := ArenaHeight - ball.radius },
                  velocity := { ball.velocity with z := -ball.velocity.z * BallRestitution } }
    else ball
  let inGoalY := decide (|ball.position.y| ≤ GoalWidth / 2)
  let inGoalZ := decide (ball.position.z ≤ GoalHeight)
  let ball := if !inGoalY || !inGoalZ then
      let ball := if ball.position.x < -halfL + ball.radius then
          { ball with position := { ball.position with x := -halfL + ball.radius },
                      velocity := { ball.velocity with x := -ball.velocity.x * WallRestitution } }
        else ball
      let ball := if ball.position.x > halfL - ball.radius then
          { ball with position := { ball.position with x := halfL - ball.radius },
                      velocity := { ball.velocity with x := -ball.velocity.x * WallRestitution } }
        else ball
      ball
    else ball
  let ball := if ball.position.y < -halfW + ball.radius then
      { ball with position := { ball.position with y := -halfW + ball.radius },
                  velocity := { ball.velocity with y := -ball.velocity.y * WallRestitution } }
    else ball
  let ball := if ball.position.y > halfW - ball.radius then
      { ball with position := { ball.position with y := halfW - ball.radius },
                  velocity := { ball.velocity with y := -ball.velocity.y * WallRestitution } }
    else ball
  ball

/-- One iteration of the loop of `resolveCarBallCollisions`: the ball and the car
after the body has run for `car`. -/
def resolveCarBall (m : MathOps) (ball : BallState) (car : CarState) : BallState × CarState :=
  let dx := ball.position.x - car.position.x
  let dy := ball.position.y - car.position.y
  let dz := ball.position.z - car.position.z
  let dist := m.sqrt (dx * dx + dy * dy + dz * dz)
  let minDist := CarRadius + ball.radius
  if dist ≤ 0 ∨ dist ≥ minDist then (ball, car)
  else
    let nx := dx / dist
    let ny := dy / dist
    let nz := dz / dist
    let carDot := car.velocity.x * nx + car.velocity.y * ny + car.velocity.z * nz
    let ballDot := ball.velocity.x * nx + ball.velocity.y * ny + ball.velocity.z * nz
    let rel := ballDot - carDot
    if rel > 0 then (ball, car)
    else
      let impulse := -(1 + CarBallElasticity) * rel
      let overlap := minDist - dist
      ({ ball with
          velocity := ⟨ball.velocity.x + impulse * nx, ball.velocity.y + impulse * ny,
                       ball.velocity.z + impulse * nz⟩,
          position := ⟨ball.position.x + nx * overlap * 0.85, ball.position.y + ny * overlap * 0.85,
                       ball.position.z + nz * overlap * 0.85⟩ },
       { car with
          position := ⟨car.position.x - nx * overlap * 0.15, car.position.y - ny * overlap * 0.15,
                       car.position.z - nz * overlap * 0.15⟩ })

/-- The loop of `resolveCarBallCollisions` over the cars, threading the ball. -/
def resolveCars (m : MathOps) :
    List (String × CarState) → BallState → List (String × CarState) × BallState
  | [], ball => ([], ball)
  | (id, car) :: rest, ball =>
    let r := resolveCarBall m ball car
    let out := resolveCars m rest r.1
    ((id, r.2) :: out.1, out.2)

/-- Source `resolveCarBallCollisions`. -/
def resolveCarBallCollisions (m : MathOps) (state : MatchState) : MatchState :=
  let out := resolveCars m state.cars state.ball
  { state with cars := out.1, ball := out.2 }

/-! ## Events, goals and kickoff (`world.go` lines 453-530) -/

/-- Source `World.detectShotOnGoal`; `now` is its clock reading. -/
def detectShotOnGoal (w : World) (now : Int) : World :=
  let b := w.state.ball
  let w :=
    if b.position.x > ArenaLength * 0.35 ∧ b.velocity.x > 200
        ∧ |b.position.y| ≤ GoalWidth * 0.7 then
      if now - w.lastShotOrange ≥ 700 then
        { w with
          state := { w.state with
            events := w.state.events ++ [⟨"shot_on_goal", "", "orange", now⟩] },
          lastShotOrange := now }
      else w
    else w
  let w :=
    if b.position.x < -ArenaLength * 0.35 ∧ b.velocity.x < -200
        ∧ |b.position.y| ≤ GoalWidth * 0.7 then
      if now - w.lastShotBlue ≥ 700 then
        { w with
          state := { w.state with
            events := w.state.events ++ [⟨"shot_on_goal", "", "blue", now⟩] },
          lastShotBlue := now }
      else w
    else w
  w

/-- The loop of `World.resetKickoff` over the cars; `slots` is `teamSlots`. -/
def resetCars : List (String × CarState) → List (String × Nat) → List (String × CarState)
  | [], _ => []
  | (id, car) :: rest, slots =>
    let slot := getSlot slots car.team
    let slots := setKey slots car.team (slot + 1)
    let car :=
      if car.team = "orange" then
        { car with position := ⟨-2048, kickoffSlotOffset slot, CarRadius⟩,
                   rotation := ⟨0, 0, 0⟩ }
      else
        { car with position := ⟨2048, kickoffSlotOffset slot, CarRadius⟩,
                   rotation := ⟨0, 180, 0⟩ }
    (id, { car with velocity := Vec3.zero, boost := 100, isGrounded := true })
      :: resetCars rest slots

/-- Source `World.resetKickoff`; `now` is its clock reading. -/
def resetKickoff (w : World) (scoringTeam : String) (now : Int) : World :=
  { w with state := { w.state with
      ball := { w.state.ball with position := ⟨0, 0, BallRadius + 20⟩, velocity := Vec3.zero },
      cars := resetCars w.state.cars [("orange", 0), ("blue", 0)],
      events := w.state.events ++ [⟨"kickoff", "", scoringTeam, now⟩] } }

/-- Source `World.detectGoalAndResetIfNeeded`; `now` is its clock reading and
`nowKick` the one of the `resetKickoff` it calls. -/
def detectGoalAndResetIfNeeded (w : World) (now nowKick : Int) : World :=
  let b := w.state.ball
  let inGoalY := decide (|b.position.y| ≤ GoalWidth / 2)
  let inGoalZ := decide (b.position.z ≤ GoalHeight)
  if !inGoalY || !inGoalZ then w
  else if b.position.x ≥ ArenaLength / 2 then
    resetKickoff
      { w with state := { w.state with
          score := { w.state.score with orange := w.state.score.orange + 1 },
          events := w.state.events ++ [⟨"goal", "", "orange", now⟩] } }
      "orange" nowKick
  else if b.position.x ≤ -ArenaLength / 2 then
    resetKickoff
      { w with state := { w.state with
          score := { w.state.score with blue := w.state.score.blue + 1 },
          events := w.state.events ++ [⟨"goal", "", "blue", now⟩] } }
      "blue" nowKick
  else w

/-! ## Tick (`world.go` lines 157-196) -/

/-- The clock readings taken during one `Tick`, in Unix milliseconds: by
`computeBotInputs`, `detectShotOnGoal`, `detectGoalAndResetIfNeeded` and `resetKickoff`. -/
structure TickClock where
  botMS : Int
  shotMS : Int
  goalMS : Int
  kickoffMS : Int
deriving DecidableEq

/-- Lines 166-175 of `Tick`: the match timer. The product `dt * 1000` is the `float64`
one, rounded, since `int` cuts it at the integer it reaches. -/
def tickTimer (score : ScoreState) (dt : ℚ) : ScoreState :=
  if score.timeRemainingMS > 0 then
    let deltaMS := intOfF64 (f64 (dt * 1000))
    let deltaMS := if deltaMS < 1 then 1 else deltaMS
    let t := score.timeRemainingMS - deltaMS
    { score with timeRemainingMS := if t < 0 then 0 else t }
  else score

/-- Lines 177-189 of `Tick`: the loop over the cars, threading the jump map. -/
def tickCars (m : MathOps) (input : List (String × CarInput)) (dt : ℚ) :
    List (String × CarState) → List (String × jumpContext) →
      List (String × CarState) × List (String × jumpContext)
  | [], jump => ([], jump)
  | (id, car) :: rest, jump =>
    let inp := getInput input id
    let prev := car.lastInput
    let jc := (jump.lookup id).getD jumpContext.zero
    let r := updateCar m car inp prev jc dt
    let car := clampCarBounds { r.1 with lastInput := inp }
    let out := tickCars m input dt rest (setKey jump id r.2)
    ((id, car) :: out.1, out.2)

/-- Lines 162-194 of `Tick`: everything before the call of
`detectGoalAndResetIfNeeded`. -/
def tickBeforeGoal (m : MathOps) (w : World) (dt : ℚ) (clk : TickClock) : World :=
  let w := { w with state := { w.state with tick := w.state.tick + 1, events := [] } }
  let w := computeBotInputs m w clk.botMS
  let w := { w with state := { w.state with score := tickTimer w.state.score dt } }
  let out := tickCars m w.input dt w.state.cars w.jump
  let w := { w with state := { w.state with cars := out.1 }, jump := out.2 }
  let w := { w with state := { w.state with ball := updateBall m w.state.ball dt } }
  let w := { w with state := { w.state with ball := clampBallBounds w.state.ball } }
  let w := { w with state := resolveCarBallCollisions m w.state }
  detectShotOnGoal w clk.shotMS

/-- Source `World.Tick`. -/
def Tick (m : MathOps) (w : World) (dt : ℚ) (clk : TickClock) : World :=
  detectGoalAndResetIfNeeded (tickBeforeGoal m w dt clk) clk.goalMS clk.kickoffMS

/-- The world after one call of `Tick` for each `(dt, clock)` of the list, in order. -/
def runTicks (m : MathOps) : World → List (ℚ × TickClock) → World
  | w, [] => w
  | w, c :: rest => runTicks m (Tick m w c.1 c.2) rest

/-! ## Construction, snapshot and membership (`world.go` lines 77-148, 198-410) -/

/-- The car placed at kickoff slot `slot` of `team` (the literal shared by
`NewWorld`, `EnsurePlayer` and `EnsureBotOpponent`). -/
def spawnCar (id name team : String) (isBot : Bool) (slot : Nat) : CarState :=
  { playerID := id, displayName := name, team := team, isBot := isBot,
    position := if team = "blue" then ⟨2048, kickoffSlotOffset slot, CarRadius⟩
                else ⟨-2048, kickoffSlotOffset slot, CarRadius⟩,
    velocity := Vec3.zero,
    rotation := if team = "blue" then ⟨0, 180, 0⟩ else ⟨0, 0, 0⟩,
    boost := 100, isGrounded := true, lastInput := CarInput.zero }

/-- The loop of `NewWorld` over the players: the `cars` and `jump` maps. -/
def spawnAll : List PlayerSpawn → List (String × Nat) → List (String × CarState) →
    List (String × jumpContext) → List (String × CarState) × List (String × jumpContext)
  | [], _, cars, jump => (cars, jump)
  | p :: rest, slots, cars, jump =>
    let team := if p.team ≠ "blue" then "orange" else p.team
    let slot := getSlot slots team
    let slots := setKey slots team (slot + 1)
    spawnAll rest slots
      (setKey cars p.playerID (spawnCar p.playerID p.displayName team false slot))
      (setKey jump p.playerID jumpContext.zero)

/-- Source `NewWorld`; `durationMS` is `duration.Milliseconds()`, `now` the clock reading. -/
def NewWorld (matchID : String) (durationMS : Int) (players : List PlayerSpawn) (now : Int) :
    World :=
  let out := spawnAll players [("orange", 0), ("blue", 0)] [] []
  { state :=
      { matchID := matchID, tick := 0, createdAt := now, cars := out.1,
        ball := { position := ⟨0, 0, BallRadius + 20⟩, velocity := ⟨0, 0, 0⟩,
                  radius := BallRadius },
        score := { orange := 0, blue := 0, timeRemainingMS := durationMS },
        events := [⟨"kickoff", "", "", now⟩] },
    input := [], jump := out.2, lastShotOrange := 0, lastShotBlue := 0 }

/-- Source `World.Snapshot`: the returned value (a copy; the world is not changed). -/
def Snapshot (w : World) : MatchState := w.state

/-- Source `World.EnsurePlayer`: the world after the call and the returned team. -/
def EnsurePlayer (w : World) (playerID displayName : String) (now : Int) : World × String :=
  match w.state.cars.lookup playerID with
  | some c =>
    let c := if displayName ≠ "" then { c with displayName := displayName } else c
    let c := { c with isBot := false }
    ({ w with
        state := { w.state with cars := setKey w.state.cars playerID c },
        jump := match w.jump.lookup playerID with
          | some _ => w.jump
          | none => setKey w.jump playerID jumpContext.zero }, c.team)
  | none =>
    let humans := w.state.cars.filter (fun e => !e.2.isBot)
    let blueCount := (humans.filter (fun e => e.2.team = "blue")).length
    let orangeCount := (humans.filter (fun e => e.2.team ≠ "blue")).length
    let team := if orangeCount > blueCount then "blue" else "orange"
    let teamSlot := if team = "blue" then blueCount else orangeCount
    ({ w with
        state := { w.state with
          cars := setKey w.state.cars playerID (spawnCar playerID displayName team false teamSlot),
          events := w.state.events ++ [⟨"player_join", playerID, team, now⟩] },
        jump := setKey w.jump playerID jumpContext.zero }, team)

/-- Source `World.HumanCount`. -/
def HumanCount (w : World) : Nat :=
  (w.state.cars.filter (fun e => !e.2.isBot)).length

/-- Source `World.FirstHumanID`. -/
def FirstHumanID (w : World) : String :=
  match w.state.cars.find? (fun e => !e.2.isBot) with
  | some e => e.1
  | none => ""

/-- Source `World.EnsureBotOpponent`: the world after the call and the returned id.
`stamp` is the formatted clock reading that ends the bot id, `now` the reading of the event. -/
def EnsureBotOpponent (w : World) (playerID stamp : String) (now : Int) : World × String :=
  match w.state.cars.lookup playerID with
  | none => (w, "")
  | some player =>
    let opp := if player.team = "orange" then "blue" else "orange"
    let oppHumans := (w.state.cars.filter (fun e => e.2.team = opp && !e.2.isBot)).length
    if oppHumans > 0 then (w, "")
    else
      match w.state.cars.find? (fun e => e.2.team = opp && e.2.isBot) with
      | some e => (w, e.1)
      | none =>
        let oppCount := (w.state.cars.filter (fun e => e.2.team = opp)).length
        let botID := "bot_" ++ opp ++ "_" ++ stamp
        ({ w with
            state := { w.state with
              cars := setKey w.state.cars botID (spawnCar botID "Velocity Bot" opp true oppCount),
              events := w.state.events ++ [⟨"player_join", botID, opp, now⟩] },
            jump := setKey w.jump botID jumpContext.zero }, botID)

/-- The loop of `World.RemoveAllBots` over the cars. -/
def removeBots (now : Int) : List (String × CarState) → World → World
  | [], w => w
  | (id, c) :: rest, w =>
    if c.isBot then
      removeBots now rest
        { w with
          state := { w.state with
            cars := delKey w.state.cars id,
            events := w.state.events ++ [⟨"player_leave", id, c.team, now⟩] },
          input := delKey w.input id, jump := delKey w.jump id }
    else removeBots now rest w

/-- Source `World.RemoveAllBots`; `now` is the clock reading of its events. -/
def RemoveAllBots (w : World) (now : Int) : World := removeBots now w.state.cars w

/-- Source `World.RemovePlayer`; `now` is its clock reading. -/
def RemovePlayer (w : World) (playerID : String) (now : Int) : World :=
  match w.state.cars.lookup playerID with
  | none => w
  | some c =>
    { w with
      state := { w.state with
        cars := delKey w.state.cars playerID,
        events := w.state.events ++ [⟨"player_leave", playerID, c.team, now⟩] },
      input := delKey w.input playerID, jump := delKey w.jump playerID }

/-! ## Concrete worlds used to run the code -/

/-- A clock that reads `0` at every reading of a `Tick`. -/
def clock0 : TickClock := ⟨0, 0, 0, 0⟩

/-- The world of the tests: a ten-second match with the single orange player `p1`. -/
def kickoffWorld : World := NewWorld "m" 10000 [⟨"p1", "p1", "orange"⟩] 0

/-- Set-up of `TestGoalScoringIncrementsScore`: `kickoffWorld` with the ball moved to
`(ArenaLength/2 + 5, 0, 100)`. -/
def goalWorld : World :=
  { kickoffWorld with state := { kickoffWorld.state with
      ball := { kickoffWorld.state.ball with position := ⟨ArenaLength / 2 + 5, 0, 100⟩ } } }

/-- The one-player world with the ball at rest 150 above the parked car `p1`
(car centre `(-2048, 0, 95)`, ball centre `(-2048, 0, 245)`). -/
def dropWorld : World :=
  { kickoffWorld with state := { kickoffWorld.state with
      ball := { kickoffWorld.state.ball with position := ⟨-2048, 0, 245⟩ } } }

/-- A car coasting along +X at `MaxDriveSpeed` from the centre spot and the ball rolling
on the floor toward it at `BallMaxSpeed`, 160 ahead of the car; no stored input. -/
def headOnWorld : World :=
  { state :=
      { matchID := "m", tick := 0, createdAt := 0,
        cars := [("p1", { spawnCar "p1" "p1" "orange" false 0 with
                    position := ⟨0, 0, CarRadius⟩, velocity := ⟨MaxDriveSpeed, 0, 0⟩ })],
        ball := { position := ⟨160, 0, BallRadius⟩, velocity := ⟨-BallMaxSpeed, 0, 0⟩,
                  radius := BallRadius },
        score := ⟨0, 0, 10000⟩, events := [] },
    input := [], jump := [("p1", jumpContext.zero)], lastShotOrange := 0, lastShotBlue := 0 }

/-- The one-player world after `ApplyInput` of full throttle with boost pressed for `p1`. -/
def boostWorld : World :=
  ApplyInput kickoffWorld
    { playerID := "p1", sequence := 0, throttle := 1, steer := 0, boost := true,
      jump := false, handbrake := false, clientMS := 0 }

/-- The one-player world with the ball at rest on the floor, 100 along +X from the parked
car `p1` (car centre `(-2048, 0, 95)`, ball centre `(-1948, 0, 91.25)`). -/
def restingBallWorld : World :=
  { kickoffWorld with state := { kickoffWorld.state with
      ball := { kickoffWorld.state.ball with position := ⟨-1948, 0, BallRadius⟩ } } }

/-- The one-player world after `EnsureBotOpponent` for `p1` (a blue bot `bot_blue_120000.000000000` is
added) and `ApplyInput` of half throttle under the id of that bot. -/
def botInputWorld : World :=
  ApplyInput (EnsureBotOpponent kickoffWorld "p1" "120000.000000000" 0).1
    { playerID := "bot_blue_120000.000000000", sequence := 7, throttle := 1 / 2, steer := 0, boost := false,
      jump := false, handbrake := false, clientMS := 0 }

/-- A world whose only player, a human on orange, has the id `bot_blue_120000.000000000`. -/
def collisionWorld : World := NewWorld "m" 10000 [⟨"bot_blue_120000.000000000", "Pilot", "orange"⟩] 0

/-- The world of `TestBotLifecycleForSingleHuman` before the removal: the human `p1` on
orange and the bot `bot_blue_120000.000000000` that `EnsureBotOpponent` added. -/
def botWorld : World := (EnsureBotOpponent kickoffWorld "p1" "120000.000000000" 0).1

/-! ## Driving straight along +X

A grounded car with yaw `0`, no lateral or vertical velocity and an input without steer
or jump keeps that shape through `updateCar`; `straightStep` is what `updateCar` and
`clampCarBounds` leave of such a car, written with the source's own `updateCarPlanar`
and `updateCarBoost`. -/

/-- One pass of the loop body of `Tick` (lines 177-189) over a car that drives straight
along +X: heading `(1, 0)`, ground friction on the new forward speed, the car snapped
back on the floor. -/
def straightStep (inp : CarInput) (dt : ℚ) (car : CarState) : CarState :=
  let vx := (updateCarPlanar car inp dt 1 0).1 * GroundFriction
  { car with
    position := ⟨car.position.x + vx * dt, 0, CarRadius⟩, velocity := ⟨vx, 0, 0⟩,
    boost := updateCarBoost car inp dt, lastInput := inp }

/-- The car after `n` passes of `straightStep`. -/
def straightRun (inp : CarInput) (dt : ℚ) : Nat → CarState → CarState
  | 0, car => car
  | n + 1, car => straightRun inp dt n (straightStep inp dt car)

/-- The cars met during `n` passes of `straightStep`, the starting car excluded. -/
def straightTrace (inp : CarInput) (dt : ℚ) : Nat → CarState → List CarState
  | 0, _ => []
  | n + 1, car => straightStep inp dt car :: straightTrace inp dt n (straightStep inp dt car)

/-- Input of `TestForwardAccelerationIsResponsive`: full throttle, nothing else. -/
def throttleInput : CarInput :=
  { playerID := "p1", sequence := 0, throttle := 1, steer := 0, boost := false,
    jump := false, handbrake := false, clientMS := 0 }

/-- First input of `TestBoostConsumptionAndRegeneration`: full throttle with boost. -/
def boostInput : CarInput :=
  { playerID := "p1", sequence := 0, throttle := 1, steer := 0, boost := true,
    jump := false, handbrake := false, clientMS := 0 }

/-- Second input of `TestBoostConsumptionAndRegeneration`: everything released. -/
def releaseInput : CarInput :=
  { playerID := "p1", sequence := 0, throttle := 0, steer := 0, boost := false,
    jump := false, handbrake := false, clientMS := 0 }

/-- The one-player world after `ApplyInput` of full throttle for `p1`. -/
def throttleWorld : World := ApplyInput kickoffWorld throttleInput

/-- The frames of `n` calls `Tick(1.0 / 120.0)`, one clock per call. -/
def frames (clks : List TickClock) : List (ℚ × TickClock) := clks.map (fun c => (1 / 120, c))

/-- The car `p1` as `NewWorld` spawns it. -/
def kickoffCar : CarState := spawnCar "p1" "p1" "orange" false 0

/-- The shape of a car that drives straight along +X on the floor. -/
structure Straight (car : CarState) : Prop where
  grounded : car.isGrounded = true
  yaw : car.rotation.yaw = 0
  vy : car.velocity.y = 0
  vz : car.velocity.z = 0
  py : car.position.y = 0
  pz : car.position.z = CarRadius

/-- What the straight-line runs need of the `math` functions: exact cosine and sine at
`0`, and a square root that does not fall below the contact distance `186.25` on
arguments of at least its square. -/
structure StraightOps (m : MathOps) : Prop where
  cos0 : m.cos 0 = 1
  sin0 : m.sin 0 = 0
  far : ∀ q : ℚ, (745 / 4 : ℚ) ^ 2 ≤ q → (745 / 4 : ℚ) ≤ m.sqrt q

/-- The ball sits on the vertical axis through the centre spot and only moves along it. -/
structure Centred (b : BallState) : Prop where
  px : b.position.x = 0
  py : b.position.y = 0
  vx : b.velocity.x = 0
  vy : b.velocity.y = 0
  radius : b.radius = BallRadius

/-- A world whose only car `p1` is a human with the stored input `inp`, the ball being
on the axis through the centre spot. -/
structure Lane (w : World) (car : CarState) (inp : CarInput) : Prop where
  cars : w.state.cars = [("p1", car)]
  input : w.input = [("p1", inp)]
  human : car.isBot = false
  ball : Centred w.state.ball

/-- First input of `TestJumpAndDoubleJumpWork`: jump pressed, nothing else. -/
def jumpInput : CarInput :=
  { playerID := "p1", sequence := 0, throttle := 0, steer := 0, boost := false,
    jump := true, handbrake := false, clientMS := 0 }

/-! ## The vertical integration of a car (`world.go` lines 668-693) -/

/-- Line 668 of `updateCar`: the vertical velocity after the jump section and
gravity, before the floor and ceiling tests. -/
def integratedVz (m : MathOps) (car : CarState) (inp prev : CarInput) (jc : jumpContext)
    (dt : ℚ) : ℚ :=
  let yaw := updateCarYaw m car inp dt
  let yawRad := yaw * m.pi / 180
  let forwardX := m.cos yawRad
  let forwardY := m.sin yawRad
  let planar := updateCarPlanar car inp dt forwardX forwardY
  let j := updateCarJump m inp prev forwardX forwardY planar.1 planar.2 car.velocity.z
    car.isGrounded jc dt
  j.vz + Gravity * dt

/-- Line 679 of `updateCar`: the height after integration, before the floor and
ceiling tests. -/
def integratedZ (m : MathOps) (car : CarState) (inp prev : CarInput) (jc : jumpContext)
    (dt : ℚ) : ℚ :=
  car.position.z + integratedVz m car inp prev jc dt * dt

/-- The part of a world that the physics of `Tick` reads and writes: the cars, the ball,
the score, the tick counter, the stored inputs and the jump contexts (all but the event
list and the two shot stamps). -/
def physical (w : World) :
    List (String × CarState) × BallState × ScoreState × Nat × List (String × CarInput)
      × List (String × jumpContext) :=
  (w.state.cars, w.state.ball, w.state.score, w.state.tick, w.input, w.jump)

/-! ## The locals of one contact test (`world.go` lines 780-796) -/

/-- Lines 780-783 of `resolveCarBallCollisions`: the squared distance between the
centres, `dx*dx + dy*dy + dz*dz`. -/
def contactDistSq (ball : BallState) (car : CarState) : ℚ :=
  let dx := ball.position.x - car.position.x
  let dy := ball.position.y - car.position.y
  let dz := ball.position.z - car.position.z
  dx * dx + dy * dy + dz * dz

/-- Line 783: `dist`, the computed distance between the centres. -/
def contactDist (m : MathOps) (ball : BallState) (car : CarState) : ℚ :=
  m.sqrt (contactDistSq ball car)

/-- Lines 789-791: the contact normal `(nx, ny, nz)`, from the car to the ball. -/
def contactNormal (m : MathOps) (ball : BallState) (car : CarState) : Vec3 :=
  ⟨(ball.position.x - car.position.x) / contactDist m ball car,
   (ball.position.y - car.position.y) / contactDist m ball car,
   (ball.position.z - car.position.z) / contactDist m ball car⟩

/-- The sum of products written out in lines 793-794. -/
def dot (a b : Vec3) : ℚ := a.x * b.x + a.y * b.y + a.z * b.z

/-- Lines 793-795: `rel`, the velocity of the ball relative to the car along the normal. -/
def contactRel (m : MathOps) (ball : BallState) (car : CarState) : ℚ :=
  dot ball.velocity (contactNormal m ball car) - dot car.velocity (contactNormal m ball car)

/-- A ball at rest at `(-1948, 0, 95)`: 100 along +X from the centre of the parked
kickoff car, level with it. -/
def levelBall : BallState :=
  { position := ⟨-1948, 0, 95⟩, velocity := ⟨0, 0, 0⟩, radius := BallRadius }

/-- The kickoff car `p1` reversing at `1000` along -X. -/
def reversingCar : CarState := { kickoffCar with velocity := ⟨-1000, 0, 0⟩ }

/-! ## The locals of `updateBall` (`world.go` lines 717-739) -/

/-- Lines 718-721 of `updateBall`: the position after integration. -/
def integratedBallPosition (ball : BallState) (dt : ℚ) : Vec3 :=
  ⟨ball.position.x + ball.velocity.x * dt, ball.position.y + ball.velocity.y * dt,
   ball.position.z + (ball.velocity.z + Gravity * dt) * dt⟩

/-- Lines 718-730 of `updateBall`: the velocity after gravity and drag, before the
speed cap. -/
def draggedVelocity (ball : BallState) (dt : ℚ) : Vec3 :=
  let drag : ℚ := if (integratedBallPosition ball dt).z ≤ ball.radius + 8 then 0.9975 else 0.9995
  ⟨ball.velocity.x * drag, ball.velocity.y * drag, (ball.velocity.z + Gravity * dt) * 0.9994⟩

/-- Line 732 of `updateBall`: the computed speed. -/
def ballSpeed (m : MathOps) (ball : BallState) (dt : ℚ) : ℚ :=
  m.sqrt ((draggedVelocity ball dt).x * (draggedVelocity ball dt).x
    + (draggedVelocity ball dt).y * (draggedVelocity ball dt).y
    + (draggedVelocity ball dt).z * (draggedVelocity ball dt).z)

/-! ## The locals of the jump section for an airborne car (`world.go` lines 638-666) -/

/-- Line 648 of `updateCar` for an airborne car, on the jump context as it is on entry
(`timeSinceJump` is advanced by `dt` in line 639 before the test): whether the double
jump fires. -/
def doubleJumpFires (inp prev : CarInput) (jc : jumpContext) (dt : ℚ) : Bool :=
  (inp.jump && !prev.jump) && decide (jc.usedJumps = 1)
    && decide (jc.timeSinceJump + dt ≤ DoubleJumpMax)

/-- Lines 640-647 of `updateCar`: the vertical velocity of a car in its jump phase
(`usedJumps > 0`, airborne) after the hold acceleration and the sticky force. -/
def airborneVz (inp : CarInput) (jc : jumpContext) (vz dt : ℚ) : ℚ :=
  let hold := inp.jump && decide (jc.holdTime < JumpHoldMax) && decide (jc.usedJumps = 1)
  let vz := if hold then vz + JumpHoldAccel * dt else vz
  if jc.stickyTime > 0 then vz - StickyForce * dt else vz

/-- Lines 650-659 of `updateCar`: the dodge direction `(dodgeX, dodgeY)` after the
division by `mag`. -/
def dodgeDirection (m : MathOps) (inp : CarInput) (forwardX forwardY : ℚ) : ℚ × ℚ :=
  let rightX := -forwardY
  let rightY := forwardX
  let dodgeX := forwardX * inp.throttle + rightX * inp.steer
  let dodgeY := forwardY * inp.throttle + rightY * inp.steer
  let mag := m.hypot dodgeX dodgeY
  let small := decide (mag < 0.1)
  let dodgeX := if small then forwardX else dodgeX
  let dodgeY := if small then forwardY else dodgeY
  let mag := if small then 1 else mag
  (dodgeX / mag, dodgeY / mag)

/-- Lines 549-562 of `updateCar`: the heading `(forwardX, forwardY)` after steering. -/
def heading (m : MathOps) (car : CarState) (inp : CarInput) (dt : ℚ) : ℚ × ℚ :=
  (m.cos (updateCarYaw m car inp dt * m.pi / 180), m.sin (updateCarYaw m car inp dt * m.pi / 180))

/-- Lines 566-619 of `updateCar`: the planar velocity on entry to the jump section. -/
def planarVelocity (m : MathOps) (car : CarState) (inp : CarInput) (dt : ℚ) : ℚ × ℚ :=
  updateCarPlanar car inp dt (heading m car inp dt).1 (heading m car inp dt).2

/-- The body of the loop over the cars in `Tick` (lines 177-189) for one car: the car
and its jump context after `updateCar` and `clampCarBounds`. -/
def carStep (m : MathOps) (car : CarState) (inp : CarInput) (jc : jumpContext) (dt : ℚ) :
    CarState × jumpContext :=
  let r := updateCar m car inp car.lastInput jc dt
  (clampCarBounds { r.1 with lastInput := inp }, r.2)

/-- The number of double jumps fired by a car that starts a flight airborne, counted up
to and including the step in which it lands. -/
def flightDoubleJumps (m : MathOps) :
    CarState → jumpContext → List (CarInput × ℚ) → Nat
  | _, _, [] => 0
  | car, jc, (inp, dt) :: rest =>
    (if doubleJumpFires inp car.lastInput jc dt then 1 else 0)
      + (if (carStep m car inp jc dt).1.isGrounded then 0
         else flightDoubleJumps m (carStep m car inp jc dt).1 (carStep m car inp jc dt).2 rest)

/-- Third input of `TestJumpAndDoubleJumpWork`: jump pressed with full throttle. -/
def dodgeInput : CarInput :=
  { playerID := "p1", sequence := 0, throttle := 1, steer := 0, boost := false,
    jump := true, handbrake := false, clientMS := 0 }

/-- The world of `TestJumpAndDoubleJumpWork` before its last `ApplyInput`: one frame with
jump pressed, then eight frames with everything released. -/
def jumpTestWorld (c0 : TickClock) (clks : List TickClock) : World :=
  runTicks refOps
    (ApplyInput (runTicks refOps (ApplyInput kickoffWorld jumpInput) (frames [c0])) releaseInput)
    (frames clks)

/-- A car in the air, 40 above the floor and rising at 200, with its last input
released. -/
def airborneCar : CarState :=
  { kickoffCar with position := ⟨-2048, 0, CarRadius + 40⟩, velocity := ⟨0, 0, 200⟩,
                    isGrounded := false, lastInput := releaseInput }

/-- The jump context of a car nine frames after its first jump, the hold spent. -/
def airborneJump : jumpContext :=
  { usedJumps := 1, timeSinceJump := 9 / 120, holdTime := 1 / 120, stickyTime := 0 }

/-! ## The locals of `botInputFor` (`world.go` lines 426-451) -/

/-- Lines 427-430 of `botInputFor`: `dist2D`, the planar distance to the ball. -/
def botDist2D (m : MathOps) (car : CarState) (ball : BallState) : ℚ :=
  m.hypot (ball.position.x - car.position.x) (ball.position.y - car.position.y)

/-- Line 432 of `botInputFor`: `targetYaw`, the bearing to the ball in degrees. -/
def botTargetYaw (m : MathOps) (car : CarState) (ball : BallState) : ℚ :=
  m.atan2 (ball.position.y - car.position.y) (ball.position.x - car.position.x) * 180 / m.pi

/-- Line 433 of `botInputFor`: `delta`, the signed angle from the yaw to the bearing. -/
def botDelta (m : MathOps) (car : CarState) (ball : BallState) : ℚ :=
  normalizeSignedDeg (botTargetYaw m car ball - car.rotation.yaw)

/-- The blue bot that `EnsureBotOpponent` adds to the one-player world. -/
def blueBot : CarState := spawnCar "bot_blue_120000.000000000" "Velocity Bot" "blue" true 0

/-! ## The shots of a run -/

/-- The `shot_on_goal` events in the event list of a world. -/
def shotEvents (w : World) : List GameplayEvent :=
  w.state.events.filter (fun e => decide (e.type = "shot_on_goal"))

/-- The `shot_on_goal` events emitted by a run of `Tick`s, in order: each `Tick` clears
the event list on entry, so these are the shot events of the successive snapshots. -/
def shotLog (m : MathOps) : World → List (ℚ × TickClock) → List GameplayEvent
  | _, [] => []
  | w, c :: rest => shotEvents (Tick m w c.1 c.2) ++ shotLog m (Tick m w c.1 c.2) rest

/-! ## A faster evaluation of the reference square root

`isqrt` bisects from the whole range and takes as many steps as its argument has bits.
`fastIsqrt` computes the same number (`isqrt_eq_fastIsqrt`) by Newton's iteration from a
power of two near the root; the long runs of `Tick` on `refOps` are evaluated through
it. -/

/-- The one-player world with the ball at `(3000, 0, 500)` flying at `1000` along +X,
toward the goal that orange attacks. -/
def shotWorld : World :=
  { kickoffWorld with state := { kickoffWorld.state with
      ball := { kickoffWorld.state.ball with
                  position := ⟨3000, 0, 500⟩, velocity := ⟨1000, 0, 0⟩ } } }

/-- A clock whose shot detector reads one second. -/
def shotClock : TickClock := ⟨0, 1000, 0, 0⟩

/-! ## The steps on `float64`

The lines on which the claims about exact values turn, with every operation rounded to
`float64` in the order in which Go evaluates it (no fused operations, as on amd64).
The untyped constants of `world.go` are converted where they are used. -/

/-- The loop `for d >= 360 { d -= 360 }` on `float64`. -/
def subLoopF64 : Nat → ℚ → Option ℚ
  | 0, _ => none
  | n + 1, d => if d ≥ 360 then subLoopF64 n (f64 (d - 360)) else some d

/-- The loop `for d < 0 { d += 360 }` on `float64`. -/
def addLoopF64 : Nat → ℚ → Option ℚ
  | 0, _ => none
  | n + 1, d => if d < 0 then addLoopF64 n (f64 (d + 360)) else some d

/-- Source `normalizeDeg` on `float64`, both loops bounded by `fuel` iterations. -/
def normalizeDegF64 (fuel : Nat) (d : ℚ) : Option ℚ :=
  (subLoopF64 fuel d).bind (addLoopF64 fuel)

/-- Lines 551-558 of `updateCar` on `float64`: the new yaw in degrees. -/
def updateCarYawF64 (m : MathOps) (fuel : Nat) (car : CarState) (inp : CarInput) (dt : ℚ) :
    Option ℚ :=
  let speed2D := f64 (m.hypot car.velocity.x car.velocity.y)
  let turnScale := f64 (1 - min (f64 (speed2D / MaxBoostSpeed)) (f64 0.75))
  let turnRate := f64 (f64 TurnRate * f64 (f64 0.55 + turnScale))
  let turnRate :=
    if inp.handbrake && car.isGrounded then f64 (turnRate * f64 HandbrakeTurnBoost) else turnRate
  normalizeDegF64 fuel
    (f64 (car.rotation.yaw + f64 (f64 (f64 (f64 (inp.steer * turnRate) * dt) * 180) / f64 m.pi)))

/-- Source `updateBall` on `float64`. -/
def updateBallF64 (ball : BallState) (dt : ℚ) : BallState :=
  let vz := f64 (ball.velocity.z + f64 (Gravity * dt))
  let px := f64 (ball.position.x + f64 (ball.velocity.x * dt))
  let py := f64 (ball.position.y + f64 (ball.velocity.y * dt))
  let pz := f64 (ball.position.z + f64 (vz * dt))
  let drag : ℚ := if pz ≤ f64 (ball.radius + 8) then f64 0.9975 else f64 0.9995
  let vx := f64 (ball.velocity.x * drag)
  let vy := f64 (ball.velocity.y * drag)
  let vz := f64 (vz * f64 0.9994)
  let speed := sqrtF64 (f64 (f64 (f64 (vx * vx) + f64 (vy * vy)) + f64 (vz * vz)))
  if speed > BallMaxSpeed ∧ speed > 0 then
    let scale := f64 (BallMaxSpeed / speed)
    { ball with position := ⟨px, py, pz⟩,
                velocity := ⟨f64 (vx * scale), f64 (vy * scale), f64 (vz * scale)⟩ }
  else
    { ball with position := ⟨px, py, pz⟩, velocity := ⟨vx, vy, vz⟩ }

/-- Source `clampBallBounds` on `float64`. -/
def clampBallBoundsF64 (ball : BallState) : BallState :=
  let halfL := ArenaLength / 2
  let halfW := ArenaWidth / 2
  let ball := if ball.position.z < ball.radius then
      { ball with position := { ball.position with z := ball.radius },
                  velocity := { ball.velocity with
                    z := f64 (-ball.velocity.z * f64 BallRestitution) } }
    else ball
  let ball := if ball.position.z > f64 (ArenaHeight - ball.radius) then
      { ball with position := { ball.position with z := f64 (ArenaHeight - ball.radius) },
                  velocity := { ball.velocity with
                    z := f64 (-ball.velocity.z * f64 BallRestitution) } }
    else ball
  let inGoalY := decide (|ball.position.y| ≤ f64 (GoalWidth / 2))
  let inGoalZ := decide (ball.position.z ≤ f64 GoalHeight)
  let ball := if !inGoalY || !inGoalZ then
      let ball := if ball.position.x < f64 (-halfL + ball.radius) then
          { ball with position := { ball.position with x := f64 (-halfL + ball.radius) },
                      velocity := { ball.velocity with
                        x := f64 (-ball.velocity.x * f64 WallRestitution) } }
        else ball
      let ball := if ball.position.x > f64 (halfL - ball.radius) then
          { ball with position := { ball.position with x := f64 (halfL - ball.radius) },
                      velocity := { ball.velocity with
                        x := f64 (-ball.velocity.x * f64 WallRestitution) } }
        else ball
      ball
    else ball
  let ball := if ball.position.y < f64 (-halfW + ball.radius) then
      { ball with position := { ball.position with y := f64 (-halfW + ball.radius) },
                  velocity := { ball.velocity with
                    y := f64 (-ball.velocity.y * f64 WallRestitution) } }
    else ball
  let ball := if ball.position.y > f64 (halfW - ball.radius) then
      { ball with position := { ball.position with y := f64 (halfW - ball.radius) },
                  velocity := { ball.velocity with
                    y := f64 (-ball.velocity.y * f64 WallRestitution) } }
    else ball
  ball

/-- A ball in the air above the centre spot, faster than `BallMaxSpeed`. -/
def cappedBall : BallState :=
  { position := ⟨0, 0, 1000⟩, velocity := ⟨8431, -2484, -911⟩, radius := BallRadius }

/-- The input of `p1` with the steering `-1e-18` as a `float64`, nothing else pressed. -/
def faintSteer : CarInput :=
  { playerID := "p1", sequence := 1, throttle := 0, steer := f64 (-(1 / 10 ^ 18)), boost := false,
    jump := false, handbrake := false, clientMS := 0 }

/-! ## Snapshot over an explicit heap (`world.go` lines 198-215)

`Snapshot` above is the value the method returns. To speak about sharing, the two
reference-typed fields of `types.MatchState` (the `Cars` map and the `Events` slice) are
addresses into a heap here; every other field is a Go value, copied by assignment. -/

/-- The heap cells a `MatchState` can point to: maps of cars and backing arrays of
event slices. An address is an index into the list. -/
structure Heap where
  maps : List (List (String × CarState))
  slices : List (List GameplayEvent)
deriving DecidableEq

/-- A `types.MatchState` as Go stores it: `cars` and `events` are addresses. -/
structure MatchStateRef where
  matchID : String
  tick : Nat
  createdAt : Int
  cars : Nat
  ball : BallState
  score : ScoreState
  events : Nat
deriving DecidableEq

/-- The contents of the map at address `a` (empty for an address never allocated). -/
def Heap.mapAt (h : Heap) (a : Nat) : List (String × CarState) := (h.maps[a]?).getD []

/-- The contents of the slice at address `a` (empty for an address never allocated). -/
def Heap.sliceAt (h : Heap) (a : Nat) : List GameplayEvent := (h.slices[a]?).getD []

/-- The match state a `MatchStateRef` denotes in a heap. -/
def Heap.read (h : Heap) (st : MatchStateRef) : MatchState :=
  { matchID := st.matchID, tick := st.tick, createdAt := st.createdAt,
    cars := h.mapAt st.cars, ball := st.ball, score := st.score,
    events := h.sliceAt st.events }

/-- Any sequence of writes `m[k] = v` and `delete(m, k)` to the map at address `a`: its
contents become `cars`. -/
def Heap.writeMap (h : Heap) (a : Nat) (cars : List (String × CarState)) : Heap :=
  { h with maps := h.maps.set a cars }

/-- Any sequence of writes `s[i] = e` to the slice at address `a`: its contents become
`events`. -/
def Heap.writeSlice (h : Heap) (a : Nat) (events : List GameplayEvent) : Heap :=
  { h with slices := h.slices.set a events }

/-- The loop `for k, v := range w.state.Cars { copyCars[k] = v }` into the map `acc`. -/
def copyCarsLoop : List (String × CarState) → List (String × CarState) → List (String × CarState)
  | [], acc => acc
  | (k, v) :: rest, acc => copyCarsLoop rest (setKey acc k v)

/-- Source `World.Snapshot` over the heap: `state` is `w.state`; the result is the heap
with the fresh map and slice, and the returned `out`. -/
def SnapshotHeap (h : Heap) (state : MatchStateRef) : Heap × MatchStateRef :=
  let copyCars := copyCarsLoop (h.mapAt state.cars) []
  let events := h.sliceAt state.events
  let h1 : Heap := { maps := h.maps ++ [copyCars], slices := h.slices ++ [events] }
  (h1, { state with cars := h.maps.length, events := h.slices.length })

/-- The world of the tests laid out in a heap: its cars at map address 0, its events at
slice address 0. -/
def kickoffHeap : Heap := { maps := [kickoffWorld.state.cars], slices := [kickoffWorld.state.events] }

/-- The state of `kickoffWorld` with references into `kickoffHeap`. -/
def kickoffRef : MatchStateRef :=
  { matchID := kickoffWorld.state.matchID, tick := kickoffWorld.state.tick,
    createdAt := kickoffWorld.state.createdAt, cars := 0, ball := kickoffWorld.state.ball,
    score := kickoffWorld.state.score, events := 0 }

end Simulation

/-! # Matchmaking queue (`backend/internal/matchmaking/queue.go`)

Tickets are heap objects: the buckets and the ticket index hold pointers (`*Ticket`) to
the same objects, so a status written through one is seen through the other. The heap is
the list `tickets`, a pointer is an index into it. `time.Now()` readings and the decimal
rendering of `UnixNano()` used by `nextID` are explicit arguments. -/

namespace Matchmaking

open Simulation

structure Ticket where
  ticketID : String
  playerID : String
  displayName : String
  mmr : Int
  region : String
  playlist : String
  joinedAt : Int
  status : String
deriving DecidableEq

structure MatchAssignment where
  ticketID : String
  matchID : String
  region : String
  playlist : String
  players : List String
  botFill : Bool
  serverAddr : String
  foundAtUnix : Int
deriving DecidableEq

structure QueueJoinRequest where
  playerID : String
  displayName : String
  region : String
  playlist : String
  mmr : Int
deriving DecidableEq

structure QueueJoinResponse where
  ticketID : String
  status : String
deriving DecidableEq

structure QueuePollResponse where
  ticketID : String
  status : String
  assignment : Option MatchAssignment
deriving DecidableEq

/-- Source `QueueManager` (without the lock). `joinedAt` and the clock are in nanoseconds. -/
structure QueueManager where
  tickets : List Ticket
  buckets : List (String × List Nat)
  ticketIndex : List (String × Nat)
  assignment : List (String × MatchAssignment)
  serverAddr : String
deriving DecidableEq

/-- Go zero value `Ticket{}`. -/
def Ticket.zero : Ticket := ⟨"", "", "", 0, "", "", 0, ""⟩

/-- Pointer dereference `*p` (the zero ticket for an address never allocated). -/
def QueueManager.deref (q : QueueManager) (p : Nat) : Ticket := (q.tickets[p]?).getD Ticket.zero

/-- Map read `q.buckets[key]`, the nil slice when absent. -/
def QueueManager.bucket (q : QueueManager) (key : String) : List Nat :=
  (q.buckets.lookup key).getD []

/-- Source `NewQueueManager`. -/
def NewQueueManager (serverAddr : String) : QueueManager :=
  { tickets := [], buckets := [], ticketIndex := [], assignment := [],
    serverAddr := if serverAddr = "" then "ws://localhost:9003/ws" else serverAddr }

/-- Source `bucketKey`. -/
def bucketKey (region playlist : String) : String :=
  let region := if region = "" then "global" else region
  let playlist := if playlist = "" then "ranked-1v1" else playlist
  region ++ "|" ++ playlist

/-- Source `nextID`: `stamp` is the decimal rendering of the clock's `UnixNano()`. -/
def nextID (pre stamp : String) : String := pre ++ "_" ++ stamp

/-- Source `QueueManager.Join`: `now` is its clock reading, `stamp` the one of `nextID`. -/
def Join (q : QueueManager) (req : QueueJoinRequest) (now : Int) (stamp : String) :
    QueueManager × QueueJoinResponse :=
  let ticket : Ticket :=
    { ticketID := nextID "t" stamp, playerID := req.playerID, displayName := req.displayName,
      mmr := req.mmr, region := req.region, playlist := req.playlist, joinedAt := now,
      status := "searching" }
  let key := bucketKey req.region req.playlist
  let p := q.tickets.length
  ({ q with
      tickets := q.tickets ++ [ticket],
      buckets := setKey q.buckets key (q.bucket key ++ [p]),
      ticketIndex := setKey q.ticketIndex ticket.ticketID p },
    { ticketID := ticket.ticketID, status := ticket.status })

/-- The loop of `Leave` over the bucket: drops the first pointer whose ticket has the id. -/
def removeFirst (q : QueueManager) (ticketID : String) : List Nat → List Nat
  | [] => []
  | p :: rest => if (q.deref p).ticketID = ticketID then rest else p :: removeFirst q ticketID rest

/-- Source `QueueManager.Leave`: the queue after the call and the returned flag. -/
def Leave (q : QueueManager) (ticketID : String) : QueueManager × Bool :=
  match q.ticketIndex.lookup ticketID with
  | none => (q, false)
  | some p =>
    let t := q.deref p
    let key := bucketKey t.region t.playlist
    let bucket := removeFirst q ticketID (q.bucket key)
    ({ q with
        buckets := setKey q.buckets key bucket,
        tickets := q.tickets.set p { t with status := "cancelled" },
        ticketIndex := delKey q.ticketIndex ticketID,
        assignment := delKey q.assignment ticketID }, true)

/-- Source `QueueManager.Poll`: the response (the method only reads the queue). -/
def Poll (q : QueueManager) (ticketID : String) : QueuePollResponse :=
  match q.assignment.lookup ticketID with
  | some a => { ticketID := ticketID, status := "matched", assignment := some a }
  | none =>
    match q.ticketIndex.lookup ticketID with
    | none => { ticketID := ticketID, status := "not_found", assignment := none }
    | some p => { ticketID := ticketID, status := (q.deref p).status, assignment := none }

/-- The join request of `TestQueueSoloBotFill`. -/
def soloRequest : QueueJoinRequest :=
  { playerID := "solo", displayName := "Solo", region := "us-east", playlist := "ranked-1v1",
    mmr := 1200 }

/-! ## The matching pass (`queue.go` lines 148-270)

Durations are `int64` nanoseconds, far from the ends of the range in every use, so the
arithmetic on them is on unbounded integers. Ratings are `int` and come from the client
unchecked, so the one subtraction of two ratings (line 179) is reduced by `wrapInt`. The
`k`-th call of `nextID("m")` within one pass reads the clock as `stamp k`. -/

/-- The value that Go's `int` (64 bits on the targets of this repository) holds for the
integer `x`: the representative of `x` modulo `2^64` in `[-2^63, 2^63)`. -/
def wrapInt (x : Int) : Int :=
  (x + 9223372036854775808) % 18446744073709551616 - 9223372036854775808

/-- Source `abs`: the negation is taken in `int`, so the least `int` is returned as it
is. -/
def abs (v : Int) : Int := if v < 0 then wrapInt (-v) else v

/-- Go `d.Seconds()` for a duration of `d` nanoseconds. -/
def seconds (d : Int) : ℚ := (d : ℚ) / 1000000000

/-- Source `QueueManager.allowedMMRDiff` (the receiver is not used). -/
def allowedMMRDiff (a b : Ticket) (now : Int) : Int :=
  let base : Int := 60
  let wa := seconds (now - a.joinedAt)
  let wb := seconds (now - b.joinedAt)
  let wait := max wa wb
  let bonus := truncToInt (wait * 12)
  let bonus := if bonus > 650 then 650 else bonus
  base + bonus

/-- Source `splitKey`: the key is cut at its first `|`. -/
def splitKey (key : String) : String × String :=
  let cs := key.toList
  if '|' ∈ cs then
    (String.mk (cs.takeWhile (fun c => c ≠ '|')),
      String.mk ((cs.dropWhile (fun c => c ≠ '|')).drop 1))
  else ("global", "ranked-1v1")

/-- Go `math.MaxInt32`. -/
def MaxInt32 : Int := 2147483647

/-- Pointer write `t.Status = s`. -/
def setStatus (q : QueueManager) (p : Nat) (s : String) : QueueManager :=
  { q with tickets := q.tickets.set p { q.deref p with status := s } }

/-- Insertion of the pointer `p` into a list sorted by `JoinedAt`, behind the pointers
whose tickets joined strictly before. -/
def insertByJoin (q : QueueManager) (p : Nat) : List Nat → List Nat
  | [] => [p]
  | r :: rest =>
    if (q.deref r).joinedAt < (q.deref p).joinedAt then r :: insertByJoin q p rest
    else p :: r :: rest

/-- The slice after `sort.SliceStable` by `JoinedAt.Before` (lines 155-157): the sorted
arrangement that keeps tickets with equal `JoinedAt` in their previous order. -/
def sortByJoin (q : QueueManager) (bucket : List Nat) : List Nat :=
  bucket.foldr (insertByJoin q) []

/-- What the loops of `process` thread: the queue, the `used` set of the current bucket
and the number of `nextID` calls made so far in the pass. -/
structure PassState where
  q : QueueManager
  used : List Nat
  minted : Nat
deriving DecidableEq

/-- The inner loop of the pairing step (lines 171-184) from index `j` on, over the rest
of the slice: `best` is `none` for the source's `-1`. -/
def findBest (q : QueueManager) (used : List Nat) (a : Ticket) (now : Int) :
    List Nat → Nat → Option Nat → Int → Option Nat
  | [], _, best, _ => best
  | p :: rest, j, best, bestDiff =>
    if j ∈ used then findBest q used a now rest (j + 1) best bestDiff
    else
      let b := q.deref p
      if b.status ≠ "searching" then findBest q used a now rest (j + 1) best bestDiff
      else
        let diff := abs (wrapInt (a.mmr - b.mmr))
        let threshold := allowedMMRDiff a b now
        if diff ≤ threshold ∧ diff < bestDiff then
          findBest q used a now rest (j + 1) (some j) diff
        else findBest q used a now rest (j + 1) best bestDiff

/-- The body of the outer loop of the pairing step (lines 161-213) for index `i`. -/
def pairAt (key : String) (bucket : List Nat) (now : Int) (stamp : Nat → String)
    (st : PassState) (i : Nat) : PassState :=
  if i ∈ st.used then st
  else
    let pa := bucket.getD i 0
    let a := st.q.deref pa
    if a.status ≠ "searching" then st
    else
      match findBest st.q st.used a now (bucket.drop (i + 1)) (i + 1) none MaxInt32 with
      | none => st
      | some best =>
        let pb := bucket.getD best 0
        let b := st.q.deref pb
        let rp := splitKey key
        let assignment : MatchAssignment :=
          { ticketID := a.ticketID, matchID := nextID "m" (stamp st.minted), region := rp.1,
            playlist := rp.2, players := [a.playerID, b.playerID], botFill := false,
            serverAddr := st.q.serverAddr, foundAtUnix := now / 1000000000 }
        let assignment2 : MatchAssignment := { assignment with ticketID := b.ticketID }
        let q := setStatus (setStatus st.q pa "matched") pb "matched"
        { q := { q with assignment :=
                  setKey (setKey q.assignment a.ticketID assignment) b.ticketID assignment2 },
          used := best :: i :: st.used, minted := st.minted + 1 }

/-- The pairing step (lines 160-214): the outer loop over `i < len(bucket) - 1`. -/
def pairLoop (key : String) (bucket : List Nat) (now : Int) (stamp : Nat → String)
    (st : PassState) : PassState :=
  (List.range (bucket.length - 1)).foldl (pairAt key bucket now stamp) st

/-- The bot-fill sweep (lines 217-238) from index `i` on, over the rest of the slice;
`remaining` is the slice built so far. -/
def fillLoop (key : String) (now : Int) (stamp : Nat → String) :
    List Nat → Nat → PassState → List Nat → PassState × List Nat
  | [], _, st, remaining => (st, remaining)
  | p :: rest, i, st, remaining =>
    let t := st.q.deref p
    if i ∈ st.used ∨ t.status ≠ "searching" then fillLoop key now stamp rest (i + 1) st remaining
    else if now - t.joinedAt ≥ 4000000000 then
      let rp := splitKey key
      let q := setStatus st.q p "matched"
      let a : MatchAssignment :=
        { ticketID := t.ticketID, matchID := nextID "m" (stamp st.minted), region := rp.1,
          playlist := rp.2, players := [t.playerID, "bot"], botFill := true,
          serverAddr := st.q.serverAddr, foundAtUnix := now / 1000000000 }
      fillLoop key now stamp rest (i + 1)
        { st with q := { q with assignment := setKey q.assignment t.ticketID a },
                  minted := st.minted + 1 } remaining
    else fillLoop key now stamp rest (i + 1) st (remaining ++ [p])

/-- The body of the loop of `process` over the buckets (lines 154-240) for `key`. -/
def processBucket (playersPerMatch : Int) (now : Int) (stamp : Nat → String)
    (st : PassState) (key : String) : PassState :=
  let bucket := sortByJoin st.q (st.q.bucket key)
  let st := { st with used := [] }
  let st := if (bucket.length : Int) ≥ playersPerMatch then pairLoop key bucket now stamp st
    else st
  let out := fillLoop key now stamp bucket 0 st []
  { out.1 with q := { out.1.q with buckets := setKey out.1.q.buckets key out.2 } }

/-- Source `QueueManager.process`: `now` is its clock reading; the buckets are visited in
the order of the list. -/
def process (q : QueueManager) (playersPerMatch : Int) (now : Int) (stamp : Nat → String) :
    QueueManager :=
  ((q.buckets.map Prod.fst).foldl (processBucket playersPerMatch now stamp)
    { q := q, used := [], minted := 0 }).q

/-- Lines 40-54 of `cmd/matchmaker/main.go`, the handler of `/v1/queue/join` once the
body is decoded: `none` is the answer `400 player_id_required`. -/
def handleJoin (q : QueueManager) (req : QueueJoinRequest) (now : Int) (stamp : String) :
    Option (QueueManager × QueueJoinResponse) :=
  if req.playerID = "" then none
  else
    let req := if req.region = "" then { req with region := "us-east" } else req
    let req := if req.playlist = "" then { req with playlist := "ranked-1v1" } else req
    let req := if req.mmr ≤ 0 then { req with mmr := 1000 } else req
    some (Join q req now stamp)

/-- Pointer write `t.JoinedAt = joined` of the tests (`queue_test.go` lines 40-45, 64-66):
the ticket indexed under `ticketID`, if any, gets the join time `joined`. -/
def backdate (q : QueueManager) (ticketID : String) (joined : Int) : QueueManager :=
  match q.ticketIndex.lookup ticketID with
  | none => q
  | some p => { q with tickets := q.tickets.set p { q.deref p with joinedAt := joined } }

/-- Clock readings of the test runs: the `k`-th match id of a pass is minted at
`1000000000000 + k` nanoseconds. -/
def testStamp (k : Nat) : String := toString (1000000000000 + k)

/-- The queue of `TestQueueMatchesSimilarMMR` after its two `Join` calls, made at the
clock readings 1 s and 1 s + 1 µs. -/
def similarQueue : QueueManager :=
  let q := NewQueueManager "ws://localhost:9003/ws"
  let q := (Join q ⟨"p1", "A", "us-east", "ranked-1v1", 1200⟩ 1000000000 "1000000000").1
  (Join q ⟨"p2", "B", "us-east", "ranked-1v1", 1240⟩ 1000001000 "1000001000").1

/-- The queue of `TestQueueWaitExpandsMMRWindow` at the clock reading 200 s: MMR 900 and
1500, both tickets back-dated by two minutes. -/
def expandedQueue : QueueManager :=
  let q := NewQueueManager "ws://localhost:9003/ws"
  let q := (Join q ⟨"p1", "A", "us-east", "ranked-1v1", 900⟩ 200000000000 "200000000000").1
  let q := (Join q ⟨"p2", "B", "us-east", "ranked-1v1", 1500⟩ 200000001000 "200000001000").1
  let q := backdate q "t_200000000000" (200000002000 - 120000000000)
  backdate q "t_200000001000" (200000003000 - 120000000000)

/-- The queue of `TestQueueSoloBotFill` at the clock reading 200 s: one ticket, back-dated
by ten seconds. -/
def soloQueue : QueueManager :=
  let q := NewQueueManager "ws://localhost:9003/ws"
  let q := (Join q soloRequest 200000000000 "200000000000").1
  backdate q "t_200000000000" (200000001000 - 10000000000)

/-! ## The shape of a queue

Go maps have one entry per key and pointers always point at an allocated ticket. The
ticket ids are minted from the clock and taken to be distinct. `WF` is the shape that
`Join` (with a new id), `Leave` and `process` then maintain: a ticket waiting in a bucket
is the one indexed under its id and sits, once, in the bucket of its own region and
playlist; an indexed ticket is either searching, waiting in a bucket and without
assignment, or matched, in no bucket and with an assignment; assignments exist for
indexed ids only. -/

/-- The pointers held in the buckets, bucket after bucket. -/
def QueueManager.held (q : QueueManager) : List Nat := (q.buckets.map Prod.snd).flatten

/-- The shape that `Join`, `Leave` and `process` maintain. -/
structure WF (q : QueueManager) : Prop where
  keys : (q.buckets.map Prod.fst).Nodup
  held_nodup : q.held.Nodup
  held_key : ∀ e ∈ q.buckets, ∀ p ∈ e.2,
    e.1 = bucketKey (q.deref p).region (q.deref p).playlist
  held_indexed : ∀ p ∈ q.held, q.ticketIndex.lookup (q.deref p).ticketID = some p
  index_valid : ∀ (id : String) (p : Nat), q.ticketIndex.lookup id = some p →
    p < q.tickets.length ∧ (q.deref p).ticketID = id
  index_status : ∀ (id : String) (p : Nat), q.ticketIndex.lookup id = some p →
    ((q.deref p).status = "searching" ∧ p ∈ q.held ∧ q.assignment.lookup id = none)
      ∨ ((q.deref p).status = "matched" ∧ p ∉ q.held ∧ ∃ a, q.assignment.lookup id = some a)
  assigned_indexed : ∀ (id : String) (a : MatchAssignment), q.assignment.lookup id = some a →
    ∃ p, q.ticketIndex.lookup id = some p

/-! ## The log of a pass

What a pass has done is told by the list of its `nextID("m")` calls, in order: each is
either the pairing of two tickets of one bucket or the bot fill of one ticket. -/

/-- One call of `nextID("m")` in a pass: for the pair of the tickets `pa` and `pb` of the
bucket `key` (lines 186-212), or for the bot fill of the ticket `p` (lines 222-234). -/
inductive Mint where
  | pair (key : String) (pa pb : Nat)
  | fill (key : String) (p : Nat)
deriving DecidableEq

/-- The tickets that a mint marks as matched. -/
def Mint.ptrs : Mint → List Nat
  | Mint.pair _ pa pb => [pa, pb]
  | Mint.fill _ p => [p]

/-- The tickets marked by the mints of a log. -/
def logPtrs (log : List Mint) : List Nat := (log.map Mint.ptrs).flatten

/-- The assignment that the `n`-th mint of a pass stores under the ticket id `id`
(lines 196-205 and 224-233); `q` is the queue at the start of the pass. -/
def Mint.assignment (q : QueueManager) (now : Int) (stamp : Nat → String) (n : Nat)
    (id : String) : Mint → MatchAssignment
  | Mint.pair key pa pb =>
    { ticketID := id, matchID := nextID "m" (stamp n), region := (splitKey key).1,
      playlist := (splitKey key).2, players := [(q.deref pa).playerID, (q.deref pb).playerID],
      botFill := false, serverAddr := q.serverAddr, foundAtUnix := now / 1000000000 }
  | Mint.fill key p =>
    { ticketID := id, matchID := nextID "m" (stamp n), region := (splitKey key).1,
      playlist := (splitKey key).2, players := [(q.deref p).playerID, "bot"],
      botFill := true, serverAddr := q.serverAddr, foundAtUnix := now / 1000000000 }

/-- The queue `q2` with `minted` ids minted is what the mints of `log` make of the queue
`q`: the marked tickets are `matched` and otherwise as they were, the assignments of the
mints are stored under the ids of their tickets, and nothing else differs but the
buckets. -/
structure Explains (q : QueueManager) (now : Int) (stamp : Nat → String) (log : List Mint)
    (q2 : QueueManager) (minted : Nat) : Prop where
  minted_eq : minted = log.length
  length_eq : q2.tickets.length = q.tickets.length
  index_eq : q2.ticketIndex = q.ticketIndex
  addr_eq : q2.serverAddr = q.serverAddr
  keys_eq : q2.buckets.map Prod.fst = q.buckets.map Prod.fst
  heap : ∀ r : Nat, q2.deref r
    = if r ∈ logPtrs log then { q.deref r with status := "matched" } else q.deref r
  asg_old : ∀ id : String, (∀ r ∈ logPtrs log, (q.deref r).ticketID ≠ id) →
    q2.assignment.lookup id = q.assignment.lookup id
  asg_new : ∀ (n : Nat) (e : Mint), log[n]? = some e → ∀ r ∈ e.ptrs,
    q2.assignment.lookup (q.deref r).ticketID
      = some (e.assignment q now stamp n (q.deref r).ticketID)

/-- What licenses a mint, read on the queue `q` at the start of the pass: a pair is made
of two tickets of one bucket, the first not later in the queue order than the second,
with ratings within the allowed difference; a bot fill is for a ticket that has waited
four seconds. -/
def Mint.lawful (q : QueueManager) (now : Int) : Mint → Prop
  | Mint.pair key pa pb =>
    pa ∈ q.bucket key ∧ pb ∈ q.bucket key
      ∧ (q.deref pa).joinedAt ≤ (q.deref pb).joinedAt
      ∧ abs (wrapInt ((q.deref pa).mmr - (q.deref pb).mmr)) ≤ allowedMMRDiff (q.deref pa) (q.deref pb) now
  | Mint.fill key p => p ∈ q.bucket key ∧ now - (q.deref p).joinedAt ≥ 4000000000

/-- A log whose mints are lawful and mark each ticket at most once. -/
structure Sound (q : QueueManager) (now : Int) (log : List Mint) : Prop where
  nodup : (logPtrs log).Nodup
  lawful : ∀ e ∈ log, e.lawful q now

/-- A list of pointers in queue order: join times ascending. -/
def ByJoin (q : QueueManager) (l : List Nat) : Prop :=
  l.Pairwise (fun a b => (q.deref a).joinedAt ≤ (q.deref b).joinedAt)

/-- What holds while the pairing step runs over the sorted bucket `bs` of `key`: the
state is explained by a sound log of mints on tickets of the queue, and an index is
`used` exactly when its ticket is marked; `b0` is the bucket map, left alone. -/
structure PairInv (q : QueueManager) (now : Int) (stamp : Nat → String) (bs : List Nat)
    (b0 : List (String × List Nat)) (st : PassState) (log : List Mint) : Prop where
  ex : Explains q now stamp log st.q st.minted
  sound : Sound q now log
  buckets : st.q.buckets = b0
  used_in : ∀ k ∈ st.used, k < bs.length ∧ bs.getD k 0 ∈ logPtrs log
  unused_out : ∀ k : Nat, k < bs.length → k ∉ st.used → bs.getD k 0 ∉ logPtrs log
  in_held : ∀ r ∈ logPtrs log, r ∈ q.held

/-- What holds while the bot-fill sweep runs over the sorted bucket `bs`, before index
`i`: as `PairInv`, the unmarked tickets from `i` on being the unused ones, `remaining`
being the unmarked tickets before `i`, each of which has waited less than four seconds. -/
structure FillInv (q : QueueManager) (now : Int) (stamp : Nat → String) (bs : List Nat)
    (b0 : List (String × List Nat)) (st : PassState) (log : List Mint) (i : Nat)
    (remaining : List Nat) : Prop where
  ex : Explains q now stamp log st.q st.minted
  sound : Sound q now log
  buckets : st.q.buckets = b0
  used_in : ∀ k ∈ st.used, k < bs.length ∧ bs.getD k 0 ∈ logPtrs log
  unused_out : ∀ k : Nat, i ≤ k → k < bs.length → k ∉ st.used → bs.getD k 0 ∉ logPtrs log
  in_held : ∀ r ∈ logPtrs log, r ∈ q.held
  rem : remaining = (bs.take i).filter (fun p => decide (p ∉ logPtrs log))
  waited : ∀ p ∈ bs.take i, p ∈ logPtrs log ∨ now - (q.deref p).joinedAt < 4000000000

/-- The bucket a mint belongs to. -/
def Mint.key : Mint → String
  | Mint.pair key _ _ => key
  | Mint.fill key _ => key

/-- What holds between the buckets of a pass, `done` being the keys already visited: the
state is explained by a sound log of mints of the visited buckets; a visited bucket holds
its unmarked tickets in queue order, each having waited less than four seconds; the
other buckets are untouched; a visited bucket of two tickets within the allowed
difference has been paired when `playersPerMatch` is at most 2. -/
structure PassInv (q : QueueManager) (now : Int) (stamp : Nat → String) (playersPerMatch : Int)
    (done : List String) (st : PassState) (log : List Mint) : Prop where
  ex : Explains q now stamp log st.q st.minted
  sound : Sound q now log
  in_done : ∀ e ∈ log, e.key ∈ done
  done_bucket : ∀ k ∈ done,
    st.q.bucket k = (sortByJoin q (q.bucket k)).filter (fun p => decide (p ∉ logPtrs log))
  todo_bucket : ∀ k : String, k ∉ done → st.q.bucket k = q.bucket k
  waited : ∀ k ∈ done, ∀ p ∈ q.bucket k,
    p ∈ logPtrs log ∨ now - (q.deref p).joinedAt < 4000000000
  two : ∀ k ∈ done, ∀ pa pb : Nat, sortByJoin q (q.bucket k) = [pa, pb] → playersPerMatch ≤ 2 →
    abs (wrapInt ((q.deref pa).mmr - (q.deref pb).mmr)) ≤ allowedMMRDiff (q.deref pa) (q.deref pb) now →
    Mint.pair k pa pb ∈ log

/-! ## Candidates of the pairing step -/

/-- One call on the queue: `Join` with its clock reading and id stamp, `Leave`, or one
pass of `process` with its clock reading and the stamps of its `nextID` calls. -/
inductive Op
  | join (req : QueueJoinRequest) (now : Int) (stamp : String)
  | leave (ticketID : String)
  | pass (playersPerMatch : Int) (now : Int) (stamp : Nat → String)

/-- The queue after one call. -/
def Op.apply (q : QueueManager) : Op → QueueManager
  | Op.join req now stamp => (Join q req now stamp).1
  | Op.leave ticketID => (Leave q ticketID).1
  | Op.pass playersPerMatch now stamp => process q playersPerMatch now stamp

/-- The queue after a sequence of calls, in order. -/
def runOps (q : QueueManager) (ops : List Op) : QueueManager := ops.foldl Op.apply q

/-- Every `Join` of the sequence mints a ticket id that was not minted before; `used` are
the ids minted so far. -/
def FreshIDs : List String → List Op → Prop
  | _, [] => True
  | used, Op.join _ _ stamp :: rest =>
    nextID "t" stamp ∉ used ∧ FreshIDs (nextID "t" stamp :: used) rest
  | used, Op.leave _ :: rest => FreshIDs used rest
  | used, Op.pass _ _ _ :: rest => FreshIDs used rest

/-- Two players join, a pass pairs them, the first one leaves, a third player joins. -/
def sessionOps : List Op :=
  [Op.join ⟨"p1", "A", "us-east", "ranked-1v1", 1200⟩ 1000000000 "1000000000",
   Op.join ⟨"p2", "B", "us-east", "ranked-1v1", 1240⟩ 1000001000 "1000001000",
   Op.pass 2 1000001000 testStamp,
   Op.leave "t_1000000000",
   Op.join ⟨"p3", "C", "us-east", "ranked-1v1", 1300⟩ 1000002000 "1000002000"]

end Matchmaking

namespace Simulation

/-! ## Frame lemmas for the steps of `Tick` -/

theorem detectShotOnGoal_tick (w : World) (now : Int) :
    (detectShotOnGoal w now).state.tick = w.state.tick := by
  unfold detectShotOnGoal
  simp only []
  split_ifs <;> rfl

theorem detectShotOnGoal_score (w : World) (now : Int) :
    (detectShotOnGoal w now).state.score = w.state.score := by
  unfold detectShotOnGoal
  simp only []
  split_ifs <;> rfl

theorem detectShotOnGoal_cars (w : World) (now : Int) :
    (detectShotOnGoal w now).state.cars = w.state.cars := by
  unfold detectShotOnGoal
  simp only []
  split_ifs <;> rfl

theorem detectShotOnGoal_ball (w : World) (now : Int) :
    (detectShotOnGoal w now).state.ball = w.state.ball := by
  unfold detectShotOnGoal
  simp only []
  split_ifs <;> rfl

theorem detectGoal_tick (w : World) (now nowKick : Int) :
    (detectGoalAndResetIfNeeded w now nowKick).state.tick = w.state.tick := by
  unfold detectGoalAndResetIfNeeded resetKickoff
  simp only []
  split_ifs <;> rfl

theorem tickBeforeGoal_tick (m : MathOps) (w : World) (dt : ℚ) (clk : TickClock) :
    (tickBeforeGoal m w dt clk).state.tick = w.state.tick + 1 := by
  unfold tickBeforeGoal
  simp only [detectShotOnGoal_tick]
  rfl

theorem Tick_tick (m : MathOps) (w : World) (dt : ℚ) (clk : TickClock) :
    (Tick m w dt clk).state.tick = w.state.tick + 1 := by
  unfold Tick
  rw [detectGoal_tick, tickBeforeGoal_tick]

theorem runTicks_tick (m : MathOps) (cs : List (ℚ × TickClock)) :
    ∀ w : World, (runTicks m w cs).state.tick = w.state.tick + cs.length := by
  induction cs with
  | nil => intro w; simp [runTicks]
  | cons c rest ih =>
    intro w
    simp only [runTicks, List.length_cons]
    rw [ih, Tick_tick]
    omega

theorem detectGoal_orange (w : World) (now nowKick : Int)
    (hy : |w.state.ball.position.y| ≤ GoalWidth / 2) (hz : w.state.ball.position.z ≤ GoalHeight)
    (hx : w.state.ball.position.x ≥ ArenaLength / 2) :
    detectGoalAndResetIfNeeded w now nowKick =
      resetKickoff
        { w with state := { w.state with
            score := { w.state.score with orange := w.state.score.orange + 1 },
            events := w.state.events ++ [⟨"goal", "", "orange", now⟩] } }
        "orange" nowKick := by
  unfold detectGoalAndResetIfNeeded
  simp [hy, hz, hx]

theorem detectGoal_blue (w : World) (now nowKick : Int)
    (hy : |w.state.ball.position.y| ≤ GoalWidth / 2) (hz : w.state.ball.position.z ≤ GoalHeight)
    (hx : w.state.ball.position.x ≤ -ArenaLength / 2) :
    detectGoalAndResetIfNeeded w now nowKick =
      resetKickoff
        { w with state := { w.state with
            score := { w.state.score with blue := w.state.score.blue + 1 },
            events := w.state.events ++ [⟨"goal", "", "blue", now⟩] } }
        "blue" nowKick := by
  have hneg : ¬ w.state.ball.position.x ≥ ArenaLength / 2 := by
    unfold ArenaLength at *
    intro h
    linarith
  unfold detectGoalAndResetIfNeeded
  simp only [hy, hz, hx, hneg]
  simp

theorem detectGoal_none (w : World) (now nowKick : Int)
    (h : ¬ (|w.state.ball.position.y| ≤ GoalWidth / 2 ∧ w.state.ball.position.z ≤ GoalHeight
      ∧ |w.state.ball.position.x| ≥ ArenaLength / 2)) :
    detectGoalAndResetIfNeeded w now nowKick = w := by
  unfold detectGoalAndResetIfNeeded
  by_cases hy : |w.state.ball.position.y| ≤ GoalWidth / 2
  · by_cases hz : w.state.ball.position.z ≤ GoalHeight
    · have hx : ¬ |w.state.ball.position.x| ≥ ArenaLength / 2 := fun hx => h ⟨hy, hz, hx⟩
      have h1 : ¬ w.state.ball.position.x ≥ ArenaLength / 2 :=
        fun h1 => hx (le_trans h1 (le_abs_self _))
      have h2 : ¬ w.state.ball.position.x ≤ -ArenaLength / 2 := by
        intro h2
        apply hx
        have : ArenaLength / 2 ≤ -w.state.ball.position.x := by linarith
        exact le_trans this (neg_le_abs _)
      simp [hy, hz, h1, h2]
    · simp [hz]
  · simp [hy]

theorem resetKickoff_score (w : World) (t : String) (now : Int) :
    (resetKickoff w t now).state.score = w.state.score := rfl

theorem resetKickoff_events (w : World) (t : String) (now : Int) :
    (resetKickoff w t now).state.events = w.state.events ++ [⟨"kickoff", "", t, now⟩] := rfl

theorem detectGoal_timer (w : World) (now nowKick : Int) :
    (detectGoalAndResetIfNeeded w now nowKick).state.score.timeRemainingMS
      = w.state.score.timeRemainingMS := by
  unfold detectGoalAndResetIfNeeded resetKickoff
  simp only []
  split_ifs <;> rfl

theorem tickBeforeGoal_score (m : MathOps) (w : World) (dt : ℚ) (clk : TickClock) :
    (tickBeforeGoal m w dt clk).state.score = tickTimer w.state.score dt := by
  unfold tickBeforeGoal
  simp only [detectShotOnGoal_score]
  rfl

theorem tickTimer_orange (s : ScoreState) (dt : ℚ) : (tickTimer s dt).orange = s.orange := by
  unfold tickTimer
  split_ifs <;> rfl

theorem tickTimer_blue (s : ScoreState) (dt : ℚ) : (tickTimer s dt).blue = s.blue := by
  unfold tickTimer
  split_ifs <;> rfl

theorem truncToInt_nonpos (x : ℚ) (h : x ≤ 0) : truncToInt x ≤ 0 := by
  unfold truncToInt
  split_ifs with h0
  · have hx : x = 0 := le_antisymm h h0
    subst hx
    rfl
  · have h1 : (0 : ℤ) ≤ (-x).floor := Rat.le_floor.mpr (by simpa using h)
    omega

theorem pow2_pos (e : Int) : 0 < pow2 e := by
  unfold pow2
  split_ifs <;> positivity

theorem roundEven_nonpos (x : ℚ) (h : x ≤ 0) : roundEven x ≤ 0 := by
  have hf : ⌊x⌋ ≤ 0 := by
    have : ⌊x⌋ ≤ ⌊(0 : ℚ)⌋ := Int.floor_mono h
    simpa using this
  unfold roundEven
  simp only []
  by_cases hr : x - (⌊x⌋ : ℚ) < 1 / 2
  · rw [if_pos hr]
    exact hf
  · have hlt : ⌊x⌋ < 0 := by
      rcases lt_or_eq_of_le hf with h1 | h1
      · exact h1
      · exfalso
        have := Int.floor_le x
        rw [h1] at hr this
        have hx : x = 0 := le_antisymm h (by simpa using this)
        rw [hx] at hr
        norm_num at hr
    rw [if_neg hr]
    split_ifs <;> omega

theorem f64_nonpos (x : ℚ) (h : x ≤ 0) : f64 x ≤ 0 := by
  unfold f64
  split_ifs with h0
  · exact le_refl 0
  · simp only []
    exact mul_nonpos_of_nonpos_of_nonneg
      (Int.cast_nonpos.mpr (roundEven_nonpos _
        (div_nonpos_of_nonpos_of_nonneg h (le_of_lt (pow2_pos _)))))
      (le_of_lt (pow2_pos _))

theorem intOfF64_nonpos (x : ℚ) (h : x ≤ 0) : intOfF64 x ≤ 0 := by
  unfold intOfF64
  simp only []
  split_ifs
  · exact truncToInt_nonpos x h
  · decide

theorem tickTimer_nonpos_dt (s : ScoreState) (dt : ℚ) (h : dt ≤ 0) :
    (tickTimer s dt).timeRemainingMS
      = if s.timeRemainingMS > 0 then s.timeRemainingMS - 1 else s.timeRemainingMS := by
  have h1 : intOfF64 (f64 (dt * 1000)) < 1 := by
    have : dt * 1000 ≤ 0 := by linarith
    have := intOfF64_nonpos _ (f64_nonpos _ this)
    omega
  unfold tickTimer
  split_ifs with hpos
  · simp only [h1, if_true]
    have : ¬ s.timeRemainingMS - 1 < 0 := by omega
    simp [this]
  · rfl

theorem tickBeforeGoal_drops_events (m : MathOps) (w : World) (dt : ℚ) (clk : TickClock) :
    tickBeforeGoal m { w with state := { w.state with events := [] } } dt clk
      = tickBeforeGoal m w dt clk := rfl

theorem tickBeforeGoal_ball (m : MathOps) (w : World) (dt : ℚ) (clk : TickClock) :
    (tickBeforeGoal m w dt clk).state.ball
      = (resolveCars m
          (tickCars m (botInputs m w.state.ball (w.state.tick + 1) clk.botMS w.state.cars w.input)
            dt w.state.cars w.jump).1
          (clampBallBounds (updateBall m w.state.ball dt))).2 := by
  unfold tickBeforeGoal
  simp only [detectShotOnGoal_ball]
  rfl

theorem tickBeforeGoal_cars (m : MathOps) (w : World) (dt : ℚ) (clk : TickClock) :
    (tickBeforeGoal m w dt clk).state.cars
      = (resolveCars m
          (tickCars m (botInputs m w.state.ball (w.state.tick + 1) clk.botMS w.state.cars w.input)
            dt w.state.cars w.jump).1
          (clampBallBounds (updateBall m w.state.ball dt))).1 := by
  unfold tickBeforeGoal
  simp only [detectShotOnGoal_cars]
  rfl

/-! ## Map helper lemmas -/

theorem lookup_cons_ite {α : Type} (t k : String) (v : α) (es : List (String × α)) :
    List.lookup t ((k, v) :: es) = if t = k then some v else List.lookup t es := by
  by_cases h : t = k
  · subst h
    simp [List.lookup]
  · have hb : (t == k) = false := by simpa using h
    simp [List.lookup, hb, h]

theorem getSlot_setKey (slots : List (String × Nat)) (k t : String) (v : Nat) :
    getSlot (setKey slots k v) t = if t = k then v else getSlot slots t := by
  induction slots with
  | nil =>
    unfold getSlot
    simp only [setKey, lookup_cons_ite]
    split_ifs <;> simp
  | cons e rest ih =>
    obtain ⟨k1, v1⟩ := e
    unfold getSlot at ih ⊢
    unfold setKey
    split_ifs with h1 h2 h2
    · simp [lookup_cons_ite, h2]
    · have h3 : ¬ t = k1 := by rw [h1]; exact h2
      simp [lookup_cons_ite, h2, h3]
    · have h3 : ¬ t = k1 := by rw [h2]; exact fun hh => h1 hh.symm
      simp only [lookup_cons_ite, h3, if_false]
      rw [ih]
      simp [h2]
    · simp only [lookup_cons_ite]
      split_ifs with h3
      · rfl
      · rw [ih]
        simp [h2]

theorem mem_setKey {α : Type} (l : List (String × α)) (k : String) (v : α) (e : String × α)
    (h : e ∈ setKey l k v) : e ∈ l ∨ e = (k, v) := by
  induction l with
  | nil =>
    simp [setKey] at h
    exact Or.inr h
  | cons e1 rest ih =>
    obtain ⟨k1, v1⟩ := e1
    unfold setKey at h
    split_ifs at h with h1
    · rcases List.mem_cons.mp h with h2 | h2
      · exact Or.inr h2
      · exact Or.inl (List.mem_cons_of_mem _ h2)
    · rcases List.mem_cons.mp h with h2 | h2
      · exact Or.inl (h2 ▸ List.mem_cons_self _ _)
      · rcases ih h2 with h3 | h3
        · exact Or.inl (List.mem_cons_of_mem _ h3)
        · exact Or.inr h3

theorem lookup_setKey_self {α : Type} (l : List (String × α)) (k : String) (v : α) :
    (setKey l k v).lookup k = some v := by
  induction l with
  | nil => simp [setKey, lookup_cons_ite]
  | cons e1 rest ih =>
    obtain ⟨k1, v1⟩ := e1
    unfold setKey
    split_ifs with h1
    · simp [lookup_cons_ite]
    · have h2 : ¬ k = k1 := fun hh => h1 hh.symm
      simp [lookup_cons_ite, h2, ih]

/-! ## Kickoff reset -/

theorem resetCars_getElem (cs : List (String × CarState)) :
    ∀ (slots : List (String × Nat)) (i : Nat) (e : String × CarState),
      (resetCars cs slots)[i]? = some e →
        ∃ c, cs[i]? = some (e.1, c) ∧ e.2.team = c.team ∧ e.2.isBot = c.isBot
          ∧ e.2.velocity = Vec3.zero ∧ e.2.boost = 100 ∧ e.2.isGrounded = true
          ∧ e.2.position.z = CarRadius
          ∧ (c.team = "orange" → e.2.position.x = -2048 ∧ e.2.rotation.yaw = 0)
          ∧ (c.team ≠ "orange" → e.2.position.x = 2048 ∧ e.2.rotation.yaw = 180)
          ∧ e.2.position.y = kickoffSlotOffset
              (getSlot slots c.team + ((cs.map (fun x => x.2.team)).take i).count c.team) := by
  induction cs with
  | nil => intro slots i e h; simp [resetCars] at h
  | cons hd rest ih =>
    intro slots i e h
    obtain ⟨id, car⟩ := hd
    cases i with
    | zero =>
      simp only [resetCars, List.getElem?_cons_zero, Option.some.injEq] at h
      subst h
      refine ⟨car, by simp, ?_⟩
      by_cases ht : car.team = "orange"
      · simp [ht]
      · simp [ht]
    | succ j =>
      simp only [resetCars, List.getElem?_cons_succ] at h
      obtain ⟨c, hc, h1, h2, h3, h4, h5, h6, h7, h8, h9⟩ := ih _ j e h
      refine ⟨c, by simpa using hc, h1, h2, h3, h4, h5, h6, h7, h8, ?_⟩
      rw [h9, getSlot_setKey]
      simp only [List.map_cons, List.take_succ_cons, List.count_cons]
      by_cases hct : c.team = car.team
      · simp [hct]
        congr 1
        omega
      · have hct2 : ¬ car.team = c.team := fun hh => hct hh.symm
        simp [hct, hct2]

theorem resetCars_tags (cs : List (String × CarState)) :
    ∀ slots : List (String × Nat),
      (resetCars cs slots).map (fun e => (e.1, e.2.team, e.2.isBot))
        = cs.map (fun e => (e.1, e.2.team, e.2.isBot)) := by
  induction cs with
  | nil => intro slots; rfl
  | cons hd rest ih =>
    intro slots
    obtain ⟨id, car⟩ := hd
    simp only [resetCars, List.map_cons, ih]
    by_cases ht : car.team = "orange"
    · simp [ht]
    · simp [ht]

/-! ## The car loops keep identity, team and bot flag -/

theorem clampCarBounds_frame (car : CarState) :
    (clampCarBounds car).team = car.team ∧ (clampCarBounds car).isBot = car.isBot
      ∧ (clampCarBounds car).boost = car.boost ∧ (clampCarBounds car).rotation = car.rotation
      ∧ (clampCarBounds car).position.z = car.position.z := by
  unfold clampCarBounds
  simp only []
  split_ifs <;> simp

theorem resolveCarBall_frame (m : MathOps) (ball : BallState) (car : CarState) :
    (resolveCarBall m ball car).2.team = car.team
      ∧ (resolveCarBall m ball car).2.isBot = car.isBot
      ∧ (resolveCarBall m ball car).2.boost = car.boost
      ∧ (resolveCarBall m ball car).2.rotation = car.rotation := by
  unfold resolveCarBall
  simp only []
  split_ifs <;> simp

theorem tickCars_tags (m : MathOps) (input : List (String × CarInput)) (dt : ℚ)
    (cars : List (String × CarState)) :
    ∀ jump : List (String × jumpContext),
      (tickCars m input dt cars jump).1.map (fun e => (e.1, e.2.team, e.2.isBot))
        = cars.map (fun e => (e.1, e.2.team, e.2.isBot)) := by
  induction cars with
  | nil => intro jump; rfl
  | cons hd rest ih =>
    intro jump
    obtain ⟨id, car⟩ := hd
    simp only [tickCars, List.map_cons, ih]
    have h := clampCarBounds_frame
      { (updateCar m car (getInput input id) car.lastInput
          ((jump.lookup id).getD jumpContext.zero) dt).1 with lastInput := getInput input id }
    rw [h.1, h.2.1]
    rfl

theorem resolveCars_tags (m : MathOps) (cars : List (String × CarState)) :
    ∀ ball : BallState,
      (resolveCars m cars ball).1.map (fun e => (e.1, e.2.team, e.2.isBot))
        = cars.map (fun e => (e.1, e.2.team, e.2.isBot)) := by
  induction cars with
  | nil => intro ball; rfl
  | cons hd rest ih =>
    intro ball
    obtain ⟨id, car⟩ := hd
    simp only [resolveCars, List.map_cons, ih]
    have h := resolveCarBall_frame m ball car
    rw [h.1, h.2.1]

theorem tickBeforeGoal_tags (m : MathOps) (w : World) (dt : ℚ) (clk : TickClock) :
    (tickBeforeGoal m w dt clk).state.cars.map (fun e => (e.1, e.2.team, e.2.isBot))
      = w.state.cars.map (fun e => (e.1, e.2.team, e.2.isBot)) := by
  rw [tickBeforeGoal_cars, resolveCars_tags, tickCars_tags]

theorem kickoffSlotOffset_inj (a b : Nat) (ha : a < 3) (hb : b < 3)
    (h : kickoffSlotOffset a = kickoffSlotOffset b) : a = b := by
  interval_cases a <;> interval_cases b <;> simp [kickoffSlotOffset] at h ⊢ <;> norm_num at h

theorem count_take_lt (l : List String) (t : String) (i j : Nat) (hij : i < j)
    (hi : l[i]? = some t) (hjt : l[j]? = some t) :
    (l.take i).count t < (l.take j).count t ∧ (l.take j).count t < l.count t := by
  have key : ∀ k, l[k]? = some t → (l.take (k + 1)).count t = (l.take k).count t + 1 := by
    intro k hk
    rw [List.take_succ, hk]
    simp
  have mono : ∀ a b, a ≤ b → (l.take a).count t ≤ (l.take b).count t := by
    intro a b hab
    apply List.Sublist.count_le
    exact (List.take_sublist_take_left l hab)
  constructor
  · have h1 := key i hi
    have h2 := mono (i + 1) j hij
    omega
  · have h1 := key j hjt
    have h2 : (l.take (j + 1)).count t ≤ l.count t :=
      List.Sublist.count_le (List.take_sublist _ _) t
    omega

theorem getSlot_init (t : String) : getSlot [("orange", 0), ("blue", 0)] t = 0 := by
  unfold getSlot
  simp only [lookup_cons_ite]
  split_ifs <;> rfl

theorem resetCars_teams (cs : List (String × CarState)) (slots : List (String × Nat)) :
    (resetCars cs slots).map (fun e => e.2.team) = cs.map (fun e => e.2.team) := by
  have h := congrArg (List.map (fun t : String × String × Bool => t.2.1)) (resetCars_tags cs slots)
  simpa [List.map_map, Function.comp] using h

theorem Tick_goal_reset (m : MathOps) (w : World) (dt : ℚ) (clk : TickClock)
    (hy : |(tickBeforeGoal m w dt clk).state.ball.position.y| ≤ GoalWidth / 2)
    (hz : (tickBeforeGoal m w dt clk).state.ball.position.z ≤ GoalHeight)
    (hx : |(tickBeforeGoal m w dt clk).state.ball.position.x| ≥ ArenaLength / 2) :
    (Tick m w dt clk).state.cars
        = resetCars (tickBeforeGoal m w dt clk).state.cars [("orange", 0), ("blue", 0)]
      ∧ (Tick m w dt clk).state.ball.position = ⟨0, 0, BallRadius + 20⟩
      ∧ (Tick m w dt clk).state.ball.velocity = Vec3.zero := by
  unfold Tick
  rcases le_abs.mp hx with h1 | h1
  · rw [detectGoal_orange _ _ _ hy hz h1]
    exact ⟨rfl, rfl, rfl⟩
  · have h2 : (tickBeforeGoal m w dt clk).state.ball.position.x ≤ -ArenaLength / 2 := by linarith
    rw [detectGoal_blue _ _ _ hy hz h2]
    exact ⟨rfl, rfl, rfl⟩

/-! ## Events and score of one `Tick` -/

theorem detectShotOnGoal_types (w : World) (now : Int)
    (h : ∀ e ∈ w.state.events, e.type = "shot_on_goal") :
    ∀ e ∈ (detectShotOnGoal w now).state.events, e.type = "shot_on_goal" := by
  unfold detectShotOnGoal
  simp only []
  split_ifs <;> intro e he <;> (try simp only [List.mem_append, List.mem_singleton] at he) <;> aesop

theorem tickBeforeGoal_types (m : MathOps) (w : World) (dt : ℚ) (clk : TickClock) :
    ∀ e ∈ (tickBeforeGoal m w dt clk).state.events, e.type = "shot_on_goal" := by
  unfold tickBeforeGoal
  apply detectShotOnGoal_types
  intro e he
  simp [resolveCarBallCollisions, computeBotInputs] at he

theorem tickBeforeGoal_orange (m : MathOps) (w : World) (dt : ℚ) (clk : TickClock) :
    (tickBeforeGoal m w dt clk).state.score.orange = w.state.score.orange := by
  rw [tickBeforeGoal_score, tickTimer_orange]

theorem tickBeforeGoal_blue (m : MathOps) (w : World) (dt : ℚ) (clk : TickClock) :
    (tickBeforeGoal m w dt clk).state.score.blue = w.state.score.blue := by
  rw [tickBeforeGoal_score, tickTimer_blue]

theorem Tick_outcome (m : MathOps) (w : World) (dt : ℚ) (clk : TickClock) :
    ∃ shots : List GameplayEvent, (∀ e ∈ shots, e.type = "shot_on_goal") ∧
      (((Tick m w dt clk).state.events = shots
          ∧ (Tick m w dt clk).state.score.orange = w.state.score.orange
          ∧ (Tick m w dt clk).state.score.blue = w.state.score.blue)
        ∨ ((Tick m w dt clk).state.events
              = shots ++ [⟨"goal", "", "orange", clk.goalMS⟩, ⟨"kickoff", "", "orange", clk.kickoffMS⟩]
          ∧ (Tick m w dt clk).state.score.orange = w.state.score.orange + 1
          ∧ (Tick m w dt clk).state.score.blue = w.state.score.blue)
        ∨ ((Tick m w dt clk).state.events
              = shots ++ [⟨"goal", "", "blue", clk.goalMS⟩, ⟨"kickoff", "", "blue", clk.kickoffMS⟩]
          ∧ (Tick m w dt clk).state.score.orange = w.state.score.orange
          ∧ (Tick m w dt clk).state.score.blue = w.state.score.blue + 1)) := by
  refine ⟨(tickBeforeGoal m w dt clk).state.events, tickBeforeGoal_types m w dt clk, ?_⟩
  unfold Tick
  by_cases hc : |(tickBeforeGoal m w dt clk).state.ball.position.y| ≤ GoalWidth / 2
      ∧ (tickBeforeGoal m w dt clk).state.ball.position.z ≤ GoalHeight
      ∧ |(tickBeforeGoal m w dt clk).state.ball.position.x| ≥ ArenaLength / 2
  · obtain ⟨hy, hz, hx⟩ := hc
    rcases le_abs.mp hx with h1 | h1
    · right; left
      rw [detectGoal_orange _ _ _ hy hz h1]
      refine ⟨by simp [resetKickoff_events], ?_, ?_⟩
      · rw [resetKickoff_score]
        simp [tickBeforeGoal_orange]
      · rw [resetKickoff_score]
        simp [tickBeforeGoal_blue]
    · right; right
      have h2 : (tickBeforeGoal m w dt clk).state.ball.position.x ≤ -ArenaLength / 2 := by
        linarith
      rw [detectGoal_blue _ _ _ hy hz h2]
      refine ⟨by simp [resetKickoff_events], ?_, ?_⟩
      · rw [resetKickoff_score]
        simp [tickBeforeGoal_orange]
      · rw [resetKickoff_score]
        simp [tickBeforeGoal_blue]
  · left
    rw [detectGoal_none _ _ _ hc]
    exact ⟨rfl, tickBeforeGoal_orange m w dt clk, tickBeforeGoal_blue m w dt clk⟩

theorem countP_shots_goal (shots : List GameplayEvent)
    (h : ∀ e ∈ shots, e.type = "shot_on_goal") :
    shots.countP (fun e => e.type = "goal") = 0
      ∧ shots.countP (fun e => e.type = "kickoff") = 0 := by
  constructor
  · rw [List.countP_eq_zero]
    intro e he
    simp [h e he]
  · rw [List.countP_eq_zero]
    intro e he
    simp [h e he]

/-! ## Membership operations leave the score alone -/

theorem EnsurePlayer_score (w : World) (id name : String) (now : Int) :
    (EnsurePlayer w id name now).1.state.score = w.state.score := by
  unfold EnsurePlayer
  split <;> rfl

theorem EnsureBotOpponent_score (w : World) (id stamp : String) (now : Int) :
    (EnsureBotOpponent w id stamp now).1.state.score = w.state.score := by
  unfold EnsureBotOpponent
  split
  · rfl
  · simp only []
    split_ifs <;> first | rfl | (split <;> rfl)

theorem RemovePlayer_score (w : World) (id : String) (now : Int) :
    (RemovePlayer w id now).state.score = w.state.score := by
  unfold RemovePlayer
  split <;> rfl

theorem removeBots_score (now : Int) (cs : List (String × CarState)) :
    ∀ w : World, (removeBots now cs w).state.score = w.state.score := by
  induction cs with
  | nil => intro w; rfl
  | cons hd rest ih =>
    intro w
    obtain ⟨id, c⟩ := hd
    unfold removeBots
    split_ifs
    · rw [ih]
    · rw [ih]

/-! ## Properties carried through the car loops -/

theorem updateCar_boost (m : MathOps) (car : CarState) (inp prev : CarInput) (jc : jumpContext)
    (dt : ℚ) : (updateCar m car inp prev jc dt).1.boost = updateCarBoost car inp dt := rfl

theorem updateCar_yaw (m : MathOps) (car : CarState) (inp prev : CarInput) (jc : jumpContext)
    (dt : ℚ) : (updateCar m car inp prev jc dt).1.rotation.yaw = updateCarYaw m car inp dt := rfl

theorem tickCars_forall (m : MathOps) (input : List (String × CarInput)) (dt : ℚ)
    (P Q : CarState → Prop)
    (hstep : ∀ (car : CarState) (inp prev : CarInput) (jc : jumpContext), Q car →
      P (clampCarBounds { (updateCar m car inp prev jc dt).1 with lastInput := inp }))
    (cars : List (String × CarState)) :
    ∀ jump : List (String × jumpContext), (∀ e ∈ cars, Q e.2) →
      ∀ e ∈ (tickCars m input dt cars jump).1, P e.2 := by
  induction cars with
  | nil => intro jump _ e he; simp [tickCars] at he
  | cons hd rest ih =>
    intro jump hq e he
    obtain ⟨id, car⟩ := hd
    simp only [tickCars, List.mem_cons] at he
    rcases he with he | he
    · subst he
      exact hstep _ _ _ _ (hq (id, car) (List.mem_cons_self _ _))
    · exact ih _ (fun x hx => hq x (List.mem_cons_of_mem _ hx)) e he

theorem resolveCars_forall (m : MathOps) (P : CarState → Prop)
    (hstep : ∀ (ball : BallState) (car : CarState), P car → P (resolveCarBall m ball car).2)
    (cars : List (String × CarState)) :
    ∀ ball : BallState, (∀ e ∈ cars, P e.2) →
      ∀ e ∈ (resolveCars m cars ball).1, P e.2 := by
  induction cars with
  | nil => intro ball _ e he; simp [resolveCars] at he
  | cons hd rest ih =>
    intro ball hq e he
    obtain ⟨id, car⟩ := hd
    simp only [resolveCars, List.mem_cons] at he
    rcases he with he | he
    · subst he
      exact hstep _ _ (hq (id, car) (List.mem_cons_self _ _))
    · exact ih _ (fun x hx => hq x (List.mem_cons_of_mem _ hx)) e he

theorem Tick_cars_cases (m : MathOps) (w : World) (dt : ℚ) (clk : TickClock) :
    (Tick m w dt clk).state.cars = (tickBeforeGoal m w dt clk).state.cars
      ∨ (Tick m w dt clk).state.cars
          = resetCars (tickBeforeGoal m w dt clk).state.cars [("orange", 0), ("blue", 0)] := by
  by_cases hc : |(tickBeforeGoal m w dt clk).state.ball.position.y| ≤ GoalWidth / 2
      ∧ (tickBeforeGoal m w dt clk).state.ball.position.z ≤ GoalHeight
      ∧ |(tickBeforeGoal m w dt clk).state.ball.position.x| ≥ ArenaLength / 2
  · exact Or.inr (Tick_goal_reset m w dt clk hc.1 hc.2.1 hc.2.2).1
  · left
    unfold Tick
    rw [detectGoal_none _ _ _ hc]

theorem resetCars_mem (cs : List (String × CarState)) (slots : List (String × Nat))
    (e : String × CarState) (he : e ∈ resetCars cs slots) :
    e.2.boost = 100 ∧ (e.2.rotation.yaw = 0 ∨ e.2.rotation.yaw = 180) := by
  obtain ⟨i, hi⟩ := List.mem_iff_getElem?.mp he
  obtain ⟨c, _, _, _, _, h4, _, _, h7, h8, _⟩ := resetCars_getElem cs slots i e hi
  refine ⟨h4, ?_⟩
  by_cases ht : c.team = "orange"
  · exact Or.inl (h7 ht).2
  · exact Or.inr (h8 ht).2

/-- What holds of every car after the per-car step and is kept by contact resolution
holds of every car after the `Tick`, provided the kickoff reset establishes it too. -/
theorem Tick_cars_forall (m : MathOps) (w : World) (dt : ℚ) (clk : TickClock)
    (P Q : CarState → Prop)
    (hstep : ∀ (car : CarState) (inp prev : CarInput) (jc : jumpContext), Q car →
      P (clampCarBounds { (updateCar m car inp prev jc dt).1 with lastInput := inp }))
    (hres : ∀ (ball : BallState) (car : CarState), P car → P (resolveCarBall m ball car).2)
    (hreset : ∀ (cs : List (String × CarState)) (slots : List (String × Nat)),
      ∀ e ∈ resetCars cs slots, P e.2)
    (hq : ∀ e ∈ w.state.cars, Q e.2) :
    ∀ e ∈ (Tick m w dt clk).state.cars, P e.2 := by
  rcases Tick_cars_cases m w dt clk with h | h
  · rw [h, tickBeforeGoal_cars]
    apply resolveCars_forall m P hres
    exact tickCars_forall m _ dt P Q hstep _ _ hq
  · rw [h]
    exact hreset _ _

/-! ## Boost -/

theorem updateCarBoost_bounds (car : CarState) (inp : CarInput) (dt : ℚ) (hdt : 0 ≤ dt)
    (h0 : 0 ≤ car.boost) (h1 : car.boost ≤ 100) :
    0 ≤ updateCarBoost car inp dt ∧ updateCarBoost car inp dt ≤ 100 := by
  unfold updateCarBoost
  simp only []
  split_ifs with ha hb hb
  · exact ⟨le_refl _, by norm_num⟩
  · exact ⟨not_lt.mp hb, by linarith⟩
  · exact ⟨by norm_num, le_refl _⟩
  · exact ⟨by linarith, not_lt.mp hb⟩

theorem spawnAll_boost (ps : List PlayerSpawn) :
    ∀ (slots : List (String × Nat)) (cars : List (String × CarState))
      (jump : List (String × jumpContext)),
      (∀ e ∈ cars, e.2.boost = 100) → ∀ e ∈ (spawnAll ps slots cars jump).1, e.2.boost = 100 := by
  induction ps with
  | nil => intro slots cars jump h e he; exact h e he
  | cons p rest ih =>
    intro slots cars jump h e he
    simp only [spawnAll] at he
    refine ih _ _ _ ?_ e he
    intro x hx
    rcases mem_setKey _ _ _ _ hx with h1 | h1
    · exact h x h1
    · rw [h1]
      rfl

/-! ## Yaw normalisation -/

theorem subLoop_spec (n : Nat) :
    ∀ d : ℚ, d < 360 * ((n : ℚ) + 1) →
      ∃ r : ℚ, subLoop (n + 1) d = some r ∧ r < 360 ∧ (d < 360 → r = d) ∧ (0 ≤ d → 0 ≤ r)
        ∧ ∃ k : ℕ, d = r + 360 * (k : ℚ) := by
  induction n with
  | zero =>
    intro d hd
    have h1 : d < 360 := by simpa using hd
    refine ⟨d, ?_, h1, fun _ => rfl, fun h => h, 0, by simp⟩
    simp [subLoop, h1]
  | succ n ih =>
    intro d hd
    by_cases h1 : d ≥ 360
    · have h2 : d - 360 < 360 * ((n : ℚ) + 1) := by
        push_cast at hd
        linarith
      obtain ⟨r, hr, hlt, _, hnn, k, hk⟩ := ih (d - 360) h2
      refine ⟨r, ?_, hlt, fun h => absurd h (not_lt.mpr h1), fun _ => hnn (by linarith),
        k + 1, ?_⟩
      · rw [subLoop]
        simp only [h1, if_true]
        exact hr
      · push_cast
        linarith
    · have h2 : d < 360 := not_le.mp h1
      refine ⟨d, ?_, h2, fun _ => rfl, fun h => h, 0, by simp⟩
      rw [subLoop]
      simp [h1]

theorem addLoop_spec (n : Nat) :
    ∀ d : ℚ, -(360 * (n : ℚ)) ≤ d →
      ∃ r : ℚ, addLoop (n + 1) d = some r ∧ 0 ≤ r ∧ (0 ≤ d → r = d) ∧ (d < 0 → r < 360)
        ∧ ∃ k : ℕ, r = d + 360 * (k : ℚ) := by
  induction n with
  | zero =>
    intro d hd
    have h1 : 0 ≤ d := by simpa using hd
    refine ⟨d, ?_, h1, fun _ => rfl, fun h => absurd h (not_lt.mpr h1), 0, by simp⟩
    simp [addLoop, not_lt.mpr h1]
  | succ n ih =>
    intro d hd
    by_cases h1 : d < 0
    · have h2 : -(360 * (n : ℚ)) ≤ d + 360 := by
        push_cast at hd
        linarith
      obtain ⟨r, hr, hnn, hsame, hlt, k, hk⟩ := ih (d + 360) h2
      refine ⟨r, ?_, hnn, fun h => absurd h1 (not_lt.mpr h), fun _ => ?_, k + 1, ?_⟩
      · rw [addLoop]
        simp only [h1, if_true]
        exact hr
      · by_cases h3 : d + 360 < 0
        · exact hlt h3
        · rw [hsame (not_lt.mp h3)]
          linarith
      · push_cast
        linarith
    · have h2 : 0 ≤ d := not_lt.mp h1
      refine ⟨d, ?_, h2, fun _ => rfl, fun h => absurd h h1, 0, by simp⟩
      rw [addLoop]
      simp [h1]

theorem abs_lt_degFuel (d : ℚ) : |d| < 360 * (((degFuel d - 1 : ℕ) : ℚ)) := by
  unfold degFuel
  have hq : (0 : ℚ) ≤ |d| / 360 := div_nonneg (abs_nonneg d) (by norm_num)
  have hfl : (0 : ℤ) ≤ (|d| / 360).floor := Rat.le_floor.mpr (by simpa using hq)
  have hlt : |d| / 360 < (((|d| / 360).floor + 1 : ℤ) : ℚ) := by
    by_contra hcon
    have h1 : (|d| / 360).floor + 1 ≤ (|d| / 360).floor := Rat.le_floor.mpr (not_lt.mp hcon)
    omega
  have hcast : (((|d| / 360).floor.toNat + 2 - 1 : ℕ) : ℚ) = (((|d| / 360).floor + 1 : ℤ) : ℚ) := by
    have h2 : (|d| / 360).floor.toNat + 2 - 1 = (|d| / 360).floor.toNat + 1 := by omega
    rw [h2]
    push_cast
    have h3 : (((|d| / 360).floor.toNat : ℤ) : ℚ) = (((|d| / 360).floor : ℤ) : ℚ) := by
      rw [Int.toNat_of_nonneg hfl]
    have h4 : (((|d| / 360).floor.toNat : ℤ) : ℚ) = (((|d| / 360).floor.toNat : ℕ) : ℚ) := by
      push_cast
      rfl
    rw [← h4, h3]
  rw [hcast]
  linarith

theorem normalizeDegFuel_spec (fuel : Nat) (d : ℚ) (hf : degFuel d ≤ fuel) :
    ∃ r : ℚ, normalizeDegFuel fuel d = some r ∧ 0 ≤ r ∧ r < 360
      ∧ ∃ k : ℤ, d = r + 360 * (k : ℚ) := by
  have hd2 : 2 ≤ degFuel d := by unfold degFuel; omega
  obtain ⟨n, rfl⟩ : ∃ n, fuel = n + 1 := ⟨fuel - 1, by omega⟩
  have habs := abs_lt_degFuel d
  have hn : (((degFuel d - 1 : ℕ)) : ℚ) ≤ (n : ℚ) := by
    exact_mod_cast (by omega : degFuel d - 1 ≤ n)
  have habs2 : |d| < 360 * (n : ℚ) := by
    have : 360 * (((degFuel d - 1 : ℕ)) : ℚ) ≤ 360 * (n : ℚ) := by linarith
    linarith
  have hup : d < 360 * ((n : ℚ) + 1) := by
    have := le_abs_self d
    linarith
  obtain ⟨r1, hr1, hlt1, hsame1, hnn1, k1, hk1⟩ := subLoop_spec n d hup
  have hlow : -(360 * (n : ℚ)) ≤ r1 := by
    by_cases h0 : 0 ≤ d
    · have := hnn1 h0
      have : (0 : ℚ) ≤ 360 * (n : ℚ) := by positivity
      linarith
    · have hd360 : d < 360 := by linarith [not_le.mp h0]
      rw [hsame1 hd360]
      have := neg_abs_le d
      linarith
  obtain ⟨r2, hr2, hnn2, hsame2, hlt2, k2, hk2⟩ := addLoop_spec n r1 hlow
  refine ⟨r2, ?_, hnn2, ?_, (k1 : ℤ) - (k2 : ℤ), ?_⟩
  · unfold normalizeDegFuel
    rw [hr1]
    exact hr2
  · by_cases h0 : 0 ≤ r1
    · rw [hsame2 h0]
      exact hlt1
    · exact hlt2 (not_le.mp h0)
  · push_cast
    rw [hk1, hk2]
    ring

theorem deg_unique (r s : ℚ) (k j : ℤ) (hr0 : 0 ≤ r) (hr1 : r < 360) (hs0 : 0 ≤ s)
    (hs1 : s < 360) (h : r + 360 * (k : ℚ) = s + 360 * (j : ℚ)) : r = s := by
  have h1 : ((j - k : ℤ) : ℚ) < 1 := by
    push_cast
    linarith
  have h2 : (-1 : ℚ) < ((j - k : ℤ) : ℚ) := by
    push_cast
    linarith
  have h3 : j - k < 1 := by exact_mod_cast h1
  have h4 : -1 < j - k := by exact_mod_cast h2
  have h5 : j = k := by omega
  subst h5
  linarith

theorem normalizeDeg_spec (d : ℚ) :
    0 ≤ normalizeDeg d ∧ normalizeDeg d < 360 ∧ ∃ k : ℤ, d = normalizeDeg d + 360 * (k : ℚ) := by
  obtain ⟨r, hr, h0, h1, hk⟩ := normalizeDegFuel_spec (degFuel d) d (le_refl _)
  have : normalizeDeg d = r := by
    unfold normalizeDeg
    rw [hr]
    rfl
  rw [this]
  exact ⟨h0, h1, hk⟩

/-! ## Cars created by the membership operations -/

theorem EnsurePlayer_new (w : World) (id name : String) (now : Int)
    (h : w.state.cars.lookup id = none) :
    ∃ c : CarState, (EnsurePlayer w id name now).1.state.cars = setKey w.state.cars id c
      ∧ c.boost = 100 ∧ c.isBot = false := by
  unfold EnsurePlayer
  rw [h]
  exact ⟨_, rfl, rfl, rfl⟩

theorem EnsureBotOpponent_new (w : World) (id stamp : String) (now : Int) :
    (EnsureBotOpponent w id stamp now).1 = w
      ∨ ∃ c : CarState,
          (EnsureBotOpponent w id stamp now).1.state.cars
              = setKey w.state.cars (EnsureBotOpponent w id stamp now).2 c
            ∧ c.boost = 100 ∧ c.isBot = true := by
  unfold EnsureBotOpponent
  split
  · exact Or.inl rfl
  · simp only []
    split_ifs
    · exact Or.inl rfl
    · split
      · exact Or.inl rfl
      · exact Or.inr ⟨_, rfl, rfl, rfl⟩
    · exact Or.inl rfl
    · split
      · exact Or.inl rfl
      · exact Or.inr ⟨_, rfl, rfl, rfl⟩

/-! ## Claims -/

/-- C1: every `Tick`, whatever the world and `dt`, raises the tick counter by exactly one;
hence after `n` calls of `Tick` on a world returned by `NewWorld` the counter is `n`. -/
theorem C1_tick_counter (m : MathOps) (w : World) (dt : ℚ) (clk : TickClock)
    (matchID : String) (durationMS : Int) (players : List PlayerSpawn) (now : Int)
    (cs : List (ℚ × TickClock)) :
    (Tick m w dt clk).state.tick = w.state.tick + 1
      ∧ (runTicks m (NewWorld matchID durationMS players now) cs).state.tick = cs.length := by
  refine ⟨Tick_tick m w dt clk, ?_⟩
  rw [runTicks_tick]
  simp [NewWorld]

/-- C2 (as stated, refuted): `Tick(0)` on the one-player world of the tests is not a
no-op: the tick counter goes from 0 to 1, the creation kickoff event is dropped and the
timer goes from 10000 to 9999. -/
theorem C2_counterexample :
    (0 : ℚ) ≤ 0
      ∧ kickoffWorld.state.tick = 0 ∧ (Tick refOps kickoffWorld 0 clock0).state.tick = 1
      ∧ kickoffWorld.state.events = [⟨"kickoff", "", "", 0⟩]
      ∧ (Tick refOps kickoffWorld 0 clock0).state.events = []
      ∧ kickoffWorld.state.score.timeRemainingMS = 10000
      ∧ (Tick refOps kickoffWorld 0 clock0).state.score.timeRemainingMS = 9999 := by
  decide!

/-- C2 (amended): for `dt ≤ 0` a `Tick` still runs: the tick counter increases by one, the
events of before the `Tick` are dropped (the new list is the one the `Tick` produces from
an empty list), and a positive timer decreases by exactly one millisecond while a timer
that is not positive is unchanged. -/
theorem C2_nonpositive_dt_still_ticks (m : MathOps) (w : World) (dt : ℚ) (clk : TickClock)
    (h : dt ≤ 0) :
    (Tick m w dt clk).state.tick = w.state.tick + 1
      ∧ (Tick m w dt clk).state.events
          = (Tick m { w with state := { w.state with events := [] } } dt clk).state.events
      ∧ (Tick m w dt clk).state.score.timeRemainingMS
          = if w.state.score.timeRemainingMS > 0 then w.state.score.timeRemainingMS - 1
            else w.state.score.timeRemainingMS := by
  refine ⟨Tick_tick m w dt clk, ?_, ?_⟩
  · unfold Tick
    rw [tickBeforeGoal_drops_events]
  · unfold Tick
    rw [detectGoal_timer, tickBeforeGoal_score, tickTimer_nonpos_dt _ _ h]

/-- C2 (amended), run on the one-player world of the tests with `dt = 0`. -/
theorem C2_nonpositive_dt_witness :
    (0 : ℚ) ≤ 0
      ∧ (Tick refOps kickoffWorld 0 clock0).state.tick = kickoffWorld.state.tick + 1
      ∧ (Tick refOps kickoffWorld 0 clock0).state.score.timeRemainingMS
          = if kickoffWorld.state.score.timeRemainingMS > 0
            then kickoffWorld.state.score.timeRemainingMS - 1
            else kickoffWorld.state.score.timeRemainingMS :=
  ⟨le_refl 0, (C2_nonpositive_dt_still_ticks refOps kickoffWorld 0 clock0 (le_refl 0)).1,
    (C2_nonpositive_dt_still_ticks refOps kickoffWorld 0 clock0 (le_refl 0)).2.2⟩

/-- C3: the goal step of `Tick` runs on the ball left by integration, clamping and car
contact; it registers a goal (the two scores together grow by one) iff the ball has
`|y| ≤ GoalWidth/2`, `z ≤ GoalHeight` and `|x| ≥ ArenaLength/2`; with `x ≥ ArenaLength/2`
orange gains exactly one and blue is unchanged, with `x ≤ -ArenaLength/2` blue gains exactly
one and orange is unchanged, otherwise the world is unchanged. On the world of
`TestGoalScoringIncrementsScore`, `Tick(1/120)` gives orange 1 and the ball back at kickoff. -/
theorem C3_goal_detection (m : MathOps) (w : World) (dt : ℚ) (clk : TickClock)
    (v : World) (now nowKick : Int) :
    (Tick m w dt clk
        = detectGoalAndResetIfNeeded (tickBeforeGoal m w dt clk) clk.goalMS clk.kickoffMS
      ∧ (tickBeforeGoal m w dt clk).state.ball
        = (resolveCars m
            (tickCars m
              (botInputs m w.state.ball (w.state.tick + 1) clk.botMS w.state.cars w.input)
              dt w.state.cars w.jump).1
            (clampBallBounds (updateBall m w.state.ball dt))).2)
    ∧ ((detectGoalAndResetIfNeeded v now nowKick).state.score.orange
          + (detectGoalAndResetIfNeeded v now nowKick).state.score.blue
          = v.state.score.orange + v.state.score.blue + 1
        ↔ (|v.state.ball.position.y| ≤ GoalWidth / 2 ∧ v.state.ball.position.z ≤ GoalHeight
            ∧ |v.state.ball.position.x| ≥ ArenaLength / 2))
    ∧ (|v.state.ball.position.y| ≤ GoalWidth / 2 → v.state.ball.position.z ≤ GoalHeight →
        v.state.ball.position.x ≥ ArenaLength / 2 →
          (detectGoalAndResetIfNeeded v now nowKick).state.score.orange
              = v.state.score.orange + 1
            ∧ (detectGoalAndResetIfNeeded v now nowKick).state.score.blue = v.state.score.blue
            ∧ (detectGoalAndResetIfNeeded v now nowKick).state.events
              = v.state.events ++ [⟨"goal", "", "orange", now⟩, ⟨"kickoff", "", "orange", nowKick⟩])
    ∧ (|v.state.ball.position.y| ≤ GoalWidth / 2 → v.state.ball.position.z ≤ GoalHeight →
        v.state.ball.position.x ≤ -ArenaLength / 2 →
          (detectGoalAndResetIfNeeded v now nowKick).state.score.blue
              = v.state.score.blue + 1
            ∧ (detectGoalAndResetIfNeeded v now nowKick).state.score.orange
              = v.state.score.orange
            ∧ (detectGoalAndResetIfNeeded v now nowKick).state.events
              = v.state.events ++ [⟨"goal", "", "blue", now⟩, ⟨"kickoff", "", "blue", nowKick⟩])
    ∧ (¬ (|v.state.ball.position.y| ≤ GoalWidth / 2 ∧ v.state.ball.position.z ≤ GoalHeight
            ∧ |v.state.ball.position.x| ≥ ArenaLength / 2) →
          detectGoalAndResetIfNeeded v now nowKick = v)
    ∧ (goalWorld.state.score.orange = 0
        ∧ (Tick refOps goalWorld (1 / 120) clock0).state.score.orange = 1
        ∧ (Tick refOps goalWorld (1 / 120) clock0).state.score.blue = 0
        ∧ (Tick refOps goalWorld (1 / 120) clock0).state.ball.position = ⟨0, 0, BallRadius + 20⟩
        ∧ (Tick refOps goalWorld (1 / 120) clock0).state.ball.velocity = ⟨0, 0, 0⟩) := by
  have horange : |v.state.ball.position.y| ≤ GoalWidth / 2 → v.state.ball.position.z ≤ GoalHeight →
      v.state.ball.position.x ≥ ArenaLength / 2 →
        (detectGoalAndResetIfNeeded v now nowKick).state.score.orange
            = v.state.score.orange + 1
          ∧ (detectGoalAndResetIfNeeded v now nowKick).state.score.blue = v.state.score.blue
          ∧ (detectGoalAndResetIfNeeded v now nowKick).state.events
            = v.state.events ++ [⟨"goal", "", "orange", now⟩, ⟨"kickoff", "", "orange", nowKick⟩] := by
    intro hy hz hx
    rw [detectGoal_orange v now nowKick hy hz hx]
    refine ⟨rfl, rfl, ?_⟩
    simp [resetKickoff_events]
  have hblue : |v.state.ball.position.y| ≤ GoalWidth / 2 → v.state.ball.position.z ≤ GoalHeight →
      v.state.ball.position.x ≤ -ArenaLength / 2 →
        (detectGoalAndResetIfNeeded v now nowKick).state.score.blue
            = v.state.score.blue + 1
          ∧ (detectGoalAndResetIfNeeded v now nowKick).state.score.orange
            = v.state.score.orange
          ∧ (detectGoalAndResetIfNeeded v now nowKick).state.events
            = v.state.events ++ [⟨"goal", "", "blue", now⟩, ⟨"kickoff", "", "blue", nowKick⟩] := by
    intro hy hz hx
    rw [detectGoal_blue v now nowKick hy hz hx]
    refine ⟨rfl, rfl, ?_⟩
    simp [resetKickoff_events]
  refine ⟨⟨rfl, tickBeforeGoal_ball m w dt clk⟩, ⟨?_, ?_⟩, horange, hblue,
    detectGoal_none v now nowKick, by decide!⟩
  · intro hsum
    by_contra hc
    rw [detectGoal_none v now nowKick hc] at hsum
    omega
  · rintro ⟨hy, hz, hx⟩
    rcases le_abs.mp hx with h1 | h1
    · obtain ⟨ho, hb, _⟩ := horange hy hz h1
      rw [ho, hb]
      ring
    · have h2 : v.state.ball.position.x ≤ -ArenaLength / 2 := by linarith
      obtain ⟨hb, ho, _⟩ := hblue hy hz h2
      rw [ho, hb]
      ring

/-- C3 run on the ball that reaches the goal step in `TestGoalScoringIncrementsScore`:
it is inside the positive-X goal mouth, and orange gains one. -/
theorem C3_goal_detection_witness :
    (|(tickBeforeGoal refOps goalWorld (1 / 120) clock0).state.ball.position.y| ≤ GoalWidth / 2
      ∧ (tickBeforeGoal refOps goalWorld (1 / 120) clock0).state.ball.position.z ≤ GoalHeight
      ∧ (tickBeforeGoal refOps goalWorld (1 / 120) clock0).state.ball.position.x
          ≥ ArenaLength / 2)
    ∧ (detectGoalAndResetIfNeeded (tickBeforeGoal refOps goalWorld (1 / 120) clock0) 0 0
          ).state.score.orange
        = (tickBeforeGoal refOps goalWorld (1 / 120) clock0).state.score.orange + 1 :=
  ⟨by decide!,
    ((C3_goal_detection refOps goalWorld (1 / 120) clock0
        (tickBeforeGoal refOps goalWorld (1 / 120) clock0) 0 0).2.2.1
      (by decide!) (by decide!) (by decide!)).1⟩

/-- C4: when the goal step of a `Tick` finds the ball in a goal mouth, the `Tick` ends with
the ball at `(0, 0, BallRadius + 20)` at rest, the same cars (ids, teams, bot flags, in the
same order), and every car at rest with boost 100, grounded, `z = CarRadius`, `x = -2048`
and yaw 0 for team orange, `x = 2048` and yaw 180 otherwise, and `y` the entry
`s mod 3` of `0, -500, 500`, `s` being the number of earlier cars of the same team in
iteration order; two cars of a team of at most three cars get different `y`. -/
theorem C4_kickoff_reset (m : MathOps) (w : World) (dt : ℚ) (clk : TickClock)
    (hy : |(tickBeforeGoal m w dt clk).state.ball.position.y| ≤ GoalWidth / 2)
    (hz : (tickBeforeGoal m w dt clk).state.ball.position.z ≤ GoalHeight)
    (hx : |(tickBeforeGoal m w dt clk).state.ball.position.x| ≥ ArenaLength / 2) :
    (Tick m w dt clk).state.ball.position = ⟨0, 0, BallRadius + 20⟩
      ∧ (Tick m w dt clk).state.ball.velocity = ⟨0, 0, 0⟩
      ∧ (Tick m w dt clk).state.cars.map (fun e => (e.1, e.2.team, e.2.isBot))
          = w.state.cars.map (fun e => (e.1, e.2.team, e.2.isBot))
      ∧ (∀ (i : Nat) (e : String × CarState), (Tick m w dt clk).state.cars[i]? = some e →
          e.2.velocity = ⟨0, 0, 0⟩ ∧ e.2.boost = 100 ∧ e.2.isGrounded = true
            ∧ e.2.position.z = CarRadius
            ∧ (e.2.team = "orange" → e.2.position.x = -2048 ∧ e.2.rotation.yaw = 0)
            ∧ (e.2.team ≠ "orange" → e.2.position.x = 2048 ∧ e.2.rotation.yaw = 180)
            ∧ e.2.position.y = kickoffSlotOffset
                ((((Tick m w dt clk).state.cars.map (fun x => x.2.team)).take i).count e.2.team))
      ∧ (∀ s : Nat, kickoffSlotOffset s = ([0, -500, 500] : List ℚ).getD (s % 3) 0)
      ∧ (∀ (i j : Nat) (a b : String × CarState), i < j →
          (Tick m w dt clk).state.cars[i]? = some a → (Tick m w dt clk).state.cars[j]? = some b →
          a.2.team = b.2.team →
          ((Tick m w dt clk).state.cars.map (fun x => x.2.team)).count a.2.team ≤ 3 →
            a.2.position.y ≠ b.2.position.y) := by
  obtain ⟨hcars, hpos, hvel⟩ := Tick_goal_reset m w dt clk hy hz hx
  have hteams : (Tick m w dt clk).state.cars.map (fun x => x.2.team)
      = (tickBeforeGoal m w dt clk).state.cars.map (fun x => x.2.team) := by
    rw [hcars, resetCars_teams]
  have hcar : ∀ (i : Nat) (e : String × CarState), (Tick m w dt clk).state.cars[i]? = some e →
      e.2.velocity = ⟨0, 0, 0⟩ ∧ e.2.boost = 100 ∧ e.2.isGrounded = true
        ∧ e.2.position.z = CarRadius
        ∧ (e.2.team = "orange" → e.2.position.x = -2048 ∧ e.2.rotation.yaw = 0)
        ∧ (e.2.team ≠ "orange" → e.2.position.x = 2048 ∧ e.2.rotation.yaw = 180)
        ∧ e.2.position.y = kickoffSlotOffset
            ((((Tick m w dt clk).state.cars.map (fun x => x.2.team)).take i).count e.2.team) := by
    intro i e he
    rw [hcars] at he
    obtain ⟨c, _, h1, _, h3, h4, h5, h6, h7, h8, h9⟩ := resetCars_getElem _ _ i e he
    rw [hteams, h1]
    refine ⟨h3, h4, h5, h6, h7, h8, ?_⟩
    rw [h9, getSlot_init, Nat.zero_add]
  refine ⟨hpos, hvel, ?_, hcar, ?_, ?_⟩
  · rw [hcars, resetCars_tags, tickBeforeGoal_tags]
  · intro s
    unfold kickoffSlotOffset
    have h3 : s % 3 < 3 := Nat.mod_lt _ (by norm_num)
    interval_cases (s % 3) <;> simp
  · intro i j a b hij ha hb hab hcount heq
    have hya := (hcar i a ha).2.2.2.2.2.2
    have hyb := (hcar j b hb).2.2.2.2.2.2
    have hti : ((Tick m w dt clk).state.cars.map (fun x => x.2.team))[i]? = some a.2.team := by
      simp [List.getElem?_map, ha]
    have htj : ((Tick m w dt clk).state.cars.map (fun x => x.2.team))[j]? = some a.2.team := by
      simp [List.getElem?_map, hb, hab]
    obtain ⟨hlt, hlt2⟩ := count_take_lt _ _ i j hij hti htj
    rw [hya, hyb, ← hab] at heq
    have := kickoffSlotOffset_inj _ _ (by omega) (by omega) heq
    omega

/-- C4 run on `TestGoalScoringIncrementsScore`: the ball reaches the goal step inside the
positive-X goal mouth and the `Tick` ends with the ball at `(0, 0, BallRadius + 20)`. -/
theorem C4_kickoff_reset_witness :
    (|(tickBeforeGoal refOps goalWorld (1 / 120) clock0).state.ball.position.y| ≤ GoalWidth / 2
      ∧ (tickBeforeGoal refOps goalWorld (1 / 120) clock0).state.ball.position.z ≤ GoalHeight
      ∧ |(tickBeforeGoal refOps goalWorld (1 / 120) clock0).state.ball.position.x|
          ≥ ArenaLength / 2)
    ∧ (Tick refOps goalWorld (1 / 120) clock0).state.ball.position = ⟨0, 0, BallRadius + 20⟩ :=
  ⟨by decide!,
    (C4_kickoff_reset refOps goalWorld (1 / 120) clock0 (by decide!) (by decide!)
      (by decide!)).1⟩

/-- C5: a world returned by `NewWorld` has exactly one event, of type kickoff, with tick 0,
score 0-0 and the ball at rest at `(0, 0, BallRadius + 20)`; after every `Tick` the events
list has as many kickoff events as goal events, at most one of each, and when there is
one the list ends with the goal event followed by the kickoff event, both carrying the
team whose score the `Tick` raised. -/
theorem C5_kickoff_events (m : MathOps) (w : World) (dt : ℚ) (clk : TickClock)
    (matchID : String) (durationMS : Int) (players : List PlayerSpawn) (now : Int) :
    ((NewWorld matchID durationMS players now).state.events = [⟨"kickoff", "", "", now⟩]
      ∧ (NewWorld matchID durationMS players now).state.tick = 0
      ∧ (NewWorld matchID durationMS players now).state.score.orange = 0
      ∧ (NewWorld matchID durationMS players now).state.score.blue = 0
      ∧ (NewWorld matchID durationMS players now).state.ball.position = ⟨0, 0, BallRadius + 20⟩
      ∧ (NewWorld matchID durationMS players now).state.ball.velocity = ⟨0, 0, 0⟩)
    ∧ (Tick m w dt clk).state.events.countP (fun e => e.type = "kickoff")
        = (Tick m w dt clk).state.events.countP (fun e => e.type = "goal")
    ∧ (Tick m w dt clk).state.events.countP (fun e => e.type = "kickoff") ≤ 1
    ∧ ((Tick m w dt clk).state.events.countP (fun e => e.type = "kickoff") = 1 →
        ∃ (shots : List GameplayEvent) (team : String),
          (∀ e ∈ shots, e.type ≠ "goal" ∧ e.type ≠ "kickoff")
          ∧ (Tick m w dt clk).state.events
              = shots ++ [⟨"goal", "", team, clk.goalMS⟩, ⟨"kickoff", "", team, clk.kickoffMS⟩]
          ∧ ((team = "orange"
                ∧ (Tick m w dt clk).state.score.orange = w.state.score.orange + 1)
              ∨ (team = "blue"
                ∧ (Tick m w dt clk).state.score.blue = w.state.score.blue + 1))) := by
  refine ⟨⟨rfl, rfl, rfl, rfl, rfl, rfl⟩, ?_⟩
  obtain ⟨shots, hshots, hcase⟩ := Tick_outcome m w dt clk
  obtain ⟨hg, hk⟩ := countP_shots_goal shots hshots
  have hne : ∀ e ∈ shots, e.type ≠ "goal" ∧ e.type ≠ "kickoff" := by
    intro e he
    rw [hshots e he]
    exact ⟨by decide, by decide⟩
  rcases hcase with ⟨hev, _, _⟩ | ⟨hev, ho, _⟩ | ⟨hev, _, hb⟩
  · rw [hev, hg, hk]
    simp
  · rw [hev]
    refine ⟨by simp [List.countP_append, hg, hk, List.countP_cons], by
      simp [List.countP_append, hk, List.countP_cons], ?_⟩
    intro _
    exact ⟨shots, "orange", hne, rfl, Or.inl ⟨rfl, ho⟩⟩
  · rw [hev]
    refine ⟨by simp [List.countP_append, hg, hk, List.countP_cons], by
      simp [List.countP_append, hk, List.countP_cons], ?_⟩
    intro _
    exact ⟨shots, "blue", hne, rfl, Or.inr ⟨rfl, hb⟩⟩

/-- C5 run on `TestGoalScoringIncrementsScore`: that `Tick` emits one kickoff event, after
the goal event, both for team orange. -/
theorem C5_kickoff_events_witness :
    (Tick refOps goalWorld (1 / 120) clock0).state.events.countP (fun e => e.type = "kickoff") = 1
    ∧ ∃ (shots : List GameplayEvent) (team : String),
        (∀ e ∈ shots, e.type ≠ "goal" ∧ e.type ≠ "kickoff")
        ∧ (Tick refOps goalWorld (1 / 120) clock0).state.events
            = shots ++ [⟨"goal", "", team, clock0.goalMS⟩, ⟨"kickoff", "", team, clock0.kickoffMS⟩]
        ∧ ((team = "orange"
              ∧ (Tick refOps goalWorld (1 / 120) clock0).state.score.orange
                  = goalWorld.state.score.orange + 1)
            ∨ (team = "blue"
              ∧ (Tick refOps goalWorld (1 / 120) clock0).state.score.blue
                  = goalWorld.state.score.blue + 1)) :=
  ⟨by decide!,
    (C5_kickoff_events refOps goalWorld (1 / 120) clock0 "m" 0 [] 0).2.2.2 (by decide!)⟩

/-- C6: in every `Tick` neither score decreases, the two scores together grow by the number
of goal events in the events list of that `Tick`, which is 0 or 1; `ApplyInput`,
`EnsurePlayer`, `EnsureBotOpponent`, `RemovePlayer`, `RemoveAllBots` and `Snapshot` leave
the score as it is. -/
theorem C6_score_monotone (m : MathOps) (w : World) (dt : ℚ) (clk : TickClock)
    (inp : CarInput) (id name stamp : String) (now : Int) :
    (w.state.score.orange ≤ (Tick m w dt clk).state.score.orange
      ∧ w.state.score.blue ≤ (Tick m w dt clk).state.score.blue
      ∧ (Tick m w dt clk).state.score.orange + (Tick m w dt clk).state.score.blue
          = w.state.score.orange + w.state.score.blue
            + ((Tick m w dt clk).state.events.countP (fun e => e.type = "goal") : Int)
      ∧ (Tick m w dt clk).state.events.countP (fun e => e.type = "goal") ≤ 1)
    ∧ (ApplyInput w inp).state.score = w.state.score
    ∧ (EnsurePlayer w id name now).1.state.score = w.state.score
    ∧ (EnsureBotOpponent w id stamp now).1.state.score = w.state.score
    ∧ (RemovePlayer w id now).state.score = w.state.score
    ∧ (RemoveAllBots w now).state.score = w.state.score
    ∧ (Snapshot w).score = w.state.score := by
  refine ⟨?_, rfl, EnsurePlayer_score w id name now, EnsureBotOpponent_score w id stamp now,
    RemovePlayer_score w id now, removeBots_score now w.state.cars w, rfl⟩
  obtain ⟨shots, hshots, hcase⟩ := Tick_outcome m w dt clk
  obtain ⟨hg, _⟩ := countP_shots_goal shots hshots
  rcases hcase with ⟨hev, ho, hb⟩ | ⟨hev, ho, hb⟩ | ⟨hev, ho, hb⟩
  · rw [hev, ho, hb, hg]
    simp
  · rw [hev, ho, hb]
    simp [List.countP_append, hg, List.countP_cons]
    ring
  · rw [hev, ho, hb]
    simp [List.countP_append, hg, List.countP_cons]
    ring

/-- C7 (the code at the failing input): the ball, at rest 150 above a car parked at its
kickoff spot, drops onto it during `Tick(1/120)`; the car satisfies the bounds before the
`Tick`, contact resolution then moves it down by 0.15 of the overlap after the floor snap,
and the `Tick` ends with the car at `z = 171947/1920 < CarRadius`, still flagged grounded. -/
theorem C7_car_pushed_below_floor :
    dropWorld.state.cars.map (fun e => e.2.position) = [⟨-2048, 0, CarRadius⟩]
      ∧ dropWorld.state.ball.position = ⟨-2048, 0, 245⟩
      ∧ dropWorld.state.ball.velocity = ⟨0, 0, 0⟩
      ∧ (Tick refOps dropWorld (1 / 120) clock0).state.cars.map (fun e => e.2.position)
          = [⟨-2048, 0, 171947 / 1920⟩]
      ∧ (Tick refOps dropWorld (1 / 120) clock0).state.cars.map (fun e => e.2.isGrounded) = [true]
      ∧ ¬ (∀ e ∈ (Tick refOps dropWorld (1 / 120) clock0).state.cars,
            CarRadius ≤ e.2.position.z) := by
  decide!

/-- C10 (the code at the failing input): a car coasting at 1410 along +X meets the ball
rolling toward it at 6000; `updateBall` leaves the ball below `BallMaxSpeed`, the contact
impulse is added afterwards, and `Tick(1/120)` ends with `velocity.x` between 8320 and 8321,
so the squared speed exceeds `BallMaxSpeed` squared. -/
theorem C10_ball_faster_than_max_after_contact :
    headOnWorld.state.ball.velocity = ⟨-6000, 0, 0⟩
      ∧ headOnWorld.state.cars.map (fun e => e.2.velocity) = [⟨1410, 0, 0⟩]
      ∧ 8320 < (Tick refOps headOnWorld (1 / 120) clock0).state.ball.velocity.x
      ∧ (Tick refOps headOnWorld (1 / 120) clock0).state.ball.velocity.x < 8321
      ∧ ¬ ((Tick refOps headOnWorld (1 / 120) clock0).state.ball.velocity.x ^ 2
            + (Tick refOps headOnWorld (1 / 120) clock0).state.ball.velocity.y ^ 2
            + (Tick refOps headOnWorld (1 / 120) clock0).state.ball.velocity.z ^ 2
          ≤ BallMaxSpeed ^ 2) := by
  decide!

/-- C8 (as stated, refuted): with full throttle and boost pressed, `Tick(-1/120)` takes the
boost of a car from 100 to `6017/60 > 100`: the consuming branch subtracts `34*dt` and only
floors at 0. -/
theorem C8_counterexample :
    (∀ e ∈ boostWorld.state.cars, 0 ≤ e.2.boost ∧ e.2.boost ≤ 100)
      ∧ (Tick refOps boostWorld (-1 / 120) clock0).state.cars.map (fun e => e.2.boost)
          = [6017 / 60]
      ∧ ¬ (∀ e ∈ (Tick refOps boostWorld (-1 / 120) clock0).state.cars,
            0 ≤ e.2.boost ∧ e.2.boost ≤ 100) := by
  decide!

/-- C8 (amended): if every car has `0 ≤ boost ≤ 100` before a `Tick` and `dt ≥ 0`, every car
has `0 ≤ boost ≤ 100` after it, whatever the stored inputs; every car of a world returned
by `NewWorld` has boost 100, and so has the car that `EnsurePlayer` (for an id without a
car) or `EnsureBotOpponent` adds. -/
theorem C8_boost_bounds (m : MathOps) (w : World) (dt : ℚ) (clk : TickClock)
    (matchID : String) (durationMS : Int) (players : List PlayerSpawn) (now : Int)
    (id name stamp : String)
    (hdt : 0 ≤ dt) (h : ∀ e ∈ w.state.cars, 0 ≤ e.2.boost ∧ e.2.boost ≤ 100) :
    (∀ e ∈ (Tick m w dt clk).state.cars, 0 ≤ e.2.boost ∧ e.2.boost ≤ 100)
      ∧ (∀ e ∈ (NewWorld matchID durationMS players now).state.cars, e.2.boost = 100)
      ∧ (w.state.cars.lookup id = none →
          ∃ c : CarState, (EnsurePlayer w id name now).1.state.cars = setKey w.state.cars id c
            ∧ c.boost = 100)
      ∧ ((EnsureBotOpponent w id stamp now).1 = w
          ∨ ∃ c : CarState,
              (EnsureBotOpponent w id stamp now).1.state.cars
                  = setKey w.state.cars (EnsureBotOpponent w id stamp now).2 c
                ∧ c.boost = 100) := by
  refine ⟨?_, ?_, ?_, ?_⟩
  · apply Tick_cars_forall m w dt clk (fun c => 0 ≤ c.boost ∧ c.boost ≤ 100)
      (fun c => 0 ≤ c.boost ∧ c.boost ≤ 100) _ _ _ h
    · intro car inp prev jc hq
      rw [(clampCarBounds_frame _).2.2.1]
      exact updateCarBoost_bounds car inp dt hdt hq.1 hq.2
    · intro ball car hp
      rw [(resolveCarBall_frame m ball car).2.2.1]
      exact hp
    · intro cs slots e he
      rw [(resetCars_mem cs slots e he).1]
      norm_num
  · intro e he
    exact spawnAll_boost players _ [] [] (fun x hx => absurd hx (List.not_mem_nil x)) e he
  · intro hnone
    obtain ⟨c, hc, hb, _⟩ := EnsurePlayer_new w id name now hnone
    exact ⟨c, hc, hb⟩
  · rcases EnsureBotOpponent_new w id stamp now with h1 | ⟨c, hc, hb, _⟩
    · exact Or.inl h1
    · exact Or.inr ⟨c, hc, hb⟩

/-- C8 (amended) run on the boosting one-player world with `dt = 1/120`. -/
theorem C8_boost_bounds_witness :
    ((0 : ℚ) ≤ 1 / 120 ∧ ∀ e ∈ boostWorld.state.cars, 0 ≤ e.2.boost ∧ e.2.boost ≤ 100)
      ∧ ∀ e ∈ (Tick refOps boostWorld (1 / 120) clock0).state.cars,
          0 ≤ e.2.boost ∧ e.2.boost ≤ 100 :=
  ⟨by decide!,
    (C8_boost_bounds refOps boostWorld (1 / 120) clock0 "m" 0 [] 0 "p2" "p2" "120000.000000000"
      (by decide!) (by decide!)).1⟩

/-- Over the rationals, where every operation is exact, the loops of `normalizeDeg` end for
every argument `d` (with `degFuel d` iterations
or more) and return the one value of `[0, 360)` that differs from `d` by a multiple of
360; the car integrator stores such a value as yaw, the kickoff reset stores 0 or 180,
wall clamping and contact resolution keep the rotation, so after every `Tick` every car
has its yaw in `[0, 360)`. -/
theorem yaw_range_exact (m : MathOps) (w : World) (dt : ℚ) (clk : TickClock) (d : ℚ)
    (car : CarState) (inp prev : CarInput) (jc : jumpContext) (ball : BallState)
    (cs : List (String × CarState)) (slots : List (String × Nat)) :
    (∃ r : ℚ, normalizeDegFuel (degFuel d) d = some r ∧ normalizeDeg d = r
        ∧ (∀ fuel : Nat, degFuel d ≤ fuel → normalizeDegFuel fuel d = some r)
        ∧ 0 ≤ r ∧ r < 360 ∧ (∃ k : ℤ, d = r + 360 * (k : ℚ))
        ∧ (∀ (s : ℚ) (j : ℤ), 0 ≤ s → s < 360 → d = s + 360 * (j : ℚ) → s = r))
      ∧ (∃ x : ℚ, (updateCar m car inp prev jc dt).1.rotation.yaw = normalizeDeg x)
      ∧ (clampCarBounds car).rotation = car.rotation
      ∧ (resolveCarBall m ball car).2.rotation = car.rotation
      ∧ (∀ e ∈ resetCars cs slots, e.2.rotation.yaw = 0 ∨ e.2.rotation.yaw = 180)
      ∧ (∀ e ∈ (Tick m w dt clk).state.cars, 0 ≤ e.2.rotation.yaw ∧ e.2.rotation.yaw < 360) := by
  refine ⟨?_, ⟨_, rfl⟩, (clampCarBounds_frame car).2.2.2.1, (resolveCarBall_frame m ball car).2.2.2,
    fun e he => (resetCars_mem cs slots e he).2, ?_⟩
  · obtain ⟨r, hr, h0, h1, k, hk⟩ := normalizeDegFuel_spec (degFuel d) d (le_refl _)
    have huniq : ∀ (s : ℚ) (j : ℤ), 0 ≤ s → s < 360 → d = s + 360 * (j : ℚ) → s = r := by
      intro s j hs0 hs1 hs
      exact deg_unique s r j k hs0 hs1 h0 h1 (by rw [← hs, ← hk])
    refine ⟨r, hr, ?_, ?_, h0, h1, ⟨k, hk⟩, huniq⟩
    · unfold normalizeDeg
      rw [hr]
      rfl
    · intro fuel hf
      obtain ⟨r2, hr2, h20, h21, k2, hk2⟩ := normalizeDegFuel_spec fuel d hf
      rw [hr2, huniq r2 k2 h20 h21 hk2]
  · apply Tick_cars_forall m w dt clk (fun c => 0 ≤ c.rotation.yaw ∧ c.rotation.yaw < 360)
      (fun _ => True) _ _ _ (fun _ _ => trivial)
    · intro car inp prev jc _
      rw [(clampCarBounds_frame _).2.2.2.1]
      have hs := normalizeDeg_spec
        (car.rotation.yaw + inp.steer *
          (if (inp.handbrake && car.isGrounded) = true then
            TurnRate * (0.55 + (1 - min (m.hypot car.velocity.x car.velocity.y / MaxBoostSpeed) 0.75))
              * HandbrakeTurnBoost
          else TurnRate * (0.55 + (1 - min (m.hypot car.velocity.x car.velocity.y / MaxBoostSpeed) 0.75)))
          * dt * 180 / m.pi)
      exact ⟨hs.1, hs.2.1⟩
    · intro ball car hp
      rw [(resolveCarBall_frame m ball car).2.2.2]
      exact hp
    · intro cs slots e he
      rcases (resetCars_mem cs slots e he).2 with h0 | h0 <;> rw [h0] <;> norm_num

theorem addLoopF64_faint (n : Nat) :
    addLoopF64 (n + 2) (-(6532531615742247 / 2596148429267413814265248164610048)) = some 360 := by
  have h1 : f64 (-(6532531615742247 / 2596148429267413814265248164610048) + 360) = 360 := by decide!
  rw [addLoopF64, if_pos (by norm_num), h1, addLoopF64, if_neg (by norm_num)]

theorem subLoopF64_stuck : ∀ fuel : Nat, subLoopF64 fuel (10 ^ 19) = none := by
  have h1 : f64 ((10 : ℚ) ^ 19 - 360) = 10 ^ 19 := by decide!
  intro fuel
  induction fuel with
  | zero => rfl
  | succ n ih => rw [subLoopF64, if_pos (by norm_num), h1, ih]

/-- C9 (the code leaves the range): the parked kickoff car `p1` has yaw 0 and the client
sends the steering `-1e-18`, which `clampInput` lets through and `ApplyInput` stores. On
`float64`, as the code
computes, the yaw before normalisation is `-2.516239650282865e-18`; the first loop of
`normalizeDeg` does not run, the second adds 360, and the sum rounds to `360`, which the
loop accepts and no later line tests: the yaw after the step is `360`, outside
`[0, 360)`. Over the rationals the same step gives a yaw in `[0, 360)`. For an argument
such as `1e19`, `d - 360` rounds back to `d`, and the first loop does not end. -/
theorem C9_yaw_reaches_360 :
    clampInput faintSteer = faintSteer
      ∧ (ApplyInput kickoffWorld faintSteer).input = [("p1", faintSteer)]
      ∧ (ApplyInput kickoffWorld faintSteer).state.cars = [("p1", kickoffCar)]
      ∧ faintSteer.steer = -(1298074214633707 / 1298074214633706907132624082305024)
      ∧ kickoffCar.rotation.yaw = 0 ∧ kickoffCar.velocity = ⟨0, 0, 0⟩
      ∧ f64 (kickoffCar.rotation.yaw
            + f64 (f64 (f64 (f64 (faintSteer.steer * f64 (f64 TurnRate * f64 (f64 0.55 + 1)))
              * f64 (1 / 120)) * 180) / f64 refOps.pi))
          = -(6532531615742247 / 2596148429267413814265248164610048)
      ∧ f64 (-(6532531615742247 / 2596148429267413814265248164610048) + 360) = 360
      ∧ (∀ fuel : Nat, 2 ≤ fuel →
          updateCarYawF64 refOps fuel kickoffCar faintSteer (f64 (1 / 120)) = some 360)
      ∧ ¬ ((360 : ℚ) < 360)
      ∧ 0 ≤ updateCarYaw refOps kickoffCar faintSteer (f64 (1 / 120))
      ∧ updateCarYaw refOps kickoffCar faintSteer (f64 (1 / 120)) < 360
      ∧ f64 ((10 : ℚ) ^ 19 - 360) = 10 ^ 19
      ∧ (∀ fuel : Nat, normalizeDegF64 fuel (10 ^ 19) = none) := by
  refine ⟨by decide!, by decide!, by decide!, by decide!, by decide!, by decide!, by decide!,
    by decide!, ?_, by norm_num, by decide!, by decide!, by decide!, fun fuel => ?_⟩
  · intro fuel hf
    obtain ⟨n, rfl⟩ : ∃ n, fuel = n + 2 := ⟨fuel - 2, by omega⟩
    have harg : f64 (kickoffCar.rotation.yaw
        + f64 (f64 (f64 (f64 (faintSteer.steer
            * (if faintSteer.handbrake && kickoffCar.isGrounded then
                f64 (f64 (f64 TurnRate * f64 (f64 0.55
                  + f64 (1 - min (f64 (f64 (refOps.hypot kickoffCar.velocity.x
                    kickoffCar.velocity.y) / MaxBoostSpeed)) (f64 0.75))))
                  * f64 HandbrakeTurnBoost)
              else f64 (f64 TurnRate * f64 (f64 0.55
                  + f64 (1 - min (f64 (f64 (refOps.hypot kickoffCar.velocity.x
                    kickoffCar.velocity.y) / MaxBoostSpeed)) (f64 0.75))))))
          * f64 (1 / 120)) * 180) / f64 refOps.pi))
        = -(6532531615742247 / 2596148429267413814265248164610048) := by decide!
    unfold updateCarYawF64
    simp only []
    rw [harg]
    unfold normalizeDegF64
    rw [subLoopF64, if_neg (by norm_num)]
    exact addLoopF64_faint n
  · unfold normalizeDegF64
    rw [subLoopF64_stuck]
    rfl

/-! ### Claims C11-C20 -/

theorem detectShotOnGoal_events (w : World) (now : Int) :
    ∃ shots : List GameplayEvent,
      (detectShotOnGoal w now).state.events = w.state.events ++ shots
        ∧ shots.Sublist [⟨"shot_on_goal", "", "orange", now⟩, ⟨"shot_on_goal", "", "blue", now⟩] := by
  unfold detectShotOnGoal
  simp only []
  split_ifs
  all_goals first
    | (refine ⟨[⟨"shot_on_goal", "", "orange", now⟩, ⟨"shot_on_goal", "", "blue", now⟩], ?_, ?_⟩
        <;> simp <;> done)
    | (refine ⟨[⟨"shot_on_goal", "", "orange", now⟩], ?_, ?_⟩ <;> simp <;> done)
    | (refine ⟨[⟨"shot_on_goal", "", "blue", now⟩], ?_, ?_⟩ <;> simp <;> done)
    | (refine ⟨[], ?_, ?_⟩ <;> simp <;> done)

theorem detectShotOnGoal_events_nil (w : World) (now : Int) (h : w.state.events = []) :
    (detectShotOnGoal w now).state.events.Sublist
      [⟨"shot_on_goal", "", "orange", now⟩, ⟨"shot_on_goal", "", "blue", now⟩] := by
  obtain ⟨shots, h1, h2⟩ := detectShotOnGoal_events w now
  rw [h1, h, List.nil_append]
  exact h2

theorem tickBeforeGoal_events (m : MathOps) (w : World) (dt : ℚ) (clk : TickClock) :
    (tickBeforeGoal m w dt clk).state.events.Sublist
      [⟨"shot_on_goal", "", "orange", clk.shotMS⟩, ⟨"shot_on_goal", "", "blue", clk.shotMS⟩] := by
  unfold tickBeforeGoal
  apply detectShotOnGoal_events_nil
  rfl

theorem Tick_events_shape (m : MathOps) (w : World) (dt : ℚ) (clk : TickClock) :
    ∃ shots tail : List GameplayEvent,
      (Tick m w dt clk).state.events = shots ++ tail
        ∧ shots.Sublist
            [⟨"shot_on_goal", "", "orange", clk.shotMS⟩, ⟨"shot_on_goal", "", "blue", clk.shotMS⟩]
        ∧ (tail = []
            ∨ tail = [⟨"goal", "", "orange", clk.goalMS⟩, ⟨"kickoff", "", "orange", clk.kickoffMS⟩]
            ∨ tail = [⟨"goal", "", "blue", clk.goalMS⟩, ⟨"kickoff", "", "blue", clk.kickoffMS⟩]) := by
  refine ⟨(tickBeforeGoal m w dt clk).state.events, ?_⟩
  unfold Tick
  by_cases hc : |(tickBeforeGoal m w dt clk).state.ball.position.y| ≤ GoalWidth / 2
      ∧ (tickBeforeGoal m w dt clk).state.ball.position.z ≤ GoalHeight
      ∧ |(tickBeforeGoal m w dt clk).state.ball.position.x| ≥ ArenaLength / 2
  · obtain ⟨hy, hz, hx⟩ := hc
    rcases le_abs.mp hx with h1 | h1
    · refine ⟨_, ?_, tickBeforeGoal_events m w dt clk, Or.inr (Or.inl rfl)⟩
      rw [detectGoal_orange _ _ _ hy hz h1]
      simp [resetKickoff_events]
    · have h2 : (tickBeforeGoal m w dt clk).state.ball.position.x ≤ -ArenaLength / 2 := by
        linarith
      refine ⟨_, ?_, tickBeforeGoal_events m w dt clk, Or.inr (Or.inr rfl)⟩
      rw [detectGoal_blue _ _ _ hy hz h2]
      simp [resetKickoff_events]
  · refine ⟨[], ?_, tickBeforeGoal_events m w dt clk, Or.inl rfl⟩
    rw [detectGoal_none _ _ _ hc]
    simp

/-- C11 (the code at the failing input): the ball rests on the floor touching a parked car;
`clampBallBounds` puts it back at `z = BallRadius`, contact resolution then moves it by
0.85 of the overlap along the line from the car centre (which points slightly downward),
and `Tick(1/120)` ends with the ball at `z` between 88 and 89, below `BallRadius = 91.25`,
with no goal scored. -/
theorem C11_ball_pushed_below_floor :
    restingBallWorld.state.ball.position = ⟨-1948, 0, BallRadius⟩
      ∧ restingBallWorld.state.ball.velocity = ⟨0, 0, 0⟩
      ∧ restingBallWorld.state.cars.map (fun e => e.2.position) = [⟨-2048, 0, CarRadius⟩]
      ∧ (Tick refOps restingBallWorld (1 / 120) clock0).state.events = []
      ∧ 88 < (Tick refOps restingBallWorld (1 / 120) clock0).state.ball.position.z
      ∧ (Tick refOps restingBallWorld (1 / 120) clock0).state.ball.position.z < 89
      ∧ ¬ (BallRadius ≤ (Tick refOps restingBallWorld (1 / 120) clock0).state.ball.position.z) := by
  decide!

/-- C18: the events list after a `Tick` does not depend on the events that were in the list
before it; it is made of at most one shot_on_goal event per team (orange first) followed
by nothing or by a goal event and then a kickoff event of the same team. Hence every event
has type shot_on_goal, goal or kickoff and team orange or blue: no player_join or
player_leave event and no creation kickoff (whose team is empty) is in the list. -/
theorem C18_events_per_tick (m : MathOps) (w : World) (dt : ℚ) (clk : TickClock) :
    (Tick m w dt clk).state.events
        = (Tick m { w with state := { w.state with events := [] } } dt clk).state.events
      ∧ (∃ shots tail : List GameplayEvent,
          (Tick m w dt clk).state.events = shots ++ tail
            ∧ shots.Sublist
                [⟨"shot_on_goal", "", "orange", clk.shotMS⟩, ⟨"shot_on_goal", "", "blue", clk.shotMS⟩]
            ∧ (tail = []
                ∨ tail = [⟨"goal", "", "orange", clk.goalMS⟩, ⟨"kickoff", "", "orange", clk.kickoffMS⟩]
                ∨ tail = [⟨"goal", "", "blue", clk.goalMS⟩, ⟨"kickoff", "", "blue", clk.kickoffMS⟩]))
      ∧ (∀ e ∈ (Tick m w dt clk).state.events,
          (e.type = "shot_on_goal" ∨ e.type = "goal" ∨ e.type = "kickoff")
            ∧ e.type ≠ "player_join" ∧ e.type ≠ "player_leave"
            ∧ (e.team = "orange" ∨ e.team = "blue")) := by
  refine ⟨?_, Tick_events_shape m w dt clk, ?_⟩
  · unfold Tick
    rw [tickBeforeGoal_drops_events]
  · obtain ⟨shots, tail, hev, hsub, htail⟩ := Tick_events_shape m w dt clk
    intro e he
    rw [hev, List.mem_append] at he
    rcases he with he | he
    · have := hsub.subset he
      simp only [List.mem_cons, List.mem_singleton, List.not_mem_nil, or_false] at this
      rcases this with h | h <;> subst h <;> simp
    · rcases htail with h | h | h <;> subst h
      · simp at he
      · simp only [List.mem_cons, List.mem_singleton, List.not_mem_nil, or_false] at he
        rcases he with h | h <;> subst h <;> simp
      · simp only [List.mem_cons, List.mem_singleton, List.not_mem_nil, or_false] at he
        rcases he with h | h <;> subst h <;> simp

/-- C19 (as stated, refuted): with `dt = 1/60`, `dt * 1000 = 16.67` rounds to 17 but the code
subtracts `int(dt * 1000) = 16`: the timer goes from 10000 to 9984, not to 9983. -/
theorem C19_counterexample :
    kickoffWorld.state.score.timeRemainingMS = 10000
      ∧ round ((1 / 60 : ℚ) * 1000) = 17
      ∧ max 0 (10000 - max 1 (round ((1 / 60 : ℚ) * 1000))) = 9983
      ∧ (Tick refOps kickoffWorld (1 / 60) clock0).state.score.timeRemainingMS = 9984 := by
  have hr : round ((1 / 60 : ℚ) * 1000) = 17 := by
    rw [round_eq]
    norm_num [Int.floor_eq_iff]
  refine ⟨by decide!, hr, ?_, by decide!⟩
  rw [hr]
  decide

theorem tickTimer_pos (s : ScoreState) (dt : ℚ) (h : 0 < s.timeRemainingMS) :
    (tickTimer s dt).timeRemainingMS
      = max 0 (s.timeRemainingMS - max 1 (intOfF64 (f64 (dt * 1000)))) := by
  unfold tickTimer
  simp only [gt_iff_lt, h, if_true]
  by_cases h1 : intOfF64 (f64 (dt * 1000)) < 1
  · have hm : max 1 (intOfF64 (f64 (dt * 1000))) = 1 := max_eq_left (by omega)
    rw [hm]
    simp only [h1, if_true]
    split_ifs with h2
    · exact (max_eq_left (by omega)).symm
    · exact (max_eq_right (by omega)).symm
  · have hm : max 1 (intOfF64 (f64 (dt * 1000))) = intOfF64 (f64 (dt * 1000)) := max_eq_right (by omega)
    rw [hm]
    simp only [h1, if_false]
    split_ifs with h2
    · exact (max_eq_left (by omega)).symm
    · exact (max_eq_right (by omega)).symm

theorem Tick_timer (m : MathOps) (w : World) (dt : ℚ) (clk : TickClock) :
    (Tick m w dt clk).state.score.timeRemainingMS
      = (tickTimer w.state.score dt).timeRemainingMS := by
  unfold Tick
  rw [detectGoal_timer, tickBeforeGoal_score]

/-- C19 (amended): a `Tick(dt)` that starts with `time_remaining_ms = t > 0` ends with
`max(0, t - max(1, int(dt*1000)))`, where `dt*1000` is the `float64` product and `int`
truncates it toward zero (no rounding to the nearest integer); the result is strictly
below `t` and not negative; a timer at 0 (or below) is left as it is. The conversion is
the truncation whenever the product is within the range of `int`. In a 10 s match one
`Tick(1/120)` takes the timer from 10000 to 9992, and one `Tick(0.009)` takes it to 9991,
the `float64` product being 9; a product beyond the range of `int`, as for `dt = 1e16`,
is converted to the least `int` on amd64 and takes 1 ms. -/
theorem C19_timer (m : MathOps) (w : World) (dt : ℚ) (clk : TickClock) :
    (0 < w.state.score.timeRemainingMS →
        (Tick m w dt clk).state.score.timeRemainingMS
            = max 0 (w.state.score.timeRemainingMS - max 1 (intOfF64 (f64 (dt * 1000))))
          ∧ (Tick m w dt clk).state.score.timeRemainingMS < w.state.score.timeRemainingMS
          ∧ 0 ≤ (Tick m w dt clk).state.score.timeRemainingMS)
      ∧ (w.state.score.timeRemainingMS ≤ 0 →
          (Tick m w dt clk).state.score.timeRemainingMS = w.state.score.timeRemainingMS)
      ∧ (-9223372036854775808 ≤ truncToInt (f64 (dt * 1000))
            ∧ truncToInt (f64 (dt * 1000)) < 9223372036854775808 →
          intOfF64 (f64 (dt * 1000))
            = (if 0 ≤ f64 (dt * 1000) then (f64 (dt * 1000)).floor
                else -(-(f64 (dt * 1000))).floor))
      ∧ (kickoffWorld.state.score.timeRemainingMS = 10000
          ∧ (Tick refOps kickoffWorld (1 / 120) clock0).state.score.timeRemainingMS = 9992
          ∧ f64 (9 / 1000) = 5188146770730811 / 576460752303423488
          ∧ (5188146770730811 / 576460752303423488 : ℚ) * 1000 < 9
          ∧ f64 (5188146770730811 / 576460752303423488 * 1000) = 9
          ∧ (Tick refOps kickoffWorld (5188146770730811 / 576460752303423488)
              clock0).state.score.timeRemainingMS = 9991
          ∧ (tickTimer kickoffWorld.state.score 10000000000000000).timeRemainingMS = 9999) := by
  refine ⟨?_, ?_, ?_, by decide!, by decide!, by decide!, by decide!, by decide!, by decide!,
    by decide!⟩
  · intro ht
    rw [Tick_timer, tickTimer_pos _ _ ht]
    have h1 : 1 ≤ max 1 (intOfF64 (f64 (dt * 1000))) := le_max_left _ _
    refine ⟨rfl, ?_, le_max_left _ _⟩
    apply max_lt ht
    omega
  · intro ht
    rw [Tick_timer]
    unfold tickTimer
    have : ¬ w.state.score.timeRemainingMS > 0 := by omega
    simp [this]
  · intro hr
    unfold intOfF64
    simp only []
    rw [if_pos hr]
    rfl

/-- C19 (amended) run on the 10 s one-player world with `dt = 1/120`. -/
theorem C19_timer_witness :
    0 < kickoffWorld.state.score.timeRemainingMS
      ∧ (Tick refOps kickoffWorld (1 / 120) clock0).state.score.timeRemainingMS
          < kickoffWorld.state.score.timeRemainingMS :=
  ⟨by decide!, ((C19_timer refOps kickoffWorld (1 / 120) clock0).1 (by decide!)).2.1⟩

/-! #### Stored inputs -/

theorem lookup_setKey_other {α : Type} (l : List (String × α)) (k t : String) (v : α)
    (h : t ≠ k) : (setKey l k v).lookup t = l.lookup t := by
  induction l with
  | nil => simp [setKey, lookup_cons_ite, h]
  | cons e rest ih =>
    obtain ⟨k1, v1⟩ := e
    unfold setKey
    split_ifs with h1
    · have h2 : ¬ t = k1 := by rw [h1]; exact h
      simp [lookup_cons_ite, h, h2]
    · simp only [lookup_cons_ite, ih]

theorem setKey_setKey {α : Type} (l : List (String × α)) (k : String) (a b : α) :
    setKey (setKey l k a) k b = setKey l k b := by
  induction l with
  | nil => simp [setKey]
  | cons e rest ih =>
    obtain ⟨k1, v1⟩ := e
    by_cases h1 : k1 = k
    · simp [setKey, h1]
    · simp [setKey, h1, ih]

theorem getInput_setKey (input : List (String × CarInput)) (k t : String) (v : CarInput) :
    getInput (setKey input k v) t = if t = k then v else getInput input t := by
  unfold getInput
  split_ifs with h
  · rw [h, lookup_setKey_self]
    rfl
  · rw [lookup_setKey_other _ _ _ _ h]

theorem getInput_botInputs (m : MathOps) (ball : BallState) (tick : Nat) (now : Int) (id : String)
    (cars : List (String × CarState)) :
    ∀ input : List (String × CarInput), (∀ e ∈ cars, e.1 = id → e.2.isBot = false) →
      getInput (botInputs m ball tick now cars input) id = getInput input id := by
  induction cars with
  | nil => intro input _; rfl
  | cons hd rest ih =>
    intro input h
    obtain ⟨k, car⟩ := hd
    have hrest : ∀ e ∈ rest, e.1 = id → e.2.isBot = false :=
      fun e he => h e (List.mem_cons_of_mem _ he)
    unfold botInputs
    by_cases hb : car.isBot = true
    · have hk : id ≠ k := by
        intro hid
        have := h (k, car) (List.mem_cons_self _ _) hid.symm
        simp [hb] at this
      simp only [hb, Bool.not_true, Bool.false_eq_true, if_false]
      rw [ih _ hrest, getInput_setKey]
      simp [hk]
    · have hf : car.isBot = false := by simpa using hb
      simp only [hf, Bool.not_false, if_true]
      exact ih _ hrest

theorem tickCars_lastInput (m : MathOps) (input : List (String × CarInput)) (dt : ℚ)
    (cars : List (String × CarState)) :
    ∀ jump : List (String × jumpContext),
      ∀ e ∈ (tickCars m input dt cars jump).1, e.2.lastInput = getInput input e.1 := by
  induction cars with
  | nil => intro jump e he; simp [tickCars] at he
  | cons hd rest ih =>
    intro jump e he
    obtain ⟨id, car⟩ := hd
    simp only [tickCars, List.mem_cons] at he
    rcases he with he | he
    · subst he
      unfold clampCarBounds
      simp only []
      split_ifs <;> rfl
    · exact ih _ e he

theorem resolveCarBall_lastInput (m : MathOps) (ball : BallState) (car : CarState) :
    (resolveCarBall m ball car).2.lastInput = car.lastInput := by
  unfold resolveCarBall
  simp only []
  split_ifs <;> rfl

theorem resolveCars_keyed (m : MathOps) (P : String → CarInput → Prop)
    (cars : List (String × CarState)) :
    ∀ ball : BallState, (∀ e ∈ cars, P e.1 e.2.lastInput) →
      ∀ e ∈ (resolveCars m cars ball).1, P e.1 e.2.lastInput := by
  induction cars with
  | nil => intro ball _ e he; simp [resolveCars] at he
  | cons hd rest ih =>
    intro ball hq e he
    obtain ⟨id, car⟩ := hd
    simp only [resolveCars, List.mem_cons] at he
    rcases he with he | he
    · subst he
      simp only [resolveCarBall_lastInput]
      exact hq (id, car) (List.mem_cons_self _ _)
    · exact ih _ (fun x hx => hq x (List.mem_cons_of_mem _ hx)) e he

theorem resetCars_keyed (P : String → CarInput → Prop) (cs : List (String × CarState)) :
    ∀ slots : List (String × Nat), (∀ e ∈ cs, P e.1 e.2.lastInput) →
      ∀ e ∈ resetCars cs slots, P e.1 e.2.lastInput := by
  induction cs with
  | nil => intro slots _ e he; simp [resetCars] at he
  | cons hd rest ih =>
    intro slots hq e he
    obtain ⟨id, car⟩ := hd
    simp only [resetCars, List.mem_cons] at he
    rcases he with he | he
    · subst he
      have := hq (id, car) (List.mem_cons_self _ _)
      split_ifs <;> exact this
    · exact ih _ (fun x hx => hq x (List.mem_cons_of_mem _ hx)) e he

theorem detectGoal_input (w : World) (now nowKick : Int) :
    (detectGoalAndResetIfNeeded w now nowKick).input = w.input := by
  unfold detectGoalAndResetIfNeeded resetKickoff
  simp only []
  split_ifs <;> rfl

theorem detectShotOnGoal_input (w : World) (now : Int) :
    (detectShotOnGoal w now).input = w.input := by
  unfold detectShotOnGoal
  simp only []
  split_ifs <;> rfl

theorem Tick_input (m : MathOps) (w : World) (dt : ℚ) (clk : TickClock) :
    (Tick m w dt clk).input
      = botInputs m w.state.ball (w.state.tick + 1) clk.botMS w.state.cars w.input := by
  unfold Tick
  rw [detectGoal_input]
  unfold tickBeforeGoal
  rw [detectShotOnGoal_input]
  rfl

theorem Tick_lastInput (m : MathOps) (w : World) (dt : ℚ) (clk : TickClock) :
    ∀ e ∈ (Tick m w dt clk).state.cars, e.2.lastInput = getInput (Tick m w dt clk).input e.1 := by
  rw [Tick_input]
  have hpre : ∀ e ∈ (tickBeforeGoal m w dt clk).state.cars,
      e.2.lastInput
        = getInput (botInputs m w.state.ball (w.state.tick + 1) clk.botMS w.state.cars w.input)
            e.1 := by
    rw [tickBeforeGoal_cars]
    apply resolveCars_keyed m (fun id li =>
      li = getInput (botInputs m w.state.ball (w.state.tick + 1) clk.botMS w.state.cars w.input) id)
    exact tickCars_lastInput m _ dt _ _
  rcases Tick_cars_cases m w dt clk with h | h
  · rw [h]
    exact hpre
  · rw [h]
    exact resetCars_keyed (fun id li =>
      li = getInput (botInputs m w.state.ball (w.state.tick + 1) clk.botMS w.state.cars w.input) id)
      _ _ hpre

theorem clampInput_eq (inp : CarInput) :
    clampInput inp
      = { inp with throttle := min 1 (max (-1) inp.throttle),
                   steer := min 1 (max (-1) inp.steer) } := by
  obtain ⟨pid, sq, th, st, bo, ju, hb, cm⟩ := inp
  have hth : (if (if th > 1 then (1 : ℚ) else th) < -1 then (-1 : ℚ) else (if th > 1 then 1 else th))
      = min 1 (max (-1) th) := by
    simp only [min_def, max_def]
    split_ifs <;> linarith
  have hst : (if (if st > 1 then (1 : ℚ) else st) < -1 then (-1 : ℚ) else (if st > 1 then 1 else st))
      = min 1 (max (-1) st) := by
    simp only [min_def, max_def]
    split_ifs <;> linarith
  simp only [clampInput, ← hth, ← hst]
  split_ifs <;> rfl

/-- C13 (as stated, refuted): for the id of a bot car the input stored by `ApplyInput`
(half throttle) is not what the next `Tick` copies into `last_input`: `computeBotInputs`
first replaces it by the synthesized input (full throttle, boost, sequence = tick). -/
theorem C13_counterexample :
    botInputWorld.state.cars.map (fun e => (e.1, e.2.isBot))
        = [("p1", false), ("bot_blue_120000.000000000", true)]
      ∧ botInputWorld.input.lookup "bot_blue_120000.000000000"
        = some ⟨"bot_blue_120000.000000000", 7, 1 / 2, 0, false, false, false, 0⟩
      ∧ (Tick refOps botInputWorld (1 / 120) clock0).state.cars.map (fun e => (e.1, e.2.lastInput))
        = [("p1", CarInput.zero), ("bot_blue_120000.000000000", ⟨"bot_blue_120000.000000000", 1, 1, 0, true, false, false, 0⟩)] := by
  decide!

/-- C13 (amended): `ApplyInput(in)` stores under `in.player_id` the input with throttle and
steer clamped into `[-1, 1]` and every other field as given, whether or not a car has that
id; a second `ApplyInput` for the same id replaces the first; the inputs stored under other
ids, the match state and the jump contexts are unchanged; and when no car under that id
is a bot, the next `Tick` copies the stored value into that car's `last_input`. -/
theorem C13_apply_input (m : MathOps) (w : World) (a b : CarInput) (dt : ℚ) (clk : TickClock) :
    (ApplyInput w b).input.lookup b.playerID = some (clampInput b)
      ∧ clampInput b = { b with throttle := min 1 (max (-1) b.throttle),
                                steer := min 1 (max (-1) b.steer) }
      ∧ (a.playerID = b.playerID → ApplyInput (ApplyInput w a) b = ApplyInput w b)
      ∧ (∀ k : String, k ≠ b.playerID → (ApplyInput w b).input.lookup k = w.input.lookup k)
      ∧ (ApplyInput w b).state = w.state ∧ (ApplyInput w b).jump = w.jump
      ∧ (ApplyInput w b).lastShotOrange = w.lastShotOrange
      ∧ (ApplyInput w b).lastShotBlue = w.lastShotBlue
      ∧ ((∀ e ∈ w.state.cars, e.1 = b.playerID → e.2.isBot = false) →
          ∀ e ∈ (Tick m (ApplyInput w b) dt clk).state.cars, e.1 = b.playerID →
            e.2.lastInput = clampInput b) := by
  refine ⟨lookup_setKey_self _ _ _, clampInput_eq b, ?_,
    fun k hk => lookup_setKey_other _ _ _ _ hk, rfl, rfl, rfl, rfl, ?_⟩
  · intro hab
    unfold ApplyInput
    simp only [hab, setKey_setKey]
  · intro hbot e he hid
    rw [Tick_lastInput m _ dt clk e he, Tick_input, hid]
    rw [getInput_botInputs m (ApplyInput w b).state.ball ((ApplyInput w b).state.tick + 1)
      clk.botMS b.playerID (ApplyInput w b).state.cars (ApplyInput w b).input hbot]
    unfold ApplyInput
    simp only [getInput_setKey, if_true]

/-- C13 (amended) run on the one-player world: the throttle input stored for the human `p1`
is the `last_input` of its car after the next `Tick`. -/
theorem C13_apply_input_witness :
    (∀ e ∈ kickoffWorld.state.cars, e.1 = "p1" → e.2.isBot = false)
      ∧ ∀ e ∈ (Tick refOps (ApplyInput kickoffWorld ⟨"p1", 3, 5, 0, false, false, false, 0⟩)
            (1 / 120) clock0).state.cars,
          e.1 = "p1" → e.2.lastInput = clampInput ⟨"p1", 3, 5, 0, false, false, false, 0⟩ :=
  ⟨by decide!,
    (C13_apply_input refOps kickoffWorld CarInput.zero ⟨"p1", 3, 5, 0, false, false, false, 0⟩
      (1 / 120) clock0).2.2.2.2.2.2.2.2 (by decide!)⟩

/-! #### EnsurePlayer -/

theorem setKey_lookup_self {α : Type} (l : List (String × α)) (k : String) (v : α)
    (h : l.lookup k = some v) : setKey l k v = l := by
  induction l with
  | nil => simp [List.lookup] at h
  | cons e rest ih =>
    obtain ⟨k1, v1⟩ := e
    rw [lookup_cons_ite] at h
    unfold setKey
    split_ifs at h with h1
    · have hv : v1 = v := by simpa using h
      simp [h1.symm, hv]
    · have h2 : ¬ k1 = k := fun hh => h1 hh.symm
      simp only [h2, if_false, ih h]

theorem setKey_keys {α : Type} (l : List (String × α)) (k : String) (v c : α)
    (h : l.lookup k = some c) : (setKey l k v).map Prod.fst = l.map Prod.fst := by
  induction l with
  | nil => simp [List.lookup] at h
  | cons e rest ih =>
    obtain ⟨k1, v1⟩ := e
    rw [lookup_cons_ite] at h
    unfold setKey
    split_ifs at h with h1
    · simp [h1.symm]
    · have h2 : ¬ k1 = k := fun hh => h1 hh.symm
      simp only [h2, if_false, List.map_cons, ih h]

theorem setKey_absent {α : Type} (l : List (String × α)) (k : String) (v : α)
    (h : l.lookup k = none) : setKey l k v = l ++ [(k, v)] := by
  induction l with
  | nil => rfl
  | cons e rest ih =>
    obtain ⟨k1, v1⟩ := e
    rw [lookup_cons_ite] at h
    unfold setKey
    split_ifs at h with h1
    have h2 : ¬ k1 = k := fun hh => h1 hh.symm
    simp only [h2, if_false, ih h, List.cons_append]

theorem EnsurePlayer_present (w : World) (id name : String) (now : Int) (c : CarState)
    (h : w.state.cars.lookup id = some c) :
    EnsurePlayer w id name now =
      ({ w with
          state := { w.state with
            cars := setKey w.state.cars id
              { c with displayName := if name ≠ "" then name else c.displayName, isBot := false } },
          jump := match w.jump.lookup id with
            | some _ => w.jump
            | none => setKey w.jump id jumpContext.zero }, c.team) := by
  unfold EnsurePlayer
  rw [h]
  simp only []
  split_ifs <;> rfl

theorem EnsurePlayer_fix (w : World) (id name : String) (now : Int) (c : CarState)
    (h : w.state.cars.lookup id = some c) (hb : c.isBot = false)
    (hn : name ≠ "" → c.displayName = name) (j : jumpContext) (hj : w.jump.lookup id = some j) :
    EnsurePlayer w id name now = (w, c.team) := by
  rw [EnsurePlayer_present w id name now c h, hj]
  have hc : ({ c with displayName := if name ≠ "" then name else c.displayName, isBot := false }
      : CarState) = c := by
    obtain ⟨a1, a2, a3, a4, a5, a6, a7, a8, a9, a10⟩ := c
    simp only [CarState.mk.injEq, true_and, and_true] at hb hn ⊢
    refine ⟨?_, hb.symm⟩
    split_ifs with h1
    · exact (hn h1).symm
    · rfl
  rw [hc, setKey_lookup_self _ _ _ h]

theorem EnsurePlayer_absent (w : World) (id name : String) (now : Int)
    (h : w.state.cars.lookup id = none) :
    EnsurePlayer w id name now =
      (if ((w.state.cars.filter (fun e => !e.2.isBot)).filter (fun e => e.2.team ≠ "blue")).length
          > ((w.state.cars.filter (fun e => !e.2.isBot)).filter (fun e => e.2.team = "blue")).length
       then
        ({ w with
            state := { w.state with
              cars := setKey w.state.cars id (spawnCar id name "blue" false
                ((w.state.cars.filter (fun e => !e.2.isBot)).filter
                  (fun e => e.2.team = "blue")).length),
              events := w.state.events ++ [⟨"player_join", id, "blue", now⟩] },
            jump := setKey w.jump id jumpContext.zero }, "blue")
       else
        ({ w with
            state := { w.state with
              cars := setKey w.state.cars id (spawnCar id name "orange" false
                ((w.state.cars.filter (fun e => !e.2.isBot)).filter
                  (fun e => e.2.team ≠ "blue")).length),
              events := w.state.events ++ [⟨"player_join", id, "orange", now⟩] },
            jump := setKey w.jump id jumpContext.zero }, "orange")) := by
  unfold EnsurePlayer
  rw [h]
  simp only []
  have hne : ¬ ("orange" = "blue") := by decide
  by_cases h1 : ((w.state.cars.filter (fun e => !e.2.isBot)).filter
      (fun e => e.2.team ≠ "blue")).length
        > ((w.state.cars.filter (fun e => !e.2.isBot)).filter (fun e => e.2.team = "blue")).length
  · simp only [h1, if_true]
  · simp only [h1, if_false, hne]

theorem humans_blue (cars : List (String × CarState)) :
    ((cars.filter (fun e => !e.2.isBot)).filter (fun e => e.2.team = "blue")).length
      = cars.countP (fun e => !e.2.isBot && decide (e.2.team = "blue")) := by
  rw [List.filter_filter, List.countP_eq_length_filter]
  congr 1
  apply List.filter_congr
  intro x _
  simp [Bool.and_comm]

theorem humans_orange (cars : List (String × CarState))
    (ht : ∀ e ∈ cars, e.2.team = "orange" ∨ e.2.team = "blue") :
    ((cars.filter (fun e => !e.2.isBot)).filter (fun e => e.2.team ≠ "blue")).length
      = cars.countP (fun e => !e.2.isBot && decide (e.2.team = "orange")) := by
  rw [List.filter_filter, List.countP_eq_length_filter]
  congr 1
  apply List.filter_congr
  intro x hx
  rcases ht x hx with h | h <;> simp [h, Bool.and_comm]


theorem EnsurePlayer_idem (w : World) (id name : String) (now now2 : Int) :
    EnsurePlayer (EnsurePlayer w id name now).1 id name now2 = EnsurePlayer w id name now := by
  have key : ∀ (w1 : World) (t : String) (c1 : CarState),
      w1.state.cars.lookup id = some c1 → c1.isBot = false → (name ≠ "" → c1.displayName = name) →
      c1.team = t → (∃ j, w1.jump.lookup id = some j) →
        EnsurePlayer w1 id name now2 = (w1, t) := by
    intro w1 t c1 h1 h2 h3 h4 ⟨j, h5⟩
    rw [← h4]
    exact EnsurePlayer_fix w1 id name now2 c1 h1 h2 h3 j h5
  cases h : w.state.cars.lookup id with
  | some c =>
    rw [EnsurePlayer_present w id name now c h]
    refine key _ _ _ (lookup_setKey_self _ _ _) rfl (fun hn => by simp [hn]) rfl ?_
    cases hj0 : w.jump.lookup id with
    | some j => exact ⟨j, hj0⟩
    | none => exact ⟨_, lookup_setKey_self _ _ _⟩
  | none =>
    have h1 : ∃ (t : String) (slot : Nat), EnsurePlayer w id name now =
        ({ w with
            state := { w.state with
              cars := setKey w.state.cars id (spawnCar id name t false slot),
              events := w.state.events ++ [⟨"player_join", id, t, now⟩] },
            jump := setKey w.jump id jumpContext.zero }, t) := by
      unfold EnsurePlayer
      rw [h]
      exact ⟨_, _, rfl⟩
    obtain ⟨t, slot, h1⟩ := h1
    rw [h1]
    exact key _ _ _ (lookup_setKey_self _ _ _) rfl (fun _ => rfl) rfl
      ⟨_, lookup_setKey_self _ _ _⟩

/-- C14: for an id that has a car, `EnsurePlayer` returns that car's team, sets `is_bot` to
false, replaces the display name only when the given name is not empty, and changes
nothing else in the match state (same car ids, other cars, ball, score, tick, events) nor
the stored inputs; the jump map only gains a zero entry for the id when it had none.
Called twice in a row (for any id) it returns the same team and leaves the world as
after the first call. -/
theorem C14_ensure_player_idempotent (w : World) (id name : String) (now now2 : Int) :
    (∀ c : CarState, w.state.cars.lookup id = some c →
        (EnsurePlayer w id name now).2 = c.team
          ∧ (EnsurePlayer w id name now).1.state.cars
            = setKey w.state.cars id
                { c with displayName := if name ≠ "" then name else c.displayName,
                         isBot := false }
          ∧ (EnsurePlayer w id name now).1.state.ball = w.state.ball
          ∧ (EnsurePlayer w id name now).1.state.score = w.state.score
          ∧ (EnsurePlayer w id name now).1.state.tick = w.state.tick
          ∧ (EnsurePlayer w id name now).1.state.cars.lookup id
            = some { c with displayName := if name ≠ "" then name else c.displayName,
                            isBot := false }
          ∧ (∀ k : String, k ≠ id →
              (EnsurePlayer w id name now).1.state.cars.lookup k = w.state.cars.lookup k)
          ∧ (EnsurePlayer w id name now).1.state.cars.map Prod.fst = w.state.cars.map Prod.fst
          ∧ (EnsurePlayer w id name now).1.state.events = w.state.events
          ∧ (EnsurePlayer w id name now).1.input = w.input
          ∧ (∀ k : String, k ≠ id →
              (EnsurePlayer w id name now).1.jump.lookup k = w.jump.lookup k)
          ∧ (∀ j : jumpContext, w.jump.lookup id = some j →
              (EnsurePlayer w id name now).1.jump = w.jump))
      ∧ EnsurePlayer (EnsurePlayer w id name now).1 id name now2 = EnsurePlayer w id name now := by
  refine ⟨?_, EnsurePlayer_idem w id name now now2⟩
  intro c h
  rw [EnsurePlayer_present w id name now c h]
  refine ⟨rfl, rfl, rfl, rfl, rfl, lookup_setKey_self _ _ _,
    fun k hk => lookup_setKey_other _ _ _ _ hk, setKey_keys _ _ _ c h, rfl, rfl, ?_, ?_⟩
  · intro k hk
    simp only []
    cases hj : w.jump.lookup id with
    | some j => rfl
    | none => exact lookup_setKey_other _ _ _ _ hk
  · intro j hj
    simp only [hj]

/-- C14 run on the one-player world: `p1` has a car, and `EnsurePlayer` returns its team. -/
theorem C14_ensure_player_witness :
    kickoffWorld.state.cars.lookup "p1" = some (spawnCar "p1" "p1" "orange" false 0)
      ∧ (EnsurePlayer kickoffWorld "p1" "Pilot" 5).2 = "orange" :=
  ⟨by decide!,
    ((C14_ensure_player_idempotent kickoffWorld "p1" "Pilot" 5 6).1
      (spawnCar "p1" "p1" "orange" false 0) (by decide!)).1⟩

/-- C15: for an id without a car (in a world whose cars are all on team orange or blue)
`EnsurePlayer` returns "blue" iff there are more non-bot cars on orange than on blue and
"orange" otherwise; it appends one car under that id, not a bot, boost 100, grounded, at
rest, at `x = -2048`, yaw 0 (orange) or `x = 2048`, yaw 180 (blue), `z = CarRadius` and
`y = kickoffSlotOffset k`, `k` the number of non-bot cars of the chosen team before the
call; it appends one player_join event for the id and team; all other cars, the ball, the
score and the stored inputs are unchanged. -/
theorem C15_ensure_player_new (w : World) (id name : String) (now : Int)
    (h : w.state.cars.lookup id = none)
    (ht : ∀ e ∈ w.state.cars, e.2.team = "orange" ∨ e.2.team = "blue") :
    ((EnsurePlayer w id name now).2 = "blue" ↔
        w.state.cars.countP (fun e => !e.2.isBot && decide (e.2.team = "orange"))
          > w.state.cars.countP (fun e => !e.2.isBot && decide (e.2.team = "blue")))
      ∧ ((EnsurePlayer w id name now).2 = "orange" ∨ (EnsurePlayer w id name now).2 = "blue")
      ∧ (∃ c : CarState,
          (EnsurePlayer w id name now).1.state.cars = w.state.cars ++ [(id, c)]
            ∧ c.playerID = id ∧ c.displayName = name ∧ c.team = (EnsurePlayer w id name now).2
            ∧ c.isBot = false ∧ c.boost = 100 ∧ c.isGrounded = true ∧ c.velocity = ⟨0, 0, 0⟩
            ∧ c.position.z = CarRadius
            ∧ (c.team = "orange" → c.position.x = -2048 ∧ c.rotation.yaw = 0)
            ∧ (c.team = "blue" → c.position.x = 2048 ∧ c.rotation.yaw = 180)
            ∧ c.position.y = kickoffSlotOffset
                (w.state.cars.countP (fun e => !e.2.isBot && decide (e.2.team = c.team))))
      ∧ (EnsurePlayer w id name now).1.state.events
          = w.state.events ++ [⟨"player_join", id, (EnsurePlayer w id name now).2, now⟩]
      ∧ (EnsurePlayer w id name now).1.state.ball = w.state.ball
      ∧ (EnsurePlayer w id name now).1.state.score = w.state.score
      ∧ (EnsurePlayer w id name now).1.state.tick = w.state.tick
      ∧ (EnsurePlayer w id name now).1.input = w.input := by
  have hO := humans_orange w.state.cars ht
  have hB := humans_blue w.state.cars
  rw [EnsurePlayer_absent w id name now h, hO, hB]
  have hne : ¬ ("orange" = "blue") := by decide
  by_cases h1 : w.state.cars.countP (fun e => !e.2.isBot && decide (e.2.team = "orange"))
      > w.state.cars.countP (fun e => !e.2.isBot && decide (e.2.team = "blue"))
  · rw [if_pos h1]
    refine ⟨⟨fun _ => h1, fun _ => rfl⟩, Or.inr rfl,
      ⟨_, setKey_absent _ _ _ h, rfl, rfl, rfl, rfl, rfl, rfl, rfl, ?_, ?_, ?_, ?_⟩,
      rfl, rfl, rfl, rfl, rfl⟩
    · simp [spawnCar]
    · intro hc
      simp [spawnCar] at hc
    · intro _
      simp [spawnCar]
    · simp [spawnCar]
  · rw [if_neg h1]
    refine ⟨⟨fun hc => absurd hc hne, fun hc => absurd hc h1⟩, Or.inl rfl,
      ⟨_, setKey_absent _ _ _ h, rfl, rfl, rfl, rfl, rfl, rfl, rfl, ?_, ?_, ?_, ?_⟩,
      rfl, rfl, rfl, rfl, rfl⟩
    · simp [spawnCar]
    · intro _
      simp [spawnCar]
    · intro hc
      simp [spawnCar] at hc
    · simp [spawnCar]

/-- C15 run on the one-player world: `p2` has no car, the only human is on orange, so `p2`
goes to blue. -/
theorem C15_ensure_player_new_witness :
    (kickoffWorld.state.cars.lookup "p2" = none
      ∧ ∀ e ∈ kickoffWorld.state.cars, e.2.team = "orange" ∨ e.2.team = "blue")
      ∧ (EnsurePlayer kickoffWorld "p2" "Two" 5).2 = "blue" :=
  ⟨by decide!,
    (C15_ensure_player_new kickoffWorld "p2" "Two" 5 (by decide!) (by decide!)).1.mpr
      (by decide!)⟩

/-! #### EnsureBotOpponent -/

theorem EnsureBotOpponent_present (w : World) (id stamp : String) (now : Int) (p : CarState)
    (h : w.state.cars.lookup id = some p) (opp : String)
    (hopp : opp = if p.team = "orange" then "blue" else "orange") :
    EnsureBotOpponent w id stamp now =
      if (w.state.cars.filter (fun e => decide (e.2.team = opp) && !e.2.isBot)).length > 0 then
        (w, "")
      else
        match w.state.cars.find? (fun e => decide (e.2.team = opp) && e.2.isBot) with
        | some e => (w, e.1)
        | none =>
          ({ w with
              state := { w.state with
                cars := setKey w.state.cars ("bot_" ++ opp ++ "_" ++ stamp)
                  (spawnCar ("bot_" ++ opp ++ "_" ++ stamp) "Velocity Bot" opp true
                    (w.state.cars.filter (fun e => decide (e.2.team = opp))).length),
                events := w.state.events
                  ++ [⟨"player_join", "bot_" ++ opp ++ "_" ++ stamp, opp, now⟩] },
              jump := setKey w.jump ("bot_" ++ opp ++ "_" ++ stamp) jumpContext.zero },
            "bot_" ++ opp ++ "_" ++ stamp) := by
  subst hopp
  unfold EnsureBotOpponent
  rw [h]
  all_goals rfl

theorem filter_length_zero {α : Type} (l : List α) (q : α → Bool) (h : ∀ e ∈ l, q e = false) :
    (l.filter q).length = 0 := by
  rw [List.length_eq_zero, List.filter_eq_nil_iff]
  intro e he
  simp [h e he]

theorem EnsureBotOpponent_human (w : World) (id stamp : String) (now : Int) (p : CarState)
    (h : w.state.cars.lookup id = some p) (opp : String)
    (hopp : opp = if p.team = "orange" then "blue" else "orange")
    (hh : ∃ e ∈ w.state.cars, e.2.team = opp ∧ e.2.isBot = false) :
    EnsureBotOpponent w id stamp now = (w, "") := by
  rw [EnsureBotOpponent_present w id stamp now p h opp hopp]
  obtain ⟨e, he, h1, h2⟩ := hh
  have hpos : (w.state.cars.filter (fun e => decide (e.2.team = opp) && !e.2.isBot)).length > 0 := by
    apply List.length_pos_of_mem (a := e)
    rw [List.mem_filter]
    exact ⟨he, by simp [h1, h2]⟩
  rw [if_pos hpos]


theorem EnsureBotOpponent_bot (w : World) (id stamp : String) (now : Int) (p : CarState)
    (h : w.state.cars.lookup id = some p) (opp : String)
    (hopp : opp = if p.team = "orange" then "blue" else "orange")
    (hh : ∀ e ∈ w.state.cars, e.2.team = opp → e.2.isBot = true)
    (hb : ∃ e ∈ w.state.cars, e.2.team = opp) :
    (EnsureBotOpponent w id stamp now).1 = w
      ∧ ∃ c : CarState, ((EnsureBotOpponent w id stamp now).2, c) ∈ w.state.cars
          ∧ c.team = opp ∧ c.isBot = true := by
  rw [EnsureBotOpponent_present w id stamp now p h opp hopp]
  have hz : (w.state.cars.filter (fun e => decide (e.2.team = opp) && !e.2.isBot)).length = 0 := by
    apply filter_length_zero
    intro e he
    by_cases ht : e.2.team = opp
    · simp [ht, hh e he ht]
    · simp [ht]
  rw [if_neg (by omega)]
  cases hf : w.state.cars.find? (fun e => decide (e.2.team = opp) && e.2.isBot) with
  | some e =>
    have hp := List.find?_some hf
    have hm := List.mem_of_find?_eq_some hf
    simp only [Bool.and_eq_true, decide_eq_true_eq] at hp
    exact ⟨rfl, e.2, hm, hp.1, hp.2⟩
  | none =>
    exfalso
    obtain ⟨e, he, ht⟩ := hb
    have := List.find?_eq_none.mp hf e he
    simp [ht, hh e he ht] at this

theorem EnsureBotOpponent_spawn (w : World) (id stamp : String) (now : Int) (p : CarState)
    (h : w.state.cars.lookup id = some p) (opp : String)
    (hopp : opp = if p.team = "orange" then "blue" else "orange")
    (hnone : ∀ e ∈ w.state.cars, e.2.team ≠ opp) :
    EnsureBotOpponent w id stamp now =
      ({ w with
          state := { w.state with
            cars := setKey w.state.cars ("bot_" ++ opp ++ "_" ++ stamp)
              (spawnCar ("bot_" ++ opp ++ "_" ++ stamp) "Velocity Bot" opp true 0),
            events := w.state.events
              ++ [⟨"player_join", "bot_" ++ opp ++ "_" ++ stamp, opp, now⟩] },
          jump := setKey w.jump ("bot_" ++ opp ++ "_" ++ stamp) jumpContext.zero },
        "bot_" ++ opp ++ "_" ++ stamp) := by
  rw [EnsureBotOpponent_present w id stamp now p h opp hopp]
  have hz : (w.state.cars.filter (fun e => decide (e.2.team = opp) && !e.2.isBot)).length = 0 := by
    apply filter_length_zero
    intro e he
    simp [hnone e he]
  have hz2 : (w.state.cars.filter (fun e => decide (e.2.team = opp))).length = 0 := by
    apply filter_length_zero
    intro e he
    simp [hnone e he]
  have hf : w.state.cars.find? (fun e => decide (e.2.team = opp) && e.2.isBot) = none := by
    rw [List.find?_eq_none]
    intro e he
    simp [hnone e he]
  rw [if_neg (by omega), hf, hz2]

theorem opp_cases (p : CarState) (opp : String)
    (hopp : opp = if p.team = "orange" then "blue" else "orange") :
    (opp = "blue" ∧ p.team = "orange") ∨ (opp = "orange" ∧ p.team ≠ "orange") := by
  by_cases ht : p.team = "orange"
  · exact Or.inl ⟨by simp [hopp, ht], ht⟩
  · exact Or.inr ⟨by simp [hopp, ht], ht⟩


theorem botID_ne_empty (opp stamp : String) : "bot_" ++ opp ++ "_" ++ stamp ≠ "" := by
  intro h
  have := congrArg String.length h
  simp only [String.length_append] at this
  have h4 : "bot_".length = 4 := by decide
  have h0 : "".length = 0 := by decide
  omega

/-- C16 (as stated, refuted): the only player, a human on orange, has the id
`bot_blue_120000.000000000`; at the clock reading `120000.000000000` the minted bot id is
that same id, so `EnsureBotOpponent` overwrites the human's car with the bot instead of
adding a car (one car before, one after), and a second call then adds another bot,
`bot_orange_120000.000000001`. -/
theorem C16_counterexample :
    collisionWorld.state.cars.map (fun e => (e.1, e.2.team, e.2.isBot))
        = [("bot_blue_120000.000000000", "orange", false)]
      ∧ (EnsureBotOpponent collisionWorld "bot_blue_120000.000000000" "120000.000000000" 0).2 = "bot_blue_120000.000000000"
      ∧ (EnsureBotOpponent collisionWorld "bot_blue_120000.000000000" "120000.000000000" 0).1.state.cars.map
          (fun e => (e.1, e.2.team, e.2.isBot)) = [("bot_blue_120000.000000000", "blue", true)]
      ∧ (EnsureBotOpponent (EnsureBotOpponent collisionWorld "bot_blue_120000.000000000" "120000.000000000" 0).1
          "bot_blue_120000.000000000" "120000.000000001" 0).2 = "bot_orange_120000.000000001"
      ∧ (EnsureBotOpponent (EnsureBotOpponent collisionWorld "bot_blue_120000.000000000" "120000.000000000" 0).1
          "bot_blue_120000.000000000" "120000.000000001" 0).1.state.cars.map (fun e => (e.1, e.2.team, e.2.isBot))
          = [("bot_blue_120000.000000000", "blue", true), ("bot_orange_120000.000000001", "orange", true)] := by
  decide!

/-- C16 (amended): for an id without a car `EnsureBotOpponent` returns the empty id and
changes nothing. For a player with a car, `opp` being the other team: (a) if `opp` has a
non-bot car the result is the empty id and the same world; (b) otherwise, if `opp` has a
car, the world is unchanged and the result is the id of a bot of `opp`; (c) otherwise,
provided no car already has the minted id `bot_<opp>_<stamp>`, that id (not empty) is
returned, one car is appended under it (a bot of `opp`, boost 100, grounded, at slot 0 of
the kickoff row of `opp`), one player_join event is appended, ball and score are unchanged,
and a second call right away returns the same id and leaves the world as it is. -/
theorem C16_ensure_bot_opponent (w : World) (id stamp stamp2 : String) (now now2 : Int) :
    (w.state.cars.lookup id = none → EnsureBotOpponent w id stamp now = (w, ""))
      ∧ ∀ (p : CarState) (opp : String), w.state.cars.lookup id = some p →
          opp = (if p.team = "orange" then "blue" else "orange") →
        ((∃ e ∈ w.state.cars, e.2.team = opp ∧ e.2.isBot = false) →
            EnsureBotOpponent w id stamp now = (w, ""))
        ∧ ((∀ e ∈ w.state.cars, e.2.team = opp → e.2.isBot = true) →
            (∃ e ∈ w.state.cars, e.2.team = opp) →
            (EnsureBotOpponent w id stamp now).1 = w
              ∧ ∃ c : CarState, ((EnsureBotOpponent w id stamp now).2, c) ∈ w.state.cars
                  ∧ c.team = opp ∧ c.isBot = true)
        ∧ ((∀ e ∈ w.state.cars, e.2.team ≠ opp) →
            w.state.cars.lookup ("bot_" ++ opp ++ "_" ++ stamp) = none →
            (EnsureBotOpponent w id stamp now).2 = "bot_" ++ opp ++ "_" ++ stamp
              ∧ (EnsureBotOpponent w id stamp now).2 ≠ ""
              ∧ (∃ c : CarState,
                  (EnsureBotOpponent w id stamp now).1.state.cars
                      = w.state.cars ++ [((EnsureBotOpponent w id stamp now).2, c)]
                    ∧ c.isBot = true ∧ c.team = opp ∧ c.boost = 100 ∧ c.isGrounded = true
                    ∧ c.velocity = ⟨0, 0, 0⟩
                    ∧ c.position = ⟨if opp = "blue" then 2048 else -2048, 0, CarRadius⟩
                    ∧ c.rotation.yaw = (if opp = "blue" then 180 else 0))
              ∧ (EnsureBotOpponent w id stamp now).1.state.events
                  = w.state.events
                    ++ [⟨"player_join", (EnsureBotOpponent w id stamp now).2, opp, now⟩]
              ∧ (EnsureBotOpponent w id stamp now).1.state.ball = w.state.ball
              ∧ (EnsureBotOpponent w id stamp now).1.state.score = w.state.score
              ∧ EnsureBotOpponent (EnsureBotOpponent w id stamp now).1 id stamp2 now2
                  = ((EnsureBotOpponent w id stamp now).1, (EnsureBotOpponent w id stamp now).2)) := by
  refine ⟨?_, ?_⟩
  · intro h
    unfold EnsureBotOpponent
    rw [h]
  intro p opp h hopp
  refine ⟨EnsureBotOpponent_human w id stamp now p h opp hopp,
    EnsureBotOpponent_bot w id stamp now p h opp hopp, ?_⟩
  intro hnone hfresh
  have hspawn := EnsureBotOpponent_spawn w id stamp now p h opp hopp hnone
  rw [hspawn]
  refine ⟨rfl, botID_ne_empty opp stamp, ⟨_, setKey_absent _ _ _ hfresh, rfl, rfl, rfl, rfl, rfl,
    ?_, ?_⟩, rfl, rfl, rfl, ?_⟩
  · rcases opp_cases p opp hopp with ⟨ho, _⟩ | ⟨ho, _⟩ <;> subst ho <;>
      simp [spawnCar, kickoffSlotOffset]
  · rcases opp_cases p opp hopp with ⟨ho, _⟩ | ⟨ho, _⟩ <;> subst ho <;> simp [spawnCar]
  · have hid : id ≠ "bot_" ++ opp ++ "_" ++ stamp := by
      intro hc
      rw [hc, hfresh] at h
      exact absurd h (by simp)
    have hlook : (setKey w.state.cars ("bot_" ++ opp ++ "_" ++ stamp)
        (spawnCar ("bot_" ++ opp ++ "_" ++ stamp) "Velocity Bot" opp true 0)).lookup id = some p := by
      rw [lookup_setKey_other _ _ _ _ hid]
      exact h
    have hmem : ∀ e ∈ setKey w.state.cars ("bot_" ++ opp ++ "_" ++ stamp)
        (spawnCar ("bot_" ++ opp ++ "_" ++ stamp) "Velocity Bot" opp true 0),
        e.2.team = opp → e = ("bot_" ++ opp ++ "_" ++ stamp,
          spawnCar ("bot_" ++ opp ++ "_" ++ stamp) "Velocity Bot" opp true 0) := by
      intro e he ht
      rcases mem_setKey _ _ _ _ he with h1 | h1
      · exact absurd ht (hnone e h1)
      · exact h1
    have hnew : (("bot_" ++ opp ++ "_" ++ stamp,
        spawnCar ("bot_" ++ opp ++ "_" ++ stamp) "Velocity Bot" opp true 0) : String × CarState)
        ∈ setKey w.state.cars ("bot_" ++ opp ++ "_" ++ stamp)
          (spawnCar ("bot_" ++ opp ++ "_" ++ stamp) "Velocity Bot" opp true 0) := by
      rw [setKey_absent _ _ _ hfresh]
      simp
    obtain ⟨h1, c, hc, hct, _⟩ := EnsureBotOpponent_bot
      { w with
        state := { w.state with
          cars := setKey w.state.cars ("bot_" ++ opp ++ "_" ++ stamp)
            (spawnCar ("bot_" ++ opp ++ "_" ++ stamp) "Velocity Bot" opp true 0),
          events := w.state.events
            ++ [⟨"player_join", "bot_" ++ opp ++ "_" ++ stamp, opp, now⟩] },
        jump := setKey w.jump ("bot_" ++ opp ++ "_" ++ stamp) jumpContext.zero }
      id stamp2 now2 p hlook opp hopp
      (fun e he ht => by rw [hmem e he ht]; rfl)
      ⟨_, hnew, rfl⟩
    have h2 := hmem _ hc hct
    have h3 : (EnsureBotOpponent
      { w with
        state := { w.state with
          cars := setKey w.state.cars ("bot_" ++ opp ++ "_" ++ stamp)
            (spawnCar ("bot_" ++ opp ++ "_" ++ stamp) "Velocity Bot" opp true 0),
          events := w.state.events
            ++ [⟨"player_join", "bot_" ++ opp ++ "_" ++ stamp, opp, now⟩] },
        jump := setKey w.jump ("bot_" ++ opp ++ "_" ++ stamp) jumpContext.zero }
      id stamp2 now2).2 = "bot_" ++ opp ++ "_" ++ stamp := congrArg Prod.fst h2
    exact Prod.ext h1 h3

/-- C16 (amended) run on the one-player world: `p1` is on orange, blue has no car and
`bot_blue_120000.000000000` is a new id, so a bot is added and returned. -/
theorem C16_ensure_bot_opponent_witness :
    (kickoffWorld.state.cars.lookup "p1" = some (spawnCar "p1" "p1" "orange" false 0)
      ∧ (∀ e ∈ kickoffWorld.state.cars, e.2.team ≠ "blue")
      ∧ kickoffWorld.state.cars.lookup ("bot_" ++ "blue" ++ "_" ++ "120000.000000000") = none)
      ∧ (EnsureBotOpponent kickoffWorld "p1" "120000.000000000" 0).2
          = "bot_" ++ "blue" ++ "_" ++ "120000.000000000" :=
  ⟨by decide!,
    ((C16_ensure_bot_opponent kickoffWorld "p1" "120000.000000000" "120000.000000001" 0 0).2
      (spawnCar "p1" "p1" "orange" false 0) "blue" (by decide!) (by decide!)).2.2
      (by decide!) (by decide!) |>.1⟩

/-! #### Removal -/

theorem lookup_delKey {α : Type} (l : List (String × α)) (id k : String) :
    (delKey l id).lookup k = if k = id then none else l.lookup k := by
  induction l with
  | nil => simp [delKey]
  | cons e rest ih =>
    obtain ⟨k1, v1⟩ := e
    unfold delKey at ih ⊢
    by_cases h1 : k1 = id
    · subst h1
      simp only [List.filter_cons, ne_eq, not_true_eq_false, decide_False, Bool.false_eq_true,
        if_false, ih, lookup_cons_ite]
      split_ifs <;> rfl
    · simp only [List.filter_cons, ne_eq, h1, not_false_eq_true, decide_True, if_true,
        lookup_cons_ite, ih]
      split_ifs with h2 h3
      · exact absurd (h2.symm.trans h3) h1
      · rfl
      · rfl
      · rfl

theorem delKey_filter_keys {α : Type} (l : List (String × α)) (id : String) (ks : List String) :
    (delKey l id).filter (fun e => decide (e.1 ∉ ks))
      = l.filter (fun e => decide (e.1 ∉ id :: ks)) := by
  unfold delKey
  rw [List.filter_filter]
  apply List.filter_congr
  intro x _
  by_cases h1 : x.1 = id <;> by_cases h2 : x.1 ∈ ks <;> simp [h1, h2]

theorem removeBots_spec (now : Int) (cs : List (String × CarState)) :
    ∀ w : World,
      (removeBots now cs w).state.cars
          = w.state.cars.filter
              (fun e => decide (e.1 ∉ (cs.filter (fun x => x.2.isBot)).map Prod.fst))
        ∧ (removeBots now cs w).input
          = w.input.filter
              (fun e => decide (e.1 ∉ (cs.filter (fun x => x.2.isBot)).map Prod.fst))
        ∧ (removeBots now cs w).jump
          = w.jump.filter
              (fun e => decide (e.1 ∉ (cs.filter (fun x => x.2.isBot)).map Prod.fst))
        ∧ (removeBots now cs w).state.events
          = w.state.events
            ++ (cs.filter (fun x => x.2.isBot)).map
                (fun x => (⟨"player_leave", x.1, x.2.team, now⟩ : GameplayEvent))
        ∧ (removeBots now cs w).state.ball = w.state.ball
        ∧ (removeBots now cs w).state.score = w.state.score
        ∧ (removeBots now cs w).state.tick = w.state.tick := by
  induction cs with
  | nil =>
    intro w
    simp [removeBots]
  | cons hd rest ih =>
    intro w
    obtain ⟨id, c⟩ := hd
    unfold removeBots
    by_cases hb : c.isBot = true
    · simp only [hb, if_true]
      obtain ⟨h1, h2, h3, h4, h5, h6, h7⟩ := ih
        { w with
          state := { w.state with
            cars := delKey w.state.cars id,
            events := w.state.events ++ [⟨"player_leave", id, c.team, now⟩] },
          input := delKey w.input id, jump := delKey w.jump id }
      rw [h1, h2, h3, h4, h5, h6, h7]
      simp only [List.filter_cons, hb, if_true, List.map_cons]
      refine ⟨delKey_filter_keys _ _ _, delKey_filter_keys _ _ _, delKey_filter_keys _ _ _, ?_,
        ?_⟩
      · simp
      · simp
    · have hf : c.isBot = false := by simpa using hb
      simp only [hf, Bool.false_eq_true, if_false, List.filter_cons]
      exact ih w

theorem lookup_filter_keys {α : Type} (l : List (String × α)) (ks : List String) (k : String) :
    (l.filter (fun e => decide (e.1 ∉ ks))).lookup k = if k ∈ ks then none else l.lookup k := by
  induction l with
  | nil => simp
  | cons e rest ih =>
    obtain ⟨k1, v1⟩ := e
    by_cases h1 : k1 ∈ ks
    · simp only [List.filter_cons, h1, not_true_eq_false, decide_False, Bool.false_eq_true,
        if_false, ih, lookup_cons_ite]
      split_ifs with h2 h3
      · rfl
      · rw [h3] at h2
        exact absurd h1 h2
      · rfl
    · simp only [List.filter_cons, h1, not_false_eq_true, decide_True, if_true,
        lookup_cons_ite, ih]
      split_ifs with h2 h3
      · rw [h2] at h3
        exact absurd h3 h1
      · rfl
      · rfl
      · rfl


theorem mem_botKeys (cars : List (String × CarState)) (k : String) :
    k ∈ (cars.filter (fun x => x.2.isBot)).map Prod.fst
      ↔ ∃ e ∈ cars, e.2.isBot = true ∧ e.1 = k := by
  simp only [List.mem_map, List.mem_filter]
  constructor
  · rintro ⟨e, ⟨he, hb⟩, hk⟩
    exact ⟨e, he, hb, hk⟩
  · rintro ⟨e, he, hb, hk⟩
    exact ⟨e, ⟨he, hb⟩, hk⟩

/-- C17: `RemoveAllBots` leaves no bot car and, in a map (distinct car ids), exactly the
non-bot cars, unchanged and in order; the stored input and jump state of every id that no
bot car has are unchanged, those of every bot are deleted, and one player_leave event per
removed bot is appended. `RemovePlayer(id)` for an id with a car deletes the car, the stored
input and the jump state under that id, leaves those of every other id unchanged, and
appends one player_leave event for the id; for an id without a car it changes nothing. -/
theorem C17_removal (w : World) (id : String) (now : Int) :
    ((w.state.cars.map Prod.fst).Nodup →
        (RemoveAllBots w now).state.cars = w.state.cars.filter (fun e => !e.2.isBot))
      ∧ (∀ e ∈ (RemoveAllBots w now).state.cars, e.2.isBot = false ∧ e ∈ w.state.cars)
      ∧ (∀ k : String, (∀ e ∈ w.state.cars, e.1 = k → e.2.isBot = false) →
          (RemoveAllBots w now).input.lookup k = w.input.lookup k
            ∧ (RemoveAllBots w now).jump.lookup k = w.jump.lookup k)
      ∧ (∀ e ∈ w.state.cars, e.2.isBot = true →
          (RemoveAllBots w now).input.lookup e.1 = none
            ∧ (RemoveAllBots w now).jump.lookup e.1 = none)
      ∧ (RemoveAllBots w now).state.events
          = w.state.events
            ++ (w.state.cars.filter (fun x => x.2.isBot)).map
                (fun x => (⟨"player_leave", x.1, x.2.team, now⟩ : GameplayEvent))
      ∧ (RemoveAllBots w now).state.ball = w.state.ball
      ∧ (RemoveAllBots w now).state.score = w.state.score
      ∧ (∀ c : CarState, w.state.cars.lookup id = some c →
          (RemovePlayer w id now).state.cars = w.state.cars.filter (fun e => e.1 ≠ id)
            ∧ (RemovePlayer w id now).state.cars.lookup id = none
            ∧ (RemovePlayer w id now).input.lookup id = none
            ∧ (RemovePlayer w id now).jump.lookup id = none
            ∧ (∀ k : String, k ≠ id →
                (RemovePlayer w id now).state.cars.lookup k = w.state.cars.lookup k
                  ∧ (RemovePlayer w id now).input.lookup k = w.input.lookup k
                  ∧ (RemovePlayer w id now).jump.lookup k = w.jump.lookup k)
            ∧ (RemovePlayer w id now).state.events
                = w.state.events ++ [⟨"player_leave", id, c.team, now⟩]
            ∧ (RemovePlayer w id now).state.ball = w.state.ball
            ∧ (RemovePlayer w id now).state.score = w.state.score)
      ∧ (w.state.cars.lookup id = none → RemovePlayer w id now = w) := by
  obtain ⟨h1, h2, h3, h4, h5, h6, _⟩ := removeBots_spec now w.state.cars w
  refine ⟨?_, ?_, ?_, ?_, h4, h5, h6, ?_, ?_⟩
  · intro hnd
    unfold RemoveAllBots
    rw [h1]
    apply List.filter_congr
    intro e he
    by_cases hb : e.2.isBot = true
    · have : e.1 ∈ (w.state.cars.filter (fun x => x.2.isBot)).map Prod.fst :=
        (mem_botKeys _ _).mpr ⟨e, he, hb, rfl⟩
      simp [hb, this]
    · have hf : e.2.isBot = false := by simpa using hb
      have : e.1 ∉ (w.state.cars.filter (fun x => x.2.isBot)).map Prod.fst := by
        intro hmem
        obtain ⟨e2, he2, hb2, hk⟩ := (mem_botKeys _ _).mp hmem
        have := List.inj_on_of_nodup_map hnd he2 he hk
        rw [this] at hb2
        exact hb hb2
      simp [hf, this]
  · intro e he
    unfold RemoveAllBots at he
    rw [h1, List.mem_filter] at he
    obtain ⟨hin, hk⟩ := he
    refine ⟨?_, hin⟩
    by_contra hb
    have hb2 : e.2.isBot = true := by simpa using hb
    have : e.1 ∈ (w.state.cars.filter (fun x => x.2.isBot)).map Prod.fst :=
      (mem_botKeys _ _).mpr ⟨e, hin, hb2, rfl⟩
    simp [this] at hk
  · intro k hk
    have hnot : k ∉ (w.state.cars.filter (fun x => x.2.isBot)).map Prod.fst := by
      intro hmem
      obtain ⟨e2, he2, hb2, hk2⟩ := (mem_botKeys _ _).mp hmem
      rw [hk e2 he2 hk2] at hb2
      exact absurd hb2 (by simp)
    unfold RemoveAllBots
    rw [h2, h3, lookup_filter_keys, lookup_filter_keys, if_neg hnot, if_neg hnot]
    exact ⟨rfl, rfl⟩
  · intro e he hb
    have hmem : e.1 ∈ (w.state.cars.filter (fun x => x.2.isBot)).map Prod.fst :=
      (mem_botKeys _ _).mpr ⟨e, he, hb, rfl⟩
    unfold RemoveAllBots
    rw [h2, h3, lookup_filter_keys, lookup_filter_keys, if_pos hmem, if_pos hmem]
    exact ⟨rfl, rfl⟩
  · intro c hc
    unfold RemovePlayer
    rw [hc]
    refine ⟨rfl, ?_, ?_, ?_, ?_, rfl, rfl, rfl⟩
    · simp [lookup_delKey]
    · simp [lookup_delKey]
    · simp [lookup_delKey]
    · intro k hk
      simp [lookup_delKey, hk]
  · intro hn
    unfold RemovePlayer
    rw [hn]


/-- C17 run on the world of `TestBotLifecycleForSingleHuman` (human `p1`, bot `bot_blue_120000.000000000`):
the car ids are distinct and `RemoveAllBots` leaves exactly the car of `p1`. -/
theorem C17_removal_witness :
    (botWorld.state.cars.map Prod.fst).Nodup
      ∧ botWorld.state.cars.map Prod.fst = ["p1", "bot_blue_120000.000000000"]
      ∧ (RemoveAllBots botWorld 9).state.cars = botWorld.state.cars.filter (fun e => !e.2.isBot)
      ∧ (RemoveAllBots botWorld 9).state.cars.map Prod.fst = ["p1"] :=
  ⟨by decide!, by decide!, (C17_removal botWorld "p1" 9).1 (by decide!), by decide!⟩

/-! #### Snapshot -/

theorem lookup_none_of_not_mem {α : Type} (l : List (String × α)) (k : String)
    (h : k ∉ l.map Prod.fst) : l.lookup k = none := by
  induction l with
  | nil => rfl
  | cons e rest ih =>
    obtain ⟨k1, v1⟩ := e
    simp only [List.map_cons, List.mem_cons, not_or] at h
    rw [lookup_cons_ite, if_neg h.1]
    exact ih h.2

theorem copyCarsLoop_append (l : List (String × CarState)) :
    ∀ acc : List (String × CarState), (l.map Prod.fst).Nodup →
      (∀ k ∈ l.map Prod.fst, k ∉ acc.map Prod.fst) → copyCarsLoop l acc = acc ++ l := by
  induction l with
  | nil => intro acc _ _; simp [copyCarsLoop]
  | cons e rest ih =>
    intro acc hnd hdis
    obtain ⟨k, v⟩ := e
    simp only [List.map_cons, List.nodup_cons] at hnd
    have hk : k ∉ acc.map Prod.fst := hdis k (by simp)
    unfold copyCarsLoop
    rw [setKey_absent _ _ _ (lookup_none_of_not_mem _ _ hk), ih _ hnd.2]
    · simp
    · intro j hj
      simp only [List.map_append, List.map_cons, List.map_nil, List.mem_append,
        List.mem_singleton, not_or]
      refine ⟨hdis j (by simp [hj]), ?_⟩
      intro hjk
      rw [hjk] at hj
      exact hnd.1 hj

theorem copyCarsLoop_nil (l : List (String × CarState)) (h : (l.map Prod.fst).Nodup) :
    copyCarsLoop l [] = l := by
  rw [copyCarsLoop_append l [] h (fun _ _ => by simp)]
  simp

theorem SnapshotHeap_read (h : Heap) (st : MatchStateRef)
    (hnd : ((h.mapAt st.cars).map Prod.fst).Nodup) :
    (SnapshotHeap h st).1.read (SnapshotHeap h st).2 = h.read st := by
  unfold SnapshotHeap Heap.read
  simp only [Heap.mapAt, Heap.sliceAt] at hnd ⊢
  simp [copyCarsLoop_nil _ hnd]

theorem read_after_writes (h : Heap) (st : MatchStateRef) (hc : st.cars < h.maps.length)
    (he : st.events < h.slices.length) (cars1 cars2 : List (String × CarState))
    (ev1 ev2 : List GameplayEvent) :
    Heap.read
      (({ maps := h.maps ++ [cars1], slices := h.slices ++ [ev1] } : Heap).writeMap
          h.maps.length cars2 |>.writeSlice h.slices.length ev2) st = h.read st := by
  unfold Heap.read Heap.writeSlice Heap.writeMap Heap.mapAt Heap.sliceAt
  have h1 : st.cars ≠ h.maps.length := by omega
  have h2 : st.events ≠ h.slices.length := by omega
  simp only [List.getElem?_set_ne (Ne.symm h1), List.getElem?_set_ne (Ne.symm h2),
    List.getElem?_append_left hc, List.getElem?_append_left he]


theorem read_after_snapshot (h : Heap) (st : MatchStateRef) (hc : st.cars < h.maps.length)
    (he : st.events < h.slices.length) : (SnapshotHeap h st).1.read st = h.read st := by
  unfold SnapshotHeap Heap.read Heap.mapAt Heap.sliceAt
  simp only [List.getElem?_append_left hc, List.getElem?_append_left he]

/-- C12: for a world stored in a heap (valid references, distinct car ids) `Snapshot`
returns a state that reads as the world's state (`Snapshot w` of the value model) and the
world still reads the same; the returned state points to a fresh map and a fresh slice,
so after any writes to them the world reads as before and a new `Snapshot` again
returns the world's state. -/
theorem C12_snapshot_isolated (w : World) (h : Heap) (st : MatchStateRef)
    (cars2 : List (String × CarState)) (ev2 : List GameplayEvent)
    (hw : h.read st = w.state) (hc : st.cars < h.maps.length)
    (he : st.events < h.slices.length) (hnd : (w.state.cars.map Prod.fst).Nodup) :
    (SnapshotHeap h st).1.read (SnapshotHeap h st).2 = Snapshot w
      ∧ (SnapshotHeap h st).1.read st = w.state
      ∧ (SnapshotHeap h st).2.cars ≠ st.cars ∧ (SnapshotHeap h st).2.events ≠ st.events
      ∧ (((SnapshotHeap h st).1.writeMap (SnapshotHeap h st).2.cars cars2).writeSlice
            (SnapshotHeap h st).2.events ev2).read st = w.state
      ∧ (SnapshotHeap
            (((SnapshotHeap h st).1.writeMap (SnapshotHeap h st).2.cars cars2).writeSlice
              (SnapshotHeap h st).2.events ev2) st).1.read
          (SnapshotHeap
            (((SnapshotHeap h st).1.writeMap (SnapshotHeap h st).2.cars cars2).writeSlice
              (SnapshotHeap h st).2.events ev2) st).2 = Snapshot w := by
  have hcars : h.mapAt st.cars = w.state.cars := congrArg MatchState.cars hw
  have hnd2 : ((h.mapAt st.cars).map Prod.fst).Nodup := by rw [hcars]; exact hnd
  have hwr : (((SnapshotHeap h st).1.writeMap (SnapshotHeap h st).2.cars cars2).writeSlice
      (SnapshotHeap h st).2.events ev2).read st = h.read st :=
    read_after_writes h st hc he _ cars2 _ ev2
  refine ⟨?_, ?_, ?_, ?_, ?_, ?_⟩
  · rw [SnapshotHeap_read h st hnd2, hw]
    rfl
  · rw [read_after_snapshot h st hc he, hw]
  · show h.maps.length ≠ st.cars
    omega
  · show h.slices.length ≠ st.events
    omega
  · rw [hwr, hw]
  · have hcars2 : Heap.mapAt
        (((SnapshotHeap h st).1.writeMap (SnapshotHeap h st).2.cars cars2).writeSlice
          (SnapshotHeap h st).2.events ev2) st.cars = w.state.cars := by
      have := congrArg MatchState.cars hwr
      rw [hw] at this
      exact this
    rw [SnapshotHeap_read _ st (by rw [hcars2]; exact hnd), hwr, hw]
    rfl

/-- C12 run on `TestSnapshotIsDeepCopy`: the world of the tests is stored in a heap, a
snapshot is taken and the position of `p1` in the returned map is overwritten; the world
and a second snapshot still have `p1` at `x = -2048`. -/
theorem C12_snapshot_isolated_witness :
    (kickoffHeap.read kickoffRef = kickoffWorld.state
      ∧ kickoffRef.cars < kickoffHeap.maps.length ∧ kickoffRef.events < kickoffHeap.slices.length
      ∧ (kickoffWorld.state.cars.map Prod.fst).Nodup)
      ∧ (SnapshotHeap
            (((SnapshotHeap kickoffHeap kickoffRef).1.writeMap
                (SnapshotHeap kickoffHeap kickoffRef).2.cars
                [("p1", { spawnCar "p1" "p1" "orange" false 0 with
                            position := ⟨999999, 0, CarRadius⟩ })]).writeSlice
              (SnapshotHeap kickoffHeap kickoffRef).2.events []) kickoffRef).1.read
          (SnapshotHeap
            (((SnapshotHeap kickoffHeap kickoffRef).1.writeMap
                (SnapshotHeap kickoffHeap kickoffRef).2.cars
                [("p1", { spawnCar "p1" "p1" "orange" false 0 with
                            position := ⟨999999, 0, CarRadius⟩ })]).writeSlice
              (SnapshotHeap kickoffHeap kickoffRef).2.events []) kickoffRef).2
        = Snapshot kickoffWorld :=
  ⟨by decide!,
    (C12_snapshot_isolated kickoffWorld kickoffHeap kickoffRef
      [("p1", { spawnCar "p1" "p1" "orange" false 0 with position := ⟨999999, 0, CarRadius⟩ })]
      [] (by decide!) (by decide!) (by decide!) (by decide!)).2.2.2.2.2⟩

/-! ### Claims C28-C30: straight-line runs, boost and the first jump -/
theorem isqrtAux_spec (n : Nat) : ∀ (fuel lo hi : Nat), lo * lo ≤ n → n < hi * hi →
    hi ≤ lo + fuel + 1 →
    isqrtAux n fuel lo hi * isqrtAux n fuel lo hi ≤ n
      ∧ n < (isqrtAux n fuel lo hi + 1) * (isqrtAux n fuel lo hi + 1) := by
  intro fuel
  induction fuel with
  | zero =>
    intro lo hi h1 h2 h3
    have hlt : lo < hi := by
      by_contra hc
      have : hi * hi ≤ lo * lo := Nat.mul_le_mul (by omega) (by omega)
      omega
    have : hi = lo + 1 := by omega
    subst this
    exact ⟨h1, h2⟩
  | succ f ih =>
    intro lo hi h1 h2 h3
    have hlt : lo < hi := by
      by_contra hc
      have : hi * hi ≤ lo * lo := Nat.mul_le_mul (by omega) (by omega)
      omega
    unfold isqrtAux
    by_cases hc : hi ≤ lo + 1
    · rw [if_pos hc]
      have : hi = lo + 1 := by omega
      subst this
      exact ⟨h1, h2⟩
    · rw [if_neg hc]
      simp only []
      by_cases hm : (lo + hi) / 2 * ((lo + hi) / 2) ≤ n
      · rw [if_pos hm]
        exact ih _ _ hm h2 (by omega)
      · rw [if_neg hm]
        exact ih _ _ h1 (by omega) (by omega)

theorem le_isqrt (n r : Nat) (h : r * r ≤ n) : r ≤ isqrt n := by
  have hs := (isqrtAux_spec n (n + 1) 0 (n + 1) (by omega) (by nlinarith) (by omega)).2
  by_contra hc
  have h1 : isqrt n + 1 ≤ r := by omega
  have h2 : (isqrt n + 1) * (isqrt n + 1) ≤ r * r := Nat.mul_le_mul h1 h1
  unfold isqrt at h2
  omega

/-- The reference square root is at least the contact distance `186.25` on every
argument that is at least its square. -/
theorem refSqrt_ge_contact (q : ℚ) (h : (745 / 4 : ℚ) ^ 2 ≤ q) : (745 / 4 : ℚ) ≤ refSqrt q := by
  have hq : 0 < q := by linarith [show (0:ℚ) < (745/4)^2 by norm_num]
  unfold refSqrt
  rw [if_neg (not_le.mpr hq)]
  have hden : (0 : ℚ) < q.den := by exact_mod_cast q.den_pos
  have hnum : 0 < q.num := Rat.num_pos.mpr hq
  have hqe : q = (q.num : ℚ) / q.den := (Rat.num_div_den q).symm
  have hnn : ((q.num.toNat : ℕ) : ℚ) = (q.num : ℚ) := by
    have : ((q.num.toNat : ℕ) : ℤ) = q.num := Int.toNat_of_nonneg hnum.le
    exact_mod_cast this
  have key : (745 * q.den * 250000000000) * (745 * q.den * 250000000000)
      ≤ q.num.toNat * q.den * 10 ^ 24 := by
    have h1 : (745 / 4 : ℚ) ^ 2 * q.den ≤ q.num := by
      rw [hqe] at h
      have := mul_le_mul_of_nonneg_right h hden.le
      rwa [div_mul_cancel₀ _ hden.ne'] at this
    have h2 : ((745 * q.den * 250000000000 * (745 * q.den * 250000000000) : ℕ) : ℚ)
        ≤ ((q.num.toNat * q.den * 10 ^ 24 : ℕ) : ℚ) := by
      push_cast
      rw [hnn]
      nlinarith
    exact_mod_cast h2
  have hle := le_isqrt _ _ key
  have hle2 : ((745 * q.den * 250000000000 : ℕ) : ℚ) ≤ (isqrt (q.num.toNat * q.den * 10 ^ 24) : ℚ) := by
    exact_mod_cast hle
  rw [le_div_iff₀ (by positivity)]
  push_cast at hle2
  nlinarith

theorem normalizeDeg_zero : normalizeDeg 0 = 0 := by decide!

theorem updateCarYaw_no_steer (m : MathOps) (car : CarState) (inp : CarInput) (dt : ℚ)
    (hyaw : car.rotation.yaw = 0) (hsteer : inp.steer = 0) : updateCarYaw m car inp dt = 0 := by
  unfold updateCarYaw
  simp only [hyaw, hsteer, zero_mul, zero_div, add_zero]
  exact normalizeDeg_zero

theorem updateCarPlanar_straight (car : CarState) (inp : CarInput) (dt : ℚ)
    (hvy : car.velocity.y = 0) : (updateCarPlanar car inp dt 1 0).2 = 0 := by
  unfold updateCarPlanar
  simp only [hvy]
  split_ifs <;> simp

theorem updateCarJump_no_jump (m : MathOps) (inp prev : CarInput) (fx fy vx vy vz : ℚ)
    (jc : jumpContext) (dt : ℚ) (hj : inp.jump = false) :
    updateCarJump m inp prev fx fy vx vy vz true jc dt
      = { vx := vx, vy := vy, vz := vz, grounded := true,
          jc := { jc with usedJumps := 0, timeSinceJump := 0, holdTime := 0, stickyTime := 0 } } := by
  unfold updateCarJump
  simp [hj]

/-- For a car driving straight and an input without steer or jump, the loop body of
`Tick` is `straightStep`, as long as the car stays between the end walls. -/
theorem updateCar_straight (m : MathOps) (hcos : m.cos 0 = 1) (hsin : m.sin 0 = 0)
    (car : CarState) (inp prev : CarInput) (jc : jumpContext) (dt : ℚ) (hdt : 0 < dt)
    (hs : Straight car) (hsteer : inp.steer = 0) (hjump : inp.jump = false)
    (hlo : -4001 ≤ (straightStep inp dt car).position.x)
    (hhi : (straightStep inp dt car).position.x ≤ 4001) :
    clampCarBounds { (updateCar m car inp prev jc dt).1 with lastInput := inp }
      = straightStep inp dt car := by
  obtain ⟨hg, hyaw, hvy, hvz, hpy, hpz⟩ := hs
  have hY := updateCarYaw_no_steer m car inp dt hyaw hsteer
  have hP := updateCarPlanar_straight car inp dt hvy
  have hsnap : car.position.z + Gravity * dt * dt ≤ CarRadius := by
    rw [hpz]; unfold Gravity; nlinarith
  have hneg : Gravity * dt < 0 := by unfold Gravity; linarith
  have hceil : ¬ CarRadius > ArenaHeight - CarRadius := by norm_num [CarRadius, ArenaHeight]
  have hcar : (updateCar m car inp prev jc dt).1
      = { car with
          position := ⟨car.position.x + (updateCarPlanar car inp dt 1 0).1 * GroundFriction * dt,
            0, CarRadius⟩,
          velocity := ⟨(updateCarPlanar car inp dt 1 0).1 * GroundFriction, 0, 0⟩,
          boost := updateCarBoost car inp dt } := by
    unfold updateCar
    simp only [hY, zero_mul, zero_div, hcos, hsin, hg, hvz,
      updateCarJump_no_jump m inp prev _ _ _ _ _ jc dt hjump, hP, if_true, hsnap, hneg,
      decide_True, hceil, decide_False, hpy, zero_add, add_zero, Bool.false_eq_true, if_false]
    cases car with
    | mk pid dn team bot pos vel rot boost gr li =>
      cases rot with
      | mk pitch yaw roll =>
        simp only at hyaw hg
        subst hyaw
        subst hg
        rfl
  rw [hcar]
  unfold straightStep at hlo hhi ⊢
  simp only at hlo hhi ⊢
  unfold clampCarBounds
  simp only [ArenaLength, ArenaWidth, CarRadius] at hlo hhi ⊢
  have h1 : ¬ car.position.x + (updateCarPlanar car inp dt 1 0).1 * GroundFriction * dt
      < -(8192 / 2) + 95 := by norm_num; linarith
  have h2 : ¬ car.position.x + (updateCarPlanar car inp dt 1 0).1 * GroundFriction * dt
      > 8192 / 2 - 95 := by norm_num; linarith
  rw [if_neg h1, if_neg h2]
  norm_num

theorem refOps_straight : StraightOps refOps :=
  ⟨by decide!, by decide!, refSqrt_ge_contact⟩

theorem updateBall_centred (m : MathOps) (b : BallState) (dt : ℚ) (h : Centred b) :
    Centred (updateBall m b dt) := by
  obtain ⟨h1, h2, h3, h4, h5⟩ := h
  unfold updateBall
  simp only [h1, h2, h3, h4, h5, zero_mul, add_zero]
  split_ifs <;> exact ⟨rfl, rfl, rfl, rfl, rfl⟩

theorem clampBallBounds_centred (b : BallState) (h : Centred b) :
    Centred (clampBallBounds b) := by
  unfold clampBallBounds
  lift_lets
  extract_lets halfL halfW s1 t1 b1 s2 t2 b2 inY inZ s3 t3 b3 s4 t4 b4 b5 s6 t6 b6 s7 t7 b7
  have c1 : Centred b1 := by
    obtain ⟨h1, h2, h3, h4, h5⟩ := h
    simp only [b1, s1, t1]; split_ifs <;> exact ⟨h1, h2, h3, h4, h5⟩
  have c2 : Centred b2 := by
    obtain ⟨h1, h2, h3, h4, h5⟩ := c1
    simp only [b2, s2, t2]; split_ifs <;> exact ⟨h1, h2, h3, h4, h5⟩
  have c3 : Centred b3 := by
    obtain ⟨h1, h2, h3, h4, h5⟩ := c2
    have e1 : ¬ b2.position.x < -halfL + b2.radius := by
      rw [h1, h5]; norm_num [halfL, ArenaLength, BallRadius]
    simp only [b3, if_neg e1]
    exact ⟨h1, h2, h3, h4, h5⟩
  have c4 : Centred b4 := by
    obtain ⟨h1, h2, h3, h4, h5⟩ := c3
    have e1 : ¬ b3.position.x > halfL - b3.radius := by
      rw [h1, h5]; norm_num [halfL, ArenaLength, BallRadius]
    simp only [b4, if_neg e1]
    exact ⟨h1, h2, h3, h4, h5⟩
  have c5 : Centred b5 := by
    simp only [b5]; split_ifs
    · exact c4
    · exact c2
  have c6 : Centred b6 := by
    obtain ⟨h1, h2, h3, h4, h5⟩ := c5
    have e1 : ¬ b5.position.y < -halfW + b5.radius := by
      rw [h2, h5]; norm_num [halfW, ArenaWidth, BallRadius]
    simp only [b6, if_neg e1]
    exact ⟨h1, h2, h3, h4, h5⟩
  obtain ⟨h1, h2, h3, h4, h5⟩ := c6
  have e1 : ¬ b6.position.y > halfW - b6.radius := by
    rw [h2, h5]; norm_num [halfW, ArenaWidth, BallRadius]
  simp only [b7, if_neg e1]
  exact ⟨h1, h2, h3, h4, h5⟩

theorem resolveCarBall_far (m : MathOps) (hm : StraightOps m) (ball : BallState) (car : CarState)
    (hb : Centred ball) (hx : car.position.x ≤ -187) :
    resolveCarBall m ball car = (ball, car) := by
  unfold resolveCarBall
  have hq : (745 / 4 : ℚ) ^ 2 ≤ (ball.position.x - car.position.x) * (ball.position.x - car.position.x)
      + (ball.position.y - car.position.y) * (ball.position.y - car.position.y)
      + (ball.position.z - car.position.z) * (ball.position.z - car.position.z) := by
    rw [hb.px]
    nlinarith [mul_self_nonneg (ball.position.y - car.position.y),
      mul_self_nonneg (ball.position.z - car.position.z)]
  have hd := hm.far _ hq
  have hmin : CarRadius + ball.radius = 745 / 4 := by
    rw [hb.radius]; norm_num [CarRadius, BallRadius]
  simp only [hmin]
  rw [if_pos (Or.inr hd)]

theorem detectShotOnGoal_centred (w : World) (now : Int) (hb : Centred w.state.ball) :
    detectShotOnGoal w now = w := by
  unfold detectShotOnGoal
  have e1 : ¬ (w.state.ball.position.x > ArenaLength * 0.35 ∧ w.state.ball.velocity.x > 200
      ∧ |w.state.ball.position.y| ≤ GoalWidth * 0.7) := by
    rw [hb.px]; norm_num [ArenaLength]
  have e2 : ¬ (w.state.ball.position.x < -ArenaLength * 0.35 ∧ w.state.ball.velocity.x < -200
      ∧ |w.state.ball.position.y| ≤ GoalWidth * 0.7) := by
    rw [hb.px]; norm_num [ArenaLength]
  simp only [if_neg e1, if_neg e2]

theorem detectGoal_centred (w : World) (now nowKick : Int) (hb : Centred w.state.ball) :
    detectGoalAndResetIfNeeded w now nowKick = w := by
  unfold detectGoalAndResetIfNeeded
  have e1 : ¬ w.state.ball.position.x ≥ ArenaLength / 2 := by
    rw [hb.px]; norm_num [ArenaLength]
  have e2 : ¬ w.state.ball.position.x ≤ -ArenaLength / 2 := by
    rw [hb.px]; norm_num [ArenaLength]
  simp only [if_neg e1, if_neg e2]
  split_ifs <;> rfl

theorem straightStep_straight (inp : CarInput) (dt : ℚ) (car : CarState) (hs : Straight car) :
    Straight (straightStep inp dt car) :=
  ⟨hs.grounded, hs.yaw, rfl, rfl, rfl, rfl⟩

/-- One `Tick` of a lane world whose car drives straight and stays short of the ball:
the car makes one `straightStep`, nothing else of the lane changes. -/
theorem Tick_lane (m : MathOps) (hm : StraightOps m) (w : World) (car : CarState)
    (inp : CarInput) (dt : ℚ) (clk : TickClock) (hdt : 0 < dt)
    (hl : Lane w car inp) (hs : Straight car) (hsteer : inp.steer = 0)
    (hjump : inp.jump = false)
    (hlo : -4001 ≤ (straightStep inp dt car).position.x)
    (hhi : (straightStep inp dt car).position.x ≤ -187) :
    Lane (Tick m w dt clk) (straightStep inp dt car) inp := by
  obtain ⟨hc, hi, hh, hb⟩ := hl
  have hbot : botInputs m w.state.ball (w.state.tick + 1) clk.botMS w.state.cars w.input
      = w.input := by
    rw [hc]; simp [botInputs, hh]
  have hcar := updateCar_straight m hm.cos0 hm.sin0 car inp car.lastInput
    ((w.jump.lookup "p1").getD jumpContext.zero) dt hdt hs hsteer hjump hlo (by linarith)
  have hb2 : Centred (clampBallBounds (updateBall m w.state.ball dt)) :=
    clampBallBounds_centred _ (updateBall_centred m _ dt hb)
  have hres := resolveCarBall_far m hm _ _ hb2 hhi
  have hT : (tickBeforeGoal m w dt clk).state.cars = [("p1", straightStep inp dt car)]
      ∧ (tickBeforeGoal m w dt clk).input = [("p1", inp)]
      ∧ (tickBeforeGoal m w dt clk).state.ball
          = clampBallBounds (updateBall m w.state.ball dt) := by
    unfold tickBeforeGoal
    simp only [computeBotInputs, hbot]
    simp only [hc, hi, tickCars, getInput, List.lookup, beq_self_eq_true, Option.getD_some]
    simp only [hcar, resolveCarBallCollisions, resolveCars, hres]
    rw [detectShotOnGoal_centred _ _ hb2]
    exact ⟨rfl, rfl, rfl⟩
  obtain ⟨t1, t2, t3⟩ := hT
  have hb3 : Centred (tickBeforeGoal m w dt clk).state.ball := by rw [t3]; exact hb2
  unfold Tick
  rw [detectGoal_centred _ _ _ hb3]
  exact ⟨t1, t2, hh, hb3⟩

theorem straightTrace_subset (inp : CarInput) (dt : ℚ) :
    ∀ (n N : Nat) (car : CarState), n ≤ N →
      ∀ c ∈ straightTrace inp dt n car, c ∈ straightTrace inp dt N car := by
  intro n
  induction n with
  | zero => intro N car _ c hc; simp [straightTrace] at hc
  | succ n ih =>
    intro N car hN c hc
    obtain ⟨N, rfl⟩ : ∃ k, N = k + 1 := ⟨N - 1, by omega⟩
    simp only [straightTrace, List.mem_cons] at hc ⊢
    rcases hc with hc | hc
    · exact Or.inl hc
    · exact Or.inr (ih N _ (by omega) c hc)

theorem straightRun_mem (inp : CarInput) (dt : ℚ) :
    ∀ (n : Nat) (car : CarState),
      straightRun inp dt (n + 1) car ∈ straightTrace inp dt (n + 1) car := by
  intro n
  induction n with
  | zero =>
    intro car
    show straightStep inp dt car ∈ straightStep inp dt car :: straightTrace inp dt 0 _
    exact List.mem_cons_self _ _
  | succ n ih =>
    intro car
    show straightRun inp dt (n + 1) (straightStep inp dt car)
      ∈ straightStep inp dt car :: straightTrace inp dt (n + 1) (straightStep inp dt car)
    exact List.mem_cons_of_mem _ (ih _)

/-- A lane world run for one `Tick(dt)` per clock: the car makes one `straightStep` per
tick, provided every car on the way stays between the orange wall and the ball. -/
theorem runTicks_lane (m : MathOps) (hm : StraightOps m) (inp : CarInput) (dt : ℚ)
    (hdt : 0 < dt) (hsteer : inp.steer = 0) (hjump : inp.jump = false) :
    ∀ (clks : List TickClock) (w : World) (car : CarState), Lane w car inp → Straight car →
      (∀ c ∈ straightTrace inp dt clks.length car,
        -4001 ≤ c.position.x ∧ c.position.x ≤ -187) →
      Lane (runTicks m w (clks.map (fun c => (dt, c)))) (straightRun inp dt clks.length car) inp
        ∧ Straight (straightRun inp dt clks.length car) := by
  intro clks
  induction clks with
  | nil => intro w car hl hs _; exact ⟨hl, hs⟩
  | cons c rest ih =>
    intro w car hl hs hb
    have h1 := hb (straightStep inp dt car) (by simp [straightTrace])
    have hl2 := Tick_lane m hm w car inp dt c hdt hl hs hsteer hjump h1.1 h1.2
    have hs2 := straightStep_straight inp dt car hs
    have := ih (Tick m w dt c) (straightStep inp dt car) hl2 hs2
      (fun x hx => hb x (by simp only [List.length_cons, straightTrace, List.mem_cons]; exact Or.inr hx))
    simpa [runTicks, straightRun] using this

theorem isqrt_sq (r : Nat) : isqrt (r * r) = r := by
  have hs := isqrtAux_spec (r * r) (r * r + 1) 0 (r * r + 1) (by omega) (by nlinarith) (by omega)
  have h1 : r ≤ isqrt (r * r) := le_isqrt _ _ le_rfl
  have h2 : isqrt (r * r) ≤ r := by
    by_contra hc
    have h3 : r + 1 ≤ isqrt (r * r) := by omega
    have h4 : (r + 1) * (r + 1) ≤ isqrt (r * r) * isqrt (r * r) := Nat.mul_le_mul h3 h3
    unfold isqrt at h4
    nlinarith [hs.1]
  omega

/-- The reference square root is exact on squares of non-negative rationals. -/
theorem refSqrt_sq (v : ℚ) (hv : 0 ≤ v) : refSqrt (v * v) = v := by
  rcases eq_or_lt_of_le hv with h0 | hpos
  · rw [← h0]; decide!
  unfold refSqrt
  rw [if_neg (not_le.mpr (mul_pos hpos hpos))]
  have hnum : 0 < v.num := Rat.num_pos.mpr hpos
  have hcast : ((v.num.toNat : ℕ) : ℤ) = v.num := Int.toNat_of_nonneg hnum.le
  have hsq : (v.num * v.num).toNat = v.num.toNat * v.num.toNat := by
    rw [← hcast, ← Nat.cast_mul, Int.toNat_natCast, Int.toNat_natCast]
  have hN : (v * v).num.toNat * (v * v).den * 10 ^ 24
      = (v.num.toNat * v.den * 10 ^ 12) * (v.num.toNat * v.den * 10 ^ 12) := by
    rw [Rat.mul_self_num, Rat.mul_self_den, hsq]; ring
  rw [hN, isqrt_sq, Rat.mul_self_den]
  have hnn : ((v.num.toNat : ℕ) : ℚ) = (v.num : ℚ) := by exact_mod_cast hcast
  have hvn : (v.num.toNat : ℚ) / (v.den : ℚ) = v := by rw [hnn]; exact Rat.num_div_den v
  have e : ∀ n d : ℕ, 0 < d →
      ((n * d * 10 ^ 12 : ℕ) : ℚ) / (((d * d : ℕ) : ℚ) * 10 ^ 12) = (n : ℚ) / (d : ℚ) := by
    intro n d hd
    have hd0 : (d : ℚ) ≠ 0 := by exact_mod_cast hd.ne'
    push_cast
    field_simp
    ring
  rw [e _ _ v.den_pos]
  exact hvn

theorem throttleWorld_lane : Lane throttleWorld kickoffCar throttleInput :=
  ⟨by decide!, by decide!, by decide!, ⟨by decide!, by decide!, by decide!, by decide!, by decide!⟩⟩

theorem kickoffCar_straight : Straight kickoffCar :=
  ⟨by decide!, by decide!, by decide!, by decide!, by decide!, by decide!⟩

theorem throttle_trace : ∀ c ∈ straightTrace throttleInput (1 / 120) 120 kickoffCar,
    (-4001 ≤ c.position.x ∧ c.position.x ≤ -187)
      ∧ 0 < c.velocity.x ∧ c.velocity.x ≤ MaxDriveSpeed := by decide!

theorem throttle_final :
    1200 ≤ (straightRun throttleInput (1 / 120) 120 kickoffCar).velocity.x := by decide!

/-- C28: `TestForwardAccelerationIsResponsive`. In the one-player world with the stored
input throttle 1 (no steer, boost, jump or handbrake) and no bot, after any number
`n ≤ 120` of calls `Tick(1/120)`, whatever the clocks read, the car `p1` has `vy = 0`
and `0 ≤ vx ≤ MaxDriveSpeed`, so that its planar speed `hypot(vx, vy)` is `vx` (at most
`MaxDriveSpeed`, and positive once a tick has run); after 120 calls `vx ≥ 1200`. -/
theorem C28_forward_acceleration (clks : List TickClock) (hlen : clks.length ≤ 120) :
    ∃ car : CarState,
      (runTicks refOps throttleWorld (frames clks)).state.cars = [("p1", car)]
        ∧ car.velocity.y = 0 ∧ 0 ≤ car.velocity.x
        ∧ refOps.hypot car.velocity.x car.velocity.y = car.velocity.x
        ∧ car.velocity.x ≤ MaxDriveSpeed
        ∧ (0 < clks.length → 0 < car.velocity.x)
        ∧ (clks.length = 120 → 1200 ≤ car.velocity.x) := by
  have hrun := runTicks_lane refOps refOps_straight throttleInput (1 / 120) (by norm_num)
    rfl rfl clks throttleWorld kickoffCar throttleWorld_lane kickoffCar_straight
    (fun c hc => (throttle_trace c (straightTrace_subset _ _ _ _ _ hlen c hc)).1)
  refine ⟨straightRun throttleInput (1 / 120) clks.length kickoffCar, hrun.1.cars, hrun.2.vy, ?_⟩
  have hv : 0 ≤ (straightRun throttleInput (1 / 120) clks.length kickoffCar).velocity.x
      ∧ (straightRun throttleInput (1 / 120) clks.length kickoffCar).velocity.x ≤ MaxDriveSpeed
      ∧ (0 < clks.length →
          0 < (straightRun throttleInput (1 / 120) clks.length kickoffCar).velocity.x) := by
    rcases Nat.eq_zero_or_pos clks.length with h0 | hpos
    · rw [h0]; exact ⟨by decide!, by decide!, fun h => absurd h (by decide)⟩
    · obtain ⟨n, hn⟩ : ∃ k, clks.length = k + 1 := ⟨clks.length - 1, by omega⟩
      rw [hn]
      have hmem := straightTrace_subset throttleInput (1 / 120) (n + 1) 120 kickoffCar
        (by omega) _ (straightRun_mem throttleInput (1 / 120) n kickoffCar)
      have := throttle_trace _ hmem
      exact ⟨this.2.1.le, this.2.2, fun _ => this.2.1⟩
  refine ⟨hv.1, ?_, hv.2.1, hv.2.2, ?_⟩
  · show refSqrt (_ * _ + _ * _) = _
    rw [hrun.2.vy, mul_zero, add_zero]
    exact refSqrt_sq _ hv.1
  · intro h120
    rw [h120]
    exact throttle_final

theorem C28_forward_acceleration_witness :
    (List.replicate 120 clock0).length ≤ 120
      ∧ ∃ car : CarState,
        (runTicks refOps throttleWorld (frames (List.replicate 120 clock0))).state.cars
            = [("p1", car)]
          ∧ car.velocity.y = 0 ∧ 0 ≤ car.velocity.x
          ∧ refOps.hypot car.velocity.x car.velocity.y = car.velocity.x
          ∧ car.velocity.x ≤ MaxDriveSpeed
          ∧ (0 < (List.replicate 120 clock0).length → 0 < car.velocity.x)
          ∧ ((List.replicate 120 clock0).length = 120 → 1200 ≤ car.velocity.x) :=
  ⟨by decide, C28_forward_acceleration (List.replicate 120 clock0) (by decide)⟩

/-- One `Tick` of a world whose only car is the human `p1`: the car list keeps that
shape, the stored input stays, and the boost is the integrator's or the kickoff's `100`. -/
theorem Tick_one_car (m : MathOps) (w : World) (car : CarState) (inp : CarInput) (dt : ℚ)
    (clk : TickClock) (hc : w.state.cars = [("p1", car)]) (hi : w.input = [("p1", inp)])
    (hh : car.isBot = false) :
    ∃ car2 : CarState, (Tick m w dt clk).state.cars = [("p1", car2)]
      ∧ (Tick m w dt clk).input = [("p1", inp)] ∧ car2.isBot = false
      ∧ (car2.boost = updateCarBoost car inp dt ∨ car2.boost = 100) := by
  have hbot : botInputs m w.state.ball (w.state.tick + 1) clk.botMS w.state.cars w.input
      = w.input := by
    rw [hc]; simp [botInputs, hh]
  have hin : (Tick m w dt clk).input = [("p1", inp)] := by
    rw [Tick_input, hbot, hi]
  have hT := tickBeforeGoal_cars m w dt clk
  rw [hbot] at hT
  simp only [hc, hi, tickCars, getInput, List.lookup, beq_self_eq_true, Option.getD_some,
    resolveCars] at hT
  have hf1 := resolveCarBall_frame m (clampBallBounds (updateBall m w.state.ball dt))
    (clampCarBounds { (updateCar m car inp car.lastInput
      ((w.jump.lookup "p1").getD jumpContext.zero) dt).1 with lastInput := inp })
  have hf2 := clampCarBounds_frame { (updateCar m car inp car.lastInput
      ((w.jump.lookup "p1").getD jumpContext.zero) dt).1 with lastInput := inp }
  rcases Tick_cars_cases m w dt clk with h | h
  · refine ⟨_, h.trans hT, hin, ?_, Or.inl ?_⟩
    · rw [hf1.2.1, hf2.2.1]; exact hh
    · rw [hf1.2.2.1, hf2.2.2.1]; rfl
  · rw [hT] at h
    simp only [resetCars] at h
    refine ⟨_, h, hin, ?_, Or.inr rfl⟩
    simp only []
    split_ifs <;> exact hf1.2.1.trans (hf2.2.1.trans hh)

theorem updateCarBoost_released (car : CarState) (inp : CarInput) (dt : ℚ)
    (hb : inp.boost = false) : updateCarBoost car inp dt = min 100 (car.boost + 8 * dt) := by
  unfold updateCarBoost
  simp only [hb, Bool.false_and, Bool.false_eq_true, if_false]
  rw [min_def]
  split_ifs <;> first | rfl | linarith

/-- With the boost button released, the boost of the single car after one `Tick(dt)` per
clock is at least `min(100, lo + 8 * dt * n)` when it started at `lo` or more. -/
theorem runTicks_regen (m : MathOps) (inp : CarInput) (dt : ℚ) (hdt : 0 ≤ dt)
    (hb : inp.boost = false) :
    ∀ (clks : List TickClock) (w : World) (car : CarState) (lo : ℚ),
      w.state.cars = [("p1", car)] → w.input = [("p1", inp)] → car.isBot = false →
      lo ≤ car.boost →
      ∃ car2 : CarState,
        (runTicks m w (clks.map (fun c => (dt, c)))).state.cars = [("p1", car2)]
          ∧ min 100 (lo + 8 * dt * clks.length) ≤ car2.boost := by
  intro clks
  induction clks with
  | nil =>
    intro w car lo hc _ _ hlo
    exact ⟨car, hc, by simp only [List.length_nil, Nat.cast_zero, mul_zero, add_zero]
                       exact le_trans (min_le_right _ _) hlo⟩
  | cons c rest ih =>
    intro w car lo hc hi hh hlo
    obtain ⟨car1, h1, h2, h3, h4⟩ := Tick_one_car m w car inp dt c hc hi hh
    have hstep : min 100 (lo + 8 * dt) ≤ car1.boost := by
      rcases h4 with h4 | h4
      · rw [h4, updateCarBoost_released car inp dt hb]
        exact min_le_min le_rfl (by linarith)
      · rw [h4]; exact min_le_left _ _
    obtain ⟨car2, h5, h6⟩ := ih (Tick m w dt c) car1 (min 100 (lo + 8 * dt)) h1 h2 h3 hstep
    refine ⟨car2, by simpa [runTicks] using h5, le_trans ?_ h6⟩
    have hn : (0 : ℚ) ≤ 8 * dt * rest.length := by positivity
    simp only [List.length_cons, Nat.cast_add, Nat.cast_one]
    apply le_min
    · exact min_le_left _ _
    · rcases le_total 100 (lo + 8 * dt) with h | h
      · rw [min_eq_left h]
        exact le_trans (min_le_left _ _) (by linarith)
      · rw [min_eq_right h]
        exact le_trans (min_le_right _ _) (by linarith)

theorem boostWorld_lane : Lane boostWorld kickoffCar boostInput :=
  ⟨by decide!, by decide!, by decide!, ⟨by decide!, by decide!, by decide!, by decide!, by decide!⟩⟩

theorem boost_trace : ∀ c ∈ straightTrace boostInput (1 / 120) 120 kickoffCar,
    -4001 ≤ c.position.x ∧ c.position.x ≤ -187 := by decide!

theorem boost_final : (straightRun boostInput (1 / 120) 120 kickoffCar).boost = 66 := by decide!

/-- `TestBoostConsumptionAndRegeneration`: 120 calls `Tick(1/120)` with throttle 1 and
boost pressed take the boost from 100 to 66, and 240 further calls with everything
released bring it to 82 or more. -/
theorem boost_test_run (clks1 clks2 : List TickClock) (h1 : clks1.length = 120)
    (h2 : clks2.length = 240) :
    ∃ c1 c2 : CarState,
      (runTicks refOps boostWorld (frames clks1)).state.cars = [("p1", c1)]
        ∧ (runTicks refOps (ApplyInput (runTicks refOps boostWorld (frames clks1)) releaseInput)
            (frames clks2)).state.cars = [("p1", c2)]
        ∧ c1.boost = 66 ∧ 82 ≤ c2.boost := by
  have hrun := runTicks_lane refOps refOps_straight boostInput (1 / 120) (by norm_num)
    rfl rfl clks1 boostWorld kickoffCar boostWorld_lane kickoffCar_straight
    (by rw [h1]; exact boost_trace)
  rw [h1] at hrun
  have hin : (ApplyInput (runTicks refOps boostWorld (frames clks1)) releaseInput).input
      = [("p1", releaseInput)] := by
    have := hrun.1.input
    unfold frames
    unfold ApplyInput
    simp only [this]
    decide
  obtain ⟨c2, h3, h4⟩ := runTicks_regen refOps releaseInput (1 / 120) (by norm_num) rfl clks2
    (ApplyInput (runTicks refOps boostWorld (frames clks1)) releaseInput) _ 66
    hrun.1.cars hin hrun.1.human (le_of_eq boost_final.symm)
  refine ⟨_, c2, hrun.1.cars, h3, boost_final, le_trans ?_ h4⟩
  rw [h2]
  norm_num

/-- C29: for `dt > 0` and a car with any boost `b` (in `[0, 100]` or not), `updateCar` sets the boost to
`max(0, b - 34*dt)`, strictly below `b`, when the input has boost pressed, `b > 0` and
throttle `> 0`, and to `min(100, b + 8*dt)` in every other case, strictly above `b` when
`b < 100`. In the run of `TestBoostConsumptionAndRegeneration` the boost after the 120
consuming ticks is below 100 and after the 240 released ticks above that low-water mark. -/
theorem C29_boost (m : MathOps) (car : CarState) (inp prev : CarInput) (jc : jumpContext)
    (dt : ℚ) (hdt : 0 < dt) :
    ((inp.boost = true ∧ 0 < car.boost ∧ 0 < inp.throttle) →
        (updateCar m car inp prev jc dt).1.boost = max 0 (car.boost - 34 * dt)
          ∧ (updateCar m car inp prev jc dt).1.boost < car.boost)
      ∧ (¬ (inp.boost = true ∧ 0 < car.boost ∧ 0 < inp.throttle) →
        (updateCar m car inp prev jc dt).1.boost = min 100 (car.boost + 8 * dt)
          ∧ (car.boost < 100 → car.boost < (updateCar m car inp prev jc dt).1.boost))
      ∧ (∀ clks1 clks2 : List TickClock, clks1.length = 120 → clks2.length = 240 →
          ∃ c1 c2 : CarState,
            (runTicks refOps boostWorld (frames clks1)).state.cars = [("p1", c1)]
              ∧ (runTicks refOps
                  (ApplyInput (runTicks refOps boostWorld (frames clks1)) releaseInput)
                  (frames clks2)).state.cars = [("p1", c2)]
              ∧ c1.boost < 100 ∧ c1.boost < c2.boost) := by
  refine ⟨?_, ?_, ?_⟩
  · rintro ⟨hb, hpos, hth⟩
    rw [updateCar_boost]
    unfold updateCarBoost
    simp only [hb, hpos, hth, gt_iff_lt, decide_True, Bool.and_self, if_true]
    rw [max_def]
    split_ifs <;> first | exact ⟨rfl, by linarith⟩ | (exfalso; linarith)
  · intro hn
    rw [updateCar_boost]
    have hc : ¬ ((inp.boost && decide (car.boost > 0) && decide (inp.throttle > 0)) = true) := by
      intro h
      simp only [Bool.and_eq_true, decide_eq_true_eq, gt_iff_lt] at h
      exact hn ⟨h.1.1, h.1.2, h.2⟩
    have e : updateCarBoost car inp dt
        = if car.boost + 8 * dt > 100 then 100 else car.boost + 8 * dt := by
      unfold updateCarBoost
      exact if_neg hc
    rw [e]
    rcases lt_or_le 100 (car.boost + 8 * dt) with h | h
    · rw [if_pos h, min_eq_left h.le]
      exact ⟨rfl, fun h2 => h2⟩
    · rw [if_neg (not_lt.mpr h), min_eq_right h]
      exact ⟨rfl, fun _ => by linarith⟩
  · intro clks1 clks2 hl1 hl2
    obtain ⟨c1, c2, e1, e2, e3, e4⟩ := boost_test_run clks1 clks2 hl1 hl2
    exact ⟨c1, c2, e1, e2, by rw [e3]; norm_num, by rw [e3]; linarith⟩

theorem C29_boost_witness :
    (0 : ℚ) < 1 / 120
      ∧ ((boostInput.boost = true ∧ 0 < kickoffCar.boost ∧ 0 < boostInput.throttle) →
        (updateCar refOps kickoffCar boostInput CarInput.zero jumpContext.zero (1 / 120)).1.boost
            = max 0 (kickoffCar.boost - 34 * (1 / 120))
          ∧ (updateCar refOps kickoffCar boostInput CarInput.zero jumpContext.zero
              (1 / 120)).1.boost < kickoffCar.boost)
      ∧ (¬ (boostInput.boost = true ∧ 0 < kickoffCar.boost ∧ 0 < boostInput.throttle) →
        (updateCar refOps kickoffCar boostInput CarInput.zero jumpContext.zero (1 / 120)).1.boost
            = min 100 (kickoffCar.boost + 8 * (1 / 120))
          ∧ (kickoffCar.boost < 100 → kickoffCar.boost
              < (updateCar refOps kickoffCar boostInput CarInput.zero jumpContext.zero
                  (1 / 120)).1.boost))
      ∧ (∀ clks1 clks2 : List TickClock, clks1.length = 120 → clks2.length = 240 →
          ∃ c1 c2 : CarState,
            (runTicks refOps boostWorld (frames clks1)).state.cars = [("p1", c1)]
              ∧ (runTicks refOps
                  (ApplyInput (runTicks refOps boostWorld (frames clks1)) releaseInput)
                  (frames clks2)).state.cars = [("p1", c2)]
              ∧ c1.boost < 100 ∧ c1.boost < c2.boost) :=
  ⟨by norm_num, C29_boost refOps kickoffCar boostInput CarInput.zero jumpContext.zero (1 / 120)
    (by norm_num)⟩

theorem updateCarJump_first_press (m : MathOps) (inp prev : CarInput) (fx fy vx vy vz : ℚ)
    (jc : jumpContext) (dt : ℚ) (hj : inp.jump = true) (hp : prev.jump = false) :
    updateCarJump m inp prev fx fy vx vy vz true jc dt
      = { vx := vx, vy := vy, vz := vz + JumpVelocity + JumpHoldAccel * dt - StickyForce * dt,
          grounded := false,
          jc := { usedJumps := 1, timeSinceJump := 0 + dt, holdTime := 0 + dt,
                  stickyTime := StickyTime - dt } } := by
  have hhold : (0 : ℚ) < JumpHoldMax := by norm_num [JumpHoldMax]
  have hst : (0 : ℚ) < StickyTime := by norm_num [StickyTime]
  unfold updateCarJump
  simp only [hj, hp, if_true, Bool.not_false, Bool.and_self, Bool.and_true,
    decide_True, gt_iff_lt, Nat.lt_one_iff, Nat.one_pos, Bool.not_true,
    Bool.false_eq_true, if_false, hhold, hst, Bool.true_and, Bool.and_false, Bool.false_and]

/-- C30: for a car resting on the ground (`isGrounded`, `z = CarRadius`, `vz = 0`) and
`0 < dt ≤ 1/120`, `updateCar` leaves the car airborne with `usedJumps = 1` and
`vz = JumpVelocity + (JumpHoldAccel - StickyForce + Gravity) * dt > 0` exactly when the
input has jump pressed and the previous input has not; in every other case the car is
grounded at `z = CarRadius` with `vz = 0` and `usedJumps = 0`. -/
theorem C30_first_jump (m : MathOps) (car : CarState) (inp prev : CarInput) (jc : jumpContext)
    (dt : ℚ) (hdt : 0 < dt) (hdt2 : dt ≤ 1 / 120) (hg : car.isGrounded = true)
    (hz : car.position.z = CarRadius) (hvz : car.velocity.z = 0) :
    (((updateCar m car inp prev jc dt).1.isGrounded = false
          ∧ (updateCar m car inp prev jc dt).2.usedJumps = 1
          ∧ (updateCar m car inp prev jc dt).1.velocity.z
              = JumpVelocity + (JumpHoldAccel - StickyForce + Gravity) * dt
          ∧ 0 < (updateCar m car inp prev jc dt).1.velocity.z)
        ↔ (inp.jump = true ∧ prev.jump = false))
      ∧ (¬ (inp.jump = true ∧ prev.jump = false) →
          (updateCar m car inp prev jc dt).1.isGrounded = true
            ∧ (updateCar m car inp prev jc dt).1.position.z = CarRadius
            ∧ (updateCar m car inp prev jc dt).1.velocity.z = 0
            ∧ (updateCar m car inp prev jc dt).2.usedJumps = 0) := by
  have hno : ¬ (inp.jump = true ∧ prev.jump = false) →
      (updateCar m car inp prev jc dt).1.isGrounded = true
        ∧ (updateCar m car inp prev jc dt).1.position.z = CarRadius
        ∧ (updateCar m car inp prev jc dt).1.velocity.z = 0
        ∧ (updateCar m car inp prev jc dt).2.usedJumps = 0 := by
    intro hn
    have hp : (inp.jump && !prev.jump) = false := by
      cases hi : inp.jump <;> cases hp : prev.jump <;> simp_all
    have hsnap : car.position.z + Gravity * dt * dt ≤ CarRadius := by
      rw [hz]; unfold Gravity; nlinarith
    have hneg : Gravity * dt < 0 := by unfold Gravity; linarith
    have hceil : ¬ CarRadius > ArenaHeight - CarRadius := by norm_num [CarRadius, ArenaHeight]
    unfold updateCar updateCarJump
    simp only [hg, hvz, hp, if_true, Bool.false_and, Bool.false_eq_true, if_false,
      lt_irrefl, gt_iff_lt, decide_False, zero_add, hsnap, hneg, decide_True, hceil,
      Bool.and_false, Bool.not_true, Bool.and_true, and_self]
  refine ⟨⟨fun h => ?_, fun h => ?_⟩, hno⟩
  · by_contra hn
    have := (hno hn).1
    rw [h.1] at this
    exact Bool.false_ne_true this
  · obtain ⟨hj, hp⟩ := h
    have hv : (0 : ℚ) < JumpVelocity + JumpHoldAccel * dt - StickyForce * dt + Gravity * dt := by
      unfold JumpVelocity JumpHoldAccel StickyForce Gravity; nlinarith
    have hup : ¬ car.position.z
        + (JumpVelocity + JumpHoldAccel * dt - StickyForce * dt + Gravity * dt) * dt
          ≤ CarRadius := by
      rw [hz]; nlinarith
    have hceil : ¬ car.position.z
        + (JumpVelocity + JumpHoldAccel * dt - StickyForce * dt + Gravity * dt) * dt
          > ArenaHeight - CarRadius := by
      rw [hz]
      have : (JumpVelocity + JumpHoldAccel * dt - StickyForce * dt + Gravity * dt) * dt ≤ 3 := by
        unfold JumpVelocity JumpHoldAccel StickyForce Gravity; nlinarith
      norm_num [CarRadius, ArenaHeight]
      linarith
    have hhold : (0 : ℚ) < JumpHoldMax := by norm_num [JumpHoldMax]
    have hst : (0 : ℚ) < StickyTime := by norm_num [StickyTime]
    unfold updateCar
    simp only [hg, hvz, updateCarJump_first_press m inp prev _ _ _ _ _ jc dt hj hp, zero_add,
      Bool.false_eq_true, if_false, hup, hceil, decide_False]
    refine ⟨trivial, trivial, ?_, ?_⟩
    · ring
    · exact hv

theorem C30_first_jump_witness :
    ((0 : ℚ) < 1 / 120 ∧ (1 / 120 : ℚ) ≤ 1 / 120 ∧ kickoffCar.isGrounded = true
        ∧ kickoffCar.position.z = CarRadius ∧ kickoffCar.velocity.z = 0)
      ∧ (((updateCar refOps kickoffCar jumpInput CarInput.zero jumpContext.zero
              (1 / 120)).1.isGrounded = false
          ∧ (updateCar refOps kickoffCar jumpInput CarInput.zero jumpContext.zero
              (1 / 120)).2.usedJumps = 1
          ∧ (updateCar refOps kickoffCar jumpInput CarInput.zero jumpContext.zero
              (1 / 120)).1.velocity.z
              = JumpVelocity + (JumpHoldAccel - StickyForce + Gravity) * (1 / 120)
          ∧ 0 < (updateCar refOps kickoffCar jumpInput CarInput.zero jumpContext.zero
              (1 / 120)).1.velocity.z)
        ↔ (jumpInput.jump = true ∧ CarInput.zero.jump = false))
      ∧ (¬ (jumpInput.jump = true ∧ CarInput.zero.jump = false) →
          (updateCar refOps kickoffCar jumpInput CarInput.zero jumpContext.zero
              (1 / 120)).1.isGrounded = true
            ∧ (updateCar refOps kickoffCar jumpInput CarInput.zero jumpContext.zero
              (1 / 120)).1.position.z = CarRadius
            ∧ (updateCar refOps kickoffCar jumpInput CarInput.zero jumpContext.zero
              (1 / 120)).1.velocity.z = 0
            ∧ (updateCar refOps kickoffCar jumpInput CarInput.zero jumpContext.zero
              (1 / 120)).2.usedJumps = 0) :=
  ⟨⟨by norm_num, le_refl _, by decide!, by decide!, by decide!⟩,
    C30_first_jump refOps kickoffCar jumpInput CarInput.zero jumpContext.zero (1 / 120)
      (by norm_num) (le_refl _) (by decide!) (by decide!) (by decide!)⟩

/-! ### Claims C31-C39: the car step, the ball step, contact, bots and shots -/

theorem clampCarBounds_x (car : CarState) :
    (clampCarBounds car).position.x
        = (if car.position.x < -(ArenaLength / 2) + CarRadius then -(ArenaLength / 2) + CarRadius
           else if car.position.x > ArenaLength / 2 - CarRadius then ArenaLength / 2 - CarRadius
           else car.position.x)
      ∧ (clampCarBounds car).velocity.x
        = (if car.position.x < -(ArenaLength / 2) + CarRadius then car.velocity.x * (-0.3)
           else if car.position.x > ArenaLength / 2 - CarRadius then car.velocity.x * (-0.3)
           else car.velocity.x) := by
  unfold clampCarBounds ArenaLength ArenaWidth CarRadius
  simp only []
  split_ifs <;> simp at * <;> norm_num at *

theorem clampCarBounds_y (car : CarState) :
    (clampCarBounds car).position.y
        = (if car.position.y < -(ArenaWidth / 2) + CarRadius then -(ArenaWidth / 2) + CarRadius
           else if car.position.y > ArenaWidth / 2 - CarRadius then ArenaWidth / 2 - CarRadius
           else car.position.y)
      ∧ (clampCarBounds car).velocity.y
        = (if car.position.y < -(ArenaWidth / 2) + CarRadius then car.velocity.y * (-0.3)
           else if car.position.y > ArenaWidth / 2 - CarRadius then car.velocity.y * (-0.3)
           else car.velocity.y) := by
  unfold clampCarBounds ArenaLength ArenaWidth CarRadius
  simp only []
  split_ifs <;> simp at * <;> norm_num at *

theorem clampCarBounds_vertical (car : CarState) :
    (clampCarBounds car).position.z = car.position.z
      ∧ (clampCarBounds car).velocity.z = car.velocity.z
      ∧ (clampCarBounds car).isGrounded = car.isGrounded := by
  unfold clampCarBounds
  simp only []
  split_ifs <;> simp

theorem updateCar_vertical (m : MathOps) (car : CarState) (inp prev : CarInput)
    (jc : jumpContext) (dt : ℚ) :
    CarRadius ≤ (updateCar m car inp prev jc dt).1.position.z
      ∧ (updateCar m car inp prev jc dt).1.position.z ≤ ArenaHeight - CarRadius
      ∧ (integratedZ m car inp prev jc dt ≤ CarRadius →
          (updateCar m car inp prev jc dt).1.isGrounded = true
            ∧ (updateCar m car inp prev jc dt).1.position.z = CarRadius
            ∧ 0 ≤ (updateCar m car inp prev jc dt).1.velocity.z
            ∧ (updateCar m car inp prev jc dt).1.velocity.z
                = max (integratedVz m car inp prev jc dt) 0)
      ∧ (integratedZ m car inp prev jc dt > ArenaHeight - CarRadius →
          (updateCar m car inp prev jc dt).1.position.z = ArenaHeight - CarRadius
            ∧ (updateCar m car inp prev jc dt).1.velocity.z
                = integratedVz m car inp prev jc dt * (-0.25)) := by
  unfold updateCar integratedZ integratedVz
  lift_lets
  extract_lets yaw yawRad fx fy planar j vz vx vy px py pz snap vz2 g2 src1 jc2 pz2 ceil vz3 pz3 src2
  have hc : CarRadius ≤ ArenaHeight - CarRadius := by unfold CarRadius ArenaHeight; norm_num
  by_cases hs : pz ≤ CarRadius
  · have e1 : snap = true := by simp [snap, hs]
    have e2 : pz2 = CarRadius := by simp [pz2, e1]
    have e3 : ceil = false := by simp [ceil, e2, hc]
    have e4 : vz2 = max vz 0 := by
      simp only [vz2, e1, if_true]
      split_ifs with h
      · exact (max_eq_right (le_of_lt h)).symm
      · exact (max_eq_left (not_lt.mp h)).symm
    simp only [pz3, vz3, e3, e2, g2, e1, if_true, e4]
    refine ⟨le_refl _, hc, fun _ => ?_, fun h => ?_⟩
    · refine ⟨?_, ?_, ?_, ?_⟩ <;> first | trivial | rfl | exact le_max_right _ _
    exact absurd (lt_of_lt_of_le (lt_of_le_of_lt hc h) hs) (lt_irrefl _)
  · have e1 : snap = false := by simp [snap, hs]
    have e2 : pz2 = pz := by simp [pz2, e1]
    have e4 : vz2 = vz := by simp [vz2, e1]
    by_cases hce : pz > ArenaHeight - CarRadius
    · have e3 : ceil = true := by simp [ceil, e2, hce]
      simp only [pz3, vz3, e3, e4, if_true]
      refine ⟨hc, le_refl _, fun h => absurd h hs, fun _ => ?_⟩
      constructor <;> trivial
    · have e3 : ceil = false := by simp [ceil, e2, hce]
      simp only [pz3, vz3, e3, e2]
      exact ⟨le_of_lt (not_le.mp hs), not_lt.mp hce, fun h => absurd h hs,
        fun h => absurd h hce⟩

/-- C38: the per-car step of `Tick` (`updateCar`, then `clampCarBounds` on the
result with its `lastInput` set) yields, for every car, input, previous input, jump
context and `dt`, a car with `|x| ≤ ArenaLength/2 - CarRadius`,
`|y| ≤ ArenaWidth/2 - CarRadius` and `CarRadius ≤ z ≤ ArenaHeight - CarRadius`; a car
that `updateCar` left beyond an X (or Y) wall has that velocity component multiplied by
`-0.3`; a car whose integrated height is at most `CarRadius` ends grounded with
`z = CarRadius` and `vz ≥ 0`; a car whose integrated height exceeds the ceiling bound
ends at `z = ArenaHeight - CarRadius` with the integrated `vz` multiplied by `-0.25`. -/
theorem C38_car_step_bounds (m : MathOps) (car : CarState) (inp prev : CarInput)
    (jc : jumpContext) (dt : ℚ) :
    |(clampCarBounds { (updateCar m car inp prev jc dt).1 with lastInput := inp }).position.x|
        ≤ ArenaLength / 2 - CarRadius
      ∧ |(clampCarBounds { (updateCar m car inp prev jc dt).1 with lastInput := inp }).position.y|
        ≤ ArenaWidth / 2 - CarRadius
      ∧ CarRadius
        ≤ (clampCarBounds { (updateCar m car inp prev jc dt).1 with lastInput := inp }).position.z
      ∧ (clampCarBounds { (updateCar m car inp prev jc dt).1 with lastInput := inp }).position.z
        ≤ ArenaHeight - CarRadius
      ∧ ((updateCar m car inp prev jc dt).1.position.x < -(ArenaLength / 2) + CarRadius
          ∨ (updateCar m car inp prev jc dt).1.position.x > ArenaLength / 2 - CarRadius →
        (clampCarBounds { (updateCar m car inp prev jc dt).1 with lastInput := inp }).velocity.x
          = (updateCar m car inp prev jc dt).1.velocity.x * (-0.3))
      ∧ ((updateCar m car inp prev jc dt).1.position.y < -(ArenaWidth / 2) + CarRadius
          ∨ (updateCar m car inp prev jc dt).1.position.y > ArenaWidth / 2 - CarRadius →
        (clampCarBounds { (updateCar m car inp prev jc dt).1 with lastInput := inp }).velocity.y
          = (updateCar m car inp prev jc dt).1.velocity.y * (-0.3))
      ∧ (integratedZ m car inp prev jc dt ≤ CarRadius →
        (clampCarBounds { (updateCar m car inp prev jc dt).1 with lastInput := inp }).isGrounded
            = true
          ∧ (clampCarBounds
              { (updateCar m car inp prev jc dt).1 with lastInput := inp }).position.z = CarRadius
          ∧ 0 ≤ (clampCarBounds
              { (updateCar m car inp prev jc dt).1 with lastInput := inp }).velocity.z)
      ∧ (integratedZ m car inp prev jc dt > ArenaHeight - CarRadius →
        (clampCarBounds { (updateCar m car inp prev jc dt).1 with lastInput := inp }).position.z
            = ArenaHeight - CarRadius
          ∧ (clampCarBounds
              { (updateCar m car inp prev jc dt).1 with lastInput := inp }).velocity.z
            = integratedVz m car inp prev jc dt * (-0.25)) := by
  obtain ⟨u, hu⟩ : ∃ u : CarState, u = { (updateCar m car inp prev jc dt).1 with lastInput := inp } :=
    ⟨_, rfl⟩
  have hpos : u.position = (updateCar m car inp prev jc dt).1.position := by rw [hu]
  have hvel : u.velocity = (updateCar m car inp prev jc dt).1.velocity := by rw [hu]
  have hg : u.isGrounded = (updateCar m car inp prev jc dt).1.isGrounded := by rw [hu]
  rw [← hu]
  obtain ⟨hx, hvx⟩ := clampCarBounds_x u
  obtain ⟨hy, hvy⟩ := clampCarBounds_y u
  obtain ⟨hz, hvz, hgr⟩ := clampCarBounds_vertical u
  obtain ⟨hlo, hhi, hsnap, hceil⟩ := updateCar_vertical m car inp prev jc dt
  have hL : -(ArenaLength / 2) + CarRadius ≤ ArenaLength / 2 - CarRadius := by
    unfold ArenaLength CarRadius; norm_num
  have hW : -(ArenaWidth / 2) + CarRadius ≤ ArenaWidth / 2 - CarRadius := by
    unfold ArenaWidth CarRadius; norm_num
  rw [hz, hvz, hgr, hpos, hvel, hg]
  rw [hpos] at hx hy hvx hvy
  rw [hvel] at hvx hvy
  refine ⟨?_, ?_, hlo, hhi, ?_, ?_, fun h => ?_, hceil⟩
  · rw [hx, abs_le]
    split_ifs with h1 h2 <;> constructor <;> linarith
  · rw [hy, abs_le]
    split_ifs with h1 h2 <;> constructor <;> linarith
  · intro h
    rw [hvx]
    rcases h with h | h
    · rw [if_pos h]
    · split_ifs <;> rfl
  · intro h
    rw [hvy]
    rcases h with h | h
    · rw [if_pos h]
    · split_ifs <;> rfl
  · obtain ⟨a, b, c, _⟩ := hsnap h
    exact ⟨a, b, c⟩

/-- C38 at the kickoff car with full throttle for one frame: the integrated height is
at most `CarRadius`, and the car ends grounded at `z = CarRadius` with `vz ≥ 0`. -/
theorem C38_car_step_bounds_witness :
    integratedZ refOps kickoffCar throttleInput throttleInput jumpContext.zero (1 / 120)
        ≤ CarRadius
      ∧ (clampCarBounds { (updateCar refOps kickoffCar throttleInput throttleInput
          jumpContext.zero (1 / 120)).1 with lastInput := throttleInput }).isGrounded = true
      ∧ (clampCarBounds { (updateCar refOps kickoffCar throttleInput throttleInput
          jumpContext.zero (1 / 120)).1 with lastInput := throttleInput }).position.z = CarRadius
      ∧ 0 ≤ (clampCarBounds { (updateCar refOps kickoffCar throttleInput throttleInput
          jumpContext.zero (1 / 120)).1 with lastInput := throttleInput }).velocity.z :=
  have h : integratedZ refOps kickoffCar throttleInput throttleInput jumpContext.zero (1 / 120)
      ≤ CarRadius := by decide!
  ⟨h, (C38_car_step_bounds refOps kickoffCar throttleInput throttleInput jumpContext.zero
    (1 / 120)).2.2.2.2.2.2.1 h⟩

/-! ## The clock readings do not steer the physics -/

theorem botInputs_humans (m : MathOps) (ball : BallState) (tick : Nat) (now : Int)
    (cars : List (String × CarState)) (h : ∀ e ∈ cars, e.2.isBot = false) :
    ∀ input : List (String × CarInput), botInputs m ball tick now cars input = input := by
  induction cars with
  | nil => intro input; rfl
  | cons hd rest ih =>
    intro input
    obtain ⟨k, car⟩ := hd
    have hk : car.isBot = false := h (k, car) (List.mem_cons_self _ _)
    unfold botInputs
    simp only [hk, Bool.not_false, if_true]
    exact ih (fun e he => h e (List.mem_cons_of_mem _ he)) input

theorem detectShotOnGoal_physical (w : World) (now : Int) :
    physical (detectShotOnGoal w now) = physical w := by
  unfold detectShotOnGoal physical
  simp only []
  split_ifs <;> rfl

theorem detectGoal_physical (w w2 : World) (a b c d : Int) (h : physical w = physical w2) :
    physical (detectGoalAndResetIfNeeded w a b) = physical (detectGoalAndResetIfNeeded w2 c d) := by
  unfold physical at h
  simp only [Prod.mk.injEq] at h
  obtain ⟨h1, h2, h3, h4, h5, h6⟩ := h
  unfold detectGoalAndResetIfNeeded resetKickoff physical
  simp only [h1, h2, h3, h4, h5, h6]
  split_ifs <;> simp only [h1, h2, h3, h4, h5, h6]

theorem tickBeforeGoal_physical (m : MathOps) (w w2 : World) (dt : ℚ) (clk clk2 : TickClock)
    (hb : ∀ e ∈ w.state.cars, e.2.isBot = false) (h : physical w = physical w2) :
    physical (tickBeforeGoal m w dt clk) = physical (tickBeforeGoal m w2 dt clk2) := by
  unfold physical at h
  simp only [Prod.mk.injEq] at h
  obtain ⟨h1, h2, h3, h4, h5, h6⟩ := h
  have hb2 : ∀ e ∈ w2.state.cars, e.2.isBot = false := h1 ▸ hb
  unfold tickBeforeGoal
  rw [detectShotOnGoal_physical, detectShotOnGoal_physical]
  unfold computeBotInputs physical resolveCarBallCollisions
  simp only [botInputs_humans m _ _ _ _ hb, botInputs_humans m _ _ _ _ hb2,
    h1, h2, h3, h4, h5, h6]

theorem Tick_tags (m : MathOps) (w : World) (dt : ℚ) (clk : TickClock) :
    (Tick m w dt clk).state.cars.map (fun e => (e.1, e.2.team, e.2.isBot))
      = w.state.cars.map (fun e => (e.1, e.2.team, e.2.isBot)) := by
  rcases Tick_cars_cases m w dt clk with h | h
  · rw [h, tickBeforeGoal_tags]
  · rw [h, resetCars_tags, tickBeforeGoal_tags]

theorem Tick_humans (m : MathOps) (w : World) (dt : ℚ) (clk : TickClock)
    (hb : ∀ e ∈ w.state.cars, e.2.isBot = false) :
    ∀ e ∈ (Tick m w dt clk).state.cars, e.2.isBot = false := by
  intro e he
  have h1 : (e.1, e.2.team, e.2.isBot)
      ∈ (Tick m w dt clk).state.cars.map (fun e => (e.1, e.2.team, e.2.isBot)) :=
    List.mem_map_of_mem _ he
  rw [Tick_tags] at h1
  obtain ⟨c, hc, hce⟩ := List.mem_map.mp h1
  have h2 : c.2.isBot = e.2.isBot := congrArg (fun t => t.2.2) hce
  rw [← h2]
  exact hb c hc

theorem Tick_physical (m : MathOps) (w w2 : World) (dt : ℚ) (clk clk2 : TickClock)
    (hb : ∀ e ∈ w.state.cars, e.2.isBot = false) (h : physical w = physical w2) :
    physical (Tick m w dt clk) = physical (Tick m w2 dt clk2) :=
  detectGoal_physical _ _ _ _ _ _ (tickBeforeGoal_physical m w w2 dt clk clk2 hb h)

theorem runTicks_physical (m : MathOps) (fr : List (ℚ × TickClock)) :
    ∀ (fr2 : List (ℚ × TickClock)) (w w2 : World), fr.map Prod.fst = fr2.map Prod.fst →
      (∀ e ∈ w.state.cars, e.2.isBot = false) → physical w = physical w2 →
      physical (runTicks m w fr) = physical (runTicks m w2 fr2) := by
  induction fr with
  | nil =>
    intro fr2 w w2 hf _ h
    cases fr2 with
    | nil => exact h
    | cons c r => simp at hf
  | cons c rest ih =>
    intro fr2 w w2 hf hb h
    cases fr2 with
    | nil => simp at hf
    | cons c2 r2 =>
      simp only [List.map_cons, List.cons.injEq] at hf
      unfold runTicks
      rw [hf.1]
      exact ih r2 _ _ hf.2 (Tick_humans m w c2.1 c.2 hb)
        (Tick_physical m w w2 c2.1 c.2 c2.2 hb h)

theorem frames_fst (clks : List TickClock) :
    (frames clks).map Prod.fst = List.replicate clks.length (1 / 120) := by
  unfold frames
  induction clks with
  | nil => rfl
  | cons c r ih => simp only [List.map_cons, List.length_cons, List.replicate_succ, ih]

theorem physical_cars (w w2 : World) (h : physical w = physical w2) :
    w.state.cars = w2.state.cars :=
  congrArg (fun p => p.1) h

/-! ## One contact test -/

theorem resolveCarBall_eq (m : MathOps) (ball : BallState) (car : CarState) :
    resolveCarBall m ball car
      = if contactDist m ball car ≤ 0 ∨ contactDist m ball car ≥ CarRadius + ball.radius
        then (ball, car)
        else if contactRel m ball car > 0 then (ball, car)
        else
          ({ ball with
              velocity :=
                ⟨ball.velocity.x + -(1 + CarBallElasticity) * contactRel m ball car
                    * (contactNormal m ball car).x,
                 ball.velocity.y + -(1 + CarBallElasticity) * contactRel m ball car
                    * (contactNormal m ball car).y,
                 ball.velocity.z + -(1 + CarBallElasticity) * contactRel m ball car
                    * (contactNormal m ball car).z⟩,
              position :=
                ⟨ball.position.x + (contactNormal m ball car).x
                    * (CarRadius + ball.radius - contactDist m ball car) * 0.85,
                 ball.position.y + (contactNormal m ball car).y
                    * (CarRadius + ball.radius - contactDist m ball car) * 0.85,
                 ball.position.z + (contactNormal m ball car).z
                    * (CarRadius + ball.radius - contactDist m ball car) * 0.85⟩ },
           { car with
              position :=
                ⟨car.position.x - (contactNormal m ball car).x
                    * (CarRadius + ball.radius - contactDist m ball car) * 0.15,
                 car.position.y - (contactNormal m ball car).y
                    * (CarRadius + ball.radius - contactDist m ball car) * 0.15,
                 car.position.z - (contactNormal m ball car).z
                    * (CarRadius + ball.radius - contactDist m ball car) * 0.15⟩ }) := rfl

theorem levelBall_dist : contactDist refOps levelBall kickoffCar = 100 := by
  have h : contactDistSq levelBall kickoffCar = 100 * 100 := by decide!
  unfold contactDist
  rw [h]
  exact refSqrt_sq 100 (by norm_num)

theorem resolveCarBall_skip (m : MathOps) (ball : BallState) (car : CarState)
    (h : contactDist m ball car ≤ 0 ∨ contactDist m ball car ≥ CarRadius + ball.radius
      ∨ contactRel m ball car > 0) :
    resolveCarBall m ball car = (ball, car) := by
  rw [resolveCarBall_eq]
  by_cases h1 : contactDist m ball car ≤ 0 ∨ contactDist m ball car ≥ CarRadius + ball.radius
  · rw [if_pos h1]
  · rw [if_neg h1]
    have h2 : contactRel m ball car > 0 := by
      rcases h with h | h | h
      · exact absurd (Or.inl h) h1
      · exact absurd (Or.inr h) h1
      · exact h
    rw [if_pos h2]

theorem resolveCarBall_hit (m : MathOps) (ball : BallState) (car : CarState)
    (h0 : 0 < contactDist m ball car) (h1 : contactDist m ball car < CarRadius + ball.radius)
    (h2 : contactRel m ball car ≤ 0) :
    (resolveCarBall m ball car).1.velocity
        = ⟨ball.velocity.x - (1 + CarBallElasticity) * contactRel m ball car
              * (contactNormal m ball car).x,
           ball.velocity.y - (1 + CarBallElasticity) * contactRel m ball car
              * (contactNormal m ball car).y,
           ball.velocity.z - (1 + CarBallElasticity) * contactRel m ball car
              * (contactNormal m ball car).z⟩
      ∧ (resolveCarBall m ball car).2.velocity = car.velocity
      ∧ (resolveCarBall m ball car).1.position
        = ⟨ball.position.x + 0.85 * (CarRadius + ball.radius - contactDist m ball car)
              * (contactNormal m ball car).x,
           ball.position.y + 0.85 * (CarRadius + ball.radius - contactDist m ball car)
              * (contactNormal m ball car).y,
           ball.position.z + 0.85 * (CarRadius + ball.radius - contactDist m ball car)
              * (contactNormal m ball car).z⟩
      ∧ (resolveCarBall m ball car).2.position
        = ⟨car.position.x - 0.15 * (CarRadius + ball.radius - contactDist m ball car)
              * (contactNormal m ball car).x,
           car.position.y - 0.15 * (CarRadius + ball.radius - contactDist m ball car)
              * (contactNormal m ball car).y,
           car.position.z - 0.15 * (CarRadius + ball.radius - contactDist m ball car)
              * (contactNormal m ball car).z⟩
      ∧ (resolveCarBall m ball car).1.radius = ball.radius := by
  have hn1 : ¬ (contactDist m ball car ≤ 0 ∨ contactDist m ball car ≥ CarRadius + ball.radius) := by
    rintro (h | h)
    · exact absurd h0 (not_lt.mpr h)
    · exact absurd h1 (not_lt.mpr h)
  rw [resolveCarBall_eq, if_neg hn1, if_neg (not_lt.mpr h2)]
  simp only [Vec3.mk.injEq]
  refine ⟨⟨?_, ?_, ?_⟩, trivial, ⟨?_, ?_, ?_⟩, ⟨?_, ?_, ?_⟩, trivial⟩ <;> ring

/-- C32 as stated fails at `rel = 0`: the parked kickoff car and a ball at rest 100 from
it overlap (`0 < dist < CarRadius + BallRadius`) with `rel = 0`, and resolving the car
moves both the ball and the car. -/
theorem C32_counterexample :
    0 < contactDist refOps levelBall kickoffCar
      ∧ contactDist refOps levelBall kickoffCar < CarRadius + BallRadius
      ∧ contactRel refOps levelBall kickoffCar ≥ 0
      ∧ contactRel refOps levelBall kickoffCar = 0
      ∧ (resolveCarBall refOps levelBall kickoffCar).1.position ≠ levelBall.position
      ∧ (resolveCarBall refOps levelBall kickoffCar).2.position ≠ kickoffCar.position := by
  decide!

/-- C32 (amended): for a ball of radius `BallRadius`, resolving a car changes neither the
ball nor the car when `dist ≤ 0`, when `dist ≥ CarRadius + BallRadius`, or when
`rel > 0`; at `rel = 0` with `0 < dist < CarRadius + BallRadius` both velocities are
unchanged, but the ball is moved by `0.85 * (min - dist) * n` and the car by
`-0.15 * (min - dist) * n`. -/
theorem C32_contact_skipped (m : MathOps) (ball : BallState) (car : CarState)
    (hr : ball.radius = BallRadius) :
    (contactDist m ball car ≤ 0 ∨ contactDist m ball car ≥ CarRadius + BallRadius
        ∨ contactRel m ball car > 0 →
      resolveCarBall m ball car = (ball, car))
    ∧ (0 < contactDist m ball car → contactDist m ball car < CarRadius + BallRadius →
        contactRel m ball car = 0 →
      (resolveCarBall m ball car).1.velocity = ball.velocity
        ∧ (resolveCarBall m ball car).2.velocity = car.velocity
        ∧ (resolveCarBall m ball car).1.position
          = ⟨ball.position.x + 0.85 * (CarRadius + BallRadius - contactDist m ball car)
                * (contactNormal m ball car).x,
             ball.position.y + 0.85 * (CarRadius + BallRadius - contactDist m ball car)
                * (contactNormal m ball car).y,
             ball.position.z + 0.85 * (CarRadius + BallRadius - contactDist m ball car)
                * (contactNormal m ball car).z⟩
        ∧ (resolveCarBall m ball car).2.position
          = ⟨car.position.x - 0.15 * (CarRadius + BallRadius - contactDist m ball car)
                * (contactNormal m ball car).x,
             car.position.y - 0.15 * (CarRadius + BallRadius - contactDist m ball car)
                * (contactNormal m ball car).y,
             car.position.z - 0.15 * (CarRadius + BallRadius - contactDist m ball car)
                * (contactNormal m ball car).z⟩) := by
  constructor
  · intro h
    exact resolveCarBall_skip m ball car (hr ▸ h)
  · intro h0 h1 h2
    obtain ⟨hv, hcv, hp, hcp, _⟩ :=
      resolveCarBall_hit m ball car h0 (hr ▸ h1) (le_of_eq h2)
    rw [hr] at hp hcp
    refine ⟨?_, hcv, hp, hcp⟩
    rw [hv, h2]
    simp

/-- C32 (amended) at the level ball: a car reversing away from it at `1000` has
`rel > 0` and is skipped; the parked car has `rel = 0`, keeps the velocities and is
pushed apart from the ball. -/
theorem C32_contact_skipped_witness :
    (levelBall.radius = BallRadius ∧ contactRel refOps levelBall reversingCar > 0
        ∧ resolveCarBall refOps levelBall reversingCar = (levelBall, reversingCar))
      ∧ (0 < contactDist refOps levelBall kickoffCar
        ∧ contactDist refOps levelBall kickoffCar < CarRadius + BallRadius
        ∧ contactRel refOps levelBall kickoffCar = 0
        ∧ (resolveCarBall refOps levelBall kickoffCar).1.velocity = levelBall.velocity
        ∧ (resolveCarBall refOps levelBall kickoffCar).2.velocity = kickoffCar.velocity) :=
  have h1 : contactRel refOps levelBall reversingCar > 0 := by decide!
  have h2 : 0 < contactDist refOps levelBall kickoffCar := by decide!
  have h3 : contactDist refOps levelBall kickoffCar < CarRadius + BallRadius := by decide!
  have h4 : contactRel refOps levelBall kickoffCar = 0 := by decide!
  ⟨⟨rfl, h1, (C32_contact_skipped refOps levelBall reversingCar rfl).1 (Or.inr (Or.inr h1))⟩,
    h2, h3, h4,
    ((C32_contact_skipped refOps levelBall kickoffCar rfl).2 h2 h3 h4).1,
    ((C32_contact_skipped refOps levelBall kickoffCar rfl).2 h2 h3 h4).2.1⟩

/-! ## The faster square root is the reference square root -/

/-- The reference square root is not above the real root and less than `1e-12` below
it. -/
theorem refSqrt_within (q : ℚ) (hq : 0 ≤ q) :
    0 ≤ refSqrt q ∧ refSqrt q * refSqrt q ≤ q
      ∧ q ≤ (refSqrt q + 1 / 10 ^ 12) * (refSqrt q + 1 / 10 ^ 12) := by
  rcases eq_or_lt_of_le hq with h0 | hpos
  · rw [← h0]
    refine ⟨by decide!, by decide!, by decide!⟩
  unfold refSqrt
  rw [if_neg (not_le.mpr hpos)]
  have hden : (0 : ℚ) < q.den := by exact_mod_cast q.den_pos
  have hden1 : (1 : ℚ) ≤ q.den := by exact_mod_cast q.den_pos
  have hnum : 0 < q.num := Rat.num_pos.mpr hpos
  have hqe : q = (q.num : ℚ) / q.den := (Rat.num_div_den q).symm
  have hnn : ((q.num.toNat : ℕ) : ℚ) = (q.num : ℚ) := by
    have : ((q.num.toNat : ℕ) : ℤ) = q.num := Int.toNat_of_nonneg hnum.le
    exact_mod_cast this
  obtain ⟨s1, s2⟩ := isqrtAux_spec (q.num.toNat * q.den * 10 ^ 24)
    (q.num.toNat * q.den * 10 ^ 24 + 1) 0 (q.num.toNat * q.den * 10 ^ 24 + 1) (by omega)
    (by nlinarith) (by omega)
  have e : isqrtAux (q.num.toNat * q.den * 10 ^ 24) (q.num.toNat * q.den * 10 ^ 24 + 1) 0
      (q.num.toNat * q.den * 10 ^ 24 + 1) = isqrt (q.num.toNat * q.den * 10 ^ 24) := rfl
  rw [e] at s1 s2
  generalize isqrt (q.num.toNat * q.den * 10 ^ 24) = r at s1 s2 ⊢
  have t1 : ((r : ℚ)) * r ≤ (q.num : ℚ) * q.den * 10 ^ 24 := by
    rw [← hnn]
    exact_mod_cast s1
  have t2 : (q.num : ℚ) * q.den * 10 ^ 24 < ((r : ℚ) + 1) * (r + 1) := by
    rw [← hnn]
    exact_mod_cast s2
  have hD : (0 : ℚ) < (q.den : ℚ) * 10 ^ 12 := by positivity
  have hr0 : (0 : ℚ) ≤ r := Nat.cast_nonneg r
  refine ⟨div_nonneg hr0 hD.le, ?_, ?_⟩
  · rw [div_mul_div_comm, div_le_iff₀ (mul_pos hD hD)]
    nth_rewrite 1 [hqe]
    rw [div_mul_eq_mul_div, le_div_iff₀ hden]
    nlinarith
  · have hstep : (r : ℚ) / ((q.den : ℚ) * 10 ^ 12) + 1 / 10 ^ 12
        ≥ ((r : ℚ) + 1) / ((q.den : ℚ) * 10 ^ 12) := by
      rw [ge_iff_le, add_div]
      have : (1 : ℚ) / ((q.den : ℚ) * 10 ^ 12) ≤ 1 / 10 ^ 12 := by
        apply div_le_div_of_nonneg_left (by norm_num) (by positivity)
        nlinarith
      linarith
    have hpos2 : (0 : ℚ) ≤ ((r : ℚ) + 1) / ((q.den : ℚ) * 10 ^ 12) := by positivity
    have hsq : q ≤ (((r : ℚ) + 1) / ((q.den : ℚ) * 10 ^ 12))
        * (((r : ℚ) + 1) / ((q.den : ℚ) * 10 ^ 12)) := by
      rw [div_mul_div_comm, le_div_iff₀ (mul_pos hD hD)]
      nth_rewrite 1 [hqe]
      rw [div_mul_eq_mul_div, div_le_iff₀ hden]
      nlinarith
    exact le_trans hsq (mul_le_mul hstep hstep hpos2 (le_trans hpos2 hstep))

theorem updateBall_eq (m : MathOps) (ball : BallState) (dt : ℚ) :
    updateBall m ball dt
      = if ballSpeed m ball dt > BallMaxSpeed ∧ ballSpeed m ball dt > 0 then
          { ball with
            position := integratedBallPosition ball dt,
            velocity := ⟨(draggedVelocity ball dt).x * (BallMaxSpeed / ballSpeed m ball dt),
                         (draggedVelocity ball dt).y * (BallMaxSpeed / ballSpeed m ball dt),
                         (draggedVelocity ball dt).z * (BallMaxSpeed / ballSpeed m ball dt)⟩ }
        else
          { ball with position := integratedBallPosition ball dt,
                      velocity := draggedVelocity ball dt } := rfl

theorem updateBall_frame (m : MathOps) (ball : BallState) (dt : ℚ) :
    (updateBall m ball dt).radius = ball.radius
      ∧ (updateBall m ball dt).position = integratedBallPosition ball dt := by
  rw [updateBall_eq]
  split_ifs <;> exact ⟨rfl, rfl⟩

theorem clampBallBounds_stages (b c : BallState) (hr : b.radius = BallRadius)
    (hc : c = clampBallBounds b) :
    c.radius = BallRadius
      ∧ (BallRadius ≤ c.position.z
        ∧ c.position.z ≤ ArenaHeight - BallRadius
        ∧ (c.velocity.z = b.velocity.z
          ∨ c.velocity.z = -b.velocity.z * BallRestitution))
      ∧ (|c.position.y| ≤ ArenaWidth / 2 - BallRadius
        ∧ (c.velocity.y = b.velocity.y
          ∨ c.velocity.y = -b.velocity.y * WallRestitution))
      ∧ ((|c.position.y| ≤ GoalWidth / 2
            ∧ c.position.z ≤ GoalHeight →
          c.position.x = b.position.x
            ∧ c.velocity.x = b.velocity.x)
        ∧ (¬ (|c.position.y| ≤ GoalWidth / 2
            ∧ c.position.z ≤ GoalHeight) →
          |c.position.x| ≤ ArenaLength / 2 - BallRadius)
        ∧ (c.velocity.x = b.velocity.x
          ∨ c.velocity.x = -b.velocity.x * WallRestitution)) := by
  unfold clampBallBounds at hc
  lift_lets at hc
  extract_lets halfL halfW s1 t1 b1 s2 t2 b2 inY inZ s3 t3 b3 s4 t4 b4 b5 s6 t6 b6 s7 t7 b7 at hc
  have hH : BallRadius ≤ ArenaHeight - BallRadius := by unfold BallRadius ArenaHeight; norm_num
  have hL : -halfL + BallRadius ≤ halfL - BallRadius := by
    simp only [halfL]; unfold BallRadius ArenaLength; norm_num
  have hW : -halfW + BallRadius ≤ halfW - BallRadius := by
    simp only [halfW]; unfold BallRadius ArenaWidth; norm_num
  have hG : GoalWidth / 2 < halfW - BallRadius := by
    simp only [halfW]; unfold BallRadius ArenaWidth GoalWidth; norm_num
  have hG2 : -halfW + BallRadius < -(GoalWidth / 2) := by
    simp only [halfW]; unfold BallRadius ArenaWidth GoalWidth; norm_num
  -- the floor
  have c1 : b1.radius = BallRadius ∧ b1.position.x = b.position.x
      ∧ b1.position.y = b.position.y ∧ b1.velocity.x = b.velocity.x
      ∧ b1.velocity.y = b.velocity.y ∧ BallRadius ≤ b1.position.z
      ∧ (b1.position.z ≤ ArenaHeight - BallRadius → b1.velocity.z = b.velocity.z
          ∨ b1.velocity.z = -b.velocity.z * BallRestitution)
      ∧ (¬ b1.position.z ≤ ArenaHeight - BallRadius → b1.velocity.z = b.velocity.z) := by
    by_cases h : b.position.z < b.radius
    · have hb : b1 = _ := if_pos h
      have hz : b1.position.z = BallRadius := by rw [hb]; exact hr
      exact ⟨by rw [hb]; exact hr, by rw [hb], by rw [hb], by rw [hb], by rw [hb],
        le_of_eq hz.symm, fun _ => Or.inr (by rw [hb]), fun hn => absurd (hz ▸ hH) hn⟩
    · have hb : b1 = b := if_neg h
      rw [hb]
      exact ⟨hr, rfl, rfl, rfl, rfl, hr ▸ not_lt.mp h, fun _ => Or.inl rfl, fun _ => rfl⟩
  -- the ceiling
  have c2 : b2.radius = BallRadius ∧ b2.position.x = b.position.x
      ∧ b2.position.y = b.position.y ∧ b2.velocity.x = b.velocity.x
      ∧ b2.velocity.y = b.velocity.y ∧ BallRadius ≤ b2.position.z
      ∧ b2.position.z ≤ ArenaHeight - BallRadius
      ∧ (b2.velocity.z = b.velocity.z ∨ b2.velocity.z = -b.velocity.z * BallRestitution) := by
    obtain ⟨e1, e2, e3, e4, e5, e6, e7, e8⟩ := c1
    by_cases h : b1.position.z > ArenaHeight - b1.radius
    · have hb : b2 = _ := if_pos h
      have hz : b2.position.z = ArenaHeight - b1.radius := by rw [hb]
      have hv : b2.velocity.z = -b1.velocity.z * BallRestitution := by rw [hb]
      rw [e1] at h hz
      rw [e8 (not_le.mpr h)] at hv
      exact ⟨by rw [hb]; exact e1, by rw [hb]; exact e2, by rw [hb]; exact e3,
        by rw [hb]; exact e4, by rw [hb]; exact e5, hz ▸ hH, le_of_eq hz, Or.inr hv⟩
    · have hb : b2 = b1 := if_neg h
      rw [hb]
      rw [e1] at h
      exact ⟨e1, e2, e3, e4, e5, e6, not_lt.mp h, e7 (not_lt.mp h)⟩
  obtain ⟨e1, e2, e3, e4, e5, e6, e7, e8⟩ := c2
  -- the end walls
  have c5 : b5.radius = BallRadius ∧ b5.position.y = b.position.y
      ∧ b5.position.z = b2.position.z ∧ b5.velocity.y = b.velocity.y
      ∧ b5.velocity.z = b2.velocity.z
      ∧ (|b.position.y| ≤ GoalWidth / 2 ∧ b2.position.z ≤ GoalHeight →
          b5.position.x = b.position.x ∧ b5.velocity.x = b.velocity.x)
      ∧ (¬ (|b.position.y| ≤ GoalWidth / 2 ∧ b2.position.z ≤ GoalHeight) →
          -halfL + BallRadius ≤ b5.position.x ∧ b5.position.x ≤ halfL - BallRadius)
      ∧ (b5.velocity.x = b.velocity.x ∨ b5.velocity.x = -b.velocity.x * WallRestitution) := by
    have hinY : inY = decide (|b.position.y| ≤ GoalWidth / 2) := by
      simp only [inY, e3]
    by_cases hin : |b.position.y| ≤ GoalWidth / 2 ∧ b2.position.z ≤ GoalHeight
    · have hcond : ¬ ((!inY || !inZ) = true) := by
        rw [hinY]
        simp only [inZ, hin.1, hin.2, decide_True, Bool.not_true, Bool.or_self,
          Bool.false_eq_true, not_false_eq_true]
      have hb : b5 = b2 := if_neg hcond
      rw [hb]
      exact ⟨e1, e3, rfl, e5, rfl, fun _ => ⟨e2, e4⟩, fun hn => absurd hin hn, Or.inl e4⟩
    · have hcond : (!inY || !inZ) = true := by
        rw [hinY]
        by_cases hy : |b.position.y| ≤ GoalWidth / 2
        · have hz : ¬ b2.position.z ≤ GoalHeight := fun hz => hin ⟨hy, hz⟩
          simp [inZ, hy, hz]
        · simp [hy]
      have hb : b5 = b4 := if_pos hcond
      rw [hb]
      have c3 : b3.radius = BallRadius ∧ b3.position.y = b.position.y
          ∧ b3.position.z = b2.position.z ∧ b3.velocity.y = b.velocity.y
          ∧ b3.velocity.z = b2.velocity.z ∧ -halfL + BallRadius ≤ b3.position.x
          ∧ (b3.position.x ≤ halfL - BallRadius →
              b3.velocity.x = b.velocity.x ∨ b3.velocity.x = -b.velocity.x * WallRestitution)
          ∧ (¬ b3.position.x ≤ halfL - BallRadius → b3.velocity.x = b.velocity.x) := by
        by_cases h : b2.position.x < -halfL + b2.radius
        · have hb3 : b3 = _ := if_pos h
          have hx : b3.position.x = -halfL + b2.radius := by rw [hb3]
          have hv : b3.velocity.x = -b2.velocity.x * WallRestitution := by rw [hb3]
          rw [e1] at hx
          rw [e4] at hv
          exact ⟨by rw [hb3]; exact e1, by rw [hb3]; exact e3, by rw [hb3],
            by rw [hb3]; exact e5, by rw [hb3], le_of_eq hx.symm, fun _ => Or.inr hv,
            fun hn => absurd (hx ▸ hL) hn⟩
        · have hb3 : b3 = b2 := if_neg h
          rw [hb3]
          rw [e1] at h
          exact ⟨e1, e3, rfl, e5, rfl, not_lt.mp h, fun _ => Or.inl e4, fun _ => e4⟩
      obtain ⟨f1, f2, f3, f4, f5, f6, f7, f8⟩ := c3
      by_cases h : b3.position.x > halfL - b3.radius
      · have hb4 : b4 = _ := if_pos h
        have hx : b4.position.x = halfL - b3.radius := by rw [hb4]
        have hv : b4.velocity.x = -b3.velocity.x * WallRestitution := by rw [hb4]
        rw [f1] at h hx
        rw [f8 (not_le.mpr h)] at hv
        exact ⟨by rw [hb4]; exact f1, by rw [hb4]; exact f2, by rw [hb4]; exact f3,
          by rw [hb4]; exact f4, by rw [hb4]; exact f5, fun hh => absurd hh hin,
          fun _ => ⟨hx ▸ hL, le_of_eq hx⟩, Or.inr hv⟩
      · have hb4 : b4 = b3 := if_neg h
        rw [hb4]
        rw [f1] at h
        exact ⟨f1, f2, f3, f4, f5, fun hh => absurd hh hin, fun _ => ⟨f6, not_lt.mp h⟩,
          f7 (not_lt.mp h)⟩
  obtain ⟨g1, g2, g3, g4, g5, g6, g7, g8⟩ := c5
  -- the side walls
  have c6 : b6.radius = BallRadius ∧ b6.position.x = b5.position.x
      ∧ b6.position.z = b5.position.z ∧ b6.velocity.x = b5.velocity.x
      ∧ b6.velocity.z = b5.velocity.z ∧ -halfW + BallRadius ≤ b6.position.y
      ∧ (b6.position.y ≤ halfW - BallRadius →
          b6.velocity.y = b.velocity.y ∨ b6.velocity.y = -b.velocity.y * WallRestitution)
      ∧ (¬ b6.position.y ≤ halfW - BallRadius → b6.velocity.y = b.velocity.y)
      ∧ (|b6.position.y| ≤ GoalWidth / 2 ↔ |b.position.y| ≤ GoalWidth / 2)
      ∧ (b6.position.y ≤ halfW - BallRadius ∨ b6.position.y = b.position.y) := by
    by_cases h : b5.position.y < -halfW + b5.radius
    · have hb : b6 = _ := if_pos h
      have hy : b6.position.y = -halfW + b5.radius := by rw [hb]
      have hv : b6.velocity.y = -b5.velocity.y * WallRestitution := by rw [hb]
      rw [g1] at h hy
      rw [g4] at hv
      rw [g2] at h
      refine ⟨by rw [hb]; exact g1, by rw [hb], by rw [hb], by rw [hb], by rw [hb],
        le_of_eq hy.symm, fun _ => Or.inr hv,
        fun hn => absurd (hy ▸ hW) hn, ⟨fun ha => ?_, fun ha => ?_⟩, Or.inl (hy ▸ hW)⟩
      · have := (abs_le.mp ha).1
        rw [hy] at this
        linarith
      · have := (abs_le.mp ha).1
        linarith
    · have hb : b6 = b5 := if_neg h
      rw [hb]
      rw [g1] at h
      exact ⟨g1, rfl, rfl, rfl, rfl, not_lt.mp h, fun _ => Or.inl g4, fun _ => g4,
        by rw [g2], Or.inr g2⟩
  obtain ⟨k1, k2, k3, k4, k5, k6, k7, k8, k9, k10⟩ := c6
  have c7 : b7.radius = BallRadius ∧ b7.position.x = b5.position.x
      ∧ b7.position.z = b5.position.z ∧ b7.velocity.x = b5.velocity.x
      ∧ b7.velocity.z = b5.velocity.z
      ∧ -halfW + BallRadius ≤ b7.position.y ∧ b7.position.y ≤ halfW - BallRadius
      ∧ (b7.velocity.y = b.velocity.y ∨ b7.velocity.y = -b.velocity.y * WallRestitution)
      ∧ (|b7.position.y| ≤ GoalWidth / 2 ↔ |b.position.y| ≤ GoalWidth / 2) := by
    by_cases h : b6.position.y > halfW - b6.radius
    · have hb : b7 = _ := if_pos h
      have hy : b7.position.y = halfW - b6.radius := by rw [hb]
      have hv : b7.velocity.y = -b6.velocity.y * WallRestitution := by rw [hb]
      rw [k1] at h hy
      rw [k8 (not_le.mpr h)] at hv
      have hby : b6.position.y = b.position.y := by
        rcases k10 with h10 | h10
        · exact absurd h10 (not_le.mpr h)
        · exact h10
      refine ⟨by rw [hb]; exact k1, by rw [hb]; exact k2, by rw [hb]; exact k3,
        by rw [hb]; exact k4, by rw [hb]; exact k5, hy ▸ hW, le_of_eq hy, Or.inr hv,
        ⟨fun ha => ?_, fun ha => ?_⟩⟩
      · have := (abs_le.mp ha).2
        rw [hy] at this
        linarith
      · rw [hby] at h
        have := (abs_le.mp ha).2
        linarith
    · have hb : b7 = b6 := if_neg h
      rw [hb]
      rw [k1] at h
      exact ⟨k1, k2, k3, k4, k5, k6, not_lt.mp h, k7 (not_lt.mp h), k9⟩
  obtain ⟨m1, m2, m3, m4, m5, m6, m7, m8, m9⟩ := c7
  have hl2 : halfL = ArenaLength / 2 := rfl
  have hw2 : halfW = ArenaWidth / 2 := rfl
  rw [hc, m2, m3, m4, m5, g3, g5, m1]
  refine ⟨rfl, ⟨e6, e7, e8⟩, ⟨?_, m8⟩, fun hin => g6 ⟨m9.mp hin.1, hin.2⟩, fun hn => ?_, g8⟩
  · rw [abs_le, ← hw2]
    exact ⟨by linarith, m7⟩
  · have := g7 (fun hin => hn ⟨m9.mpr hin.1, hin.2⟩)
    rw [abs_le, ← hl2]
    exact ⟨by linarith, this.2⟩

theorem sq_reflect_le (v w k : ℚ) (hk0 : 0 ≤ k) (hk1 : k ≤ 1) (h : w = v ∨ w = -v * k) :
    w * w ≤ v * v := by
  rcases h with h | h
  · rw [h]
  · rw [h]
    have h1 : k * k ≤ 1 := by nlinarith
    have h2 : 0 ≤ v * v := mul_self_nonneg v
    nlinarith

/-- The speed cap with a square root that may fall short of the real one by `δ`: the
squared speed after `updateBall` is at most `(BallMaxSpeed + δ)²`. -/
theorem updateBall_speed_within (m : MathOps) (ball : BallState) (dt δ : ℚ) (hδ : 0 ≤ δ)
    (h0 : 0 ≤ ballSpeed m ball dt)
    (hs : dot (draggedVelocity ball dt) (draggedVelocity ball dt)
      ≤ (ballSpeed m ball dt + δ) * (ballSpeed m ball dt + δ)) :
    dot (updateBall m ball dt).velocity (updateBall m ball dt).velocity
      ≤ (BallMaxSpeed + δ) * (BallMaxSpeed + δ) := by
  have hmax : (0 : ℚ) < BallMaxSpeed := by unfold BallMaxSpeed; norm_num
  by_cases hc : ballSpeed m ball dt > BallMaxSpeed
  · have hpos : ballSpeed m ball dt > 0 := lt_trans hmax hc
    have hne : ballSpeed m ball dt ≠ 0 := ne_of_gt hpos
    rw [updateBall_eq, if_pos ⟨hc, hpos⟩]
    unfold dot at hs ⊢
    simp only []
    generalize ballSpeed m ball dt = s at *
    generalize (draggedVelocity ball dt).x = a at *
    generalize (draggedVelocity ball dt).y = b at *
    generalize (draggedVelocity ball dt).z = c at *
    have e : a * (BallMaxSpeed / s) * (a * (BallMaxSpeed / s))
        + b * (BallMaxSpeed / s) * (b * (BallMaxSpeed / s))
        + c * (BallMaxSpeed / s) * (c * (BallMaxSpeed / s))
        = (a * a + b * b + c * c) * (BallMaxSpeed / s) * (BallMaxSpeed / s) := by ring
    rw [e]
    have hk0 : 0 ≤ BallMaxSpeed / s := le_of_lt (div_pos hmax hpos)
    have hk1 : BallMaxSpeed / s ≤ 1 := by
      rw [div_le_one hpos]
      exact le_of_lt hc
    have h1 : (a * a + b * b + c * c) * (BallMaxSpeed / s) * (BallMaxSpeed / s)
        ≤ (s + δ) * (s + δ) * (BallMaxSpeed / s) * (BallMaxSpeed / s) := by
      apply mul_le_mul_of_nonneg_right _ hk0
      exact mul_le_mul_of_nonneg_right hs hk0
    have h2 : (s + δ) * (s + δ) * (BallMaxSpeed / s) * (BallMaxSpeed / s)
        = (BallMaxSpeed + δ * (BallMaxSpeed / s)) * (BallMaxSpeed + δ * (BallMaxSpeed / s)) := by
      field_simp
      ring
    have h3 : δ * (BallMaxSpeed / s) ≤ δ := by nlinarith
    have h4 : 0 ≤ δ * (BallMaxSpeed / s) := mul_nonneg hδ hk0
    rw [h2] at h1
    refine le_trans h1 ?_
    apply mul_le_mul <;> linarith
  · have hn : ¬ (ballSpeed m ball dt > BallMaxSpeed ∧ ballSpeed m ball dt > 0) := fun h => hc h.1
    rw [updateBall_eq, if_neg hn]
    refine le_trans hs ?_
    have : ballSpeed m ball dt ≤ BallMaxSpeed := not_lt.mp hc
    apply mul_le_mul <;> linarith

/-- The speed cap with a square root that is not negative and may fall short of the real
one by the factor `e ≥ 1` in the square: the squared speed after `updateBall` is at most
`BallMaxSpeed² * e`. -/
theorem updateBall_speed_near (m : MathOps) (ball : BallState) (dt e : ℚ) (he : 1 ≤ e)
    (h0 : 0 ≤ ballSpeed m ball dt)
    (hs : dot (draggedVelocity ball dt) (draggedVelocity ball dt)
      ≤ ballSpeed m ball dt * ballSpeed m ball dt * e) :
    dot (updateBall m ball dt).velocity (updateBall m ball dt).velocity
      ≤ BallMaxSpeed * BallMaxSpeed * e := by
  have hmax : (0 : ℚ) < BallMaxSpeed := by unfold BallMaxSpeed; norm_num
  by_cases hc : ballSpeed m ball dt > BallMaxSpeed
  · have hpos : ballSpeed m ball dt > 0 := lt_trans hmax hc
    have hne : ballSpeed m ball dt ≠ 0 := ne_of_gt hpos
    rw [updateBall_eq, if_pos ⟨hc, hpos⟩]
    unfold dot at hs ⊢
    simp only []
    generalize ballSpeed m ball dt = s at *
    generalize (draggedVelocity ball dt).x = a at *
    generalize (draggedVelocity ball dt).y = b at *
    generalize (draggedVelocity ball dt).z = c at *
    have e1 : a * (BallMaxSpeed / s) * (a * (BallMaxSpeed / s))
        + b * (BallMaxSpeed / s) * (b * (BallMaxSpeed / s))
        + c * (BallMaxSpeed / s) * (c * (BallMaxSpeed / s))
        = (a * a + b * b + c * c) * (BallMaxSpeed / s * (BallMaxSpeed / s)) := by ring
    rw [e1]
    have hk : 0 ≤ BallMaxSpeed / s * (BallMaxSpeed / s) := mul_self_nonneg _
    have h1 := mul_le_mul_of_nonneg_right hs hk
    have h2 : s * s * e * (BallMaxSpeed / s * (BallMaxSpeed / s))
        = BallMaxSpeed * BallMaxSpeed * e := by
      field_simp
      ring
    rw [h2] at h1
    exact h1
  · have hn : ¬ (ballSpeed m ball dt > BallMaxSpeed ∧ ballSpeed m ball dt > 0) := fun h => hc h.1
    rw [updateBall_eq, if_neg hn]
    refine le_trans hs ?_
    have hle : ballSpeed m ball dt ≤ BallMaxSpeed := not_lt.mp hc
    have := mul_le_mul hle hle h0 (le_of_lt hmax)
    exact mul_le_mul_of_nonneg_right this (by linarith)

/-- C39 (as stated, refuted): a ball in the air above the centre spot with velocity
`(8431, -2484, -911)` and one step of `1/120` s, computed on `float64` as the code does.
`updateBall` finds the speed above `BallMaxSpeed` and rescales; no bound is touched; the
velocity stored has a squared length above `BallMaxSpeed²`, and `math.Sqrt` of the sum of
its squares is `6000.000000000001`. With the reference square root over the rationals the
step ends above `BallMaxSpeed` as well. -/
theorem C39_counterexample :
    cappedBall.radius = BallRadius
      ∧ (clampBallBoundsF64 (updateBallF64 cappedBall (f64 (1 / 120)))).velocity
          = ⟨6294015604701929 / 1099511627776, -(7417547034553241 / 4398046511104),
              -(684066388066371 / 1099511627776)⟩
      ∧ BallMaxSpeed * BallMaxSpeed
          < dot (clampBallBoundsF64 (updateBallF64 cappedBall (f64 (1 / 120)))).velocity
              (clampBallBoundsF64 (updateBallF64 cappedBall (f64 (1 / 120)))).velocity
      ∧ sqrtF64 (f64 (f64 (f64 ((6294015604701929 / 1099511627776 : ℚ) * (6294015604701929 / 1099511627776))
            + f64 ((-(7417547034553241 / 4398046511104) : ℚ) * (-(7417547034553241 / 4398046511104))))
            + f64 ((-(684066388066371 / 1099511627776) : ℚ) * (-(684066388066371 / 1099511627776)))))
          = 6597069766656001 / 1099511627776
      ∧ BallMaxSpeed < (6597069766656001 / 1099511627776 : ℚ)
      ∧ BallMaxSpeed * BallMaxSpeed
          < dot (clampBallBounds (updateBall refOps cappedBall (1 / 120))).velocity
              (clampBallBounds (updateBall refOps cappedBall (1 / 120))).velocity := by
  decide!

/-- C39 (amended): for every ball of radius `BallRadius` and every `dt`, after `updateBall`
and `clampBallBounds` the ball has `BallRadius ≤ z ≤ ArenaHeight - BallRadius` and
`|y| ≤ ArenaWidth/2 - BallRadius`; outside the goal mouth (`|y| ≤ GoalWidth/2` and
`z ≤ GoalHeight`) it has `|x| ≤ ArenaLength/2 - BallRadius`, inside it `x` and `vx` are
as `updateBall` left them; each velocity component is the one `updateBall` left or that
one multiplied by `-BallRestitution` (z) or `-WallRestitution` (x, y), so the bounds do
not lengthen the velocity; `updateBall` rescales the dragged velocity by
`BallMaxSpeed / speed` when the computed speed exceeds `BallMaxSpeed` and leaves it
otherwise; and the speed after the step is at most `BallMaxSpeed * (1 + 1e-9)` whenever
the computed speed is not negative and the real length of the dragged velocity is at most
`1 + 1e-9` times it. With the reference square root that bound holds for every ball. -/
theorem C39_ball_step_bounds (m : MathOps) (ball : BallState) (dt : ℚ)
    (hr : ball.radius = BallRadius) :
    (BallRadius ≤ (clampBallBounds (updateBall m ball dt)).position.z
        ∧ (clampBallBounds (updateBall m ball dt)).position.z ≤ ArenaHeight - BallRadius
        ∧ |(clampBallBounds (updateBall m ball dt)).position.y| ≤ ArenaWidth / 2 - BallRadius)
      ∧ (¬ (|(clampBallBounds (updateBall m ball dt)).position.y| ≤ GoalWidth / 2
            ∧ (clampBallBounds (updateBall m ball dt)).position.z ≤ GoalHeight) →
          |(clampBallBounds (updateBall m ball dt)).position.x| ≤ ArenaLength / 2 - BallRadius)
      ∧ (|(clampBallBounds (updateBall m ball dt)).position.y| ≤ GoalWidth / 2
            ∧ (clampBallBounds (updateBall m ball dt)).position.z ≤ GoalHeight →
          (clampBallBounds (updateBall m ball dt)).position.x
              = ball.position.x + ball.velocity.x * dt
            ∧ (clampBallBounds (updateBall m ball dt)).velocity.x
              = (updateBall m ball dt).velocity.x)
      ∧ (((clampBallBounds (updateBall m ball dt)).velocity.x = (updateBall m ball dt).velocity.x
            ∨ (clampBallBounds (updateBall m ball dt)).velocity.x
              = -(updateBall m ball dt).velocity.x * WallRestitution)
        ∧ ((clampBallBounds (updateBall m ball dt)).velocity.y
              = (updateBall m ball dt).velocity.y
            ∨ (clampBallBounds (updateBall m ball dt)).velocity.y
              = -(updateBall m ball dt).velocity.y * WallRestitution)
        ∧ ((clampBallBounds (updateBall m ball dt)).velocity.z
              = (updateBall m ball dt).velocity.z
            ∨ (clampBallBounds (updateBall m ball dt)).velocity.z
              = -(updateBall m ball dt).velocity.z * BallRestitution))
      ∧ dot (clampBallBounds (updateBall m ball dt)).velocity
            (clampBallBounds (updateBall m ball dt)).velocity
          ≤ dot (updateBall m ball dt).velocity (updateBall m ball dt).velocity
      ∧ (ballSpeed m ball dt > BallMaxSpeed →
          (updateBall m ball dt).velocity
              = ⟨(draggedVelocity ball dt).x * (BallMaxSpeed / ballSpeed m ball dt),
                 (draggedVelocity ball dt).y * (BallMaxSpeed / ballSpeed m ball dt),
                 (draggedVelocity ball dt).z * (BallMaxSpeed / ballSpeed m ball dt)⟩)
      ∧ (¬ ballSpeed m ball dt > BallMaxSpeed →
          (updateBall m ball dt).velocity = draggedVelocity ball dt)
      ∧ (0 ≤ ballSpeed m ball dt →
          dot (draggedVelocity ball dt) (draggedVelocity ball dt)
              ≤ ballSpeed m ball dt * ballSpeed m ball dt
                * ((1 + 1 / 10 ^ 9) * (1 + 1 / 10 ^ 9)) →
          dot (clampBallBounds (updateBall m ball dt)).velocity
              (clampBallBounds (updateBall m ball dt)).velocity
            ≤ BallMaxSpeed * BallMaxSpeed * ((1 + 1 / 10 ^ 9) * (1 + 1 / 10 ^ 9)))
      ∧ dot (clampBallBounds (updateBall refOps ball dt)).velocity
            (clampBallBounds (updateBall refOps ball dt)).velocity
          ≤ BallMaxSpeed * BallMaxSpeed * ((1 + 1 / 10 ^ 9) * (1 + 1 / 10 ^ 9)) := by
  have hmax : (0 : ℚ) < BallMaxSpeed := by unfold BallMaxSpeed; norm_num
  have reflect : ∀ m2 : MathOps,
      dot (clampBallBounds (updateBall m2 ball dt)).velocity
          (clampBallBounds (updateBall m2 ball dt)).velocity
        ≤ dot (updateBall m2 ball dt).velocity (updateBall m2 ball dt).velocity := by
    intro m2
    have hu2 := updateBall_frame m2 ball dt
    obtain ⟨_, ⟨_, _, z3⟩, ⟨_, y2⟩, _, _, x3⟩ :=
      clampBallBounds_stages (updateBall m2 ball dt) _ (hu2.1.trans hr) rfl
    have kx := sq_reflect_le _ _ WallRestitution (by norm_num [WallRestitution])
      (by norm_num [WallRestitution]) x3
    have ky := sq_reflect_le _ _ WallRestitution (by norm_num [WallRestitution])
      (by norm_num [WallRestitution]) y2
    have kz := sq_reflect_le _ _ BallRestitution (by norm_num [BallRestitution])
      (by norm_num [BallRestitution]) z3
    unfold dot
    linarith
  have hu := updateBall_frame m ball dt
  obtain ⟨_, ⟨z1, z2, z3⟩, ⟨y1, y2⟩, x1, x2, x3⟩ :=
    clampBallBounds_stages (updateBall m ball dt) _ (hu.1.trans hr) rfl
  have href : dot (updateBall refOps ball dt).velocity (updateBall refOps ball dt).velocity
      ≤ BallMaxSpeed * BallMaxSpeed * ((1 + 1 / 10 ^ 9) * (1 + 1 / 10 ^ 9)) := by
    have hq : 0 ≤ dot (draggedVelocity ball dt) (draggedVelocity ball dt) := by
      unfold dot
      nlinarith [mul_self_nonneg (draggedVelocity ball dt).x,
        mul_self_nonneg (draggedVelocity ball dt).y, mul_self_nonneg (draggedVelocity ball dt).z]
    obtain ⟨w1, _, w3⟩ := refSqrt_within _ hq
    have h1 := updateBall_speed_within refOps ball dt (1 / 10 ^ 12) (by norm_num) w1 w3
    refine le_trans h1 ?_
    unfold BallMaxSpeed
    norm_num
  refine ⟨⟨z1, z2, y1⟩, x2, fun hin => ?_, ⟨x3, y2, z3⟩, reflect m, fun hc => ?_, fun hc => ?_,
    fun h0 hs => le_trans (reflect m) (updateBall_speed_near m ball dt _ (by norm_num) h0 hs),
    le_trans (reflect refOps) href⟩
  · have := x1 hin
    rw [hu.2] at this
    exact this
  · rw [updateBall_eq, if_pos ⟨hc, lt_trans hmax hc⟩]
  · have hn : ¬ (ballSpeed m ball dt > BallMaxSpeed ∧ ballSpeed m ball dt > 0) := fun h => hc h.1
    rw [updateBall_eq, if_neg hn]

/-- C39 (amended) at the ball of the counterexample, with the reference square root: the
computed speed is above `BallMaxSpeed`, it is not the exact root but within one part in
`1e9` of it, and the speed after the step is at most `BallMaxSpeed * (1 + 1e-9)`. -/
theorem C39_ball_step_bounds_witness :
    (cappedBall.radius = BallRadius
        ∧ 0 ≤ ballSpeed refOps cappedBall (1 / 120)
        ∧ dot (draggedVelocity cappedBall (1 / 120)) (draggedVelocity cappedBall (1 / 120))
          ≤ ballSpeed refOps cappedBall (1 / 120) * ballSpeed refOps cappedBall (1 / 120)
            * ((1 + 1 / 10 ^ 9) * (1 + 1 / 10 ^ 9))
        ∧ ballSpeed refOps cappedBall (1 / 120) > BallMaxSpeed
        ∧ ballSpeed refOps cappedBall (1 / 120) * ballSpeed refOps cappedBall (1 / 120)
          ≠ dot (draggedVelocity cappedBall (1 / 120)) (draggedVelocity cappedBall (1 / 120)))
      ∧ dot (clampBallBounds (updateBall refOps cappedBall (1 / 120))).velocity
          (clampBallBounds (updateBall refOps cappedBall (1 / 120))).velocity
        ≤ BallMaxSpeed * BallMaxSpeed * ((1 + 1 / 10 ^ 9) * (1 + 1 / 10 ^ 9)) :=
  have h0 : 0 ≤ ballSpeed refOps cappedBall (1 / 120) := by decide!
  have hs : dot (draggedVelocity cappedBall (1 / 120)) (draggedVelocity cappedBall (1 / 120))
      ≤ ballSpeed refOps cappedBall (1 / 120) * ballSpeed refOps cappedBall (1 / 120)
        * ((1 + 1 / 10 ^ 9) * (1 + 1 / 10 ^ 9)) := by decide!
  ⟨⟨rfl, h0, hs, by decide!, by decide!⟩,
    (C39_ball_step_bounds refOps cappedBall (1 / 120) rfl).2.2.2.2.2.2.2.1 h0 hs⟩

/-! ## The double jump -/

theorem updateCarJump_airborne (m : MathOps) (inp prev : CarInput) (fx fy vx vy vz : ℚ)
    (jc : jumpContext) (dt : ℚ) :
    updateCarJump m inp prev fx fy vx vy vz false jc dt
      = if jc.usedJumps > 0 then
          if doubleJumpFires inp prev jc dt then
            { vx := vx + (dodgeDirection m inp fx fy).1 * 500,
              vy := vy + (dodgeDirection m inp fx fy).2 * 500,
              vz := airborneVz inp jc vz dt + JumpVelocity, grounded := false,
              jc := { usedJumps := 2, timeSinceJump := jc.timeSinceJump + dt,
                      holdTime := JumpHoldMax, stickyTime := 0 } }
          else
            { vx := vx, vy := vy, vz := airborneVz inp jc vz dt, grounded := false,
              jc := { usedJumps := jc.usedJumps, timeSinceJump := jc.timeSinceJump + dt,
                      holdTime :=
                        if inp.jump && decide (jc.holdTime < JumpHoldMax)
                            && decide (jc.usedJumps = 1)
                        then jc.holdTime + dt else jc.holdTime,
                      stickyTime :=
                        if jc.stickyTime > 0 then jc.stickyTime - dt else jc.stickyTime } }
        else { vx := vx, vy := vy, vz := vz, grounded := false, jc := jc } := by
  unfold updateCarJump doubleJumpFires airborneVz dodgeDirection
  by_cases hu : jc.usedJumps > 0
  · by_cases hh : (inp.jump && decide (jc.holdTime < JumpHoldMax) && decide (jc.usedJumps = 1))
        = true <;>
    by_cases hs : jc.stickyTime > 0 <;>
    by_cases hd : ((inp.jump && !prev.jump) && decide (jc.usedJumps = 1)
            && decide (jc.timeSinceJump + dt ≤ DoubleJumpMax)) = true <;>
    simp [hu, hh, hs, hd]
  · simp [hu]

theorem updateCar_jump_section (m : MathOps) (car : CarState) (inp prev : CarInput)
    (jc : jumpContext) (dt : ℚ) :
    (updateCar m car inp prev jc dt).2.usedJumps
        = (updateCarJump m inp prev (heading m car inp dt).1 (heading m car inp dt).2
            (planarVelocity m car inp dt).1 (planarVelocity m car inp dt).2 car.velocity.z
            car.isGrounded jc dt).jc.usedJumps
      ∧ (¬ integratedZ m car inp prev jc dt ≤ CarRadius →
          ¬ integratedZ m car inp prev jc dt > ArenaHeight - CarRadius →
          (updateCar m car inp prev jc dt).1.velocity.z
              = (updateCarJump m inp prev (heading m car inp dt).1 (heading m car inp dt).2
                  (planarVelocity m car inp dt).1 (planarVelocity m car inp dt).2
                  car.velocity.z car.isGrounded jc dt).vz + Gravity * dt
            ∧ (updateCar m car inp prev jc dt).1.isGrounded
              = (updateCarJump m inp prev (heading m car inp dt).1 (heading m car inp dt).2
                  (planarVelocity m car inp dt).1 (planarVelocity m car inp dt).2
                  car.velocity.z car.isGrounded jc dt).grounded)
      ∧ ((updateCarJump m inp prev (heading m car inp dt).1 (heading m car inp dt).2
            (planarVelocity m car inp dt).1 (planarVelocity m car inp dt).2
            car.velocity.z car.isGrounded jc dt).grounded = false →
          (updateCar m car inp prev jc dt).1.velocity.x
              = (updateCarJump m inp prev (heading m car inp dt).1 (heading m car inp dt).2
                  (planarVelocity m car inp dt).1 (planarVelocity m car inp dt).2
                  car.velocity.z car.isGrounded jc dt).vx * AirResistance
            ∧ (updateCar m car inp prev jc dt).1.velocity.y
              = (updateCarJump m inp prev (heading m car inp dt).1 (heading m car inp dt).2
                  (planarVelocity m car inp dt).1 (planarVelocity m car inp dt).2
                  car.velocity.z car.isGrounded jc dt).vy * AirResistance) := by
  unfold updateCar integratedZ integratedVz heading planarVelocity heading
  lift_lets
  extract_lets yaw yawRad fx fy planar j vz vx vy px py pz snap vz2 g2 src1 jc2 pz2 ceil vz3 pz3
    src2
  refine ⟨?_, fun hl hc => ?_, fun hg => ?_⟩
  · show jc2.usedJumps = j.jc.usedJumps
    simp only [jc2]
    split_ifs <;> rfl
  · have e1 : snap = false := by simp only [snap]; exact decide_eq_false hl
    have e2 : pz2 = pz := by simp only [pz2, e1]; rfl
    have e3 : ceil = false := by simp only [ceil, e2]; exact decide_eq_false hc
    constructor
    · show vz3 = vz
      simp only [vz3, e3, vz2, e1]
      rfl
    · show g2 = j.grounded
      simp only [g2, e1]
      rfl
  · have hg2 : ¬ j.grounded = true := by
      have h3 : j.grounded = false := hg
      rw [h3]
      exact Bool.false_ne_true
    constructor
    · show (if j.grounded = true then j.vx * GroundFriction else j.vx * AirResistance)
        = j.vx * AirResistance
      rw [if_neg hg2]
    · show (if j.grounded = true then j.vy * GroundFriction else j.vy * AirResistance)
        = j.vy * AirResistance
      rw [if_neg hg2]

theorem carStep_usedJumps (m : MathOps) (car : CarState) (inp : CarInput) (jc : jumpContext)
    (dt : ℚ) (hg : car.isGrounded = false) :
    (carStep m car inp jc dt).2.usedJumps
      = if doubleJumpFires inp car.lastInput jc dt then 2 else jc.usedJumps := by
  unfold carStep
  simp only []
  rw [(updateCar_jump_section m car inp car.lastInput jc dt).1, hg, updateCarJump_airborne]
  by_cases hu : jc.usedJumps > 0
  · rw [if_pos hu]
    split_ifs <;> rfl
  · rw [if_neg hu]
    have hf : doubleJumpFires inp car.lastInput jc dt = false := by
      unfold doubleJumpFires
      have : ¬ jc.usedJumps = 1 := by omega
      simp [this]
    rw [hf]
    rfl

theorem flightDoubleJumps_le (m : MathOps) (steps : List (CarInput × ℚ)) :
    ∀ (car : CarState) (jc : jumpContext), car.isGrounded = false →
      flightDoubleJumps m car jc steps ≤ (if jc.usedJumps = 1 then 1 else 0) := by
  induction steps with
  | nil => intro car jc _; simp [flightDoubleJumps]
  | cons s rest ih =>
    intro car jc hg
    obtain ⟨inp, dt⟩ := s
    unfold flightDoubleJumps
    have hu := carStep_usedJumps m car inp jc dt hg
    by_cases hf : doubleJumpFires inp car.lastInput jc dt = true
    · have h1 : jc.usedJumps = 1 := by
        unfold doubleJumpFires at hf
        simp only [Bool.and_eq_true, decide_eq_true_eq] at hf
        exact hf.1.2
      rw [if_pos hf, if_pos h1]
      rw [if_pos hf] at hu
      by_cases hl : (carStep m car inp jc dt).1.isGrounded = true
      · rw [if_pos hl]
      · rw [if_neg hl]
        have := ih _ (carStep m car inp jc dt).2 (by simpa using hl)
        rw [hu] at this
        simp only [OfNat.ofNat_ne_one, if_false, Nat.le_zero] at this
        rw [this]
    · rw [if_neg hf, zero_add]
      rw [if_neg hf] at hu
      by_cases hl : (carStep m car inp jc dt).1.isGrounded = true
      · rw [if_pos hl]
        exact Nat.zero_le _
      · rw [if_neg hl]
        have := ih _ (carStep m car inp jc dt).2 (by simpa using hl)
        rw [hu] at this
        exact this

theorem ApplyInput_physical (w w2 : World) (inp : CarInput) (h : physical w = physical w2) :
    physical (ApplyInput w inp) = physical (ApplyInput w2 inp) := by
  unfold physical at h
  simp only [Prod.mk.injEq] at h
  obtain ⟨h1, h2, h3, h4, h5, h6⟩ := h
  unfold ApplyInput physical
  simp only [h1, h2, h3, h4, h5, h6]

theorem runTicks_humans (m : MathOps) (fr : List (ℚ × TickClock)) :
    ∀ w : World, (∀ e ∈ w.state.cars, e.2.isBot = false) →
      ∀ e ∈ (runTicks m w fr).state.cars, e.2.isBot = false := by
  induction fr with
  | nil => intro w h; exact h
  | cons c rest ih =>
    intro w h
    unfold runTicks
    exact ih _ (Tick_humans m w c.1 c.2 h)

theorem single_of_keys {α : Type} (l : List (String × α)) (k : String)
    (h : l.map Prod.fst = [k]) : ∃ c, l = [(k, c)] := by
  match l, h with
  | [(k2, c)], h =>
    simp only [List.map_cons, List.map_nil, List.cons.injEq, and_true] at h
    exact ⟨c, by rw [h]⟩

theorem jump_test_fixed :
    (jumpTestWorld clock0 (List.replicate 8 clock0)).state.cars.map Prod.fst = ["p1"]
      ∧ (Tick refOps (ApplyInput (jumpTestWorld clock0 (List.replicate 8 clock0)) dodgeInput)
          (1 / 120) clock0).state.cars.map Prod.fst = ["p1"]
      ∧ ∀ e1 ∈ (jumpTestWorld clock0 (List.replicate 8 clock0)).state.cars,
          ∀ e2 ∈ (Tick refOps
              (ApplyInput (jumpTestWorld clock0 (List.replicate 8 clock0)) dodgeInput)
              (1 / 120) clock0).state.cars,
            e1.2.velocity.z < e2.2.velocity.z := by
  decide!

theorem ApplyInput_humans (w : World) (inp : CarInput)
    (h : ∀ e ∈ w.state.cars, e.2.isBot = false) :
    ∀ e ∈ (ApplyInput w inp).state.cars, e.2.isBot = false := h

theorem jumpTestWorld_eq (c0 : TickClock) (clks : List TickClock) :
    jumpTestWorld c0 clks
      = runTicks refOps
          (ApplyInput (runTicks refOps (ApplyInput kickoffWorld jumpInput) (frames [c0]))
            releaseInput)
          (frames clks) := rfl

theorem jumpTestWorld_physical (c0 : TickClock) (clks : List TickClock) (h : clks.length = 8) :
    physical (jumpTestWorld c0 clks) = physical (jumpTestWorld clock0 (List.replicate 8 clock0))
      ∧ ∀ e ∈ (jumpTestWorld c0 clks).state.cars, e.2.isBot = false := by
  have hk : ∀ e ∈ (ApplyInput kickoffWorld jumpInput).state.cars, e.2.isBot = false := by
    decide!
  have hf1 : (frames [c0]).map Prod.fst = (frames [clock0]).map Prod.fst := by
    rw [frames_fst, frames_fst]
    rfl
  have p1 := runTicks_physical refOps (frames [c0]) (frames [clock0])
    (ApplyInput kickoffWorld jumpInput) (ApplyInput kickoffWorld jumpInput) hf1 hk rfl
  have h1 := runTicks_humans refOps (frames [c0]) _ hk
  have p2 := ApplyInput_physical _ _ releaseInput p1
  have h2 := ApplyInput_humans _ releaseInput h1
  have hfr : (frames clks).map Prod.fst = (frames (List.replicate 8 clock0)).map Prod.fst := by
    rw [frames_fst, frames_fst, h, List.length_replicate]
  rw [jumpTestWorld_eq, jumpTestWorld_eq]
  exact ⟨runTicks_physical refOps (frames clks) (frames (List.replicate 8 clock0)) _ _ hfr h2 p2,
    runTicks_humans refOps (frames clks) _ h2⟩

theorem jump_test_run (c0 c9 : TickClock) (clks : List TickClock) (h : clks.length = 8) :
    ∃ c1 c2 : CarState,
      (jumpTestWorld c0 clks).state.cars = [("p1", c1)]
        ∧ (Tick refOps (ApplyInput (jumpTestWorld c0 clks) dodgeInput) (1 / 120) c9).state.cars
          = [("p1", c2)]
        ∧ c1.velocity.z < c2.velocity.z := by
  obtain ⟨p3, h3⟩ := jumpTestWorld_physical c0 clks h
  have p4 := ApplyInput_physical _ _ dodgeInput p3
  have h4 := ApplyInput_humans _ dodgeInput h3
  have p5 := Tick_physical refOps _ _ (1 / 120) c9 clock0 h4 p4
  obtain ⟨k1, k2, k3⟩ := jump_test_fixed
  rw [physical_cars _ _ p3, physical_cars _ _ p5]
  obtain ⟨c1, e1⟩ := single_of_keys _ _ k1
  obtain ⟨c2, e2⟩ := single_of_keys _ _ k2
  refine ⟨c1, c2, e1, e2, ?_⟩
  exact k3 ("p1", c1) (by rw [e1]; exact List.mem_singleton_self _) ("p1", c2)
    (by rw [e2]; exact List.mem_singleton_self _)

/-- C31: for an airborne car that neither lands nor reaches the ceiling in the step,
`updateCar` performs a double jump (`usedJumps` becomes 2, `vz` is the jump-phase `vz`
plus `JumpVelocity` plus gravity, and the planar velocity is the entry velocity plus
500 times the dodge direction, times `AirResistance`) exactly when jump is pressed now,
was not pressed on the previous input, `usedJumps = 1` and
`timeSinceJump + dt ≤ DoubleJumpMax`; otherwise `usedJumps` is unchanged. With
`usedJumps = 2` the double jump never fires and `vz` receives neither `JumpVelocity` nor
the hold acceleration. A flight that starts airborne fires at most one double jump before
landing (the first jump needs a grounded car). In the run of `TestJumpAndDoubleJumpWork`
the frame with jump pressed and throttle 1 leaves `vz` greater than before it. -/
theorem C31_double_jump (m : MathOps) (car : CarState) (inp prev : CarInput)
    (jc : jumpContext) (dt : ℚ) (hg : car.isGrounded = false)
    (hland : ¬ integratedZ m car inp prev jc dt ≤ CarRadius)
    (hceil : ¬ integratedZ m car inp prev jc dt > ArenaHeight - CarRadius) :
    (((updateCar m car inp prev jc dt).2.usedJumps = 2
          ∧ (updateCar m car inp prev jc dt).1.velocity.z
            = airborneVz inp jc car.velocity.z dt + JumpVelocity + Gravity * dt
          ∧ (updateCar m car inp prev jc dt).1.velocity.x
            = ((planarVelocity m car inp dt).1
                + 500 * (dodgeDirection m inp (heading m car inp dt).1
                    (heading m car inp dt).2).1) * AirResistance
          ∧ (updateCar m car inp prev jc dt).1.velocity.y
            = ((planarVelocity m car inp dt).2
                + 500 * (dodgeDirection m inp (heading m car inp dt).1
                    (heading m car inp dt).2).2) * AirResistance)
        ↔ (inp.jump = true ∧ prev.jump = false ∧ jc.usedJumps = 1
            ∧ jc.timeSinceJump + dt ≤ DoubleJumpMax))
      ∧ (¬ (inp.jump = true ∧ prev.jump = false ∧ jc.usedJumps = 1
            ∧ jc.timeSinceJump + dt ≤ DoubleJumpMax) →
          (updateCar m car inp prev jc dt).2.usedJumps = jc.usedJumps
            ∧ (updateCar m car inp prev jc dt).1.velocity.x
              = (planarVelocity m car inp dt).1 * AirResistance
            ∧ (updateCar m car inp prev jc dt).1.velocity.y
              = (planarVelocity m car inp dt).2 * AirResistance)
      ∧ (jc.usedJumps = 2 →
          (updateCar m car inp prev jc dt).2.usedJumps = 2
            ∧ (updateCar m car inp prev jc dt).1.velocity.z
              = (if jc.stickyTime > 0 then car.velocity.z - StickyForce * dt
                  else car.velocity.z) + Gravity * dt)
      ∧ (∀ (c : CarState) (k : jumpContext) (steps : List (CarInput × ℚ)),
          c.isGrounded = false → flightDoubleJumps m c k steps ≤ 1)
      ∧ (∀ (c0 c9 : TickClock) (clks : List TickClock), clks.length = 8 →
          ∃ c1 c2 : CarState,
            (jumpTestWorld c0 clks).state.cars = [("p1", c1)]
              ∧ (Tick refOps (ApplyInput (jumpTestWorld c0 clks) dodgeInput) (1 / 120)
                  c9).state.cars = [("p1", c2)]
              ∧ c1.velocity.z < c2.velocity.z) := by
  obtain ⟨hu, hv, hxy⟩ := updateCar_jump_section m car inp prev jc dt
  obtain ⟨hvz, _⟩ := hv hland hceil
  have hair := updateCarJump_airborne m inp prev (heading m car inp dt).1
    (heading m car inp dt).2 (planarVelocity m car inp dt).1 (planarVelocity m car inp dt).2
    car.velocity.z jc dt
  rw [hg] at hu hvz hxy
  have hfire : doubleJumpFires inp prev jc dt = true
      ↔ (inp.jump = true ∧ prev.jump = false ∧ jc.usedJumps = 1
          ∧ jc.timeSinceJump + dt ≤ DoubleJumpMax) := by
    unfold doubleJumpFires
    simp only [Bool.and_eq_true, decide_eq_true_eq, Bool.not_eq_true', and_assoc]
  have hjv : JumpVelocity ≠ 0 := by unfold JumpVelocity; norm_num
  have hcases : (doubleJumpFires inp prev jc dt = true
        ∧ (updateCar m car inp prev jc dt).2.usedJumps = 2
        ∧ (updateCar m car inp prev jc dt).1.velocity.z
          = airborneVz inp jc car.velocity.z dt + JumpVelocity + Gravity * dt
        ∧ (updateCar m car inp prev jc dt).1.velocity.x
          = ((planarVelocity m car inp dt).1
              + 500 * (dodgeDirection m inp (heading m car inp dt).1
                  (heading m car inp dt).2).1) * AirResistance
        ∧ (updateCar m car inp prev jc dt).1.velocity.y
          = ((planarVelocity m car inp dt).2
              + 500 * (dodgeDirection m inp (heading m car inp dt).1
                  (heading m car inp dt).2).2) * AirResistance)
      ∨ (¬ doubleJumpFires inp prev jc dt = true
        ∧ (updateCar m car inp prev jc dt).2.usedJumps = jc.usedJumps
        ∧ (updateCar m car inp prev jc dt).1.velocity.z
          = (if jc.usedJumps > 0 then airborneVz inp jc car.velocity.z dt
              else car.velocity.z) + Gravity * dt
        ∧ (updateCar m car inp prev jc dt).1.velocity.x
          = (planarVelocity m car inp dt).1 * AirResistance
        ∧ (updateCar m car inp prev jc dt).1.velocity.y
          = (planarVelocity m car inp dt).2 * AirResistance) := by
    by_cases hpos : jc.usedJumps > 0
    · by_cases hf : doubleJumpFires inp prev jc dt = true
      · rw [if_pos hpos, if_pos hf] at hair
        rw [hair] at hu hvz hxy
        obtain ⟨hx, hy⟩ := hxy rfl
        refine Or.inl ⟨hf, hu, hvz, ?_, ?_⟩
        · rw [hx]; ring
        · rw [hy]; ring
      · rw [if_pos hpos, if_neg hf] at hair
        rw [hair] at hu hvz hxy
        obtain ⟨hx, hy⟩ := hxy rfl
        refine Or.inr ⟨hf, hu, ?_, hx, hy⟩
        rw [hvz, if_pos hpos]
    · have hf : ¬ doubleJumpFires inp prev jc dt = true := by
        rw [hfire]
        rintro ⟨_, _, h1, _⟩
        omega
      rw [if_neg hpos] at hair
      rw [hair] at hu hvz hxy
      obtain ⟨hx, hy⟩ := hxy rfl
      refine Or.inr ⟨hf, hu, ?_, hx, hy⟩
      rw [hvz, if_neg hpos]
  refine ⟨⟨fun h => ?_, fun h => ?_⟩, fun hn => ?_, fun h2 => ?_,
    fun c k steps hc => ?_, fun c0 c9 clks hlen => jump_test_run c0 c9 clks hlen⟩
  · rcases hcases with ⟨hf, _⟩ | ⟨hf, h1, h3, _⟩
    · exact hfire.mp hf
    · exfalso
      obtain ⟨k1, k2, _⟩ := h
      rw [h1] at k1
      rw [h3, if_pos (by omega)] at k2
      apply hjv
      linarith
  · rcases hcases with ⟨_, h1, h3, h4, h5⟩ | ⟨hf, _⟩
    · exact ⟨h1, h3, h4, h5⟩
    · exact absurd (hfire.mpr h) hf
  · rcases hcases with ⟨hf, _⟩ | ⟨_, h1, _, h4, h5⟩
    · exact absurd (hfire.mp hf) hn
    · exact ⟨h1, h4, h5⟩
  · rcases hcases with ⟨hf, _⟩ | ⟨_, h1, h3, _⟩
    · have := (hfire.mp hf).2.2.1
      omega
    · refine ⟨h1.trans h2, ?_⟩
      rw [h3, if_pos (by omega)]
      unfold airborneVz
      have hne : ¬ jc.usedJumps = 1 := by omega
      simp only [hne, decide_False, Bool.and_false, Bool.false_eq_true, if_false]
  · have := flightDoubleJumps_le m steps c k hc
    split_ifs at this <;> omega

/-- C31 at a car in the air after a first jump (`usedJumps = 1`, nine frames in) with
jump newly pressed and full throttle: the double jump fires. -/
theorem C31_double_jump_witness :
    ((airborneCar).isGrounded = false
        ∧ ¬ integratedZ refOps airborneCar dodgeInput releaseInput airborneJump (1 / 120)
            ≤ CarRadius
        ∧ ¬ integratedZ refOps airborneCar dodgeInput releaseInput airborneJump (1 / 120)
            > ArenaHeight - CarRadius)
      ∧ (dodgeInput.jump = true ∧ releaseInput.jump = false ∧ airborneJump.usedJumps = 1
            ∧ airborneJump.timeSinceJump + 1 / 120 ≤ DoubleJumpMax)
      ∧ (updateCar refOps airborneCar dodgeInput releaseInput airborneJump (1 / 120)).2.usedJumps
          = 2
      ∧ (updateCar refOps airborneCar dodgeInput releaseInput airborneJump
            (1 / 120)).1.velocity.z
          = airborneVz dodgeInput airborneJump airborneCar.velocity.z (1 / 120) + JumpVelocity
            + Gravity * (1 / 120) :=
  have hg : airborneCar.isGrounded = false := by decide!
  have hland : ¬ integratedZ refOps airborneCar dodgeInput releaseInput airborneJump (1 / 120)
      ≤ CarRadius := by decide!
  have hceil : ¬ integratedZ refOps airborneCar dodgeInput releaseInput airborneJump (1 / 120)
      > ArenaHeight - CarRadius := by decide!
  have hc : dodgeInput.jump = true ∧ releaseInput.jump = false ∧ airborneJump.usedJumps = 1
      ∧ airborneJump.timeSinceJump + 1 / 120 ≤ DoubleJumpMax := by decide!
  ⟨⟨hg, hland, hceil⟩, hc,
    ((C31_double_jump refOps airborneCar dodgeInput releaseInput airborneJump (1 / 120)
      hg hland hceil).1.mpr hc).1,
    ((C31_double_jump refOps airborneCar dodgeInput releaseInput airborneJump (1 / 120)
      hg hland hceil).1.mpr hc).2.1⟩

/-! ## The signed angle and the bot input -/

theorem subLoopSigned_spec (n : Nat) :
    ∀ d : ℚ, d ≤ 180 + 360 * (n : ℚ) →
      ∃ r : ℚ, subLoopSigned (n + 1) d = some r ∧ r ≤ 180 ∧ (d ≤ 180 → r = d)
        ∧ (180 < d → -180 < r) ∧ ∃ k : ℕ, d = r + 360 * (k : ℚ) := by
  induction n with
  | zero =>
    intro d hd
    have h1 : d ≤ 180 := by simpa using hd
    refine ⟨d, ?_, h1, fun _ => rfl, fun h => absurd h (not_lt.mpr h1), 0, by simp⟩
    simp [subLoopSigned, not_lt.mpr h1]
  | succ n ih =>
    intro d hd
    by_cases h1 : d > 180
    · have h2 : d - 360 ≤ 180 + 360 * (n : ℚ) := by
        push_cast at hd
        linarith
      obtain ⟨r, hr, hle, hsame, hgt, k, hk⟩ := ih (d - 360) h2
      refine ⟨r, ?_, hle, fun h => absurd h1 (not_lt.mpr h), fun _ => ?_, k + 1, ?_⟩
      · rw [subLoopSigned]
        simp only [h1, if_true]
        exact hr
      · by_cases h3 : 180 < d - 360
        · exact hgt h3
        · rw [hsame (not_lt.mp h3)]
          linarith
      · push_cast
        linarith
    · have h2 : d ≤ 180 := not_lt.mp h1
      refine ⟨d, ?_, h2, fun _ => rfl, fun h => absurd h h1, 0, by simp⟩
      rw [subLoopSigned]
      simp [h1]

theorem addLoopSigned_spec (n : Nat) :
    ∀ d : ℚ, -(180 + 360 * (n : ℚ)) ≤ d →
      ∃ r : ℚ, addLoopSigned (n + 1) d = some r ∧ -180 ≤ r ∧ (-180 ≤ d → r = d)
        ∧ (d < -180 → r < 180) ∧ ∃ k : ℕ, r = d + 360 * (k : ℚ) := by
  induction n with
  | zero =>
    intro d hd
    have h1 : -180 ≤ d := by
      have : -(180 + 360 * ((0 : ℕ) : ℚ)) = -180 := by norm_num
      rw [this] at hd
      exact hd
    refine ⟨d, ?_, h1, fun _ => rfl, fun h => absurd h (not_lt.mpr h1), 0, by simp⟩
    simp [addLoopSigned, not_lt.mpr h1]
  | succ n ih =>
    intro d hd
    by_cases h1 : d < -180
    · have h2 : -(180 + 360 * (n : ℚ)) ≤ d + 360 := by
        push_cast at hd
        linarith
      obtain ⟨r, hr, hge, hsame, hlt, k, hk⟩ := ih (d + 360) h2
      refine ⟨r, ?_, hge, fun h => absurd h1 (not_lt.mpr h), fun _ => ?_, k + 1, ?_⟩
      · rw [addLoopSigned]
        simp only [h1, if_true]
        exact hr
      · by_cases h3 : d + 360 < -180
        · exact hlt h3
        · rw [hsame (not_lt.mp h3)]
          linarith
      · push_cast
        linarith
    · have h2 : -180 ≤ d := not_lt.mp h1
      refine ⟨d, ?_, h2, fun _ => rfl, fun h => absurd h h1, 0, by simp⟩
      rw [addLoopSigned]
      simp [h1]

theorem normalizeSignedDeg_spec (d : ℚ) :
    -180 ≤ normalizeSignedDeg d ∧ normalizeSignedDeg d ≤ 180
      ∧ ∃ k : ℤ, d = normalizeSignedDeg d + 360 * (k : ℚ) := by
  have hd2 : 2 ≤ degFuel d := by unfold degFuel; omega
  obtain ⟨n, hn⟩ : ∃ n, degFuel d = n + 1 := ⟨degFuel d - 1, by omega⟩
  have habs := abs_lt_degFuel d
  have hn2 : degFuel d - 1 = n := by omega
  rw [hn2] at habs
  have hn0 : (0 : ℚ) ≤ (n : ℚ) := Nat.cast_nonneg n
  have hup : d ≤ 180 + 360 * (n : ℚ) := by
    have := le_abs_self d
    linarith
  obtain ⟨r1, hr1, hle1, hsame1, hgt1, k1, hk1⟩ := subLoopSigned_spec n d hup
  have hlow : -(180 + 360 * (n : ℚ)) ≤ r1 := by
    by_cases h0 : d ≤ 180
    · rw [hsame1 h0]
      have := neg_abs_le d
      linarith
    · have := hgt1 (not_le.mp h0)
      linarith
  obtain ⟨r2, hr2, hge2, hsame2, hlt2, k2, hk2⟩ := addLoopSigned_spec n r1 hlow
  have e : normalizeSignedDeg d = r2 := by
    unfold normalizeSignedDeg normalizeSignedDegFuel
    rw [hn, hr1]
    show (addLoopSigned (n + 1) r1).getD d = r2
    rw [hr2]
    rfl
  rw [e]
  refine ⟨hge2, ?_, (k1 : ℤ) - (k2 : ℤ), ?_⟩
  · by_cases h0 : -180 ≤ r1
    · rw [hsame2 h0]
      exact hle1
    · exact le_of_lt (hlt2 (not_le.mp h0))
  · push_cast
    rw [hk1, hk2]
    ring

theorem lookup_botInputs_human (m : MathOps) (ball : BallState) (tick : Nat) (now : Int)
    (id : String) (cars : List (String × CarState)) :
    ∀ input : List (String × CarInput), (∀ e ∈ cars, e.1 = id → e.2.isBot = false) →
      (botInputs m ball tick now cars input).lookup id = input.lookup id := by
  induction cars with
  | nil => intro input _; rfl
  | cons hd rest ih =>
    intro input h
    obtain ⟨k, car⟩ := hd
    have hrest : ∀ e ∈ rest, e.1 = id → e.2.isBot = false :=
      fun e he => h e (List.mem_cons_of_mem _ he)
    unfold botInputs
    by_cases hb : car.isBot = true
    · have hk : id ≠ k := by
        intro hid
        have := h (k, car) (List.mem_cons_self _ _) hid.symm
        simp [hb] at this
      simp only [hb, Bool.not_true, Bool.false_eq_true, if_false]
      rw [ih _ hrest, lookup_setKey_other _ _ _ _ hk]
    · have hf : car.isBot = false := by simpa using hb
      simp only [hf, Bool.not_false, if_true]
      exact ih _ hrest

theorem lookup_botInputs_bot (m : MathOps) (ball : BallState) (tick : Nat) (now : Int)
    (id : String) (car : CarState) (hbot : car.isBot = true)
    (cars : List (String × CarState)) :
    ∀ input : List (String × CarInput), (cars.map Prod.fst).Nodup → (id, car) ∈ cars →
      (botInputs m ball tick now cars input).lookup id
        = some { botInputFor m car ball with playerID := id, sequence := tick, clientMS := now } := by
  induction cars with
  | nil => intro input _ h; simp at h
  | cons hd rest ih =>
    intro input hnd hmem
    obtain ⟨k, c⟩ := hd
    simp only [List.map_cons, List.nodup_cons] at hnd
    rcases List.mem_cons.mp hmem with h | h
    · have hk : k = id := (congrArg Prod.fst h).symm
      have hc : c = car := (congrArg Prod.snd h).symm
      subst hk hc
      unfold botInputs
      simp only [hbot, Bool.not_true, Bool.false_eq_true, if_false]
      rw [lookup_botInputs_human m ball tick now k rest _ (fun e he hek => by
        exfalso
        apply hnd.1
        rw [← hek]
        exact List.mem_map_of_mem _ he)]
      exact lookup_setKey_self _ _ _
    · unfold botInputs
      split_ifs
      · exact ih _ hnd.2 h
      · exact ih _ hnd.2 h

theorem clamp_bounds (v lo hi : ℚ) (h : lo ≤ hi) : lo ≤ clamp v lo hi ∧ clamp v lo hi ≤ hi := by
  unfold clamp
  split_ifs with h1 h2
  · exact ⟨le_refl _, h⟩
  · exact ⟨h, le_refl _⟩
  · exact ⟨not_lt.mp h1, not_lt.mp h2⟩

theorem botInputFor_spec (m : MathOps) (car : CarState) (ball : BallState) :
    (botInputFor m car ball).steer = clamp (botDelta m car ball / BotSteerNormalization) (-1) 1
      ∧ (botInputFor m car ball).throttle = (if |botDelta m car ball| > 120 then -0.25 else 1)
      ∧ ((botInputFor m car ball).boost = true
          ↔ |botDelta m car ball| < 12 ∧ botDist2D m car ball > 600 ∧ car.boost > 15)
      ∧ ((botInputFor m car ball).handbrake = true ↔ |botDelta m car ball| > 75)
      ∧ ((botInputFor m car ball).jump = true
          ↔ car.isGrounded = true ∧ botDist2D m car ball < 250
            ∧ ball.position.z - car.position.z > 110) := by
  unfold botInputFor botDelta botTargetYaw botDist2D
  refine ⟨rfl, rfl, ?_, ?_, ?_⟩ <;>
    simp only [Bool.and_eq_true, decide_eq_true_eq, and_assoc]

/-- C35: in a world whose car ids are distinct, after a `Tick` the input stored under the
id of every bot car is the synthesized bot input for that car and the ball as they were
before the `Tick` (whatever was stored before), with the new tick number as `sequence`;
the input stored under an id without a bot car is as before. With `D` the signed angle
`normalizeSignedDeg (targetYaw - yaw)`, which lies in `[-180, 180]` and differs from
`targetYaw - yaw` by a multiple of 360: `steer = clamp (D / 35) (-1) 1 ∈ [-1, 1]`,
`throttle` is `-0.25` if `|D| > 120` and `1` otherwise, boost iff `|D| < 12`,
`dist2D > 600` and `car.boost > 15`, handbrake iff `|D| > 75`, jump iff grounded,
`dist2D < 250` and `ball.z - car.z > 110`; a bot never boosts while handbraking or
reversing, and always handbrakes while reversing. -/
theorem C35_bot_input (m : MathOps) (w : World) (dt : ℚ) (clk : TickClock)
    (hk : (w.state.cars.map Prod.fst).Nodup) :
    (∀ (id : String) (car : CarState), (id, car) ∈ w.state.cars → car.isBot = true →
        (Tick m w dt clk).input.lookup id
            = some { botInputFor m car w.state.ball with
                      playerID := id, sequence := (Tick m w dt clk).state.tick,
                      clientMS := clk.botMS }
          ∧ (Tick m w dt clk).state.tick = w.state.tick + 1)
      ∧ (∀ id : String, (∀ car : CarState, (id, car) ∈ w.state.cars → car.isBot = false) →
          (Tick m w dt clk).input.lookup id = w.input.lookup id)
      ∧ (∀ (car : CarState) (ball : BallState),
          (-180 ≤ botDelta m car ball ∧ botDelta m car ball ≤ 180
            ∧ ∃ k : ℤ, botTargetYaw m car ball - car.rotation.yaw
                = botDelta m car ball + 360 * (k : ℚ))
          ∧ (botInputFor m car ball).steer
              = clamp (botDelta m car ball / BotSteerNormalization) (-1) 1
          ∧ BotSteerNormalization = 35
          ∧ (botInputFor m car ball).throttle
              = (if |botDelta m car ball| > 120 then -0.25 else 1)
          ∧ ((botInputFor m car ball).boost = true
              ↔ |botDelta m car ball| < 12 ∧ botDist2D m car ball > 600 ∧ car.boost > 15)
          ∧ ((botInputFor m car ball).handbrake = true ↔ |botDelta m car ball| > 75)
          ∧ ((botInputFor m car ball).jump = true
              ↔ car.isGrounded = true ∧ botDist2D m car ball < 250
                ∧ ball.position.z - car.position.z > 110)
          ∧ (-1 ≤ (botInputFor m car ball).steer ∧ (botInputFor m car ball).steer ≤ 1)
          ∧ ((botInputFor m car ball).boost = true →
              (botInputFor m car ball).handbrake = false
                ∧ (botInputFor m car ball).throttle = 1)
          ∧ ((botInputFor m car ball).throttle < 0 →
              (botInputFor m car ball).handbrake = true)) := by
  refine ⟨fun id car hmem hbot => ?_, fun id hh => ?_, fun car ball => ?_⟩
  · rw [Tick_tick, Tick_input]
    exact ⟨lookup_botInputs_bot m _ _ _ id car hbot _ _ hk hmem, rfl⟩
  · rw [Tick_input]
    exact lookup_botInputs_human m _ _ _ id _ _ (fun e he hid => hh e.2 (by rw [← hid]; exact he))
  · obtain ⟨hs, ht, hb, hh, hj⟩ := botInputFor_spec m car ball
    have hD := normalizeSignedDeg_spec (botTargetYaw m car ball - car.rotation.yaw)
    have hcl := clamp_bounds (botDelta m car ball / BotSteerNormalization) (-1) 1 (by norm_num)
    refine ⟨hD, hs, rfl, ht, hb, hh, hj, by rw [hs]; exact hcl, fun hbo => ?_, fun hth => ?_⟩
    · have h12 := (hb.mp hbo).1
      constructor
      · cases hhb : (botInputFor m car ball).handbrake
        · rfl
        · have := hh.mp hhb
          linarith
      · rw [ht, if_neg (by linarith)]
    · rw [ht] at hth
      apply hh.mpr
      split_ifs at hth with h120
      · linarith
      · norm_num at hth

/-- C35 on the world with the blue bot and an input applied under the bot's id: its ids
are distinct, and after a `Tick` the stored input of the bot is the synthesized one with
`sequence = 1`. -/
theorem C35_bot_input_witness :
    ((botInputWorld.state.cars.map Prod.fst).Nodup
        ∧ ("bot_blue_120000.000000000", blueBot) ∈ botInputWorld.state.cars
        ∧ blueBot.isBot = true)
      ∧ (Tick refOps botInputWorld (1 / 120) clock0).input.lookup "bot_blue_120000.000000000"
          = some { botInputFor refOps blueBot botInputWorld.state.ball with
                    playerID := "bot_blue_120000.000000000",
                    sequence := (Tick refOps botInputWorld (1 / 120) clock0).state.tick,
                    clientMS := clock0.botMS }
      ∧ (Tick refOps botInputWorld (1 / 120) clock0).state.tick = botInputWorld.state.tick + 1 :=
  have hk : (botInputWorld.state.cars.map Prod.fst).Nodup := by decide!
  have hmem : ("bot_blue_120000.000000000", blueBot) ∈ botInputWorld.state.cars := by decide!
  ⟨⟨hk, hmem, rfl⟩,
    (C35_bot_input refOps botInputWorld (1 / 120) clock0 hk).1 "bot_blue_120000.000000000" blueBot
      hmem rfl⟩

/-! ## Shots on goal -/

theorem detectShotOnGoal_exact (w : World) (now : Int) :
    (detectShotOnGoal w now).state.events
        = w.state.events
          ++ (if w.state.ball.position.x > ArenaLength * 0.35 ∧ w.state.ball.velocity.x > 200
                ∧ |w.state.ball.position.y| ≤ GoalWidth * 0.7 ∧ now - w.lastShotOrange ≥ 700
              then [⟨"shot_on_goal", "", "orange", now⟩] else [])
          ++ (if w.state.ball.position.x < -ArenaLength * 0.35 ∧ w.state.ball.velocity.x < -200
                ∧ |w.state.ball.position.y| ≤ GoalWidth * 0.7 ∧ now - w.lastShotBlue ≥ 700
              then [⟨"shot_on_goal", "", "blue", now⟩] else [])
      ∧ (detectShotOnGoal w now).lastShotOrange
        = (if w.state.ball.position.x > ArenaLength * 0.35 ∧ w.state.ball.velocity.x > 200
              ∧ |w.state.ball.position.y| ≤ GoalWidth * 0.7 ∧ now - w.lastShotOrange ≥ 700
            then now else w.lastShotOrange)
      ∧ (detectShotOnGoal w now).lastShotBlue
        = (if w.state.ball.position.x < -ArenaLength * 0.35 ∧ w.state.ball.velocity.x < -200
              ∧ |w.state.ball.position.y| ≤ GoalWidth * 0.7 ∧ now - w.lastShotBlue ≥ 700
            then now else w.lastShotBlue) := by
  unfold detectShotOnGoal
  simp only []
  split_ifs <;> simp_all <;> (rename_i h; exact absurd h.1 (not_lt.mpr (by assumption)))

theorem detectGoal_shots (w : World) (now nowKick : Int) :
    shotEvents (detectGoalAndResetIfNeeded w now nowKick) = shotEvents w
      ∧ (detectGoalAndResetIfNeeded w now nowKick).lastShotOrange = w.lastShotOrange
      ∧ (detectGoalAndResetIfNeeded w now nowKick).lastShotBlue = w.lastShotBlue := by
  unfold detectGoalAndResetIfNeeded resetKickoff shotEvents
  simp only []
  split_ifs <;> simp [List.filter_append]

theorem Tick_shots (m : MathOps) (w : World) (dt : ℚ) (clk : TickClock) :
    shotEvents (Tick m w dt clk)
        = (if (tickBeforeGoal m w dt clk).state.ball.position.x > ArenaLength * 0.35
                ∧ (tickBeforeGoal m w dt clk).state.ball.velocity.x > 200
                ∧ |(tickBeforeGoal m w dt clk).state.ball.position.y| ≤ GoalWidth * 0.7
                ∧ clk.shotMS - w.lastShotOrange ≥ 700
              then [⟨"shot_on_goal", "", "orange", clk.shotMS⟩] else [])
          ++ (if (tickBeforeGoal m w dt clk).state.ball.position.x < -ArenaLength * 0.35
                ∧ (tickBeforeGoal m w dt clk).state.ball.velocity.x < -200
                ∧ |(tickBeforeGoal m w dt clk).state.ball.position.y| ≤ GoalWidth * 0.7
                ∧ clk.shotMS - w.lastShotBlue ≥ 700
              then [⟨"shot_on_goal", "", "blue", clk.shotMS⟩] else [])
      ∧ (Tick m w dt clk).lastShotOrange
        = (if (tickBeforeGoal m w dt clk).state.ball.position.x > ArenaLength * 0.35
              ∧ (tickBeforeGoal m w dt clk).state.ball.velocity.x > 200
              ∧ |(tickBeforeGoal m w dt clk).state.ball.position.y| ≤ GoalWidth * 0.7
              ∧ clk.shotMS - w.lastShotOrange ≥ 700
            then clk.shotMS else w.lastShotOrange)
      ∧ (Tick m w dt clk).lastShotBlue
        = (if (tickBeforeGoal m w dt clk).state.ball.position.x < -ArenaLength * 0.35
              ∧ (tickBeforeGoal m w dt clk).state.ball.velocity.x < -200
              ∧ |(tickBeforeGoal m w dt clk).state.ball.position.y| ≤ GoalWidth * 0.7
              ∧ clk.shotMS - w.lastShotBlue ≥ 700
            then clk.shotMS else w.lastShotBlue) := by
  obtain ⟨W, hW, hev, hlo, hlb⟩ : ∃ W : World,
      tickBeforeGoal m w dt clk = detectShotOnGoal W clk.shotMS ∧ W.state.events = []
        ∧ W.lastShotOrange = w.lastShotOrange ∧ W.lastShotBlue = w.lastShotBlue :=
    ⟨_, rfl, rfl, rfl, rfl⟩
  obtain ⟨g1, g2, g3⟩ := detectGoal_shots (tickBeforeGoal m w dt clk) clk.goalMS clk.kickoffMS
  have hball : (tickBeforeGoal m w dt clk).state.ball = W.state.ball := by
    rw [hW, detectShotOnGoal_ball]
  obtain ⟨e1, e2, e3⟩ := detectShotOnGoal_exact W clk.shotMS
  unfold Tick
  rw [g1, g2, g3, hball, ← hlo, ← hlb]
  rw [hW, e2, e3]
  refine ⟨?_, rfl, rfl⟩
  unfold shotEvents
  rw [e1, hev, List.nil_append]
  split_ifs <;> rfl

theorem shotLog_spaced (m : MathOps) (fr : List (ℚ × TickClock)) :
    ∀ w : World,
      (shotLog m w fr).Pairwise (fun a b => a.team = b.team → a.occurredMS + 700 ≤ b.occurredMS)
        ∧ ∀ e ∈ shotLog m w fr,
            (e.team = "orange" → w.lastShotOrange + 700 ≤ e.occurredMS)
              ∧ (e.team = "blue" → w.lastShotBlue + 700 ≤ e.occurredMS) := by
  induction fr with
  | nil => intro w; simp [shotLog]
  | cons c rest ih =>
    intro w
    obtain ⟨hp, hl⟩ := ih (Tick m w c.1 c.2)
    obtain ⟨hs, ho, hb⟩ := Tick_shots m w c.1 c.2
    unfold shotLog
    have hS : ∀ a ∈ shotEvents (Tick m w c.1 c.2),
        (a.team = "orange" → a.occurredMS = (Tick m w c.1 c.2).lastShotOrange
            ∧ w.lastShotOrange + 700 ≤ a.occurredMS)
          ∧ (a.team = "blue" → a.occurredMS = (Tick m w c.1 c.2).lastShotBlue
            ∧ w.lastShotBlue + 700 ≤ a.occurredMS) := by
      intro a ha
      rw [hs] at ha
      rw [ho, hb]
      rcases List.mem_append.mp ha with h | h
      · split_ifs at h with hc
        · rw [List.mem_singleton] at h
          subst h
          refine ⟨fun _ => ⟨?_, ?_⟩, fun ht => absurd (show "orange" = "blue" from ht) (by decide)⟩
          · rw [if_pos hc]
          · have := hc.2.2.2
            show w.lastShotOrange + 700 ≤ c.2.shotMS
            omega
        · simp at h
      · split_ifs at h with hc
        · rw [List.mem_singleton] at h
          subst h
          refine ⟨fun ht => absurd (show "blue" = "orange" from ht) (by decide), fun _ => ⟨?_, ?_⟩⟩
          · rw [if_pos hc]
          · have := hc.2.2.2
            show w.lastShotBlue + 700 ≤ c.2.shotMS
            omega
        · simp at h
    have hmonoO : w.lastShotOrange ≤ (Tick m w c.1 c.2).lastShotOrange := by
      rw [ho]
      split_ifs with hc
      · have := hc.2.2.2
        omega
      · exact le_refl _
    have hmonoB : w.lastShotBlue ≤ (Tick m w c.1 c.2).lastShotBlue := by
      rw [hb]
      split_ifs with hc
      · have := hc.2.2.2
        omega
      · exact le_refl _
    constructor
    · rw [List.pairwise_append]
      refine ⟨?_, hp, fun a ha b hb2 hab => ?_⟩
      · rw [hs]
        split_ifs <;> simp
      · by_cases hto : a.team = "orange"
        · have h1 := ((hS a ha).1 hto).1
          have h2 := (hl b hb2).1 (hab ▸ hto)
          omega
        · by_cases htb : a.team = "blue"
          · have h1 := ((hS a ha).2 htb).1
            have h2 := (hl b hb2).2 (hab ▸ htb)
            omega
          · exfalso
            rw [hs] at ha
            rcases List.mem_append.mp ha with h | h
            · split_ifs at h
              · rw [List.mem_singleton] at h
                exact hto (by rw [h])
              · simp at h
            · split_ifs at h
              · rw [List.mem_singleton] at h
                exact htb (by rw [h])
              · simp at h
    · intro e he
      rcases List.mem_append.mp he with h | h
      · exact ⟨fun ht => ((hS e h).1 ht).2, fun ht => ((hS e h).2 ht).2⟩
      · have := hl e h
        exact ⟨fun ht => le_trans (by omega) (this.1 ht), fun ht => le_trans (by omega) (this.2 ht)⟩

/-- C36: with `now = clk.shotMS` and the ball as the shot detector of the `Tick` reads it,
the `shot_on_goal` events of the `Tick` are an orange one iff `ball.x > 0.35 * ArenaLength`,
`ball.vx > 200`, `|ball.y| ≤ 0.7 * GoalWidth` and `now - lastShotOrange ≥ 700`, followed by
a blue one iff `ball.x < -0.35 * ArenaLength`, `ball.vx < -200`, `|ball.y| ≤ 0.7 * GoalWidth`
and `now - lastShotBlue ≥ 700`; the stamp of a team becomes `now` exactly when its event is
emitted; the two conditions exclude each other, so a `Tick` emits at most one
`shot_on_goal` event; and over any run of `Tick`s (whatever the clock reads) two
`shot_on_goal` events of the same team are stamped at least 700 ms apart. -/
theorem C36_shot_on_goal (m : MathOps) (w : World) (dt : ℚ) (clk : TickClock) :
    (shotEvents (Tick m w dt clk)
        = (if (tickBeforeGoal m w dt clk).state.ball.position.x > ArenaLength * 0.35
                ∧ (tickBeforeGoal m w dt clk).state.ball.velocity.x > 200
                ∧ |(tickBeforeGoal m w dt clk).state.ball.position.y| ≤ GoalWidth * 0.7
                ∧ clk.shotMS - w.lastShotOrange ≥ 700
              then [⟨"shot_on_goal", "", "orange", clk.shotMS⟩] else [])
          ++ (if (tickBeforeGoal m w dt clk).state.ball.position.x < -ArenaLength * 0.35
                ∧ (tickBeforeGoal m w dt clk).state.ball.velocity.x < -200
                ∧ |(tickBeforeGoal m w dt clk).state.ball.position.y| ≤ GoalWidth * 0.7
                ∧ clk.shotMS - w.lastShotBlue ≥ 700
              then [⟨"shot_on_goal", "", "blue", clk.shotMS⟩] else []))
      ∧ ((Tick m w dt clk).lastShotOrange
        = (if (tickBeforeGoal m w dt clk).state.ball.position.x > ArenaLength * 0.35
              ∧ (tickBeforeGoal m w dt clk).state.ball.velocity.x > 200
              ∧ |(tickBeforeGoal m w dt clk).state.ball.position.y| ≤ GoalWidth * 0.7
              ∧ clk.shotMS - w.lastShotOrange ≥ 700
            then clk.shotMS else w.lastShotOrange))
      ∧ ((Tick m w dt clk).lastShotBlue
        = (if (tickBeforeGoal m w dt clk).state.ball.position.x < -ArenaLength * 0.35
              ∧ (tickBeforeGoal m w dt clk).state.ball.velocity.x < -200
              ∧ |(tickBeforeGoal m w dt clk).state.ball.position.y| ≤ GoalWidth * 0.7
              ∧ clk.shotMS - w.lastShotBlue ≥ 700
            then clk.shotMS else w.lastShotBlue))
      ∧ ((∃ e ∈ (Tick m w dt clk).state.events, e.type = "shot_on_goal" ∧ e.team = "orange")
          ↔ ((tickBeforeGoal m w dt clk).state.ball.position.x > ArenaLength * 0.35
              ∧ (tickBeforeGoal m w dt clk).state.ball.velocity.x > 200
              ∧ |(tickBeforeGoal m w dt clk).state.ball.position.y| ≤ GoalWidth * 0.7
              ∧ clk.shotMS - w.lastShotOrange ≥ 700))
      ∧ ((∃ e ∈ (Tick m w dt clk).state.events, e.type = "shot_on_goal" ∧ e.team = "blue")
          ↔ ((tickBeforeGoal m w dt clk).state.ball.position.x < -ArenaLength * 0.35
              ∧ (tickBeforeGoal m w dt clk).state.ball.velocity.x < -200
              ∧ |(tickBeforeGoal m w dt clk).state.ball.position.y| ≤ GoalWidth * 0.7
              ∧ clk.shotMS - w.lastShotBlue ≥ 700))
      ∧ (shotEvents (Tick m w dt clk)).length ≤ 1
      ∧ (∀ (w0 : World) (fr : List (ℚ × TickClock)),
          (shotLog m w0 fr).Pairwise
            (fun a b => a.team = b.team → a.occurredMS + 700 ≤ b.occurredMS)) := by
  obtain ⟨hs, ho, hb⟩ := Tick_shots m w dt clk
  have hmem : ∀ t : String,
      (∃ e ∈ (Tick m w dt clk).state.events, e.type = "shot_on_goal" ∧ e.team = t)
        ↔ ∃ e ∈ shotEvents (Tick m w dt clk), e.team = t := by
    intro t
    unfold shotEvents
    constructor
    · rintro ⟨e, he, h1, h2⟩
      exact ⟨e, List.mem_filter.mpr ⟨he, by simpa using h1⟩, h2⟩
    · rintro ⟨e, he, h2⟩
      obtain ⟨h3, h4⟩ := List.mem_filter.mp he
      exact ⟨e, h3, by simpa using h4, h2⟩
  have hL : (0 : ℚ) < ArenaLength * 0.35 := by unfold ArenaLength; norm_num
  refine ⟨hs, ho, hb, ?_, ?_, ?_, fun w0 fr => (shotLog_spaced m fr w0).1⟩
  · rw [hmem, hs]
    constructor
    · rintro ⟨e, he, ht⟩
      rcases List.mem_append.mp he with h | h
      · split_ifs at h with hc
        · exact hc
        · simp at h
      · split_ifs at h with hc
        · rw [List.mem_singleton] at h
          rw [h] at ht
          exact absurd (show "blue" = "orange" from ht) (by decide)
        · simp at h
    · intro hc
      exact ⟨_, List.mem_append_left _ (by rw [if_pos hc]; exact List.mem_singleton_self _), rfl⟩
  · rw [hmem, hs]
    constructor
    · rintro ⟨e, he, ht⟩
      rcases List.mem_append.mp he with h | h
      · split_ifs at h with hc
        · rw [List.mem_singleton] at h
          rw [h] at ht
          exact absurd (show "orange" = "blue" from ht) (by decide)
        · simp at h
      · split_ifs at h with hc
        · exact hc
        · simp at h
    · intro hc
      exact ⟨_, List.mem_append_right _ (by rw [if_pos hc]; exact List.mem_singleton_self _), rfl⟩
  · rw [hs]
    by_cases hc : (tickBeforeGoal m w dt clk).state.ball.position.x > ArenaLength * 0.35
        ∧ (tickBeforeGoal m w dt clk).state.ball.velocity.x > 200
        ∧ |(tickBeforeGoal m w dt clk).state.ball.position.y| ≤ GoalWidth * 0.7
        ∧ clk.shotMS - w.lastShotOrange ≥ 700
    · have hn : ¬ ((tickBeforeGoal m w dt clk).state.ball.position.x < -ArenaLength * 0.35
          ∧ (tickBeforeGoal m w dt clk).state.ball.velocity.x < -200
          ∧ |(tickBeforeGoal m w dt clk).state.ball.position.y| ≤ GoalWidth * 0.7
          ∧ clk.shotMS - w.lastShotBlue ≥ 700) := by
        rintro ⟨h1, _⟩
        have := hc.1
        linarith
      rw [if_pos hc, if_neg hn]
      simp
    · rw [if_neg hc]
      split_ifs <;> simp

/-- C36 on the ball flying at the goal that orange attacks, the detector reading one
second: the `Tick` emits exactly the orange `shot_on_goal` event stamped 1000, the orange
stamp becomes 1000, and a second `Tick` whose detector reads 1.5 s emits none. -/
theorem C36_shot_on_goal_witness :
    shotEvents (Tick refOps shotWorld (1 / 120) shotClock)
        = [⟨"shot_on_goal", "", "orange", 1000⟩]
      ∧ (Tick refOps shotWorld (1 / 120) shotClock).lastShotOrange = 1000
      ∧ shotLog refOps shotWorld [(1 / 120, shotClock), (1 / 120, ⟨0, 1500, 0, 0⟩)]
        = [⟨"shot_on_goal", "", "orange", 1000⟩] :=
  ⟨(C36_shot_on_goal refOps shotWorld (1 / 120) shotClock).1.trans (by decide!),
    (C36_shot_on_goal refOps shotWorld (1 / 120) shotClock).2.1.trans (by decide!),
    by decide!⟩

end Simulation

/-! # Theorems about the matchmaking queue -/

namespace Matchmaking

open Simulation

theorem Poll_ticket (q : QueueManager) (id : String) (p : Nat)
    (h1 : q.assignment.lookup id = none) (h2 : q.ticketIndex.lookup id = some p) :
    Poll q id = { ticketID := id, status := (q.deref p).status, assignment := none } := by
  unfold Poll
  rw [h1, h2]

/-- C20: `Poll(id)` answers "matched" with the stored assignment when one is indexed under
`id`; otherwise the current status of the ticket indexed under `id`, without assignment;
otherwise "not_found"; the answer always carries `id`. `Poll` only reads the queue, so its
answer is a function of the queue and `id`. Right after `Join`, when no assignment is
indexed under the new ticket id, `Poll` of that id answers "searching". -/
theorem C20_poll (q : QueueManager) (id : String) (req : QueueJoinRequest) (now : Int)
    (stamp : String) :
    (∀ a : MatchAssignment, q.assignment.lookup id = some a →
        Poll q id = { ticketID := id, status := "matched", assignment := some a })
      ∧ (∀ p : Nat, q.assignment.lookup id = none → q.ticketIndex.lookup id = some p →
        Poll q id = { ticketID := id, status := (q.deref p).status, assignment := none })
      ∧ (q.assignment.lookup id = none → q.ticketIndex.lookup id = none →
        Poll q id = { ticketID := id, status := "not_found", assignment := none })
      ∧ (Poll q id).ticketID = id
      ∧ ((Join q req now stamp).2.ticketID = nextID "t" stamp
          ∧ (Join q req now stamp).2.status = "searching"
          ∧ (Join q req now stamp).1.assignment = q.assignment)
      ∧ (q.assignment.lookup (nextID "t" stamp) = none →
          Poll (Join q req now stamp).1 (Join q req now stamp).2.ticketID
            = { ticketID := (Join q req now stamp).2.ticketID, status := "searching",
                assignment := none }) := by
  refine ⟨?_, ?_, ?_, ?_, ⟨rfl, rfl, rfl⟩, ?_⟩
  · intro a h
    unfold Poll
    rw [h]
  · intro p h1 h2
    exact Poll_ticket q id p h1 h2
  · intro h1 h2
    unfold Poll
    rw [h1, h2]
  · unfold Poll
    cases q.assignment.lookup id with
    | some a => rfl
    | none =>
      cases q.ticketIndex.lookup id with
      | none => rfl
      | some p => rfl
  · intro h
    have hidx : (Join q req now stamp).1.ticketIndex.lookup (nextID "t" stamp)
        = some q.tickets.length := lookup_setKey_self _ _ _
    have hder : ((Join q req now stamp).1.deref q.tickets.length).status = "searching" := by
      unfold Join QueueManager.deref
      simp
    have hasg : (Join q req now stamp).1.assignment.lookup (nextID "t" stamp) = none := h
    have hid : (Join q req now stamp).2.ticketID = nextID "t" stamp := rfl
    rw [hid, Poll_ticket _ _ _ hasg hidx, hder]

/-- C20 run on a queue holding one joined ticket: no assignment is indexed under its id and
`Poll` answers "searching". -/
theorem C20_poll_witness :
    (NewQueueManager "").assignment.lookup (nextID "t" "1") = none
      ∧ Poll (Join (NewQueueManager "") soloRequest 0 "1").1 "t_1"
          = { ticketID := "t_1", status := "searching", assignment := none }
      ∧ Poll (NewQueueManager "") "t_1"
          = { ticketID := "t_1", status := "not_found", assignment := none } :=
  ⟨by decide!,
    (C20_poll (NewQueueManager "") "t_1" soloRequest 0 "1").2.2.2.2.2 (by decide!),
    (C20_poll (NewQueueManager "") "t_1" soloRequest 0 "1").2.2.1 (by decide!) (by decide!)⟩

/-! ## Join and its defaults -/

theorem Join_ticket (q : QueueManager) (req : QueueJoinRequest) (now : Int) (stamp : String) :
    (Join q req now stamp).1.deref q.tickets.length
      = { ticketID := nextID "t" stamp, playerID := req.playerID,
          displayName := req.displayName, mmr := req.mmr, region := req.region,
          playlist := req.playlist, joinedAt := now, status := "searching" } := by
  simp [Join, QueueManager.deref]

theorem Join_bucket (q : QueueManager) (req : QueueJoinRequest) (now : Int) (stamp : String) :
    (Join q req now stamp).1.bucket (bucketKey req.region req.playlist)
      = q.bucket (bucketKey req.region req.playlist) ++ [q.tickets.length] := by
  simp [Join, QueueManager.bucket, lookup_setKey_self]

theorem Join_index (q : QueueManager) (req : QueueJoinRequest) (now : Int) (stamp : String) :
    (Join q req now stamp).1.ticketIndex.lookup (nextID "t" stamp) = some q.tickets.length := by
  simp [Join, lookup_setKey_self]

/-- C21, as the code has it: `Join` itself applies no default. On the empty queue, the
request with empty region, empty playlist and mmr 0 is stored with MMR 0 and region `""`
in the bucket `global|ranked-1v1`; the bucket `us-east|ranked-1v1` stays empty. -/
theorem C21_counterexample :
    ((Join (NewQueueManager "") ⟨"p1", "A", "", "", 0⟩ 1000000000 "1000000000").1.bucket
        "us-east|ranked-1v1" = [])
      ∧ (Join (NewQueueManager "") ⟨"p1", "A", "", "", 0⟩ 1000000000 "1000000000").1.bucket
        "global|ranked-1v1" = [0]
      ∧ ((Join (NewQueueManager "") ⟨"p1", "A", "", "", 0⟩ 1000000000 "1000000000").1.deref 0).mmr
        = 0
      ∧ ((Join (NewQueueManager "") ⟨"p1", "A", "", "", 0⟩ 1000000000 "1000000000").1.deref
          0).region = "" := by
  decide!

/-- C21, amended: the handler of `/v1/queue/join` applies the defaults before it calls
`Join`. A request with a player id, empty region, empty playlist and mmr 0 gets a
searching ticket, indexed under the returned id, stored with MMR 1000, region `us-east`
and playlist `ranked-1v1` at the end of the bucket `us-east|ranked-1v1`; a request that
names that region and playlist joins the same bucket right behind it. -/
theorem C21_join_defaults (q : QueueManager) (req req2 : QueueJoinRequest) (now now2 : Int)
    (stamp stamp2 : String) (hp : req.playerID ≠ "") (hr : req.region = "")
    (hl : req.playlist = "") (hm : req.mmr = 0) (hp2 : req2.playerID ≠ "")
    (hr2 : req2.region = "us-east") (hl2 : req2.playlist = "ranked-1v1") (hm2 : 0 < req2.mmr) :
    ∃ (q1 q2 : QueueManager) (resp resp2 : QueueJoinResponse),
      handleJoin q req now stamp = some (q1, resp)
        ∧ handleJoin q1 req2 now2 stamp2 = some (q2, resp2)
        ∧ resp = { ticketID := nextID "t" stamp, status := "searching" }
        ∧ q1.ticketIndex.lookup resp.ticketID = some q.tickets.length
        ∧ q1.deref q.tickets.length
            = { ticketID := resp.ticketID, playerID := req.playerID,
                displayName := req.displayName, mmr := 1000, region := "us-east",
                playlist := "ranked-1v1", joinedAt := now, status := "searching" }
        ∧ q1.bucket "us-east|ranked-1v1" = q.bucket "us-east|ranked-1v1" ++ [q.tickets.length]
        ∧ q2.bucket "us-east|ranked-1v1"
            = q.bucket "us-east|ranked-1v1" ++ [q.tickets.length, q.tickets.length + 1]
        ∧ (q2.deref (q.tickets.length + 1)).mmr = req2.mmr := by
  have hk : bucketKey "us-east" "ranked-1v1" = "us-east|ranked-1v1" := by decide
  obtain ⟨r1, hr1⟩ : ∃ r1 : QueueJoinRequest,
      r1 = ⟨req.playerID, req.displayName, "us-east", "ranked-1v1", 1000⟩ := ⟨_, rfl⟩
  have e1 : handleJoin q req now stamp = some (Join q r1 now stamp) := by
    unfold handleJoin
    rw [if_neg hp, hr1]
    simp [hr, hl, hm]
  have e2 : ∀ q1 : QueueManager,
      handleJoin q1 req2 now2 stamp2 = some (Join q1 req2 now2 stamp2) := by
    intro q1
    unfold handleJoin
    rw [if_neg hp2]
    have h1 : ¬ req2.region = "" := by rw [hr2]; decide
    have h2 : ¬ req2.playlist = "" := by rw [hl2]; decide
    simp [h1, h2, not_le.mpr hm2]
  have hb1 := Join_bucket q r1 now stamp
  have hlen : (Join q r1 now stamp).1.tickets.length = q.tickets.length + 1 := by simp [Join]
  have hb2 := Join_bucket (Join q r1 now stamp).1 req2 now2 stamp2
  have ht2 := Join_ticket (Join q r1 now stamp).1 req2 now2 stamp2
  have ht1 := Join_ticket q r1 now stamp
  have hr1a : r1.region = "us-east" := by rw [hr1]
  have hr1b : r1.playlist = "ranked-1v1" := by rw [hr1]
  simp only [hk, hr2, hl2, hlen, hr1a, hr1b] at hb1 hb2 ht2
  refine ⟨(Join q r1 now stamp).1, (Join (Join q r1 now stamp).1 req2 now2 stamp2).1,
    (Join q r1 now stamp).2, (Join (Join q r1 now stamp).1 req2 now2 stamp2).2,
    e1, e2 _, rfl, Join_index q _ now stamp, ?_, hb1, ?_, ?_⟩
  · rw [ht1, hr1]; rfl
  · rw [hb2, hb1]; simp
  · rw [ht2]

theorem C21_join_defaults_witness :
    ∃ (q1 q2 : QueueManager) (resp resp2 : QueueJoinResponse),
      handleJoin (NewQueueManager "") ⟨"p1", "A", "", "", 0⟩ 1000000000 "1000000000"
          = some (q1, resp)
        ∧ handleJoin q1 ⟨"p2", "B", "us-east", "ranked-1v1", 1040⟩ 1000001000 "1000001000"
          = some (q2, resp2)
        ∧ resp = { ticketID := nextID "t" "1000000000", status := "searching" }
        ∧ q1.ticketIndex.lookup resp.ticketID = some (NewQueueManager "").tickets.length
        ∧ q1.deref (NewQueueManager "").tickets.length
            = { ticketID := resp.ticketID, playerID := "p1",
                displayName := "A", mmr := 1000, region := "us-east",
                playlist := "ranked-1v1", joinedAt := 1000000000, status := "searching" }
        ∧ q1.bucket "us-east|ranked-1v1"
            = (NewQueueManager "").bucket "us-east|ranked-1v1"
                ++ [(NewQueueManager "").tickets.length]
        ∧ q2.bucket "us-east|ranked-1v1"
            = (NewQueueManager "").bucket "us-east|ranked-1v1"
                ++ [(NewQueueManager "").tickets.length, (NewQueueManager "").tickets.length + 1]
        ∧ (q2.deref ((NewQueueManager "").tickets.length + 1)).mmr = 1040 :=
  C21_join_defaults (NewQueueManager "") ⟨"p1", "A", "", "", 0⟩
    ⟨"p2", "B", "us-east", "ranked-1v1", 1040⟩ 1000000000 1000001000 "1000000000" "1000001000"
    (by decide) rfl rfl rfl (by decide) rfl rfl (by decide)

/-! ## The MMR window -/

theorem truncToInt_nonneg (x : ℚ) (h : 0 ≤ x) : truncToInt x = ⌊x⌋ := by
  unfold truncToInt
  rw [if_pos h]
  rfl

theorem allowedMMRDiff_eq (a b : Ticket) (now : Int)
    (h : 0 ≤ max (seconds (now - a.joinedAt)) (seconds (now - b.joinedAt))) :
    allowedMMRDiff a b now
      = 60 + min 650 ⌊12 * max (seconds (now - a.joinedAt)) (seconds (now - b.joinedAt))⌋ := by
  unfold allowedMMRDiff
  simp only []
  rw [truncToInt_nonneg _ (by positivity), mul_comm]
  congr 1
  rw [min_def]
  split_ifs <;> omega

theorem allowedMMRDiff_bounds (a b : Ticket) (now : Int) :
    allowedMMRDiff a b now ≤ 710 := by
  unfold allowedMMRDiff
  simp only []
  split_ifs <;> omega

theorem allowedMMRDiff_comm (a b : Ticket) (now : Int) :
    allowedMMRDiff a b now = allowedMMRDiff b a now := by
  unfold allowedMMRDiff
  simp only [max_comm]

theorem seconds_mono (d e : Int) (h : d ≤ e) : seconds d ≤ seconds e := by
  unfold seconds
  have : (d : ℚ) ≤ (e : ℚ) := by exact_mod_cast h
  exact div_le_div_of_nonneg_right this (by norm_num)

theorem seconds_nonneg (d : Int) (h : 0 ≤ d) : 0 ≤ seconds d := by
  unfold seconds
  have : (0 : ℚ) ≤ (d : ℚ) := by exact_mod_cast h
  positivity

/-- C23: for tickets `a`, `b` and a time `now` at which both waits are non-negative (as
the first two conjuncts say of the waits in seconds), the
allowed MMR difference is `60 + min(650, floor(12 * max(wa, wb)))` with the waits in
seconds; it is symmetric in the tickets, non-decreasing in `now`, between 60 and 710,
equal to 60 when both waits are below 1/12 s, and equal to 710 exactly when the longer
wait is at least 650/12 s. -/
theorem C23_allowed_mmr_diff (a b : Ticket) (now later : Int) (ha : a.joinedAt ≤ now)
    (hb : b.joinedAt ≤ now) (hl : now ≤ later) :
    0 ≤ seconds (now - a.joinedAt) ∧ 0 ≤ seconds (now - b.joinedAt) ∧
    allowedMMRDiff a b now
        = 60 + min 650 ⌊12 * max (seconds (now - a.joinedAt)) (seconds (now - b.joinedAt))⌋
      ∧ allowedMMRDiff a b now = allowedMMRDiff b a now
      ∧ allowedMMRDiff a b now ≤ allowedMMRDiff a b later
      ∧ 60 ≤ allowedMMRDiff a b now ∧ allowedMMRDiff a b now ≤ 710
      ∧ (seconds (now - a.joinedAt) < 1 / 12 → seconds (now - b.joinedAt) < 1 / 12 →
          allowedMMRDiff a b now = 60)
      ∧ (allowedMMRDiff a b now = 710
          ↔ 650 / 12 ≤ max (seconds (now - a.joinedAt)) (seconds (now - b.joinedAt))) := by
  have hwa : 0 ≤ seconds (now - a.joinedAt) := seconds_nonneg _ (by omega)
  have hw : 0 ≤ max (seconds (now - a.joinedAt)) (seconds (now - b.joinedAt)) :=
    le_trans hwa (le_max_left _ _)
  have hw2 : 0 ≤ max (seconds (later - a.joinedAt)) (seconds (later - b.joinedAt)) :=
    le_trans (seconds_nonneg _ (by omega)) (le_max_left _ _)
  have hmono : max (seconds (now - a.joinedAt)) (seconds (now - b.joinedAt))
      ≤ max (seconds (later - a.joinedAt)) (seconds (later - b.joinedAt)) :=
    max_le_max (seconds_mono _ _ (by omega)) (seconds_mono _ _ (by omega))
  have e1 := allowedMMRDiff_eq a b now hw
  have e2 := allowedMMRDiff_eq a b later hw2
  have hf0 : 0 ≤ ⌊12 * max (seconds (now - a.joinedAt)) (seconds (now - b.joinedAt))⌋ :=
    Int.floor_nonneg.mpr (by positivity)
  refine ⟨hwa, seconds_nonneg _ (by omega), e1, allowedMMRDiff_comm a b now, ?_, ?_,
    allowedMMRDiff_bounds a b now, ?_, ?_⟩
  · rw [e1, e2]
    have : ⌊12 * max (seconds (now - a.joinedAt)) (seconds (now - b.joinedAt))⌋
        ≤ ⌊12 * max (seconds (later - a.joinedAt)) (seconds (later - b.joinedAt))⌋ :=
      Int.floor_mono (by linarith)
    exact add_le_add_left (min_le_min le_rfl this) 60
  · rw [e1]
    have := le_min (show (0 : Int) ≤ 650 by norm_num) hf0
    omega
  · intro h1 h2
    rw [e1]
    have hlt : 12 * max (seconds (now - a.joinedAt)) (seconds (now - b.joinedAt)) < 1 := by
      have := max_lt h1 h2
      linarith
    have hfl : ⌊12 * max (seconds (now - a.joinedAt)) (seconds (now - b.joinedAt))⌋ = 0 := by
      rw [Int.floor_eq_iff]
      exact ⟨by simpa using (by positivity : (0 : ℚ) ≤ 12 * max _ _), by simpa using hlt⟩
    rw [hfl]
    rfl
  · rw [e1]
    constructor
    · intro h
      have h650 : 650 ≤ ⌊12 * max (seconds (now - a.joinedAt)) (seconds (now - b.joinedAt))⌋ := by
        by_contra hc
        rw [min_eq_right (by omega)] at h
        omega
      have := Int.le_floor.mp h650
      have h2 : ((650 : Int) : ℚ) = 650 := by norm_num
      rw [h2] at this
      linarith
    · intro h
      have h650 : 650 ≤ ⌊12 * max (seconds (now - a.joinedAt)) (seconds (now - b.joinedAt))⌋ := by
        apply Int.le_floor.mpr
        have h2 : ((650 : Int) : ℚ) = 650 := by norm_num
        rw [h2]
        linarith
      rw [min_eq_left h650]
      rfl

/-- Two tickets that joined at the clock reading 1 s, rated 900 and 1500. -/
theorem C23_allowed_mmr_diff_witness :
    allowedMMRDiff ⟨"t_1", "p1", "A", 900, "us-east", "ranked-1v1", 1000000000, "searching"⟩
        ⟨"t_2", "p2", "B", 1500, "us-east", "ranked-1v1", 1000000000, "searching"⟩ 121000000000
      = 710
    ∧ allowedMMRDiff ⟨"t_1", "p1", "A", 900, "us-east", "ranked-1v1", 1000000000, "searching"⟩
        ⟨"t_2", "p2", "B", 1500, "us-east", "ranked-1v1", 1000000000, "searching"⟩ 1010000000
      = 60 := by
  have h := C23_allowed_mmr_diff
    ⟨"t_1", "p1", "A", 900, "us-east", "ranked-1v1", 1000000000, "searching"⟩
    ⟨"t_2", "p2", "B", 1500, "us-east", "ranked-1v1", 1000000000, "searching"⟩
    121000000000 121000000000 (by decide) (by decide) (by decide)
  have h2 := C23_allowed_mmr_diff
    ⟨"t_1", "p1", "A", 900, "us-east", "ranked-1v1", 1000000000, "searching"⟩
    ⟨"t_2", "p2", "B", 1500, "us-east", "ranked-1v1", 1000000000, "searching"⟩
    1010000000 1010000000 (by decide) (by decide) (by decide)
  refine ⟨h.2.2.2.2.2.2.2.2.mpr ?_, h2.2.2.2.2.2.2.2.1 ?_ ?_⟩
  · simp only [seconds]; norm_num
  · simp only [seconds]; norm_num
  · simp only [seconds]; norm_num

/-! ## Leave -/

theorem mem_held (q : QueueManager) (p : Nat) : p ∈ q.held ↔ ∃ e ∈ q.buckets, p ∈ e.2 := by
  unfold QueueManager.held
  rw [List.mem_flatten]
  constructor
  · rintro ⟨l, hl, hp⟩
    obtain ⟨e, he, rfl⟩ := List.mem_map.mp hl
    exact ⟨e, he, hp⟩
  · rintro ⟨e, he, hp⟩
    exact ⟨e.2, List.mem_map.mpr ⟨e, he, rfl⟩, hp⟩

theorem mem_of_lookup {α : Type} (l : List (String × α)) (k : String) (v : α)
    (h : l.lookup k = some v) : (k, v) ∈ l := by
  induction l with
  | nil => simp at h
  | cons e rest ih =>
    obtain ⟨k1, v1⟩ := e
    rw [lookup_cons_ite] at h
    by_cases hk : k = k1
    · rw [if_pos hk] at h
      simp only [Option.some.injEq] at h
      subst hk h
      exact List.mem_cons_self _ _
    · rw [if_neg hk] at h
      exact List.mem_cons_of_mem _ (ih h)

theorem lookup_of_mem {α : Type} (l : List (String × α)) (k : String) (v : α)
    (hn : (l.map Prod.fst).Nodup) (h : (k, v) ∈ l) : l.lookup k = some v := by
  induction l with
  | nil => simp at h
  | cons e rest ih =>
    obtain ⟨k1, v1⟩ := e
    rw [lookup_cons_ite]
    simp only [List.map_cons, List.nodup_cons] at hn
    rcases List.mem_cons.mp h with h1 | h2
    · simp only [Prod.mk.injEq] at h1
      rw [if_pos h1.1, h1.2]
    · have hne : k ≠ k1 := by
        intro hk
        exact hn.1 (List.mem_map.mpr ⟨(k, v), h2, hk⟩)
      rw [if_neg hne]
      exact ih hn.2 h2

theorem mem_bucket (q : QueueManager) (key : String) (p : Nat) (h : p ∈ q.bucket key) :
    ∃ e ∈ q.buckets, e.1 = key ∧ p ∈ e.2 := by
  unfold QueueManager.bucket at h
  cases hl : q.buckets.lookup key with
  | none => rw [hl] at h; simp at h
  | some b =>
    rw [hl] at h
    exact ⟨(key, b), mem_of_lookup _ _ _ hl, rfl, h⟩

theorem bucket_of_mem (q : QueueManager) (hk : (q.buckets.map Prod.fst).Nodup)
    (e : String × List Nat) (he : e ∈ q.buckets) : q.bucket e.1 = e.2 := by
  unfold QueueManager.bucket
  rw [lookup_of_mem q.buckets e.1 e.2 hk he]
  rfl

theorem mem_setKey_self {α : Type} (l : List (String × α)) (k : String) (v : α)
    (hn : (l.map Prod.fst).Nodup) (e : String × α) (he : e ∈ setKey l k v) (hk : e.1 = k) :
    e.2 = v := by
  induction l with
  | nil =>
    simp only [setKey, List.mem_singleton] at he
    rw [he]
  | cons e1 rest ih =>
    obtain ⟨k1, v1⟩ := e1
    simp only [List.map_cons, List.nodup_cons] at hn
    unfold setKey at he
    by_cases h1 : k1 = k
    · rw [if_pos h1] at he
      rcases List.mem_cons.mp he with h | h
      · rw [h]
      · exfalso
        apply hn.1
        rw [h1, ← hk]
        exact List.mem_map.mpr ⟨e, h, rfl⟩
    · rw [if_neg h1] at he
      rcases List.mem_cons.mp he with h | h
      · exfalso; rw [h] at hk; exact h1 hk
      · exact ih hn.2 h

theorem removeFirst_eq_filter (q : QueueManager) (id : String) (p : Nat) :
    ∀ l : List Nat, l.Nodup → (∀ r ∈ l, (q.deref r).ticketID = id ↔ r = p) →
      removeFirst q id l = l.filter (fun r => decide (r ≠ p)) := by
  intro l
  induction l with
  | nil => intro _ _; rfl
  | cons r rest ih =>
    intro hn hid
    simp only [List.nodup_cons] at hn
    unfold removeFirst
    by_cases hr : (q.deref r).ticketID = id
    · have hrp : r = p := (hid r (List.mem_cons_self _ _)).mp hr
      rw [if_pos hr, List.filter_cons_of_neg (by simp [hrp])]
      symm
      rw [List.filter_eq_self]
      intro x hx
      have : x ≠ p := by
        rintro rfl
        exact hn.1 (hrp ▸ hx)
      simpa using this
    · have hrp : r ≠ p := fun h => hr ((hid r (List.mem_cons_self _ _)).mpr h)
      rw [if_neg hr, List.filter_cons_of_pos (by simpa using hrp)]
      rw [ih hn.2 (fun x hx => hid x (List.mem_cons_of_mem _ hx))]

theorem deref_set (q : QueueManager) (p r : Nat) (t : Ticket) (buckets : List (String × List Nat))
    (ti : List (String × Nat)) (asg : List (String × MatchAssignment)) (hp : p < q.tickets.length) :
    ({ q with tickets := q.tickets.set p t, buckets := buckets, ticketIndex := ti,
               assignment := asg } : QueueManager).deref r
      = if r = p then t else q.deref r := by
  unfold QueueManager.deref
  simp only [List.getElem?_set]
  by_cases h : p = r
  · subst h
    simp [hp]
  · rw [if_neg h, if_neg (fun h2 => h h2.symm)]

theorem WF.bucket_nodup {q : QueueManager} (h : WF q) (key : String) : (q.bucket key).Nodup := by
  unfold QueueManager.bucket
  cases hl : q.buckets.lookup key with
  | none => simp
  | some b =>
    have hm := mem_of_lookup _ _ _ hl
    have := (List.nodup_flatten.mp h.held_nodup).1 b (List.mem_map.mpr ⟨(key, b), hm, rfl⟩)
    simpa using this

theorem WF.bucket_held {q : QueueManager} (_h : WF q) (key : String) (p : Nat)
    (hp : p ∈ q.bucket key) : p ∈ q.held := by
  obtain ⟨e, he, _, hpe⟩ := mem_bucket q key p hp
  exact (mem_held q p).mpr ⟨e, he, hpe⟩

/-- C22: `Leave(id)` returns false and changes nothing when no ticket is indexed under
`id`, and only then. Otherwise, on a queue of the maintained shape, it returns true and
afterwards the ticket is in no bucket, its status is `cancelled` (nothing else of it is
changed), no assignment and no ticket is indexed under `id`, `Poll(id)` answers
`not_found`, a second `Leave(id)` returns false, every other ticket is unchanged, every
other id keeps its assignment and its index entry, and every bucket is the bucket it was
without the ticket, in the same order. -/
theorem C22_leave (q : QueueManager) (id : String) (hwf : WF q) :
    ((Leave q id).2 = false ↔ q.ticketIndex.lookup id = none)
      ∧ (q.ticketIndex.lookup id = none → (Leave q id).1 = q)
      ∧ ∀ p : Nat, q.ticketIndex.lookup id = some p →
          (Leave q id).2 = true
            ∧ (∀ e ∈ (Leave q id).1.buckets, p ∉ e.2)
            ∧ (Leave q id).1.deref p = { q.deref p with status := "cancelled" }
            ∧ (Leave q id).1.assignment.lookup id = none
            ∧ (Leave q id).1.ticketIndex.lookup id = none
            ∧ Poll (Leave q id).1 id = { ticketID := id, status := "not_found", assignment := none }
            ∧ (Leave (Leave q id).1 id).2 = false
            ∧ (∀ r : Nat, r ≠ p → (Leave q id).1.deref r = q.deref r)
            ∧ (∀ k : String, k ≠ id →
                (Leave q id).1.assignment.lookup k = q.assignment.lookup k
                  ∧ (Leave q id).1.ticketIndex.lookup k = q.ticketIndex.lookup k)
            ∧ (∀ key : String,
                (Leave q id).1.bucket key = (q.bucket key).filter (fun r => decide (r ≠ p))) := by
  have hnone : ∀ q2 : QueueManager, q2.ticketIndex.lookup id = none →
      Leave q2 id = (q2, false) := by
    intro q2 h; unfold Leave; rw [h]
  refine ⟨⟨fun h => ?_, fun h => by rw [hnone q h]⟩, fun h => by rw [hnone q h], ?_⟩
  · cases hl : q.ticketIndex.lookup id with
    | none => rfl
    | some p =>
      exfalso
      unfold Leave at h
      rw [hl] at h
      exact Bool.noConfusion h
  intro p hp
  obtain ⟨hvalid, hid⟩ := hwf.index_valid id p hp
  have hL : Leave q id
      = ({ q with
            buckets := setKey q.buckets (bucketKey (q.deref p).region (q.deref p).playlist)
              (removeFirst q id (q.bucket (bucketKey (q.deref p).region (q.deref p).playlist))),
            tickets := q.tickets.set p { q.deref p with status := "cancelled" },
            ticketIndex := delKey q.ticketIndex id,
            assignment := delKey q.assignment id }, true) := by
    unfold Leave; rw [hp]
  have hrem : removeFirst q id (q.bucket (bucketKey (q.deref p).region (q.deref p).playlist))
      = (q.bucket (bucketKey (q.deref p).region (q.deref p).playlist)).filter
          (fun r => decide (r ≠ p)) := by
    apply removeFirst_eq_filter q id p _ (hwf.bucket_nodup _)
    intro r hr
    constructor
    · intro h
      have := hwf.held_indexed r (hwf.bucket_held _ r hr)
      rw [h, hp] at this
      exact (Option.some.inj this).symm
    · rintro rfl; exact hid
  have hasg : (Leave q id).1.assignment.lookup id = none := by
    rw [hL]; simp only [lookup_delKey, if_true]
  have hidx : (Leave q id).1.ticketIndex.lookup id = none := by
    rw [hL]; simp only [lookup_delKey, if_true]
  have hbucket : ∀ key : String,
      (Leave q id).1.bucket key = (q.bucket key).filter (fun r => decide (r ≠ p)) := by
    intro key
    rw [hL]
    show (List.lookup key (setKey q.buckets _ _)).getD [] = _
    by_cases hk : key = bucketKey (q.deref p).region (q.deref p).playlist
    · rw [hk, lookup_setKey_self, hrem]; rfl
    · rw [lookup_setKey_other _ _ _ _ hk]
      show q.bucket key = _
      symm
      rw [List.filter_eq_self]
      intro r hr
      have : r ≠ p := by
        rintro rfl
        obtain ⟨e, he, hek, hre⟩ := mem_bucket q key r hr
        exact hk (hek ▸ hwf.held_key e he r hre)
      simpa using this
  refine ⟨by rw [hL], ?_, ?_, hasg, hidx, ?_, ?_, ?_, ?_, hbucket⟩
  · intro e he hpe
    rw [hL] at he
    simp only at he
    rcases mem_setKey _ _ _ _ he with h | h
    · have hk := hwf.held_key e h p hpe
      have := mem_setKey_self _ _ _ hwf.keys e he hk
      rw [this, hrem] at hpe
      simp at hpe
    · rw [h, hrem] at hpe
      simp at hpe
  · rw [hL]
    simp only []
    rw [deref_set q p p _ _ _ _ hvalid, if_pos rfl]
  · unfold Poll
    rw [hasg, hidx]
  · rw [hnone _ hidx]
  · intro r hr
    rw [hL]
    simp only []
    rw [deref_set q p r _ _ _ _ hvalid, if_neg hr]
  · intro k hk
    rw [hL]
    simp only [lookup_delKey, if_neg hk, and_self]

/-! ## The shape of a queue: consequences, and `Join` keeps it -/

theorem WF.held_valid {q : QueueManager} (h : WF q) (p : Nat) (hp : p ∈ q.held) :
    p < q.tickets.length :=
  (h.index_valid _ p (h.held_indexed p hp)).1

theorem WF.held_searching {q : QueueManager} (h : WF q) (p : Nat) (hp : p ∈ q.held) :
    (q.deref p).status = "searching" := by
  rcases h.index_status _ p (h.held_indexed p hp) with h1 | h1
  · exact h1.1
  · exact absurd hp h1.2.1

theorem WF.held_unassigned {q : QueueManager} (h : WF q) (p : Nat) (hp : p ∈ q.held) :
    q.assignment.lookup (q.deref p).ticketID = none := by
  rcases h.index_status _ p (h.held_indexed p hp) with h1 | h1
  · exact h1.2.2
  · exact absurd hp h1.2.1

theorem WF.held_ids {q : QueueManager} (h : WF q) (p r : Nat) (hp : p ∈ q.held)
    (hr : r ∈ q.held) (hid : (q.deref p).ticketID = (q.deref r).ticketID) : p = r := by
  have h1 := h.held_indexed p hp
  have h2 := h.held_indexed r hr
  rw [hid, h2] at h1
  exact (Option.some.inj h1).symm

theorem delKey_keys_nodup {α : Type} (l : List (String × α)) (k : String)
    (hn : (l.map Prod.fst).Nodup) : ((delKey l k).map Prod.fst).Nodup := by
  unfold delKey
  exact hn.sublist ((List.filter_sublist l).map Prod.fst)

theorem setKey_keys_nodup {α : Type} (l : List (String × α)) (k : String) (v : α)
    (hn : (l.map Prod.fst).Nodup) : ((setKey l k v).map Prod.fst).Nodup := by
  cases h : l.lookup k with
  | none =>
    rw [setKey_absent l k v h, List.map_append]
    apply List.Nodup.append hn (by simp)
    intro x hx hx2
    simp only [List.map_cons, List.map_nil, List.mem_singleton] at hx2
    subst hx2
    obtain ⟨e, he, hek⟩ := List.mem_map.mp hx
    have : l.lookup e.1 = some e.2 := lookup_of_mem l e.1 e.2 hn he
    rw [hek, h] at this
    exact Option.noConfusion this
  | some c => rw [setKey_keys l k v c h]; exact hn

/-- The pointers of a bucket map after `q.buckets[k] = v`: those of `v` and those of the
other buckets. -/
theorem perm_setKey (l : List (String × List Nat)) (k : String) (v : List Nat)
    (hn : (l.map Prod.fst).Nodup) :
    List.Perm ((setKey l k v).map Prod.snd).flatten (v ++ ((delKey l k).map Prod.snd).flatten) := by
  induction l with
  | nil => simp [setKey, delKey]
  | cons e rest ih =>
    obtain ⟨k1, v1⟩ := e
    simp only [List.map_cons, List.nodup_cons] at hn
    unfold setKey
    by_cases h : k1 = k
    · rw [if_pos h]
      have hrest : delKey ((k1, v1) :: rest) k = rest := by
        unfold delKey
        rw [List.filter_cons_of_neg (by simp [h])]
        rw [List.filter_eq_self]
        intro x hx
        have : x.1 ≠ k := by
          intro hx2
          exact hn.1 (List.mem_map.mpr ⟨x, hx, hx2.trans h.symm⟩)
        simpa using this
      rw [hrest]
      simp
    · rw [if_neg h]
      have hrest : delKey ((k1, v1) :: rest) k = (k1, v1) :: delKey rest k := by
        unfold delKey
        rw [List.filter_cons_of_pos (by simpa using h)]
      rw [hrest]
      simp only [List.map_cons, List.flatten_cons]
      refine (List.Perm.append_left v1 (ih hn.2)).trans ?_
      rw [← List.append_assoc, ← List.append_assoc]
      exact List.Perm.append_right _ List.perm_append_comm

/-- The pointers of a bucket map: those of the bucket `k` and those of the others. -/
theorem perm_bucket (l : List (String × List Nat)) (k : String)
    (hn : (l.map Prod.fst).Nodup) :
    List.Perm (l.map Prod.snd).flatten
      ((l.lookup k).getD [] ++ ((delKey l k).map Prod.snd).flatten) := by
  cases h : l.lookup k with
  | none =>
    have : delKey l k = l := by
      unfold delKey
      rw [List.filter_eq_self]
      intro x hx
      have : x.1 ≠ k := by
        intro hx2
        have := lookup_of_mem l x.1 x.2 hn hx
        rw [hx2, h] at this
        exact Option.noConfusion this
      simpa using this
    rw [this]
    simp
  | some b =>
    have h1 := perm_setKey l k b hn
    have h2 : setKey l k b = l := by
      clear h1
      induction l with
      | nil => simp at h
      | cons e rest ih =>
        obtain ⟨k1, v1⟩ := e
        simp only [List.map_cons, List.nodup_cons] at hn
        rw [lookup_cons_ite] at h
        unfold setKey
        by_cases hk : k = k1
        · rw [if_pos hk] at h
          rw [if_pos hk.symm, hk, Option.some.inj h]
        · rw [if_neg hk] at h
          rw [if_neg (fun h2 => hk h2.symm), ih hn.2 h]
    rw [h2] at h1
    exact h1

theorem WF_new (serverAddr : String) : WF (NewQueueManager serverAddr) := by
  refine ⟨by simp [NewQueueManager], by simp [NewQueueManager, QueueManager.held], ?_, ?_, ?_, ?_, ?_⟩
  · intro e he; simp [NewQueueManager] at he
  · intro p hp; simp [NewQueueManager, QueueManager.held] at hp
  · intro id p h; simp [NewQueueManager] at h
  · intro id p h; simp [NewQueueManager] at h
  · intro id a h; simp [NewQueueManager] at h

theorem Join_deref_old (q : QueueManager) (req : QueueJoinRequest) (now : Int) (stamp : String)
    (r : Nat) (hr : r < q.tickets.length) : (Join q req now stamp).1.deref r = q.deref r := by
  simp [Join, QueueManager.deref, List.getElem?_append_left hr]

theorem Join_held (q : QueueManager) (req : QueueJoinRequest) (now : Int) (stamp : String)
    (hk : (q.buckets.map Prod.fst).Nodup) :
    List.Perm (Join q req now stamp).1.held (q.held ++ [q.tickets.length]) := by
  have h1 := perm_setKey q.buckets (bucketKey req.region req.playlist)
    (q.bucket (bucketKey req.region req.playlist) ++ [q.tickets.length]) hk
  have h2 := perm_bucket q.buckets (bucketKey req.region req.playlist) hk
  have h3 : List.Perm (q.held ++ [q.tickets.length])
      ((q.bucket (bucketKey req.region req.playlist) ++ [q.tickets.length])
        ++ ((delKey q.buckets (bucketKey req.region req.playlist)).map Prod.snd).flatten) := by
    refine (List.Perm.append_right _ h2).trans ?_
    unfold QueueManager.bucket
    rw [List.append_assoc, List.append_assoc]
    exact List.Perm.append_left _ List.perm_append_comm
  exact h1.trans h3.symm

/-- `Join` keeps the shape of the queue when it mints an id that is not indexed. -/
theorem WF_Join (q : QueueManager) (req : QueueJoinRequest) (now : Int) (stamp : String)
    (h : WF q) (hfresh : q.ticketIndex.lookup (nextID "t" stamp) = none) :
    WF (Join q req now stamp).1 := by
  have hheld := Join_held q req now stamp h.keys
  have hmem : ∀ r, r ∈ (Join q req now stamp).1.held ↔ r ∈ q.held ∨ r = q.tickets.length := by
    intro r
    rw [hheld.mem_iff]
    simp
  have hnew := Join_ticket q req now stamp
  have hold := Join_deref_old q req now stamp
  have hidx : ∀ k : String, (Join q req now stamp).1.ticketIndex.lookup k
      = if k = nextID "t" stamp then some q.tickets.length else q.ticketIndex.lookup k := by
    intro k
    by_cases hk : k = nextID "t" stamp
    · rw [if_pos hk, hk]; exact Join_index q req now stamp
    · rw [if_neg hk]
      show (setKey q.ticketIndex _ _).lookup k = _
      exact lookup_setKey_other _ _ _ _ hk
  have hasg : (Join q req now stamp).1.assignment = q.assignment := rfl
  have hlen : (Join q req now stamp).1.tickets.length = q.tickets.length + 1 := by simp [Join]
  have hnone : q.assignment.lookup (nextID "t" stamp) = none := by
    cases ha : q.assignment.lookup (nextID "t" stamp) with
    | none => rfl
    | some a =>
      obtain ⟨p, hp⟩ := h.assigned_indexed _ a ha
      rw [hfresh] at hp
      exact Option.noConfusion hp
  refine ⟨setKey_keys_nodup _ _ _ h.keys, ?_, ?_, ?_, ?_, ?_, ?_⟩
  · rw [hheld.nodup_iff]
    apply List.Nodup.append h.held_nodup (by simp)
    intro x hx hx2
    simp only [List.mem_singleton] at hx2
    have := h.held_valid x hx
    omega
  · intro e he r hr
    have hrh : r ∈ (Join q req now stamp).1.held := (mem_held _ r).mpr ⟨e, he, hr⟩
    rcases mem_setKey _ _ _ _ he with h1 | h1
    · have hrq : r ∈ q.held := (mem_held q r).mpr ⟨e, h1, hr⟩
      rw [hold r (h.held_valid r hrq)]
      exact h.held_key e h1 r hr
    · rw [h1] at hr ⊢
      rcases List.mem_append.mp hr with h2 | h2
      · obtain ⟨e0, he0, hk0, hr0⟩ := mem_bucket q _ r h2
        have hrq : r ∈ q.held := (mem_held q r).mpr ⟨e0, he0, hr0⟩
        rw [hold r (h.held_valid r hrq), ← hk0]
        exact h.held_key e0 he0 r hr0
      · simp only [List.mem_singleton] at h2
        rw [h2, hnew]
  · intro r hr
    rcases (hmem r).mp hr with h1 | h1
    · rw [hold r (h.held_valid r h1), hidx]
      have h2 := h.held_indexed r h1
      have hne : (q.deref r).ticketID ≠ nextID "t" stamp := by
        intro hc
        rw [hc, hfresh] at h2
        exact Option.noConfusion h2
      rw [if_neg hne, h2]
    · rw [h1, hnew, hidx, if_pos rfl]
  · intro id p hp
    rw [hidx] at hp
    by_cases hk : id = nextID "t" stamp
    · rw [if_pos hk] at hp
      have := Option.some.inj hp
      subst this
      rw [hlen, hnew, hk]
      exact ⟨by omega, rfl⟩
    · rw [if_neg hk] at hp
      have := h.index_valid id p hp
      rw [hlen, hold p this.1]
      exact ⟨by omega, this.2⟩
  · intro id p hp
    rw [hidx] at hp
    rw [hasg]
    by_cases hk : id = nextID "t" stamp
    · rw [if_pos hk] at hp
      have := Option.some.inj hp
      subst this
      left
      rw [hnew, hk]
      exact ⟨rfl, (hmem _).mpr (Or.inr rfl), hnone⟩
    · rw [if_neg hk] at hp
      have hv := (h.index_valid id p hp).1
      rw [hold p hv]
      rcases h.index_status id p hp with h1 | h1
      · exact Or.inl ⟨h1.1, (hmem p).mpr (Or.inl h1.2.1), h1.2.2⟩
      · refine Or.inr ⟨h1.1, ?_, h1.2.2⟩
        intro hc
        rcases (hmem p).mp hc with h2 | h2
        · exact h1.2.1 h2
        · omega
  · intro id a ha
    rw [hasg] at ha
    obtain ⟨p, hp⟩ := h.assigned_indexed id a ha
    refine ⟨p, ?_⟩
    rw [hidx]
    have hne : id ≠ nextID "t" stamp := by
      intro hc
      rw [hc, hfresh] at hp
      exact Option.noConfusion hp
    rw [if_neg hne, hp]

/-- The back-dating of the tests keeps the shape of the queue. -/
theorem WF_backdate (q : QueueManager) (id : String) (joined : Int) (h : WF q) :
    WF (backdate q id joined) := by
  unfold backdate
  cases hl : q.ticketIndex.lookup id with
  | none => exact h
  | some p =>
    have hv := (h.index_valid id p hl).1
    have hd : ∀ r, ({ q with tickets := q.tickets.set p { q.deref p with joinedAt := joined } }
        : QueueManager).deref r
        = if r = p then { q.deref p with joinedAt := joined } else q.deref r := by
      intro r
      exact deref_set q p r _ q.buckets q.ticketIndex q.assignment hv
    have hsame : ∀ r, (({ q with tickets := q.tickets.set p { q.deref p with joinedAt := joined } }
        : QueueManager).deref r).ticketID = (q.deref r).ticketID
        ∧ (({ q with tickets := q.tickets.set p { q.deref p with joinedAt := joined } }
        : QueueManager).deref r).status = (q.deref r).status
        ∧ (({ q with tickets := q.tickets.set p { q.deref p with joinedAt := joined } }
        : QueueManager).deref r).region = (q.deref r).region
        ∧ (({ q with tickets := q.tickets.set p { q.deref p with joinedAt := joined } }
        : QueueManager).deref r).playlist = (q.deref r).playlist := by
      intro r
      rw [hd r]
      by_cases hr : r = p
      · rw [if_pos hr, hr]; exact ⟨rfl, rfl, rfl, rfl⟩
      · rw [if_neg hr]; exact ⟨rfl, rfl, rfl, rfl⟩
    refine ⟨h.keys, h.held_nodup, ?_, ?_, ?_, ?_, h.assigned_indexed⟩
    · intro e he r hr
      rw [(hsame r).2.2.1, (hsame r).2.2.2]
      exact h.held_key e he r hr
    · intro r hr
      rw [(hsame r).1]
      exact h.held_indexed r hr
    · intro k r hr
      rw [(hsame r).1]
      have := h.index_valid k r hr
      exact ⟨by simpa using this.1, this.2⟩
    · intro k r hr
      rw [(hsame r).2.1]
      exact h.index_status k r hr

theorem similarQueue_wf : WF similarQueue :=
  WF_Join _ _ _ _ (WF_Join _ _ _ _ (WF_new _) (by decide!)) (by decide!)

theorem expandedQueue_wf : WF expandedQueue := by
  show WF (backdate (backdate (Join (Join (NewQueueManager "ws://localhost:9003/ws")
    ⟨"p1", "A", "us-east", "ranked-1v1", 900⟩ 200000000000 "200000000000").1
    ⟨"p2", "B", "us-east", "ranked-1v1", 1500⟩ 200000001000 "200000001000").1
    "t_200000000000" (200000002000 - 120000000000))
    "t_200000001000" (200000003000 - 120000000000))
  exact WF_backdate _ _ _ (WF_backdate _ _ _
    (WF_Join _ _ _ _ (WF_Join _ _ _ _ (WF_new _) (by decide!)) (by decide!)))

theorem soloQueue_wf : WF soloQueue := by
  show WF (backdate (Join (NewQueueManager "ws://localhost:9003/ws") soloRequest
    200000000000 "200000000000").1 "t_200000000000" (200000001000 - 10000000000))
  exact WF_backdate _ _ _ (WF_Join _ _ _ _ (WF_new _) (by decide!))

theorem C22_leave_witness :
    ((Leave similarQueue "t_1000000000").2 = false
        ↔ similarQueue.ticketIndex.lookup "t_1000000000" = none)
      ∧ (Leave similarQueue "t_1000000000").2 = true
      ∧ (Leave similarQueue "t_1000000000").1.bucket "us-east|ranked-1v1" = [1]
      ∧ Poll (Leave similarQueue "t_1000000000").1 "t_1000000000"
          = { ticketID := "t_1000000000", status := "not_found", assignment := none } := by
  have h := C22_leave similarQueue "t_1000000000" similarQueue_wf
  have h0 := h.2.2 0 (by decide!)
  exact ⟨h.1, h0.1, by decide!, h0.2.2.2.2.2.1⟩

/-! ## The matching pass: pointer writes and the sort -/

theorem deref_setStatus (q : QueueManager) (p r : Nat) (s : String) (hp : p < q.tickets.length) :
    (setStatus q p s).deref r = if r = p then { q.deref p with status := s } else q.deref r := by
  unfold setStatus
  exact deref_set q p r _ q.buckets q.ticketIndex q.assignment hp

theorem setStatus_length (q : QueueManager) (p : Nat) (s : String) :
    (setStatus q p s).tickets.length = q.tickets.length := by
  simp [setStatus]

theorem logPtrs_append (log : List Mint) (e : Mint) :
    logPtrs (log ++ [e]) = logPtrs log ++ e.ptrs := by
  simp [logPtrs]

theorem mem_logPtrs (log : List Mint) (r : Nat) :
    r ∈ logPtrs log ↔ ∃ e ∈ log, r ∈ e.ptrs := by
  unfold logPtrs
  rw [List.mem_flatten]
  constructor
  · rintro ⟨l, hl, hr⟩
    obtain ⟨e, he, rfl⟩ := List.mem_map.mp hl
    exact ⟨e, he, hr⟩
  · rintro ⟨e, he, hr⟩
    exact ⟨_, List.mem_map.mpr ⟨e, he, rfl⟩, hr⟩

theorem insertByJoin_perm (q : QueueManager) (p : Nat) (l : List Nat) :
    List.Perm (insertByJoin q p l) (p :: l) := by
  induction l with
  | nil => exact List.Perm.refl _
  | cons r rest ih =>
    unfold insertByJoin
    split_ifs
    · exact (List.Perm.cons r ih).trans (List.Perm.swap p r rest)
    · exact List.Perm.refl _

theorem sortByJoin_perm (q : QueueManager) (l : List Nat) : List.Perm (sortByJoin q l) l := by
  induction l with
  | nil => exact List.Perm.refl _
  | cons p rest ih =>
    show List.Perm (insertByJoin q p (sortByJoin q rest)) (p :: rest)
    exact (insertByJoin_perm q p _).trans (List.Perm.cons p ih)

theorem insertByJoin_sorted (q : QueueManager) (p : Nat) (l : List Nat) (h : ByJoin q l) :
    ByJoin q (insertByJoin q p l) := by
  induction l with
  | nil => simp [insertByJoin, ByJoin]
  | cons r rest ih =>
    unfold ByJoin at h
    rw [List.pairwise_cons] at h
    unfold insertByJoin
    split_ifs with hlt
    · unfold ByJoin
      rw [List.pairwise_cons]
      refine ⟨?_, ih h.2⟩
      intro x hx
      rcases List.mem_cons.mp ((insertByJoin_perm q p rest).mem_iff.mp hx) with h1 | h1
      · rw [h1]; exact le_of_lt hlt
      · exact h.1 x h1
    · unfold ByJoin
      rw [List.pairwise_cons, List.pairwise_cons]
      refine ⟨?_, h.1, h.2⟩
      intro x hx
      rcases List.mem_cons.mp hx with h1 | h1
      · rw [h1]; exact not_lt.mp hlt
      · exact le_trans (not_lt.mp hlt) (h.1 x h1)

theorem sortByJoin_sorted (q : QueueManager) (l : List Nat) : ByJoin q (sortByJoin q l) := by
  induction l with
  | nil => simp [sortByJoin, ByJoin]
  | cons p rest ih => exact insertByJoin_sorted q p _ ih

theorem insertByJoin_congr (q q2 : QueueManager)
    (h : ∀ r, (q2.deref r).joinedAt = (q.deref r).joinedAt) (p : Nat) (l : List Nat) :
    insertByJoin q2 p l = insertByJoin q p l := by
  induction l with
  | nil => rfl
  | cons r rest ih =>
    unfold insertByJoin
    rw [h r, h p, ih]

theorem sortByJoin_congr (q q2 : QueueManager)
    (h : ∀ r, (q2.deref r).joinedAt = (q.deref r).joinedAt) (l : List Nat) :
    sortByJoin q2 l = sortByJoin q l := by
  induction l with
  | nil => rfl
  | cons p rest ih =>
    show insertByJoin q2 p (sortByJoin q2 rest) = insertByJoin q p (sortByJoin q rest)
    rw [ih, insertByJoin_congr q q2 h]

/-- A difference of ratings below `2^63` in size is computed by `abs(a.MMR - b.MMR)` as
it is. -/
theorem abs_wrapInt (x : Int) (h : |x| < 9223372036854775808) : abs (wrapInt x) = |x| := by
  obtain ⟨h1, h2⟩ := abs_lt.mp h
  have hw : wrapInt x = x := by unfold wrapInt; omega
  rw [hw]
  unfold abs
  split_ifs with h0
  · rw [abs_of_neg h0]
    unfold wrapInt
    omega
  · rw [abs_of_nonneg (not_lt.mp h0)]

/-- The inner loop of the pairing step returns the `best` it was given or the index of a
searching ticket that is not used and is within the allowed difference of `a`. -/
theorem findBest_spec (q : QueueManager) (used : List Nat) (a : Ticket) (now : Int) :
    ∀ (rest : List Nat) (j : Nat) (best : Option Nat) (bd : Int) (r : Nat),
      findBest q used a now rest j best bd = some r →
        best = some r
          ∨ (j ≤ r ∧ r < j + rest.length ∧ r ∉ used
              ∧ (q.deref (rest.getD (r - j) 0)).status = "searching"
              ∧ abs (wrapInt (a.mmr - (q.deref (rest.getD (r - j) 0)).mmr))
                  ≤ allowedMMRDiff a (q.deref (rest.getD (r - j) 0)) now) := by
  intro rest
  induction rest with
  | nil => intro j best bd r h; exact Or.inl h
  | cons p rest ih =>
    intro j best bd r h
    have shift : ∀ x, j + 1 ≤ x → (p :: rest).getD (x - j) 0 = rest.getD (x - (j + 1)) 0 := by
      intro x hx
      obtain ⟨d, rfl⟩ : ∃ d, x = j + 1 + d := ⟨x - (j + 1), by omega⟩
      have e1 : j + 1 + d - j = d + 1 := by omega
      have e2 : j + 1 + d - (j + 1) = d := by omega
      rw [e1, e2]
      rfl
    have lift : (best = some r
          ∨ (j + 1 ≤ r ∧ r < j + 1 + rest.length ∧ r ∉ used
              ∧ (q.deref (rest.getD (r - (j + 1)) 0)).status = "searching"
              ∧ abs (wrapInt (a.mmr - (q.deref (rest.getD (r - (j + 1)) 0)).mmr))
                  ≤ allowedMMRDiff a (q.deref (rest.getD (r - (j + 1)) 0)) now)) →
        (best = some r
          ∨ (j ≤ r ∧ r < j + (p :: rest).length ∧ r ∉ used
              ∧ (q.deref ((p :: rest).getD (r - j) 0)).status = "searching"
              ∧ abs (wrapInt (a.mmr - (q.deref ((p :: rest).getD (r - j) 0)).mmr))
                  ≤ allowedMMRDiff a (q.deref ((p :: rest).getD (r - j) 0)) now)) := by
      rintro (h1 | ⟨h1, h2, h3, h4, h5⟩)
      · exact Or.inl h1
      · rw [shift r h1]
        exact Or.inr ⟨by omega, by simp only [List.length_cons]; omega, h3, h4, h5⟩
    unfold findBest at h
    by_cases hu : j ∈ used
    · rw [if_pos hu] at h
      exact lift (ih _ _ _ _ h)
    · rw [if_neg hu] at h
      simp only [] at h
      by_cases hs : (q.deref p).status ≠ "searching"
      · rw [if_pos hs] at h
        exact lift (ih _ _ _ _ h)
      · rw [if_neg hs] at h
        by_cases hd : abs (wrapInt (a.mmr - (q.deref p).mmr)) ≤ allowedMMRDiff a (q.deref p) now
            ∧ abs (wrapInt (a.mmr - (q.deref p).mmr)) < bd
        · rw [if_pos hd] at h
          rcases ih _ _ _ _ h with h1 | h1
          · have hr : r = j := (Option.some.inj h1).symm
            subst hr
            refine Or.inr ⟨le_refl _, by simp, hu, ?_, ?_⟩
            · simpa using not_not.mp hs
            · simpa using hd.1
          · exact lift (Or.inr h1)
        · rw [if_neg hd] at h
          exact lift (ih _ _ _ _ h)

/-! ## The matching pass: the pairing step -/

theorem getD_mem (l : List Nat) (k : Nat) (h : k < l.length) : l.getD k 0 ∈ l := by
  rw [List.getD_eq_getElem l 0 h]
  exact List.getElem_mem h

theorem getD_inj (l : List Nat) (hn : l.Nodup) (i j : Nat) (hi : i < l.length)
    (hj : j < l.length) (h : l.getD i 0 = l.getD j 0) : i = j := by
  rw [List.getD_eq_getElem l 0 hi, List.getD_eq_getElem l 0 hj] at h
  exact (List.Nodup.getElem_inj_iff hn).mp h

theorem getD_drop (l : List Nat) (n k : Nat) : (l.drop n).getD k 0 = l.getD (n + k) 0 := by
  simp [List.getD_eq_getElem?_getD, List.getElem?_drop]

theorem byJoin_getD (q : QueueManager) (l : List Nat) (h : ByJoin q l) (i j : Nat)
    (hij : i < j) (hj : j < l.length) :
    (q.deref (l.getD i 0)).joinedAt ≤ (q.deref (l.getD j 0)).joinedAt := by
  rw [List.getD_eq_getElem l 0 (by omega), List.getD_eq_getElem l 0 hj]
  exact List.pairwise_iff_getElem.mp h i j (by omega) hj hij

theorem deref_tickets (q q2 : QueueManager) (h : q2.tickets = q.tickets) (r : Nat) :
    q2.deref r = q.deref r := by
  unfold QueueManager.deref
  rw [h]

theorem Explains.same {q : QueueManager} {now : Int} {stamp : Nat → String} {log : List Mint}
    {q2 : QueueManager} {n : Nat} (h : Explains q now stamp log q2 n) (r : Nat)
    (hr : r ∉ logPtrs log) : q2.deref r = q.deref r := by
  rw [h.heap r, if_neg hr]

theorem Explains.field {q : QueueManager} {now : Int} {stamp : Nat → String} {log : List Mint}
    {q2 : QueueManager} {n : Nat} (h : Explains q now stamp log q2 n) (r : Nat) :
    (q2.deref r).ticketID = (q.deref r).ticketID
      ∧ (q2.deref r).playerID = (q.deref r).playerID
      ∧ (q2.deref r).joinedAt = (q.deref r).joinedAt
      ∧ (q2.deref r).mmr = (q.deref r).mmr := by
  rw [h.heap r]
  split_ifs <;> exact ⟨rfl, rfl, rfl, rfl⟩

/-- The body of the outer pairing loop keeps `PairInv`, adding at most one mint, a pair
of tickets of the bucket. -/
theorem pairAt_inv (q : QueueManager) (now : Int) (stamp : Nat → String) (key : String)
    (bs : List Nat) (b0 : List (String × List Nat)) (hwf : WF q) (hnd : bs.Nodup)
    (hbs : ∀ p ∈ bs, p ∈ q.bucket key) (hsorted : ByJoin q bs) (st : PassState)
    (log : List Mint) (i : Nat) (hi : i + 1 < bs.length) (h : PairInv q now stamp bs b0 st log) :
    ∃ ext : List Mint, PairInv q now stamp bs b0 (pairAt key bs now stamp st i) (log ++ ext)
      ∧ ((ext = [] ∧ (i ∈ st.used ∨ (st.q.deref (bs.getD i 0)).status ≠ "searching"
            ∨ findBest st.q st.used (st.q.deref (bs.getD i 0)) now (bs.drop (i + 1)) (i + 1)
                none MaxInt32 = none))
          ∨ ∃ best, findBest st.q st.used (st.q.deref (bs.getD i 0)) now (bs.drop (i + 1))
                (i + 1) none MaxInt32 = some best
              ∧ ext = [Mint.pair key (bs.getD i 0) (bs.getD best 0)]) := by
  unfold pairAt
  by_cases hu : i ∈ st.used
  · rw [if_pos hu]
    exact ⟨[], by simpa using h, Or.inl ⟨rfl, Or.inl hu⟩⟩
  rw [if_neg hu]
  simp only []
  by_cases hs : (st.q.deref (bs.getD i 0)).status ≠ "searching"
  · rw [if_pos hs]
    exact ⟨[], by simpa using h, Or.inl ⟨rfl, Or.inr (Or.inl hs)⟩⟩
  rw [if_neg hs]
  cases hf : findBest st.q st.used (st.q.deref (bs.getD i 0)) now (bs.drop (i + 1)) (i + 1) none
      MaxInt32 with
  | none => exact ⟨[], by simpa using h, Or.inl ⟨rfl, Or.inr (Or.inr rfl)⟩⟩
  | some best =>
    simp only []
    rcases findBest_spec _ _ _ _ _ _ _ _ _ hf with hc | ⟨hb1, hb2, hb3, hb4, hb5⟩
    · exact Option.noConfusion hc
    have hblen : best < bs.length := by
      simp only [List.length_drop] at hb2
      omega
    have hidx : i + 1 + (best - (i + 1)) = best := by omega
    rw [getD_drop, hidx] at hb4 hb5
    -- the two pointers
    have hpa_bs : bs.getD i 0 ∈ bs := getD_mem bs i (by omega)
    have hpb_bs : bs.getD best 0 ∈ bs := getD_mem bs best hblen
    have hpa_out : bs.getD i 0 ∉ logPtrs log := h.unused_out i (by omega) hu
    have hpb_out : bs.getD best 0 ∉ logPtrs log := h.unused_out best hblen hb3
    have hne : bs.getD i 0 ≠ bs.getD best 0 := by
      intro hc
      have := getD_inj bs hnd i best (by omega) hblen hc
      omega
    have hpa_held : bs.getD i 0 ∈ q.held := hwf.bucket_held key _ (hbs _ hpa_bs)
    have hpb_held : bs.getD best 0 ∈ q.held := hwf.bucket_held key _ (hbs _ hpb_bs)
    have hpa_v : bs.getD i 0 < st.q.tickets.length := by
      rw [h.ex.length_eq]; exact hwf.held_valid _ hpa_held
    have hpb_v : bs.getD best 0 < st.q.tickets.length := by
      rw [h.ex.length_eq]; exact hwf.held_valid _ hpb_held
    have ha : st.q.deref (bs.getD i 0) = q.deref (bs.getD i 0) := h.ex.same _ hpa_out
    have hb : st.q.deref (bs.getD best 0) = q.deref (bs.getD best 0) := h.ex.same _ hpb_out
    have hidne : (q.deref (bs.getD i 0)).ticketID ≠ (q.deref (bs.getD best 0)).ticketID :=
      fun hc => hne (hwf.held_ids _ _ hpa_held hpb_held hc)
    rw [ha] at hb5
    rw [hb] at hb4 hb5
    refine ⟨[Mint.pair key (bs.getD i 0) (bs.getD best 0)], ?_, Or.inr ⟨best, rfl, rfl⟩⟩
    generalize hpa : bs.getD i 0 = pa at *
    generalize hpb : bs.getD best 0 = pb at *
    have hderef : ∀ r, (setStatus (setStatus st.q pa "matched") pb "matched").deref r
        = if r = pa ∨ r = pb then { q.deref r with status := "matched" } else st.q.deref r := by
      intro r
      rw [deref_setStatus _ _ _ _ (by rw [setStatus_length]; exact hpb_v)]
      rw [deref_setStatus _ _ _ _ hpa_v, deref_setStatus _ _ _ _ hpa_v]
      by_cases h1 : r = pb
      · rw [if_pos h1, if_neg (fun hc => hne hc.symm), if_pos (Or.inr h1), hb, h1]
      · rw [if_neg h1]
        by_cases h2 : r = pa
        · rw [if_pos h2, if_pos (Or.inl h2), ha, h2]
        · rw [if_neg h2, if_neg (by tauto)]
    have hmemlog : ∀ r, r ∈ logPtrs (log ++ [Mint.pair key pa pb])
        ↔ r ∈ logPtrs log ∨ r = pa ∨ r = pb := by
      intro r
      rw [logPtrs_append]
      simp [Mint.ptrs]
    refine ⟨⟨?_, ?_, ?_, ?_, ?_, ?_, ?_, ?_⟩, ⟨?_, ?_⟩, ?_, ?_, ?_, ?_⟩
    · show st.minted + 1 = (log ++ [Mint.pair key pa pb]).length
      rw [List.length_append, ← h.ex.minted_eq]; rfl
    · show (setStatus (setStatus st.q pa "matched") pb "matched").tickets.length = _
      rw [setStatus_length, setStatus_length, h.ex.length_eq]
    · exact h.ex.index_eq
    · exact h.ex.addr_eq
    · exact h.ex.keys_eq
    · intro r
      have e1 := deref_tickets (setStatus (setStatus st.q pa "matched") pb "matched")
        { setStatus (setStatus st.q pa "matched") pb "matched" with
          assignment := setKey (setKey
            (setStatus (setStatus st.q pa "matched") pb "matched").assignment
            (st.q.deref pa).ticketID
            { ticketID := (st.q.deref pa).ticketID, matchID := nextID "m" (stamp st.minted),
              region := (splitKey key).1, playlist := (splitKey key).2,
              players := [(st.q.deref pa).playerID, (st.q.deref pb).playerID], botFill := false,
              serverAddr := st.q.serverAddr, foundAtUnix := now / 1000000000 })
            (st.q.deref pb).ticketID
            { ticketID := (st.q.deref pb).ticketID, matchID := nextID "m" (stamp st.minted),
              region := (splitKey key).1, playlist := (splitKey key).2,
              players := [(st.q.deref pa).playerID, (st.q.deref pb).playerID], botFill := false,
              serverAddr := st.q.serverAddr, foundAtUnix := now / 1000000000 } } rfl r
      refine e1.trans ?_
      rw [hderef r]
      by_cases hr : r = pa ∨ r = pb
      · rw [if_pos hr, if_pos ((hmemlog r).mpr (Or.inr hr))]
      · rw [if_neg hr, h.ex.heap r]
        by_cases hr2 : r ∈ logPtrs log
        · rw [if_pos hr2, if_pos ((hmemlog r).mpr (Or.inl hr2))]
        · rw [if_neg hr2, if_neg (fun hc => by rcases (hmemlog r).mp hc with h1 | h1 <;> tauto)]
    · intro id hid
      have h1 : (q.deref pa).ticketID ≠ id := hid pa ((hmemlog pa).mpr (Or.inr (Or.inl rfl)))
      have h2 : (q.deref pb).ticketID ≠ id := hid pb ((hmemlog pb).mpr (Or.inr (Or.inr rfl)))
      show (setKey (setKey st.q.assignment _ _) _ _).lookup id = _
      rw [hb, ha, lookup_setKey_other _ _ _ _ (Ne.symm h2), lookup_setKey_other _ _ _ _ (Ne.symm h1)]
      exact h.ex.asg_old id (fun r hr => hid r ((hmemlog r).mpr (Or.inl hr)))
    · intro n e hn r hr
      show (setKey (setKey st.q.assignment _ _) _ _).lookup _ = _
      rw [hb, ha]
      by_cases hlt : n < log.length
      · rw [List.getElem?_append_left hlt] at hn
        have hmem : e ∈ log := List.getElem?_mem hn
        have hrl : r ∈ logPtrs log := (mem_logPtrs log r).mpr ⟨e, hmem, hr⟩
        have hrh := h.in_held r hrl
        have h1 : (q.deref r).ticketID ≠ (q.deref pa).ticketID :=
          fun hc => hpa_out (hwf.held_ids _ _ hrh hpa_held hc ▸ hrl)
        have h2 : (q.deref r).ticketID ≠ (q.deref pb).ticketID :=
          fun hc => hpb_out (hwf.held_ids _ _ hrh hpb_held hc ▸ hrl)
        rw [lookup_setKey_other _ _ _ _ h2, lookup_setKey_other _ _ _ _ h1]
        exact h.ex.asg_new n e hn r hr
      · have hlen : n = log.length := by
          obtain ⟨this, _⟩ := List.getElem?_eq_some_iff.mp hn
          simp only [List.length_append, List.length_singleton] at this
          omega
        subst hlen
        rw [List.getElem?_append_right (le_refl _)] at hn
        simp only [Nat.sub_self, List.getElem?_cons_zero, Option.some.injEq] at hn
        subst hn
        simp only [Mint.ptrs, List.mem_cons, List.mem_singleton, List.not_mem_nil, or_false] at hr
        rcases hr with hr | hr
        · subst hr
          rw [lookup_setKey_other _ _ _ _ hidne, lookup_setKey_self]
          simp only [Mint.assignment, h.ex.addr_eq, h.ex.minted_eq]
        · subst hr
          rw [lookup_setKey_self]
          simp only [Mint.assignment, h.ex.addr_eq, h.ex.minted_eq]
    · rw [logPtrs_append]
      apply List.Nodup.append h.sound.nodup
      · simp [Mint.ptrs, hne]
      · intro x hx hx2
        simp only [Mint.ptrs, List.mem_cons, List.mem_singleton, List.not_mem_nil, or_false] at hx2
        rcases hx2 with hx2 | hx2
        · exact hpa_out (hx2 ▸ hx)
        · exact hpb_out (hx2 ▸ hx)
    · intro e he
      rcases List.mem_append.mp he with h1 | h1
      · exact h.sound.lawful e h1
      · simp only [List.mem_singleton] at h1
        subst h1
        refine ⟨hbs _ hpa_bs, hbs _ hpb_bs, ?_, hb5⟩
        rw [← hpa, ← hpb]
        exact byJoin_getD q bs hsorted i best (by omega) hblen
    · exact h.buckets
    · intro k hk
      simp only [List.mem_cons] at hk
      rcases hk with hk | hk | hk
      · subst hk
        exact ⟨hblen, (hmemlog _).mpr (Or.inr (Or.inr hpb))⟩
      · subst hk
        exact ⟨by omega, (hmemlog _).mpr (Or.inr (Or.inl hpa))⟩
      · exact ⟨(h.used_in k hk).1, (hmemlog _).mpr (Or.inl (h.used_in k hk).2)⟩
    · intro k hk hku hc
      simp only [List.mem_cons, not_or] at hku
      rcases (hmemlog _).mp hc with h1 | h1 | h1
      · exact h.unused_out k hk hku.2.2 h1
      · exact hku.2.1 (getD_inj bs hnd k i hk (by omega) (h1.trans hpa.symm))
      · exact hku.1 (getD_inj bs hnd k best hk hblen (h1.trans hpb.symm))
    · intro r hr
      rcases (hmemlog r).mp hr with h1 | h1 | h1
      · exact h.in_held r h1
      · rw [h1]; exact hpa_held
      · rw [h1]; exact hpb_held

theorem pairFold_inv (q : QueueManager) (now : Int) (stamp : Nat → String) (key : String)
    (bs : List Nat) (b0 : List (String × List Nat)) (hwf : WF q) (hnd : bs.Nodup)
    (hbs : ∀ p ∈ bs, p ∈ q.bucket key) (hsorted : ByJoin q bs) :
    ∀ (is : List Nat) (st : PassState) (log : List Mint), (∀ i ∈ is, i + 1 < bs.length) →
      PairInv q now stamp bs b0 st log →
      ∃ ext : List Mint,
        PairInv q now stamp bs b0 (is.foldl (pairAt key bs now stamp) st) (log ++ ext)
          ∧ ∀ e ∈ ext, ∃ pa pb, e = Mint.pair key pa pb := by
  intro is
  induction is with
  | nil => intro st log _ h; exact ⟨[], by simpa using h, by simp⟩
  | cons i rest ih =>
    intro st log his h
    obtain ⟨ext1, h1, he0⟩ := pairAt_inv q now stamp key bs b0 hwf hnd hbs hsorted st log i
      (his i (List.mem_cons_self _ _)) h
    have he1 : ∀ e ∈ ext1, ∃ pa pb, e = Mint.pair key pa pb := by
      intro e he
      rcases he0 with ⟨h3, _⟩ | ⟨best, _, h3⟩
      · rw [h3] at he; simp at he
      · rw [h3] at he
        simp only [List.mem_singleton] at he
        exact ⟨_, _, he⟩
    obtain ⟨ext2, h2, he2⟩ := ih (pairAt key bs now stamp st i) (log ++ ext1)
      (fun j hj => his j (List.mem_cons_of_mem _ hj)) h1
    refine ⟨ext1 ++ ext2, by simpa [List.append_assoc] using h2, ?_⟩
    intro e he
    rcases List.mem_append.mp he with h3 | h3
    · exact he1 e h3
    · exact he2 e h3

/-- The pairing step keeps `PairInv`, adding only pairs of tickets of the bucket. -/
theorem pairLoop_inv (q : QueueManager) (now : Int) (stamp : Nat → String) (key : String)
    (bs : List Nat) (b0 : List (String × List Nat)) (hwf : WF q) (hnd : bs.Nodup)
    (hbs : ∀ p ∈ bs, p ∈ q.bucket key) (hsorted : ByJoin q bs) (st : PassState)
    (log : List Mint) (h : PairInv q now stamp bs b0 st log) :
    ∃ ext : List Mint, PairInv q now stamp bs b0 (pairLoop key bs now stamp st) (log ++ ext)
      ∧ ∀ e ∈ ext, ∃ pa pb, e = Mint.pair key pa pb := by
  unfold pairLoop
  apply pairFold_inv q now stamp key bs b0 hwf hnd hbs hsorted _ st log _ h
  intro i hi
  have := List.mem_range.mp hi
  omega

/-! ## The matching pass: the bot-fill sweep -/

theorem take_succ_getD (bs : List Nat) (i : Nat) (hi : i < bs.length) :
    bs.take (i + 1) = bs.take i ++ [bs.getD i 0] := by
  rw [List.take_succ, List.getD_eq_getElem bs 0 hi, List.getElem?_eq_getElem hi]
  rfl

theorem drop_cons_getD (bs : List Nat) (i p : Nat) (rest : List Nat)
    (h : bs.drop i = p :: rest) : i < bs.length ∧ bs.getD i 0 = p ∧ bs.drop (i + 1) = rest := by
  have hi : i < bs.length := by
    by_contra hc
    rw [List.drop_eq_nil_of_le (by omega)] at h
    exact List.noConfusion h
  refine ⟨hi, ?_, ?_⟩
  · have := getD_drop bs i 0
    rw [h] at this
    simpa using this.symm
  · have : bs.drop (i + 1) = (bs.drop i).drop 1 := by rw [List.drop_drop]
    rw [this, h]
    rfl

/-- The bot-fill sweep keeps `FillInv` up to the end of the bucket, adding only bot
fills of tickets of the bucket. -/
theorem fillLoop_inv (q : QueueManager) (now : Int) (stamp : Nat → String) (key : String)
    (bs : List Nat) (b0 : List (String × List Nat)) (hwf : WF q) (hnd : bs.Nodup)
    (hbs : ∀ p ∈ bs, p ∈ q.bucket key) :
    ∀ (rest : List Nat) (i : Nat) (st : PassState) (remaining : List Nat) (log : List Mint),
      bs.drop i = rest → FillInv q now stamp bs b0 st log i remaining →
      ∃ ext : List Mint,
        FillInv q now stamp bs b0 (fillLoop key now stamp rest i st remaining).1 (log ++ ext)
            bs.length (fillLoop key now stamp rest i st remaining).2
          ∧ ∀ e ∈ ext, ∃ p, e = Mint.fill key p := by
  intro rest
  induction rest with
  | nil =>
    intro i st remaining log hdrop h
    have hi : bs.length ≤ i := List.drop_eq_nil_iff.mp hdrop
    refine ⟨[], ?_, by simp⟩
    simp only [fillLoop, List.append_nil]
    have ht : bs.take i = bs.take bs.length := by
      rw [List.take_of_length_le hi, List.take_length]
    exact ⟨h.ex, h.sound, h.buckets, h.used_in, fun k hk1 hk2 => by omega, h.in_held,
      by rw [← ht]; exact h.rem, by rw [← ht]; exact h.waited⟩
  | cons p rest ih =>
    intro i st remaining log hdrop h
    obtain ⟨hi, hp, hdrop2⟩ := drop_cons_getD bs i p rest hdrop
    have hp_bs : p ∈ bs := hp ▸ getD_mem bs i hi
    have hp_held : p ∈ q.held := hwf.bucket_held key _ (hbs _ hp_bs)
    have htake := take_succ_getD bs i hi
    rw [hp] at htake
    unfold fillLoop
    simp only []
    by_cases hu : i ∈ st.used
    · rw [if_pos (Or.inl hu)]
      have hpl : p ∈ logPtrs log := hp ▸ (h.used_in i hu).2
      apply ih (i + 1) st remaining log hdrop2
      refine ⟨h.ex, h.sound, h.buckets, h.used_in,
        fun k hk1 hk2 hk3 => h.unused_out k (by omega) hk2 hk3, h.in_held, ?_, ?_⟩
      · rw [htake, List.filter_append, ← h.rem]
        simp [hpl]
      · intro x hx
        rw [htake] at hx
        rcases List.mem_append.mp hx with h1 | h1
        · exact h.waited x h1
        · simp only [List.mem_singleton] at h1
          exact Or.inl (h1 ▸ hpl)
    have hp_out : p ∉ logPtrs log := hp ▸ h.unused_out i (le_refl _) hi hu
    have hsame : st.q.deref p = q.deref p := h.ex.same _ hp_out
    have hsearch : (st.q.deref p).status = "searching" := by
      rw [hsame]; exact hwf.held_searching p hp_held
    rw [if_neg (by rintro (h1 | h1); exact hu h1; exact h1 hsearch)]
    by_cases hw : now - (st.q.deref p).joinedAt ≥ 4000000000
    · rw [if_pos hw]
      have hp_v : p < st.q.tickets.length := by
        rw [h.ex.length_eq]; exact hwf.held_valid _ hp_held
      have hmemlog : ∀ r, r ∈ logPtrs (log ++ [Mint.fill key p]) ↔ r ∈ logPtrs log ∨ r = p := by
        intro r
        rw [logPtrs_append]
        simp [Mint.ptrs]
      obtain ⟨ext, hext, hfill⟩ := ih (i + 1)
        { st with
          q := { setStatus st.q p "matched" with
            assignment := setKey (setStatus st.q p "matched").assignment (st.q.deref p).ticketID
              { ticketID := (st.q.deref p).ticketID, matchID := nextID "m" (stamp st.minted),
                region := (splitKey key).1, playlist := (splitKey key).2,
                players := [(st.q.deref p).playerID, "bot"], botFill := true,
                serverAddr := st.q.serverAddr, foundAtUnix := now / 1000000000 } },
          minted := st.minted + 1 } remaining (log ++ [Mint.fill key p]) hdrop2 (by
        refine ⟨⟨?_, ?_, h.ex.index_eq, h.ex.addr_eq, h.ex.keys_eq, ?_, ?_, ?_⟩, ⟨?_, ?_⟩,
          h.buckets, ?_, ?_, ?_, ?_, ?_⟩
        · show st.minted + 1 = (log ++ [Mint.fill key p]).length
          rw [List.length_append, ← h.ex.minted_eq]; rfl
        · show (setStatus st.q p "matched").tickets.length = _
          rw [setStatus_length, h.ex.length_eq]
        · intro r
          show (setStatus st.q p "matched").deref r = _
          rw [deref_setStatus _ _ _ _ hp_v]
          by_cases hr : r = p
          · rw [if_pos hr, if_pos ((hmemlog r).mpr (Or.inr hr)), hsame, hr]
          · rw [if_neg hr, h.ex.heap r]
            by_cases hr2 : r ∈ logPtrs log
            · rw [if_pos hr2, if_pos ((hmemlog r).mpr (Or.inl hr2))]
            · rw [if_neg hr2,
                if_neg (fun hc => by rcases (hmemlog r).mp hc with h1 | h1 <;> tauto)]
        · intro id hid
          have h1 : (q.deref p).ticketID ≠ id := hid p ((hmemlog p).mpr (Or.inr rfl))
          show (setKey st.q.assignment _ _).lookup id = _
          rw [hsame, lookup_setKey_other _ _ _ _ (Ne.symm h1)]
          exact h.ex.asg_old id (fun r hr => hid r ((hmemlog r).mpr (Or.inl hr)))
        · intro n e hn r hr
          show (setKey st.q.assignment _ _).lookup _ = _
          rw [hsame]
          by_cases hlt : n < log.length
          · rw [List.getElem?_append_left hlt] at hn
            have hmem : e ∈ log := List.getElem?_mem hn
            have hrl : r ∈ logPtrs log := (mem_logPtrs log r).mpr ⟨e, hmem, hr⟩
            have hrh := h.in_held r hrl
            have h1 : (q.deref r).ticketID ≠ (q.deref p).ticketID :=
              fun hc => hp_out (hwf.held_ids _ _ hrh hp_held hc ▸ hrl)
            rw [lookup_setKey_other _ _ _ _ h1]
            exact h.ex.asg_new n e hn r hr
          · have hlen : n = log.length := by
              obtain ⟨this, _⟩ := List.getElem?_eq_some_iff.mp hn
              simp only [List.length_append, List.length_singleton] at this
              omega
            subst hlen
            rw [List.getElem?_append_right (le_refl _)] at hn
            simp only [Nat.sub_self, List.getElem?_cons_zero, Option.some.injEq] at hn
            subst hn
            simp only [Mint.ptrs, List.mem_singleton] at hr
            subst hr
            rw [lookup_setKey_self]
            simp only [Mint.assignment, h.ex.addr_eq, h.ex.minted_eq]
        · rw [logPtrs_append]
          apply List.Nodup.append h.sound.nodup (by simp [Mint.ptrs])
          intro x hx hx2
          simp only [Mint.ptrs, List.mem_singleton] at hx2
          exact hp_out (hx2 ▸ hx)
        · intro e he
          rcases List.mem_append.mp he with h1 | h1
          · exact h.sound.lawful e h1
          · simp only [List.mem_singleton] at h1
            subst h1
            exact ⟨hbs _ hp_bs, by rw [← hsame]; exact hw⟩
        · intro k hk
          exact ⟨(h.used_in k hk).1, (hmemlog _).mpr (Or.inl (h.used_in k hk).2)⟩
        · intro k hk1 hk2 hk3 hc
          rcases (hmemlog _).mp hc with h1 | h1
          · exact h.unused_out k (by omega) hk2 hk3 h1
          · have := getD_inj bs hnd k i hk2 hi (h1.trans hp.symm)
            omega
        · intro r hr
          rcases (hmemlog r).mp hr with h1 | h1
          · exact h.in_held r h1
          · rw [h1]; exact hp_held
        · rw [htake, List.filter_append, h.rem]
          have hfp : [p].filter (fun x => decide (x ∉ logPtrs (log ++ [Mint.fill key p]))) = [] := by
            simp [(hmemlog p).mpr (Or.inr rfl)]
          rw [hfp, List.append_nil]
          apply List.filter_congr
          intro x hx
          have hxne : x ≠ p := by
            intro hc
            obtain ⟨k, hk, hxk⟩ := List.getElem_of_mem (List.mem_of_mem_take hx)
            have hx2 := hx
            rw [List.mem_take_iff_getElem] at hx2
            obtain ⟨j, hj, hxj⟩ := hx2
            have hj2 : j < bs.length := by omega
            have : bs.getD j 0 = bs.getD i 0 := by
              rw [List.getD_eq_getElem bs 0 hj2, hxj, hc, hp]
            have := getD_inj bs hnd j i hj2 hi this
            omega
          simp only [hmemlog x, hxne, or_false]
        · intro x hx
          rw [htake] at hx
          rcases List.mem_append.mp hx with h1 | h1
          · rcases h.waited x h1 with h2 | h2
            · exact Or.inl ((hmemlog x).mpr (Or.inl h2))
            · exact Or.inr h2
          · simp only [List.mem_singleton] at h1
            exact Or.inl ((hmemlog x).mpr (Or.inr h1)))
      refine ⟨Mint.fill key p :: ext, by simpa [List.append_assoc] using hext, ?_⟩
      intro e he
      rcases List.mem_cons.mp he with h1 | h1
      · exact ⟨p, h1⟩
      · exact hfill e h1
    · rw [if_neg hw]
      apply ih (i + 1) st (remaining ++ [p]) log hdrop2
      refine ⟨h.ex, h.sound, h.buckets, h.used_in,
        fun k hk1 hk2 hk3 => h.unused_out k (by omega) hk2 hk3, h.in_held, ?_, ?_⟩
      · rw [htake, List.filter_append, ← h.rem]
        simp [hp_out]
      · intro x hx
        rw [htake] at hx
        rcases List.mem_append.mp hx with h1 | h1
        · exact h.waited x h1
        · simp only [List.mem_singleton] at h1
          right
          rw [h1, ← hsame]
          omega

/-! ## The matching pass: one bucket, and all of them -/

theorem WF.bucket_key {q : QueueManager} (h : WF q) (k1 k2 : String) (p : Nat)
    (h1 : p ∈ q.bucket k1) (h2 : p ∈ q.bucket k2) : k1 = k2 := by
  obtain ⟨e1, he1, hk1, hp1⟩ := mem_bucket q k1 p h1
  obtain ⟨e2, he2, hk2, hp2⟩ := mem_bucket q k2 p h2
  rw [← hk1, ← hk2, h.held_key e1 he1 p hp1, h.held_key e2 he2 p hp2]

theorem Mint.lawful_mem {q : QueueManager} {now : Int} {e : Mint} (h : e.lawful q now) :
    ∀ r ∈ e.ptrs, r ∈ q.bucket e.key := by
  intro r hr
  cases e with
  | pair key pa pb =>
    simp only [Mint.ptrs, List.mem_cons, List.mem_singleton, List.not_mem_nil, or_false] at hr
    rcases hr with hr | hr
    · rw [hr]; exact h.1
    · rw [hr]; exact h.2.1
  | fill key p =>
    simp only [Mint.ptrs, List.mem_singleton] at hr
    rw [hr]; exact h.1

theorem Sound.ptr_bucket {q : QueueManager} {now : Int} {log : List Mint} (h : Sound q now log)
    (r : Nat) (hr : r ∈ logPtrs log) : ∃ e ∈ log, r ∈ e.ptrs ∧ r ∈ q.bucket e.key := by
  obtain ⟨e, he, hre⟩ := (mem_logPtrs log r).mp hr
  exact ⟨e, he, hre, Mint.lawful_mem (h.lawful e he) r hre⟩

/-- The pairing stage of one bucket (the guard on `playersPerMatch` and the pairing step)
keeps `PairInv`, adds only pairs of the bucket, and pairs a bucket of two tickets that are
within the allowed difference when `playersPerMatch` is at most 2. -/
theorem pairStage_inv (q : QueueManager) (now : Int) (stamp : Nat → String) (key : String)
    (playersPerMatch : Int) (bs : List Nat) (b0 : List (String × List Nat)) (hwf : WF q)
    (hnd : bs.Nodup) (hbs : ∀ p ∈ bs, p ∈ q.bucket key) (hsorted : ByJoin q bs) (st : PassState)
    (log : List Mint) (hused : st.used = []) (h : PairInv q now stamp bs b0 st log) :
    ∃ ext : List Mint,
      PairInv q now stamp bs b0
          (if (bs.length : Int) ≥ playersPerMatch then pairLoop key bs now stamp st else st)
          (log ++ ext)
        ∧ (∀ e ∈ ext, ∃ pa pb, e = Mint.pair key pa pb)
        ∧ (∀ pa pb : Nat, bs = [pa, pb] → playersPerMatch ≤ 2 →
            abs (wrapInt ((q.deref pa).mmr - (q.deref pb).mmr))
              ≤ allowedMMRDiff (q.deref pa) (q.deref pb) now →
            Mint.pair key pa pb ∈ ext) := by
  by_cases htwo : ∃ pa pb : Nat, bs = [pa, pb] ∧ playersPerMatch ≤ 2
      ∧ abs (wrapInt ((q.deref pa).mmr - (q.deref pb).mmr)) ≤ allowedMMRDiff (q.deref pa) (q.deref pb) now
  · obtain ⟨pa, pb, hbs2, hppm, htol⟩ := htwo
    subst hbs2
    have hlen : (([pa, pb] : List Nat).length : Int) ≥ playersPerMatch := by
      simp only [List.length_cons, List.length_nil]; omega
    rw [if_pos hlen]
    have hloop : pairLoop key [pa, pb] now stamp st = pairAt key [pa, pb] now stamp st 0 := by
      simp [pairLoop, List.range_succ]
    rw [hloop]
    obtain ⟨ext, hinv, hext⟩ := pairAt_inv q now stamp key [pa, pb] b0 hwf hnd hbs hsorted st log 0
      (by simp) h
    have hpa_out : pa ∉ logPtrs log := by
      have := h.unused_out 0 (by simp) (by rw [hused]; simp)
      simpa using this
    have hpb_out : pb ∉ logPtrs log := by
      have := h.unused_out 1 (by simp) (by rw [hused]; simp)
      simpa using this
    have ha : st.q.deref pa = q.deref pa := h.ex.same _ hpa_out
    have hb : st.q.deref pb = q.deref pb := h.ex.same _ hpb_out
    have hsa : (q.deref pa).status = "searching" :=
      hwf.held_searching pa (hwf.bucket_held key _ (hbs pa (by simp)))
    have hsb : (q.deref pb).status = "searching" :=
      hwf.held_searching pb (hwf.bucket_held key _ (hbs pb (by simp)))
    have hmax : abs (wrapInt ((q.deref pa).mmr - (q.deref pb).mmr)) < MaxInt32 :=
      lt_of_le_of_lt (le_trans htol (allowedMMRDiff_bounds _ _ _)) (by decide)
    have hfind : findBest st.q st.used (st.q.deref (([pa, pb] : List Nat).getD 0 0)) now
        (([pa, pb] : List Nat).drop (0 + 1)) (0 + 1) none MaxInt32 = some 1 := by
      simp only [List.getD_cons_zero, List.drop_succ_cons, List.drop_zero, zero_add]
      unfold findBest
      rw [if_neg (by rw [hused]; simp)]
      simp only []
      rw [hb, ha, if_neg (by simp [hsb]), if_pos ⟨htol, hmax⟩]
      rfl
    refine ⟨ext, hinv, ?_, ?_⟩
    · intro e he
      rcases hext with ⟨h3, _⟩ | ⟨best, _, h3⟩
      · rw [h3] at he; simp at he
      · rw [h3] at he
        simp only [List.mem_singleton] at he
        exact ⟨_, _, he⟩
    · intro pa2 pb2 heq _ _
      simp only [List.cons.injEq, and_true] at heq
      obtain ⟨rfl, rfl⟩ := heq
      rcases hext with ⟨_, h3 | h3 | h3⟩ | ⟨best, h3, h4⟩
      · rw [hused] at h3; simp at h3
      · simp only [List.getD_cons_zero] at h3
        rw [ha] at h3
        exact absurd hsa h3
      · rw [hfind] at h3
        exact Option.noConfusion h3
      · rw [hfind] at h3
        have := Option.some.inj h3
        subst this
        rw [h4]
        simp
  · have hvac : ∀ pa pb : Nat, bs = [pa, pb] → playersPerMatch ≤ 2 →
        abs (wrapInt ((q.deref pa).mmr - (q.deref pb).mmr))
          ≤ allowedMMRDiff (q.deref pa) (q.deref pb) now → False :=
      fun pa pb h1 h2 h3 => htwo ⟨pa, pb, h1, h2, h3⟩
    by_cases hlen : (bs.length : Int) ≥ playersPerMatch
    · rw [if_pos hlen]
      obtain ⟨ext, h1, h2⟩ := pairLoop_inv q now stamp key bs b0 hwf hnd hbs hsorted st log h
      exact ⟨ext, h1, h2, fun pa pb e1 e2 e3 => (hvac pa pb e1 e2 e3).elim⟩
    · rw [if_neg hlen]
      exact ⟨[], by simpa using h, by simp, fun pa pb e1 e2 e3 => (hvac pa pb e1 e2 e3).elim⟩

theorem lookup_isSome_of_mem {α : Type} (l : List (String × α)) (k : String)
    (h : k ∈ l.map Prod.fst) : ∃ c, l.lookup k = some c := by
  induction l with
  | nil => simp at h
  | cons e rest ih =>
    obtain ⟨k1, v1⟩ := e
    rw [lookup_cons_ite]
    by_cases hk : k = k1
    · exact ⟨v1, by rw [if_pos hk]⟩
    · rw [if_neg hk]
      simp only [List.map_cons, List.mem_cons] at h
      rcases h with h | h
      · exact absurd h hk
      · exact ih h

theorem Explains.with_buckets {q : QueueManager} {now : Int} {stamp : Nat → String}
    {log : List Mint} {q2 : QueueManager} {n : Nat} (h : Explains q now stamp log q2 n)
    (b : List (String × List Nat)) (hb : b.map Prod.fst = q2.buckets.map Prod.fst) :
    Explains q now stamp log { q2 with buckets := b } n :=
  ⟨h.minted_eq, h.length_eq, h.index_eq, h.addr_eq, hb.trans h.keys_eq, h.heap, h.asg_old,
    h.asg_new⟩

/-- The body of the loop of `process` over the buckets keeps `PassInv`, the bucket being
visited for the first time. -/
theorem processBucket_inv (q : QueueManager) (now : Int) (stamp : Nat → String)
    (playersPerMatch : Int) (hwf : WF q) (done : List String) (st : PassState)
    (log : List Mint) (key : String) (hkey : key ∈ q.buckets.map Prod.fst) (hnew : key ∉ done)
    (h : PassInv q now stamp playersPerMatch done st log) :
    ∃ ext : List Mint, PassInv q now stamp playersPerMatch (key :: done)
      (processBucket playersPerMatch now stamp st key) (log ++ ext) := by
  have hb0 : st.q.bucket key = q.bucket key := h.todo_bucket key hnew
  have hsort : sortByJoin st.q (st.q.bucket key) = sortByJoin q (q.bucket key) := by
    rw [hb0]
    exact sortByJoin_congr q st.q (fun r => (h.ex.field r).2.2.1) _
  have hperm := sortByJoin_perm q (q.bucket key)
  have hnd : (sortByJoin q (q.bucket key)).Nodup := hperm.nodup_iff.mpr (hwf.bucket_nodup key)
  have hbs : ∀ p ∈ sortByJoin q (q.bucket key), p ∈ q.bucket key :=
    fun p hp => hperm.mem_iff.mp hp
  have hsorted := sortByJoin_sorted q (q.bucket key)
  have hother : ∀ (l : List Mint), Sound q now l → (∀ e ∈ l, e.key ∈ done) →
      ∀ p, p ∈ q.bucket key → p ∉ logPtrs l := by
    intro l hl hd p hp hc
    obtain ⟨e, he, _, hpe⟩ := hl.ptr_bucket p hc
    exact hnew (hwf.bucket_key _ _ p hp hpe ▸ hd e he)
  have hdisj := hother log h.sound h.in_done
  have hheld : ∀ l : List Mint, Sound q now l → ∀ r ∈ logPtrs l, r ∈ q.held := by
    intro l hl r hr
    obtain ⟨e, _, _, hpe⟩ := hl.ptr_bucket r hr
    exact hwf.bucket_held _ r hpe
  have hpair0 : PairInv q now stamp (sortByJoin q (q.bucket key)) st.q.buckets
      { st with used := [] } log :=
    ⟨h.ex, h.sound, rfl, fun k hk => by simp at hk,
      fun k hk _ => hdisj _ (hbs _ (getD_mem _ k hk)), hheld log h.sound⟩
  obtain ⟨ext1, hp1, hpairs, htwo⟩ := pairStage_inv q now stamp key playersPerMatch
    (sortByJoin q (q.bucket key)) st.q.buckets hwf hnd hbs hsorted { st with used := [] } log rfl
    hpair0
  have hfill0 : FillInv q now stamp (sortByJoin q (q.bucket key)) st.q.buckets
      (if ((sortByJoin q (q.bucket key)).length : Int) ≥ playersPerMatch then
        pairLoop key (sortByJoin q (q.bucket key)) now stamp { st with used := [] }
        else { st with used := [] }) (log ++ ext1) 0 [] :=
    ⟨hp1.ex, hp1.sound, hp1.buckets, hp1.used_in, fun k _ hk2 hk3 => hp1.unused_out k hk2 hk3,
      hp1.in_held, by simp, by simp⟩
  obtain ⟨ext2, hf, hfills⟩ := fillLoop_inv q now stamp key (sortByJoin q (q.bucket key))
    st.q.buckets hwf hnd hbs _ 0 _ [] (log ++ ext1) (List.drop_zero _) hfill0
  have hkeys : ∀ e ∈ ext1 ++ ext2, e.key = key ∧ ∀ r ∈ e.ptrs, r ∈ q.bucket key := by
    intro e he
    have hl : e.lawful q now := hf.sound.lawful e (by
      rw [List.append_assoc]; exact List.mem_append_right _ he)
    have hk : e.key = key := by
      rcases List.mem_append.mp he with h1 | h1
      · obtain ⟨pa, pb, rfl⟩ := hpairs e h1; rfl
      · obtain ⟨p, rfl⟩ := hfills e h1; rfl
    exact ⟨hk, fun r hr => hk ▸ Mint.lawful_mem hl r hr⟩
  have hnewptr : ∀ r, r ∈ logPtrs (log ++ ext1 ++ ext2) → r ∈ logPtrs log ∨ r ∈ q.bucket key := by
    intro r hr
    obtain ⟨e, he, hre⟩ := (mem_logPtrs _ r).mp hr
    rw [List.append_assoc] at he
    rcases List.mem_append.mp he with h1 | h1
    · exact Or.inl ((mem_logPtrs _ r).mpr ⟨e, h1, hre⟩)
    · exact Or.inr ((hkeys e h1).2 r hre)
  have hmono : ∀ r, r ∈ logPtrs log → r ∈ logPtrs (log ++ ext1 ++ ext2) := by
    intro r hr
    obtain ⟨e, he, hre⟩ := (mem_logPtrs _ r).mp hr
    exact (mem_logPtrs _ r).mpr ⟨e, by simp [he], hre⟩
  obtain ⟨c, hc⟩ := lookup_isSome_of_mem st.q.buckets key (by rw [h.ex.keys_eq]; exact hkey)
  refine ⟨ext1 ++ ext2, ?_⟩
  rw [← List.append_assoc]
  unfold processBucket
  simp only []
  rw [hsort]
  refine ⟨?_, hf.sound, ?_, ?_, ?_, ?_, ?_⟩
  · apply hf.ex.with_buckets
    rw [hf.buckets]
    exact setKey_keys _ _ _ c hc
  · intro e he
    rw [List.append_assoc] at he
    rcases List.mem_append.mp he with h1 | h1
    · exact List.mem_cons_of_mem _ (h.in_done e h1)
    · rw [(hkeys e h1).1]; exact List.mem_cons_self _ _
  · intro k hk
    show ((setKey _ key _).lookup k).getD [] = _
    rw [hf.buckets]
    by_cases hkk : k = key
    · rw [hkk, lookup_setKey_self, hf.rem, List.take_length]
      rfl
    · rw [lookup_setKey_other _ _ _ _ hkk]
      have hkd : k ∈ done := by
        rcases List.mem_cons.mp hk with h1 | h1
        · exact absurd h1 hkk
        · exact h1
      have := h.done_bucket k hkd
      unfold QueueManager.bucket at this
      rw [this]
      apply List.filter_congr
      intro x hx
      have hxk : x ∈ q.bucket k := (sortByJoin_perm q _).mem_iff.mp hx
      have : x ∈ logPtrs (log ++ ext1 ++ ext2) ↔ x ∈ logPtrs log := by
        constructor
        · intro h1
          rcases hnewptr x h1 with h2 | h2
          · exact h2
          · exact absurd (hwf.bucket_key _ _ x hxk h2) hkk
        · exact hmono x
      simp only [this]
  · intro k hk
    show ((setKey _ key _).lookup k).getD [] = _
    rw [hf.buckets]
    have hkk : k ≠ key := fun hc2 => hk (hc2 ▸ List.mem_cons_self _ _)
    rw [lookup_setKey_other _ _ _ _ hkk]
    exact h.todo_bucket k (fun hc2 => hk (List.mem_cons_of_mem _ hc2))
  · intro k hk p hp
    rcases List.mem_cons.mp hk with h1 | h1
    · subst h1
      exact hf.waited p (by rw [List.take_length]; exact hperm.mem_iff.mpr hp)
    · rcases h.waited k h1 p hp with h2 | h2
      · exact Or.inl (hmono p h2)
      · exact Or.inr h2
  · intro k hk pa pb hs hppm htol
    rcases List.mem_cons.mp hk with h1 | h1
    · subst h1
      have := htwo pa pb hs hppm htol
      simp [this]
    · have := h.two k h1 pa pb hs hppm htol
      simp [this]

/-- The loop of `process` over the buckets keeps `PassInv`. -/
theorem processFold_inv (q : QueueManager) (now : Int) (stamp : Nat → String)
    (playersPerMatch : Int) (hwf : WF q) :
    ∀ (ks done : List String) (st : PassState) (log : List Mint),
      (∀ k ∈ ks, k ∈ q.buckets.map Prod.fst ∧ k ∉ done) → ks.Nodup →
      PassInv q now stamp playersPerMatch done st log →
      ∃ (log2 : List Mint) (done2 : List String),
        PassInv q now stamp playersPerMatch done2
          (ks.foldl (processBucket playersPerMatch now stamp) st) log2
          ∧ ∀ k, k ∈ done2 ↔ k ∈ ks ∨ k ∈ done := by
  intro ks
  induction ks with
  | nil => intro done st log _ _ h; exact ⟨log, done, h, by simp⟩
  | cons k rest ih =>
    intro done st log hks hnd h
    obtain ⟨ext, h1⟩ := processBucket_inv q now stamp playersPerMatch hwf done st log k
      (hks k (List.mem_cons_self _ _)).1 (hks k (List.mem_cons_self _ _)).2 h
    rw [List.nodup_cons] at hnd
    obtain ⟨log2, done2, h2, h3⟩ := ih (k :: done) _ (log ++ ext)
      (fun x hx => ⟨(hks x (List.mem_cons_of_mem _ hx)).1, by
        intro hc
        rcases List.mem_cons.mp hc with h4 | h4
        · exact hnd.1 (h4 ▸ hx)
        · exact (hks x (List.mem_cons_of_mem _ hx)).2 h4⟩) hnd.2 h1
    refine ⟨log2, done2, h2, ?_⟩
    intro x
    rw [h3 x]
    simp only [List.mem_cons]
    tauto

/-- What one pass does: the result of `process` on a queue of the maintained shape is
explained by a sound log of mints; every bucket afterwards holds its unmarked tickets in
queue order, each having waited less than four seconds; a bucket of two tickets within
the allowed difference is paired when `playersPerMatch` is at most 2. -/
theorem process_spec (q : QueueManager) (now : Int) (stamp : Nat → String)
    (playersPerMatch : Int) (hwf : WF q) :
    ∃ log : List Mint,
      Explains q now stamp log (process q playersPerMatch now stamp) log.length
        ∧ Sound q now log
        ∧ (∀ k : String, (process q playersPerMatch now stamp).bucket k
            = (sortByJoin q (q.bucket k)).filter (fun p => decide (p ∉ logPtrs log)))
        ∧ (∀ p ∈ q.held, p ∈ logPtrs log ∨ now - (q.deref p).joinedAt < 4000000000)
        ∧ (∀ (k : String) (pa pb : Nat), sortByJoin q (q.bucket k) = [pa, pb] →
            playersPerMatch ≤ 2 →
            abs (wrapInt ((q.deref pa).mmr - (q.deref pb).mmr))
              ≤ allowedMMRDiff (q.deref pa) (q.deref pb) now →
            Mint.pair k pa pb ∈ log) := by
  have h0 : PassInv q now stamp playersPerMatch [] { q := q, used := [], minted := 0 } [] :=
    ⟨⟨rfl, rfl, rfl, rfl, rfl, fun r => by simp [logPtrs], fun id _ => rfl,
        fun n e hn => by simp at hn⟩,
      ⟨by simp [logPtrs], fun e he => by simp at he⟩, fun e he => by simp at he,
      fun k hk => by simp at hk, fun k _ => rfl, fun k hk => by simp at hk,
      fun k hk => by simp at hk⟩
  obtain ⟨log, done, h, hdone⟩ := processFold_inv q now stamp playersPerMatch hwf
    (q.buckets.map Prod.fst) [] _ [] (fun k hk => ⟨hk, by simp⟩) hwf.keys h0
  have hex : Explains q now stamp log (process q playersPerMatch now stamp) log.length := by
    have := h.ex
    rw [this.minted_eq] at this
    exact this
  have hall : ∀ k, k ∈ q.buckets.map Prod.fst → k ∈ done := fun k hk => (hdone k).mpr (Or.inl hk)
  have hempty : ∀ k, k ∉ q.buckets.map Prod.fst → q.bucket k = [] := by
    intro k hk
    unfold QueueManager.bucket
    rw [lookup_none_of_not_mem _ _ hk]
    rfl
  refine ⟨log, hex, h.sound, ?_, ?_, ?_⟩
  · intro k
    by_cases hk : k ∈ q.buckets.map Prod.fst
    · exact h.done_bucket k (hall k hk)
    · have hk2 : k ∉ done := fun hc => by
        rcases (hdone k).mp hc with h1 | h1
        · exact hk h1
        · simp at h1
      have e : (process q playersPerMatch now stamp).bucket k = q.bucket k :=
        h.todo_bucket k hk2
      rw [e, hempty k hk]
      rfl
  · intro p hp
    obtain ⟨e, he, hpe⟩ := (mem_held q p).mp hp
    have hk : e.1 ∈ q.buckets.map Prod.fst := List.mem_map.mpr ⟨e, he, rfl⟩
    have hb := bucket_of_mem q hwf.keys e he
    exact h.waited e.1 (hall _ hk) p (by rw [hb]; exact hpe)
  · intro k pa pb hs hppm htol
    by_cases hk : k ∈ q.buckets.map Prod.fst
    · exact h.two k (hall k hk) pa pb hs hppm htol
    · rw [hempty k hk] at hs
      simp [sortByJoin] at hs

/-! ## Reading the log of a pass -/

theorem nextID_inj (pre s1 s2 : String) (h : nextID pre s1 = nextID pre s2) : s1 = s2 := by
  unfold nextID at h
  have := congrArg String.data h
  simp only [String.data_append] at this
  exact String.ext (List.append_cancel_left this)

theorem Mint.assignment_matchID (q : QueueManager) (now : Int) (stamp : Nat → String) (n : Nat)
    (id : String) (e : Mint) : (e.assignment q now stamp n id).matchID = nextID "m" (stamp n) := by
  cases e <;> rfl

theorem Mint.assignment_ticketID (q : QueueManager) (now : Int) (stamp : Nat → String) (n : Nat)
    (id : String) (e : Mint) : (e.assignment q now stamp n id).ticketID = id := by
  cases e <;> rfl

/-- A marked ticket is matched and has the assignment of its mint under its id. -/
theorem Explains.marked {q : QueueManager} {now : Int} {stamp : Nat → String} {log : List Mint}
    {q2 : QueueManager} {m : Nat} (h : Explains q now stamp log q2 m) (p : Nat)
    (hp : p ∈ logPtrs log) :
    q2.deref p = { q.deref p with status := "matched" }
      ∧ ∃ (n : Nat) (e : Mint), log[n]? = some e ∧ p ∈ e.ptrs
          ∧ q2.assignment.lookup (q.deref p).ticketID
              = some (e.assignment q now stamp n (q.deref p).ticketID) := by
  refine ⟨by rw [h.heap p, if_pos hp], ?_⟩
  obtain ⟨e, he, hpe⟩ := (mem_logPtrs log p).mp hp
  obtain ⟨n, hn⟩ := List.mem_iff_getElem?.mp he
  exact ⟨n, e, hn, hpe, h.asg_new n e hn p hpe⟩

/-- An unmarked waiting ticket is as it was and still has no assignment. -/
theorem Explains.unmarked {q : QueueManager} {now : Int} {stamp : Nat → String}
    {log : List Mint} {q2 : QueueManager} {m : Nat} (h : Explains q now stamp log q2 m)
    (hwf : WF q) (hs : Sound q now log) (p : Nat) (hp : p ∈ q.held) (hout : p ∉ logPtrs log) :
    q2.deref p = q.deref p ∧ q2.assignment.lookup (q.deref p).ticketID = none := by
  refine ⟨h.same p hout, ?_⟩
  rw [h.asg_old, hwf.held_unassigned p hp]
  intro r hr hc
  obtain ⟨e, _, _, hre⟩ := hs.ptr_bucket r hr
  exact hout (hwf.held_ids r p (hwf.bucket_held _ r hre) hp hc ▸ hr)

/-- An id that had no assignment and has one after the pass is the id of a marked
ticket. -/
theorem Explains.fresh {q : QueueManager} {now : Int} {stamp : Nat → String} {log : List Mint}
    {q2 : QueueManager} {m : Nat} (h : Explains q now stamp log q2 m) (id : String)
    (x : MatchAssignment) (h0 : q.assignment.lookup id = none)
    (h1 : q2.assignment.lookup id = some x) :
    ∃ (p n : Nat) (e : Mint), (q.deref p).ticketID = id ∧ log[n]? = some e ∧ p ∈ e.ptrs
      ∧ x = e.assignment q now stamp n id := by
  by_cases hex : ∃ r ∈ logPtrs log, (q.deref r).ticketID = id
  · obtain ⟨r, hr, hid⟩ := hex
    obtain ⟨_, n, e, hn, hre, hl⟩ := h.marked r hr
    rw [hid, h1] at hl
    exact ⟨r, n, e, hid, hn, hre, Option.some.inj hl⟩
  · exfalso
    have := h.asg_old id (fun r hr hc => hex ⟨r, hr, hc⟩)
    rw [h0, h1] at this
    exact Option.noConfusion this

theorem length_le_logPtrs (log : List Mint) : log.length ≤ (logPtrs log).length := by
  induction log with
  | nil => simp [logPtrs]
  | cons e rest ih =>
    have h1 : 1 ≤ e.ptrs.length := by cases e <;> simp [Mint.ptrs]
    have h2 : logPtrs (e :: rest) = e.ptrs ++ logPtrs rest := by simp [logPtrs]
    rw [h2, List.length_append, List.length_cons]
    omega

/-- A sound log has no more mints than the queue has waiting tickets. -/
theorem Sound.length_le {q : QueueManager} {now : Int} {log : List Mint} (h : Sound q now log)
    (hwf : WF q) : log.length ≤ q.held.length := by
  have hsub : logPtrs log ⊆ q.held := by
    intro r hr
    obtain ⟨e, _, _, hre⟩ := h.ptr_bucket r hr
    exact hwf.bucket_held _ r hre
  exact le_trans (length_le_logPtrs log) (h.nodup.subperm hsub).length_le

/-- Two mints of a sound log whose assignments carry one match id are the same mint, the
clock readings of the pass being distinct. -/
theorem Sound.same_mint {q : QueueManager} {now : Int} {log : List Mint} (h : Sound q now log)
    (hwf : WF q) (stamp : Nat → String)
    (hstamp : ∀ i : Nat, i < q.held.length → ∀ j : Nat, j < q.held.length →
      stamp i = stamp j → i = j)
    (n1 n2 : Nat) (e1 e2 : Mint) (id1 id2 : String) (h1 : log[n1]? = some e1)
    (h2 : log[n2]? = some e2)
    (hm : (e1.assignment q now stamp n1 id1).matchID = (e2.assignment q now stamp n2 id2).matchID) :
    n1 = n2 ∧ e1 = e2 := by
  rw [Mint.assignment_matchID, Mint.assignment_matchID] at hm
  have hl := h.length_le hwf
  obtain ⟨hl1, _⟩ := List.getElem?_eq_some_iff.mp h1
  obtain ⟨hl2, _⟩ := List.getElem?_eq_some_iff.mp h2
  have hn := hstamp n1 (by omega) n2 (by omega) (nextID_inj _ _ _ hm)
  subst hn
  rw [h1] at h2
  exact ⟨rfl, Option.some.inj h2⟩

/-- The key of a bucket is cut back into its region and playlist, a region without `|`
being assumed. -/
theorem splitKey_bucketKey (region playlist : String) (h : '|' ∉ region.toList) :
    splitKey (bucketKey region playlist)
      = (if region = "" then "global" else region,
          if playlist = "" then "ranked-1v1" else playlist) := by
  have key : ∀ r p : String, '|' ∉ r.toList → splitKey (r ++ "|" ++ p) = (r, p) := by
    intro r p hr
    have hd : (r ++ "|" ++ p).toList = r.toList ++ '|' :: p.toList := by
      show (r ++ "|" ++ p).data = r.data ++ '|' :: p.data
      simp [String.data_append]
    have hall : ∀ c ∈ r.toList, (decide (c ≠ '|')) = true := by
      intro c hc
      have : c ≠ '|' := fun h2 => hr (h2 ▸ hc)
      simpa using this
    unfold splitKey
    simp only [hd]
    rw [if_pos (by simp)]
    rw [List.takeWhile_append_of_pos hall, List.dropWhile_append_of_pos hall]
    simp
  unfold bucketKey
  simp only []
  apply key
  split_ifs with h1
  · decide
  · exact h

/-- C25: for a bucket that holds exactly two tickets `a` (joined first) and `b` whose MMR
difference is within `allowedMMRDiff(a, b, now)`, in a queue of the maintained shape (so
both are searching), one pass with `playersPerMatch = 2` marks both matched, empties the
bucket and stores under each ticket's id an assignment carrying that id, one shared match
id, the players `[a.player_id, b.player_id]`, `bot_fill = false`, the region and playlist
cut from the bucket's key and the queue's server address; `Poll` of either id answers
`matched` with that assignment. -/
theorem C25_two_ticket_bucket (q : QueueManager) (now : Int) (stamp : Nat → String)
    (key : String) (pa pb : Nat) (hwf : WF q) (hbucket : q.bucket key = [pa, pb])
    (hjoin : (q.deref pa).joinedAt ≤ (q.deref pb).joinedAt)
    (htol : |(q.deref pa).mmr - (q.deref pb).mmr|
      ≤ allowedMMRDiff (q.deref pa) (q.deref pb) now) :
    ∃ n : Nat,
      (process q 2 now stamp).deref pa = { q.deref pa with status := "matched" }
        ∧ (process q 2 now stamp).deref pb = { q.deref pb with status := "matched" }
        ∧ (process q 2 now stamp).bucket key = []
        ∧ (process q 2 now stamp).assignment.lookup (q.deref pa).ticketID
            = some ⟨(q.deref pa).ticketID, nextID "m" (stamp n), (splitKey key).1,
                (splitKey key).2, [(q.deref pa).playerID, (q.deref pb).playerID], false,
                q.serverAddr, now / 1000000000⟩
        ∧ (process q 2 now stamp).assignment.lookup (q.deref pb).ticketID
            = some ⟨(q.deref pb).ticketID, nextID "m" (stamp n), (splitKey key).1,
                (splitKey key).2, [(q.deref pa).playerID, (q.deref pb).playerID], false,
                q.serverAddr, now / 1000000000⟩
        ∧ Poll (process q 2 now stamp) (q.deref pa).ticketID
            = ⟨(q.deref pa).ticketID, "matched",
                some ⟨(q.deref pa).ticketID, nextID "m" (stamp n), (splitKey key).1,
                  (splitKey key).2, [(q.deref pa).playerID, (q.deref pb).playerID], false,
                  q.serverAddr, now / 1000000000⟩⟩
        ∧ Poll (process q 2 now stamp) (q.deref pb).ticketID
            = ⟨(q.deref pb).ticketID, "matched",
                some ⟨(q.deref pb).ticketID, nextID "m" (stamp n), (splitKey key).1,
                  (splitKey key).2, [(q.deref pa).playerID, (q.deref pb).playerID], false,
                  q.serverAddr, now / 1000000000⟩⟩
        ∧ key = bucketKey (q.deref pa).region (q.deref pa).playlist
        ∧ ('|' ∉ (q.deref pa).region.toList →
            splitKey key = (if (q.deref pa).region = "" then "global" else (q.deref pa).region,
              if (q.deref pa).playlist = "" then "ranked-1v1" else (q.deref pa).playlist)) := by
  obtain ⟨log, hex, hs, hbk, _, htwo⟩ := process_spec q now stamp 2 hwf
  have hsort : sortByJoin q (q.bucket key) = [pa, pb] := by
    rw [hbucket]
    show insertByJoin q pa (insertByJoin q pb []) = _
    simp only [insertByJoin]
    rw [if_neg (not_lt.mpr hjoin)]
  have hcode : abs (wrapInt ((q.deref pa).mmr - (q.deref pb).mmr))
      ≤ allowedMMRDiff (q.deref pa) (q.deref pb) now := by
    rw [abs_wrapInt _ (lt_of_le_of_lt (le_trans htol (allowedMMRDiff_bounds _ _ _)) (by decide))]
    exact htol
  have hmem := htwo key pa pb hsort (le_refl _) hcode
  obtain ⟨n, hn⟩ := List.mem_iff_getElem?.mp hmem
  have hla := hex.asg_new n _ hn pa (by simp [Mint.ptrs])
  have hlb := hex.asg_new n _ hn pb (by simp [Mint.ptrs])
  have hpa : pa ∈ logPtrs log := (mem_logPtrs log pa).mpr ⟨_, hmem, by simp [Mint.ptrs]⟩
  have hpb : pb ∈ logPtrs log := (mem_logPtrs log pb).mpr ⟨_, hmem, by simp [Mint.ptrs]⟩
  have hkey : key = bucketKey (q.deref pa).region (q.deref pa).playlist := by
    obtain ⟨e, he, hk, hpe⟩ := mem_bucket q key pa (by rw [hbucket]; simp)
    rw [← hk]
    exact hwf.held_key e he pa hpe
  refine ⟨n, (hex.marked pa hpa).1, (hex.marked pb hpb).1, ?_, hla, hlb, ?_, ?_, hkey, ?_⟩
  · rw [hbk key, hsort]
    simp [hpa, hpb]
  · unfold Poll
    rw [hla]
    rfl
  · unfold Poll
    rw [hlb]
    rfl
  · intro h
    rw [hkey]
    exact splitKey_bucketKey _ _ h

/-- The runs of `TestQueueMatchesSimilarMMR` (MMR 1200 and 1240, the pass running at
the join time of the second ticket) and `TestQueueWaitExpandsMMRWindow` (MMR 900 and
1500, both tickets back-dated by two minutes). -/
theorem C25_two_ticket_bucket_witness :
    (∃ m : String,
      Poll (process similarQueue 2 1000001000 testStamp) "t_1000000000"
          = ⟨"t_1000000000", "matched", some ⟨"t_1000000000", m, "us-east", "ranked-1v1",
              ["p1", "p2"], false, "ws://localhost:9003/ws", 1⟩⟩
        ∧ Poll (process similarQueue 2 1000001000 testStamp) "t_1000001000"
          = ⟨"t_1000001000", "matched", some ⟨"t_1000001000", m, "us-east", "ranked-1v1",
              ["p1", "p2"], false, "ws://localhost:9003/ws", 1⟩⟩)
      ∧ ∃ m : String,
        Poll (process expandedQueue 2 200010000000 testStamp) "t_200000000000"
            = ⟨"t_200000000000", "matched", some ⟨"t_200000000000", m, "us-east", "ranked-1v1",
                ["p1", "p2"], false, "ws://localhost:9003/ws", 200⟩⟩
          ∧ Poll (process expandedQueue 2 200010000000 testStamp) "t_200000001000"
            = ⟨"t_200000001000", "matched", some ⟨"t_200000001000", m, "us-east", "ranked-1v1",
                ["p1", "p2"], false, "ws://localhost:9003/ws", 200⟩⟩ := by
  obtain ⟨n1, _, _, _, _, _, h1, h2, _, h3⟩ := C25_two_ticket_bucket similarQueue 1000001000
    testStamp "us-east|ranked-1v1" 0 1 similarQueue_wf (by decide!) (by decide!) (by decide!)
  obtain ⟨n2, _, _, _, _, _, h4, h5, _, h6⟩ := C25_two_ticket_bucket expandedQueue 200010000000
    testStamp "us-east|ranked-1v1" 0 1 expandedQueue_wf (by decide!) (by decide!) (by decide!)
  have e1 : splitKey "us-east|ranked-1v1" = ("us-east", "ranked-1v1") := by decide!
  have d1 : similarQueue.deref 0
      = ⟨"t_1000000000", "p1", "A", 1200, "us-east", "ranked-1v1", 1000000000, "searching"⟩ := by
    decide!
  have d2 : similarQueue.deref 1
      = ⟨"t_1000001000", "p2", "B", 1240, "us-east", "ranked-1v1", 1000001000, "searching"⟩ := by
    decide!
  have d3 : expandedQueue.deref 0
      = ⟨"t_200000000000", "p1", "A", 900, "us-east", "ranked-1v1", 80000002000,
          "searching"⟩ := by decide!
  have d4 : expandedQueue.deref 1
      = ⟨"t_200000001000", "p2", "B", 1500, "us-east", "ranked-1v1", 80000003000,
          "searching"⟩ := by decide!
  have a1 : similarQueue.serverAddr = "ws://localhost:9003/ws" := by decide!
  have a2 : expandedQueue.serverAddr = "ws://localhost:9003/ws" := by decide!
  have f1 : (1000001000 : Int) / 1000000000 = 1 := by decide
  have f2 : (200010000000 : Int) / 1000000000 = 200 := by decide
  rw [d1, d2, e1, a1, f1] at h1 h2
  rw [d3, d4, e1, a2, f2] at h4 h5
  exact ⟨⟨_, h1, h2⟩, ⟨_, h4, h5⟩⟩

theorem Sound.ptrs_nodup {q : QueueManager} {now : Int} {log : List Mint} (h : Sound q now log)
    (e : Mint) (he : e ∈ log) : e.ptrs.Nodup :=
  (List.nodup_flatten.mp h.nodup).1 e.ptrs (List.mem_map.mpr ⟨e, he, rfl⟩)

/-- After a pass a bucket holds no marked ticket. -/
theorem not_mem_bucket_of_marked (q q2 : QueueManager) (log : List Mint)
    (hbk : ∀ k : String, q2.bucket k
      = (sortByJoin q (q.bucket k)).filter (fun p => decide (p ∉ logPtrs log)))
    (p : Nat) (hp : p ∈ logPtrs log) (k : String) : p ∉ q2.bucket k := by
  rw [hbk k]
  intro hc
  have := (List.mem_filter.mp hc).2
  simp only [decide_eq_true_eq] at this
  exact this hp

/-- After a pass an unmarked ticket is in the bucket it was in. -/
theorem mem_bucket_of_unmarked (q q2 : QueueManager) (log : List Mint)
    (hbk : ∀ k : String, q2.bucket k
      = (sortByJoin q (q.bucket k)).filter (fun p => decide (p ∉ logPtrs log)))
    (p : Nat) (k : String) (hp : p ∈ q.bucket k) (hout : p ∉ logPtrs log) : p ∈ q2.bucket k := by
  rw [hbk k]
  exact List.mem_filter.mpr ⟨(sortByJoin_perm q _).mem_iff.mpr hp, by simpa using hout⟩

/-- C26: in one pass over a queue of the maintained shape, take a ticket waiting in a
bucket. If the pairing step leaves it unpaired (no assignment with `bot_fill = false` is
stored under its id) and its wait is at least 4 s, it becomes matched, with an assignment
whose players are its player and `bot` and whose `bot_fill` is true, and is in no bucket
afterwards; if it is left unpaired and its wait is below 4 s, it stays as it was,
searching, in its bucket, without assignment; if it is paired (an assignment with
`bot_fill = false` is stored under its id), the players are its own and the one of another
ticket of its bucket, however long it waited. -/
theorem C26_bot_fill (q : QueueManager) (playersPerMatch now : Int) (stamp : Nat → String)
    (key : String) (p : Nat) (hwf : WF q) (hp : p ∈ q.bucket key) :
    ((∀ x, (process q playersPerMatch now stamp).assignment.lookup (q.deref p).ticketID = some x →
          x.botFill = true) →
        now - (q.deref p).joinedAt ≥ 4000000000 →
        ∃ n : Nat,
          (process q playersPerMatch now stamp).deref p = { q.deref p with status := "matched" }
            ∧ (process q playersPerMatch now stamp).assignment.lookup (q.deref p).ticketID
                = some ⟨(q.deref p).ticketID, nextID "m" (stamp n), (splitKey key).1,
                    (splitKey key).2, [(q.deref p).playerID, "bot"], true, q.serverAddr,
                    now / 1000000000⟩
            ∧ ∀ k : String, p ∉ (process q playersPerMatch now stamp).bucket k)
      ∧ ((∀ x, (process q playersPerMatch now stamp).assignment.lookup (q.deref p).ticketID
            = some x → x.botFill = true) →
        now - (q.deref p).joinedAt < 4000000000 →
        (process q playersPerMatch now stamp).deref p = q.deref p
          ∧ (q.deref p).status = "searching"
          ∧ p ∈ (process q playersPerMatch now stamp).bucket key
          ∧ (process q playersPerMatch now stamp).assignment.lookup (q.deref p).ticketID = none)
      ∧ (∀ x, (process q playersPerMatch now stamp).assignment.lookup (q.deref p).ticketID
            = some x → x.botFill = false →
        ∃ r ∈ q.bucket key, r ≠ p
          ∧ (x.players = [(q.deref p).playerID, (q.deref r).playerID]
              ∨ x.players = [(q.deref r).playerID, (q.deref p).playerID])
          ∧ (process q playersPerMatch now stamp).deref p = { q.deref p with status := "matched" }
          ∧ ∀ k : String, p ∉ (process q playersPerMatch now stamp).bucket k) := by
  obtain ⟨log, hex, hs, hbk, hwait, _⟩ := process_spec q now stamp playersPerMatch hwf
  have hheld := hwf.bucket_held key p hp
  by_cases hm : p ∈ logPtrs log
  · obtain ⟨hd, n, e, hn, hpe, hl⟩ := hex.marked p hm
    have hmem : e ∈ log := List.getElem?_mem hn
    have hlaw := hs.lawful e hmem
    have hnb := not_mem_bucket_of_marked q _ log hbk p hm
    cases e with
    | pair k x y =>
      have hnd := hs.ptrs_nodup _ hmem
      simp only [Mint.ptrs, List.nodup_cons, List.mem_singleton, List.not_mem_nil,
        not_false_eq_true, List.nodup_nil, and_true] at hnd
      obtain ⟨hx, hy, _, _⟩ := hlaw
      simp only [Mint.ptrs, List.mem_cons, List.mem_singleton, List.not_mem_nil, or_false] at hpe
      have hunp : ¬ ∀ x2, (process q playersPerMatch now stamp).assignment.lookup
          (q.deref p).ticketID = some x2 → x2.botFill = true := by
        intro hc
        have := hc _ hl
        exact Bool.noConfusion this
      refine ⟨fun h1 => absurd h1 hunp, fun h1 => absurd h1 hunp, ?_⟩
      intro x2 hx2 _
      rw [hl] at hx2
      have hx3 := (Option.some.inj hx2).symm
      rcases hpe with hpe | hpe
      · subst hpe
        have hk : k = key := hwf.bucket_key _ _ p hx hp
        subst hk
        exact ⟨y, hy, fun hc => hnd (hc ▸ rfl), Or.inl (by rw [hx3]; rfl), hd, hnb⟩
      · subst hpe
        have hk : k = key := hwf.bucket_key _ _ p hy hp
        subst hk
        exact ⟨x, hx, fun hc => hnd (hc ▸ rfl), Or.inr (by rw [hx3]; rfl), hd, hnb⟩
    | fill k p2 =>
      simp only [Mint.ptrs, List.mem_singleton] at hpe
      subst hpe
      have hk : k = key := hwf.bucket_key _ _ p hlaw.1 hp
      subst hk
      refine ⟨fun _ _ => ⟨n, hd, hl, hnb⟩, fun _ h2 => ?_, fun x2 hx2 hb => ?_⟩
      · have := hlaw.2
        omega
      · rw [hl] at hx2
        rw [← Option.some.inj hx2] at hb
        exact Bool.noConfusion hb
  · obtain ⟨hd, hl⟩ := hex.unmarked hwf hs p hheld hm
    have hw : now - (q.deref p).joinedAt < 4000000000 := by
      rcases hwait p hheld with h1 | h1
      · exact absurd h1 hm
      · exact h1
    refine ⟨fun _ h2 => ?_, fun _ _ => ⟨hd, hwf.held_searching p hheld,
      mem_bucket_of_unmarked q _ log hbk p key hp hm, hl⟩, fun x2 hx2 _ => ?_⟩
    · omega
    · rw [hl] at hx2
      exact Option.noConfusion hx2

/-- The run of `TestQueueSoloBotFill`: a single ticket back-dated by ten seconds polls as
matched with `bot_fill = true`. -/
theorem C26_bot_fill_witness :
    ∃ m : String, Poll (process soloQueue 2 200010000000 testStamp) "t_200000000000"
      = ⟨"t_200000000000", "matched", some ⟨"t_200000000000", m, "us-east", "ranked-1v1",
          ["solo", "bot"], true, "ws://localhost:9003/ws", 200⟩⟩ := by
  have hval : (process soloQueue 2 200010000000 testStamp).assignment.lookup "t_200000000000"
      = some ⟨"t_200000000000", "m_1000000000000", "us-east", "ranked-1v1", ["solo", "bot"],
          true, "ws://localhost:9003/ws", 200⟩ := by decide!
  have d1 : soloQueue.deref 0
      = ⟨"t_200000000000", "solo", "Solo", 1200, "us-east", "ranked-1v1", 190000001000,
          "searching"⟩ := by decide!
  obtain ⟨n, _, h1, _⟩ := (C26_bot_fill soloQueue 2 200010000000 testStamp "us-east|ranked-1v1" 0
    soloQueue_wf (by decide!)).1
    (by
      intro x hx
      rw [d1] at hx
      rw [hval] at hx
      rw [← Option.some.inj hx])
    (by rw [d1]; decide)
  have e1 : splitKey "us-east|ranked-1v1" = ("us-east", "ranked-1v1") := by decide!
  have a1 : soloQueue.serverAddr = "ws://localhost:9003/ws" := by decide!
  have f1 : (200010000000 : Int) / 1000000000 = 200 := by decide
  rw [d1, e1, a1, f1] at h1
  refine ⟨nextID "m" (testStamp n), ?_⟩
  unfold Poll
  rw [h1]

theorem insertByJoin_sublist (q : QueueManager) (p : Nat) (l : List Nat) :
    List.Sublist l (insertByJoin q p l) := by
  induction l with
  | nil => simp
  | cons r rest ih =>
    unfold insertByJoin
    split_ifs
    · exact List.Sublist.cons₂ r ih
    · exact List.Sublist.cons p (List.Sublist.refl _)

theorem insertByJoin_before (q : QueueManager) (p r : Nat) (l : List Nat) (hr : r ∈ l)
    (h : (q.deref p).joinedAt ≤ (q.deref r).joinedAt) :
    List.Sublist [p, r] (insertByJoin q p l) := by
  induction l with
  | nil => simp at hr
  | cons x rest ih =>
    unfold insertByJoin
    split_ifs with hlt
    · have hne : r ≠ x := by
        rintro rfl
        omega
      have hr2 : r ∈ rest := by
        rcases List.mem_cons.mp hr with h1 | h1
        · exact absurd h1 hne
        · exact h1
      exact List.Sublist.cons x (ih hr2)
    · exact List.Sublist.cons₂ p (List.singleton_sublist.mpr hr)

/-- The sort is stable: two tickets in queue order in the slice, the first not joined
later than the second, are in that order in the sorted slice. -/
theorem sortByJoin_stable (q : QueueManager) (p r : Nat) :
    ∀ l : List Nat, List.Sublist [p, r] l → (q.deref p).joinedAt ≤ (q.deref r).joinedAt →
      List.Sublist [p, r] (sortByJoin q l) := by
  intro l
  induction l with
  | nil => intro h _; simp at h
  | cons x rest ih =>
    intro h hj
    show List.Sublist [p, r] (insertByJoin q x (sortByJoin q rest))
    cases h with
    | cons _ h1 => exact (ih h1 hj).trans (insertByJoin_sublist q x _)
    | cons₂ _ h1 =>
      have hr : r ∈ rest := List.singleton_sublist.mp h1
      exact insertByJoin_before q p r _ ((sortByJoin_perm q rest).mem_iff.mpr hr) hj

/-- C27: one pass over a queue of the maintained shape, the clock readings of its match
ids being distinct, partitions each bucket. Every ticket of the bucket ends in one of
three situations, told apart by what is stored under its id: paired (an assignment with
`bot_fill = false`, shared up to the ticket id with exactly one other waiting ticket, which
is of the same bucket), bot-filled (an assignment with `bot_fill = true`), or retained (no
assignment). The bucket afterwards holds exactly the retained tickets, unchanged, searching
and without assignment, ordered by join time with ties in their previous order; every
ticket no longer in the bucket is matched and has an assignment. -/
theorem C27_partition (q : QueueManager) (playersPerMatch now : Int) (stamp : Nat → String)
    (key : String) (hwf : WF q)
    (hstamp : ∀ i : Nat, i < q.held.length → ∀ j : Nat, j < q.held.length →
      stamp i = stamp j → i = j) :
    (∀ p ∈ q.bucket key,
        ((∃ x, (process q playersPerMatch now stamp).assignment.lookup (q.deref p).ticketID
              = some x ∧ x.botFill = false
            ∧ ∃ r ∈ q.bucket key, r ≠ p
              ∧ (process q playersPerMatch now stamp).assignment.lookup (q.deref r).ticketID
                  = some { x with ticketID := (q.deref r).ticketID }
              ∧ ∀ r2 ∈ q.held, r2 ≠ p →
                  (∃ y, (process q playersPerMatch now stamp).assignment.lookup
                      (q.deref r2).ticketID = some y ∧ y.matchID = x.matchID) → r2 = r)
          ∧ p ∉ (process q playersPerMatch now stamp).bucket key
          ∧ ((process q playersPerMatch now stamp).deref p).status = "matched")
        ∨ ((∃ x, (process q playersPerMatch now stamp).assignment.lookup (q.deref p).ticketID
              = some x ∧ x.botFill = true)
          ∧ p ∉ (process q playersPerMatch now stamp).bucket key
          ∧ ((process q playersPerMatch now stamp).deref p).status = "matched")
        ∨ ((process q playersPerMatch now stamp).assignment.lookup (q.deref p).ticketID = none
          ∧ p ∈ (process q playersPerMatch now stamp).bucket key
          ∧ (process q playersPerMatch now stamp).deref p = q.deref p))
      ∧ (process q playersPerMatch now stamp).bucket key
          = (sortByJoin q (q.bucket key)).filter (fun p =>
              decide ((process q playersPerMatch now stamp).assignment.lookup
                (q.deref p).ticketID = none))
      ∧ (∀ p ∈ (process q playersPerMatch now stamp).bucket key,
          ((process q playersPerMatch now stamp).deref p).status = "searching"
            ∧ (process q playersPerMatch now stamp).assignment.lookup
                ((process q playersPerMatch now stamp).deref p).ticketID = none)
      ∧ ByJoin (process q playersPerMatch now stamp)
          ((process q playersPerMatch now stamp).bucket key)
      ∧ (∀ p r : Nat, List.Sublist [p, r] (q.bucket key) →
          (q.deref p).joinedAt = (q.deref r).joinedAt →
          p ∈ (process q playersPerMatch now stamp).bucket key →
          r ∈ (process q playersPerMatch now stamp).bucket key →
          List.Sublist [p, r] ((process q playersPerMatch now stamp).bucket key))
      ∧ (∀ p ∈ q.bucket key, p ∉ (process q playersPerMatch now stamp).bucket key →
          ((process q playersPerMatch now stamp).deref p).status = "matched"
            ∧ ∃ x, (process q playersPerMatch now stamp).assignment.lookup (q.deref p).ticketID
                = some x) := by
  obtain ⟨log, hex, hs, hbk, _, _⟩ := process_spec q now stamp playersPerMatch hwf
  have hiff : ∀ p ∈ q.bucket key, (p ∉ logPtrs log ↔
      (process q playersPerMatch now stamp).assignment.lookup (q.deref p).ticketID = none) := by
    intro p hp
    constructor
    · intro hout
      exact (hex.unmarked hwf hs p (hwf.bucket_held key p hp) hout).2
    · intro hnone hin
      obtain ⟨_, n, e, _, _, hl⟩ := hex.marked p hin
      rw [hnone] at hl
      exact Option.noConfusion hl
  have hbucket : (process q playersPerMatch now stamp).bucket key
      = (sortByJoin q (q.bucket key)).filter (fun p =>
          decide ((process q playersPerMatch now stamp).assignment.lookup
            (q.deref p).ticketID = none)) := by
    rw [hbk key]
    apply List.filter_congr
    intro p hp
    have := hiff p ((sortByJoin_perm q _).mem_iff.mp hp)
    simp only [this]
  have hunm : ∀ p ∈ (process q playersPerMatch now stamp).bucket key,
      p ∈ q.bucket key ∧ p ∉ logPtrs log := by
    intro p hp
    rw [hbk key] at hp
    obtain ⟨h1, h2⟩ := List.mem_filter.mp hp
    exact ⟨(sortByJoin_perm q _).mem_iff.mp h1, by simpa using h2⟩
  refine ⟨?_, hbucket, ?_, ?_, ?_, ?_⟩
  · intro p hp
    have hheld := hwf.bucket_held key p hp
    by_cases hm : p ∈ logPtrs log
    · obtain ⟨hd, n, e, hn, hpe, hl⟩ := hex.marked p hm
      have hmem : e ∈ log := List.getElem?_mem hn
      have hlaw := hs.lawful e hmem
      have hnb := not_mem_bucket_of_marked q _ log hbk p hm key
      have hst : ((process q playersPerMatch now stamp).deref p).status = "matched" := by
        rw [hd]
      cases e with
      | fill k p2 => exact Or.inr (Or.inl ⟨⟨_, hl, rfl⟩, hnb, hst⟩)
      | pair k x y =>
        left
        have hnd := hs.ptrs_nodup _ hmem
        simp only [Mint.ptrs, List.nodup_cons, List.mem_singleton, List.not_mem_nil,
          not_false_eq_true, List.nodup_nil, and_true] at hnd
        obtain ⟨hx, hy, _, _⟩ := hlaw
        have huniq : ∀ r2 ∈ q.held, r2 ≠ p →
            (∃ y2, (process q playersPerMatch now stamp).assignment.lookup
                (q.deref r2).ticketID = some y2
              ∧ y2.matchID = (Mint.assignment q now stamp n (q.deref p).ticketID
                  (Mint.pair k x y)).matchID) → r2 ∈ [x, y] := by
          intro r2 hr2 _ ⟨y2, hy2, hmatch⟩
          by_cases hm2 : r2 ∈ logPtrs log
          · obtain ⟨_, n2, e2, hn2, hpe2, hl2⟩ := hex.marked r2 hm2
            rw [hy2] at hl2
            rw [Option.some.inj hl2] at hmatch
            obtain ⟨_, he⟩ := hs.same_mint hwf stamp hstamp n2 n e2 _ _ _ hn2 hn hmatch
            rw [he] at hpe2
            exact hpe2
          · have := (hex.unmarked hwf hs r2 hr2 hm2).2
            rw [this] at hy2
            exact Option.noConfusion hy2
        simp only [Mint.ptrs, List.mem_cons, List.mem_singleton, List.not_mem_nil, or_false] at hpe
        refine ⟨⟨_, hl, rfl, ?_⟩, hnb, hst⟩
        rcases hpe with hpe | hpe
        · subst hpe
          have hk : k = key := hwf.bucket_key _ _ p hx hp
          subst hk
          refine ⟨y, hy, fun hc => hnd (hc ▸ rfl), ?_, ?_⟩
          · exact hex.asg_new n _ hn y (by simp [Mint.ptrs])
          · intro r2 hr2 hne hex2
            have := huniq r2 hr2 hne hex2
            simp only [List.mem_cons, List.mem_singleton, List.not_mem_nil, or_false] at this
            rcases this with h1 | h1
            · exact absurd h1 hne
            · exact h1
        · subst hpe
          have hk : k = key := hwf.bucket_key _ _ p hy hp
          subst hk
          refine ⟨x, hx, fun hc => hnd hc, ?_, ?_⟩
          · exact hex.asg_new n _ hn x (by simp [Mint.ptrs])
          · intro r2 hr2 hne hex2
            have := huniq r2 hr2 hne hex2
            simp only [List.mem_cons, List.mem_singleton, List.not_mem_nil, or_false] at this
            rcases this with h1 | h1
            · exact h1
            · exact absurd h1 hne
    · obtain ⟨hd, hl⟩ := hex.unmarked hwf hs p hheld hm
      exact Or.inr (Or.inr ⟨hl, mem_bucket_of_unmarked q _ log hbk p key hp hm, hd⟩)
  · intro p hp
    obtain ⟨h1, h2⟩ := hunm p hp
    obtain ⟨hd, hl⟩ := hex.unmarked hwf hs p (hwf.bucket_held key p h1) h2
    rw [hd]
    exact ⟨hwf.held_searching p (hwf.bucket_held key p h1), hl⟩
  · have hsub : List.Sublist ((process q playersPerMatch now stamp).bucket key)
        (sortByJoin q (q.bucket key)) := by
      rw [hbk key]; exact List.filter_sublist _
    have := List.Pairwise.sublist hsub (sortByJoin_sorted q (q.bucket key))
    unfold ByJoin
    refine List.Pairwise.imp ?_ this
    intro a b hab
    rw [(hex.field a).2.2.1, (hex.field b).2.2.1]
    exact hab
  · intro p r hsub hj hp hr
    have h1 := sortByJoin_stable q p r _ hsub (le_of_eq hj)
    have h2 := List.Sublist.filter (fun p => decide (p ∉ logPtrs log)) h1
    rw [← hbk key] at h2
    have h3 : [p, r].filter (fun p => decide (p ∉ logPtrs log)) = [p, r] := by
      rw [List.filter_eq_self]
      intro a ha
      simp only [List.mem_cons, List.mem_singleton, List.not_mem_nil, or_false] at ha
      rcases ha with ha | ha
      · rw [ha]; simpa using (hunm p hp).2
      · rw [ha]; simpa using (hunm r hr).2
    rw [h3] at h2
    exact h2
  · intro p hp hout
    have hm : p ∈ logPtrs log := by
      by_contra hc
      exact hout (mem_bucket_of_unmarked q _ log hbk p key hp hc)
    obtain ⟨hd, n, e, _, _, hl⟩ := hex.marked p hm
    exact ⟨by rw [hd], _, hl⟩

theorem C27_partition_witness :
    (process similarQueue 2 1010000000 testStamp).bucket "us-east|ranked-1v1" = []
      ∧ (∀ p ∈ similarQueue.bucket "us-east|ranked-1v1",
          p ∉ (process similarQueue 2 1010000000 testStamp).bucket "us-east|ranked-1v1" →
          ((process similarQueue 2 1010000000 testStamp).deref p).status = "matched"
            ∧ ∃ x, (process similarQueue 2 1010000000 testStamp).assignment.lookup
                (similarQueue.deref p).ticketID = some x) :=
  ⟨by decide!, (C27_partition similarQueue 2 1010000000 testStamp "us-east|ranked-1v1"
    similarQueue_wf (by decide!)).2.2.2.2.2⟩

/-! ## Claims C37 and C40: the greedy choice and the consistency of the queue -/

/-! ## The pairing step picks the closest candidate -/

theorem mem_held_bucket (q : QueueManager) (hk : (q.buckets.map Prod.fst).Nodup) (r : Nat) :
    r ∈ q.held ↔ ∃ k, r ∈ q.bucket k := by
  rw [mem_held]
  constructor
  · rintro ⟨e, he, hr⟩
    exact ⟨e.1, by rw [bucket_of_mem q hk e he]; exact hr⟩
  · rintro ⟨k, hr⟩
    obtain ⟨e, he, _, hre⟩ := mem_bucket q k r hr
    exact ⟨e, he, hre⟩

/-- A bucket map with distinct keys whose buckets are duplicate-free parts of the buckets
of a well-formed queue under the same keys holds every pointer once. -/
theorem held_nodup_of_sub (q q2 : QueueManager) (hwf : WF q)
    (hk : (q2.buckets.map Prod.fst).Nodup)
    (hsub : ∀ e ∈ q2.buckets, e.2.Nodup ∧ ∀ r ∈ e.2, r ∈ q.bucket e.1) : q2.held.Nodup := by
  unfold QueueManager.held
  rw [List.nodup_flatten]
  constructor
  · intro l hl
    obtain ⟨e, he, rfl⟩ := List.mem_map.mp hl
    exact (hsub e he).1
  · rw [List.pairwise_map]
    have hp : q2.buckets.Pairwise (fun a b => a.1 ≠ b.1) := by
      have := hk
      unfold List.Nodup at this
      rwa [List.pairwise_map] at this
    have hall : q2.buckets.Pairwise (fun a b => a ∈ q2.buckets ∧ b ∈ q2.buckets ∧ a.1 ≠ b.1) := by
      rw [List.pairwise_iff_getElem] at hp ⊢
      intro i j hi hj hij
      exact ⟨List.getElem_mem hi, List.getElem_mem hj, hp i j hi hj hij⟩
    refine hall.imp ?_
    rintro a b ⟨ha, hb, hab⟩
    intro r hra hrb
    exact hab (hwf.bucket_key _ _ r ((hsub a ha).2 r hra) ((hsub b hb).2 r hrb))

theorem WF_Leave (q : QueueManager) (id : String) (hwf : WF q) : WF (Leave q id).1 := by
  cases hp : q.ticketIndex.lookup id with
  | none =>
    have : Leave q id = (q, false) := by unfold Leave; rw [hp]
    rw [this]
    exact hwf
  | some p =>
    obtain ⟨hvalid, hid⟩ := hwf.index_valid id p hp
    have hL : (Leave q id).1
        = { q with
              buckets := setKey q.buckets (bucketKey (q.deref p).region (q.deref p).playlist)
                (removeFirst q id (q.bucket (bucketKey (q.deref p).region (q.deref p).playlist))),
              tickets := q.tickets.set p { q.deref p with status := "cancelled" },
              ticketIndex := delKey q.ticketIndex id,
              assignment := delKey q.assignment id } := by
      unfold Leave; rw [hp]
    have hrem : removeFirst q id (q.bucket (bucketKey (q.deref p).region (q.deref p).playlist))
        = (q.bucket (bucketKey (q.deref p).region (q.deref p).playlist)).filter
            (fun r => decide (r ≠ p)) := by
      apply removeFirst_eq_filter q id p _ (hwf.bucket_nodup _)
      intro r hr
      constructor
      · intro h
        have := hwf.held_indexed r (hwf.bucket_held _ r hr)
        rw [h, hp] at this
        exact (Option.some.inj this).symm
      · rintro rfl; exact hid
    have hkeys : ((Leave q id).1.buckets.map Prod.fst).Nodup := by
      rw [hL]; exact setKey_keys_nodup _ _ _ hwf.keys
    have hbucket : ∀ key : String,
        (Leave q id).1.bucket key = (q.bucket key).filter (fun r => decide (r ≠ p)) := by
      intro key
      rw [hL]
      show (List.lookup key (setKey q.buckets _ _)).getD [] = _
      by_cases hk : key = bucketKey (q.deref p).region (q.deref p).playlist
      · rw [hk, lookup_setKey_self, hrem]; rfl
      · rw [lookup_setKey_other _ _ _ _ hk]
        show q.bucket key = _
        symm
        rw [List.filter_eq_self]
        intro r hr
        have : r ≠ p := by
          rintro rfl
          obtain ⟨e, he, hek, hre⟩ := mem_bucket q key r hr
          exact hk (hek ▸ hwf.held_key e he r hre)
        simpa using this
    have hderef : ∀ r, (Leave q id).1.deref r
        = if r = p then { q.deref p with status := "cancelled" } else q.deref r := by
      intro r
      rw [hL]
      exact deref_set q p r _ _ _ _ hvalid
    have hidx : ∀ k, (Leave q id).1.ticketIndex.lookup k
        = if k = id then none else q.ticketIndex.lookup k := by
      intro k; rw [hL]; exact lookup_delKey _ _ _
    have hasg : ∀ k, (Leave q id).1.assignment.lookup k
        = if k = id then none else q.assignment.lookup k := by
      intro k; rw [hL]; exact lookup_delKey _ _ _
    have hlen : (Leave q id).1.tickets.length = q.tickets.length := by
      rw [hL]; simp
    have hheld : ∀ r, r ∈ (Leave q id).1.held ↔ r ∈ q.held ∧ r ≠ p := by
      intro r
      rw [mem_held_bucket _ hkeys, mem_held_bucket _ hwf.keys]
      constructor
      · rintro ⟨k, hr⟩
        rw [hbucket k] at hr
        obtain ⟨h1, h2⟩ := List.mem_filter.mp hr
        exact ⟨⟨k, h1⟩, by simpa using h2⟩
      · rintro ⟨⟨k, hr⟩, hne⟩
        exact ⟨k, by rw [hbucket k]; exact List.mem_filter.mpr ⟨hr, by simpa using hne⟩⟩
    have hother : ∀ k r, q.ticketIndex.lookup k = some r → k ≠ id → r ≠ p := by
      intro k r hk hne hrp
      subst hrp
      exact hne ((hwf.index_valid k r hk).2.symm.trans hid)
    refine ⟨hkeys, ?_, ?_, ?_, ?_, ?_, ?_⟩
    · apply held_nodup_of_sub q _ hwf hkeys
      intro e he
      have hb := bucket_of_mem _ hkeys e he
      rw [hbucket e.1] at hb
      rw [← hb]
      exact ⟨(hwf.bucket_nodup e.1).filter _, fun r hr => (List.mem_filter.mp hr).1⟩
    · intro e he r hr
      have hb := bucket_of_mem _ hkeys e he
      rw [hbucket e.1] at hb
      rw [← hb] at hr
      obtain ⟨h1, h2⟩ := List.mem_filter.mp hr
      have hne : r ≠ p := by simpa using h2
      rw [hderef r, if_neg hne]
      obtain ⟨e2, he2, hk2, hr2⟩ := mem_bucket q e.1 r h1
      rw [← hk2]
      exact hwf.held_key e2 he2 r hr2
    · intro r hr
      obtain ⟨h1, hne⟩ := (hheld r).mp hr
      rw [hderef r, if_neg hne, hidx]
      have h2 := hwf.held_indexed r h1
      have hne2 : (q.deref r).ticketID ≠ id := by
        intro hc
        rw [hc, hp] at h2
        exact hne (Option.some.inj h2).symm
      rw [if_neg hne2]
      exact h2
    · intro k r hk
      rw [hidx] at hk
      split_ifs at hk with hki
      obtain ⟨h1, h2⟩ := hwf.index_valid k r hk
      rw [hlen, hderef r, if_neg (hother k r hk hki)]
      exact ⟨h1, h2⟩
    · intro k r hk
      rw [hidx] at hk
      split_ifs at hk with hki
      have hne := hother k r hk hki
      rw [hderef r, if_neg hne, hasg, if_neg hki, hheld]
      rcases hwf.index_status k r hk with h1 | h1
      · exact Or.inl ⟨h1.1, ⟨h1.2.1, hne⟩, h1.2.2⟩
      · exact Or.inr ⟨h1.1, fun hc => h1.2.1 hc.1, h1.2.2⟩
    · intro k a hk
      rw [hasg] at hk
      split_ifs at hk with hki
      obtain ⟨r, hr⟩ := hwf.assigned_indexed k a hk
      exact ⟨r, by rw [hidx, if_neg hki]; exact hr⟩

theorem WF_process (q : QueueManager) (playersPerMatch now : Int) (stamp : Nat → String)
    (hwf : WF q) : WF (process q playersPerMatch now stamp) := by
  obtain ⟨log, hex, hsound, hbk, _, _⟩ := process_spec q now stamp playersPerMatch hwf
  have hkeys : ((process q playersPerMatch now stamp).buckets.map Prod.fst).Nodup := by
    rw [hex.keys_eq]; exact hwf.keys
  have hlog : ∀ r ∈ logPtrs log, r ∈ q.held := by
    intro r hr
    obtain ⟨e, _, _, hre⟩ := hsound.ptr_bucket r hr
    exact hwf.bucket_held _ r hre
  have hmemb : ∀ k r, r ∈ (process q playersPerMatch now stamp).bucket k
      ↔ r ∈ q.bucket k ∧ r ∉ logPtrs log := by
    intro k r
    rw [hbk k, List.mem_filter, (sortByJoin_perm q _).mem_iff]
    simp
  have hheld : ∀ r, r ∈ (process q playersPerMatch now stamp).held
      ↔ r ∈ q.held ∧ r ∉ logPtrs log := by
    intro r
    rw [mem_held_bucket _ hkeys, mem_held_bucket _ hwf.keys]
    constructor
    · rintro ⟨k, hr⟩
      exact ⟨⟨k, ((hmemb k r).mp hr).1⟩, ((hmemb k r).mp hr).2⟩
    · rintro ⟨⟨k, hr⟩, hout⟩
      exact ⟨k, (hmemb k r).mpr ⟨hr, hout⟩⟩
  refine ⟨hkeys, ?_, ?_, ?_, ?_, ?_, ?_⟩
  · apply held_nodup_of_sub q _ hwf hkeys
    intro e he
    have hb := bucket_of_mem _ hkeys e he
    rw [← hb]
    refine ⟨?_, fun r hr => ((hmemb e.1 r).mp hr).1⟩
    rw [hbk]
    exact ((sortByJoin_perm q _).nodup_iff.mpr (hwf.bucket_nodup e.1)).filter _
  · intro e he r hr
    have hb := bucket_of_mem _ hkeys e he
    rw [← hb] at hr
    obtain ⟨h1, h2⟩ := (hmemb e.1 r).mp hr
    rw [hex.same r h2]
    obtain ⟨e2, he2, hk2, hr2⟩ := mem_bucket q e.1 r h1
    rw [← hk2]
    exact hwf.held_key e2 he2 r hr2
  · intro r hr
    obtain ⟨h1, h2⟩ := (hheld r).mp hr
    rw [hex.same r h2, hex.index_eq]
    exact hwf.held_indexed r h1
  · intro k r hk
    rw [hex.index_eq] at hk
    obtain ⟨h1, h2⟩ := hwf.index_valid k r hk
    rw [hex.length_eq, (hex.field r).1]
    exact ⟨h1, h2⟩
  · intro k r hk
    rw [hex.index_eq] at hk
    have hidr := (hwf.index_valid k r hk).2
    rw [hheld]
    by_cases hm : r ∈ logPtrs log
    · obtain ⟨hd, n, e, _, _, hl⟩ := hex.marked r hm
      rw [hidr] at hl
      exact Or.inr ⟨by rw [hd], fun hc => hc.2 hm, _, hl⟩
    · rw [hex.same r hm]
      rcases hwf.index_status k r hk with h1 | h1
      · refine Or.inl ⟨h1.1, ⟨h1.2.1, hm⟩, ?_⟩
        have := (hex.unmarked hwf hsound r h1.2.1 hm).2
        rw [hidr] at this
        exact this
      · refine Or.inr ⟨h1.1, fun hc => h1.2.1 hc.1, ?_⟩
        rw [hex.asg_old k]
        · exact h1.2.2
        · intro r2 hr2 hc
          have h2 := hwf.held_indexed r2 (hlog r2 hr2)
          rw [hc, hk] at h2
          exact h1.2.1 ((Option.some.inj h2) ▸ hlog r2 hr2)
  · intro k a hk
    rw [hex.index_eq]
    cases h0 : q.assignment.lookup k with
    | some a0 => exact hwf.assigned_indexed k a0 h0
    | none =>
      obtain ⟨p, n, e, hid, hn, hpe, _⟩ := hex.fresh k a h0 hk
      have hp : p ∈ logPtrs log := (mem_logPtrs log p).mpr ⟨e, List.getElem?_mem hn, hpe⟩
      exact ⟨p, hid ▸ hwf.held_indexed p (hlog p hp)⟩

theorem runOps_wf (ops : List Op) :
    ∀ (q : QueueManager) (used : List String), WF q →
      (∀ id p, q.ticketIndex.lookup id = some p → id ∈ used) → FreshIDs used ops →
      WF (runOps q ops) := by
  induction ops with
  | nil => intro q used h _ _; exact h
  | cons op rest ih =>
    intro q used hwf hused hfresh
    show WF (runOps (Op.apply q op) rest)
    cases op with
    | join req now stamp =>
      obtain ⟨h1, h2⟩ := hfresh
      have hnone : q.ticketIndex.lookup (nextID "t" stamp) = none := by
        cases hl : q.ticketIndex.lookup (nextID "t" stamp) with
        | none => rfl
        | some p => exact absurd (hused _ p hl) h1
      refine ih _ (nextID "t" stamp :: used) (WF_Join q req now stamp hwf hnone) ?_ h2
      intro id p hl
      by_cases hid : id = nextID "t" stamp
      · rw [hid]; exact List.mem_cons_self _ _
      · have : (Join q req now stamp).1.ticketIndex.lookup id = q.ticketIndex.lookup id :=
          lookup_setKey_other _ _ _ _ hid
        exact List.mem_cons_of_mem _ (hused id p (this ▸ hl))
    | leave id =>
      refine ih _ used (WF_Leave q id hwf) ?_ hfresh
      intro k p hl
      cases hp : q.ticketIndex.lookup id with
      | none =>
        have : Leave q id = (q, false) := by unfold Leave; rw [hp]
        rw [show Op.apply q (Op.leave id) = (Leave q id).1 from rfl, this] at hl
        exact hused k p hl
      | some p0 =>
        have : (Leave q id).1.ticketIndex = delKey q.ticketIndex id := by
          unfold Leave; rw [hp]
        rw [show Op.apply q (Op.leave id) = (Leave q id).1 from rfl, this, lookup_delKey] at hl
        split_ifs at hl
        exact hused k p hl
    | pass ppm now stamp =>
      refine ih _ used (WF_process q ppm now stamp hwf) ?_ hfresh
      intro k p hl
      obtain ⟨log, hex, _⟩ := process_spec q now stamp ppm hwf
      rw [show Op.apply q (Op.pass ppm now stamp) = process q ppm now stamp from rfl,
        hex.index_eq] at hl
      exact hused k p hl

/-- C40: starting from the empty queue, after any sequence of `Join` (each minting a
ticket id not minted before), `Leave` and `process` passes: (1) an assignment is stored
under an id iff a ticket is indexed under that id with status `matched`; (2) the tickets
held in buckets are exactly the indexed tickets with status `searching`, each in the
bucket keyed by its own region and playlist, each held once (and the bucket keys are
distinct); (3) no indexed ticket has status `cancelled`. Consequently `Poll` answers
`matched` only together with the stored assignment, and `searching` only for a ticket
that waits in the bucket of its region and playlist. -/
theorem C40_queue_consistency (serverAddr : String) (ops : List Op) (hfresh : FreshIDs [] ops) :
    (∀ id : String,
        (∃ a, (runOps (NewQueueManager serverAddr) ops).assignment.lookup id = some a)
          ↔ ∃ p, (runOps (NewQueueManager serverAddr) ops).ticketIndex.lookup id = some p
              ∧ ((runOps (NewQueueManager serverAddr) ops).deref p).status = "matched")
      ∧ ((∀ p : Nat, p ∈ (runOps (NewQueueManager serverAddr) ops).held
            ↔ ∃ id, (runOps (NewQueueManager serverAddr) ops).ticketIndex.lookup id = some p
                ∧ ((runOps (NewQueueManager serverAddr) ops).deref p).status = "searching")
        ∧ (∀ (key : String) (p : Nat),
            p ∈ (runOps (NewQueueManager serverAddr) ops).bucket key →
              key = bucketKey ((runOps (NewQueueManager serverAddr) ops).deref p).region
                ((runOps (NewQueueManager serverAddr) ops).deref p).playlist)
        ∧ (runOps (NewQueueManager serverAddr) ops).held.Nodup
        ∧ ((runOps (NewQueueManager serverAddr) ops).buckets.map Prod.fst).Nodup)
      ∧ (∀ (id : String) (p : Nat),
          (runOps (NewQueueManager serverAddr) ops).ticketIndex.lookup id = some p →
            ((runOps (NewQueueManager serverAddr) ops).deref p).status ≠ "cancelled")
      ∧ (∀ id : String, (Poll (runOps (NewQueueManager serverAddr) ops) id).status = "matched" →
          ∃ a, (Poll (runOps (NewQueueManager serverAddr) ops) id).assignment = some a
            ∧ (runOps (NewQueueManager serverAddr) ops).assignment.lookup id = some a)
      ∧ (∀ id : String, (Poll (runOps (NewQueueManager serverAddr) ops) id).status = "searching" →
          ∃ p, (runOps (NewQueueManager serverAddr) ops).ticketIndex.lookup id = some p
            ∧ ((runOps (NewQueueManager serverAddr) ops).deref p).status = "searching"
            ∧ p ∈ (runOps (NewQueueManager serverAddr) ops).bucket
                (bucketKey ((runOps (NewQueueManager serverAddr) ops).deref p).region
                  ((runOps (NewQueueManager serverAddr) ops).deref p).playlist)) := by
  have hwf : WF (runOps (NewQueueManager serverAddr) ops) :=
    runOps_wf ops _ [] (WF_new serverAddr)
      (fun id p h => by simp [NewQueueManager] at h) hfresh
  obtain ⟨q, hq⟩ : ∃ q, q = runOps (NewQueueManager serverAddr) ops := ⟨_, rfl⟩
  rw [← hq] at hwf ⊢
  have hsm : ("searching" : String) ≠ "matched" := by decide
  have hsc : ("searching" : String) ≠ "cancelled" := by decide
  have hmc : ("matched" : String) ≠ "cancelled" := by decide
  have hinb : ∀ p, p ∈ q.held →
      p ∈ q.bucket (bucketKey (q.deref p).region (q.deref p).playlist) := by
    intro p hp
    obtain ⟨e, he, hpe⟩ := (mem_held q p).mp hp
    rw [← hwf.held_key e he p hpe, bucket_of_mem q hwf.keys e he]
    exact hpe
  refine ⟨fun id => ⟨?_, ?_⟩, ⟨fun p => ⟨?_, ?_⟩, ?_, hwf.held_nodup, hwf.keys⟩, ?_, ?_, ?_⟩
  · rintro ⟨a, ha⟩
    obtain ⟨p, hp⟩ := hwf.assigned_indexed id a ha
    rcases hwf.index_status id p hp with h1 | h1
    · rw [h1.2.2] at ha
      exact Option.noConfusion ha
    · exact ⟨p, hp, h1.1⟩
  · rintro ⟨p, hp, hs⟩
    rcases hwf.index_status id p hp with h1 | h1
    · rw [h1.1] at hs
      exact absurd hs hsm
    · exact h1.2.2
  · intro hp
    exact ⟨_, hwf.held_indexed p hp, hwf.held_searching p hp⟩
  · rintro ⟨id, hp, hs⟩
    rcases hwf.index_status id p hp with h1 | h1
    · exact h1.2.1
    · rw [h1.1] at hs
      exact absurd hs.symm hsm
  · intro key p hp
    obtain ⟨e, he, hk, hpe⟩ := mem_bucket q key p hp
    rw [← hk]
    exact hwf.held_key e he p hpe
  · intro id p hp hc
    rcases hwf.index_status id p hp with h1 | h1
    · rw [h1.1] at hc
      exact hsc hc
    · rw [h1.1] at hc
      exact hmc hc
  · intro id hst
    unfold Poll at hst ⊢
    cases ha : q.assignment.lookup id with
    | some a => exact ⟨a, by simp only [], rfl⟩
    | none =>
      exfalso
      rw [ha] at hst
      simp only [] at hst
      cases hp : q.ticketIndex.lookup id with
      | none =>
        rw [hp] at hst
        simp only [] at hst
        exact absurd hst (by decide)
      | some p =>
        rw [hp] at hst
        simp only [] at hst
        rcases hwf.index_status id p hp with h1 | h1
        · rw [h1.1] at hst
          exact hsm hst
        · obtain ⟨a, h2⟩ := h1.2.2
          rw [ha] at h2
          exact Option.noConfusion h2
  · intro id hst
    unfold Poll at hst
    cases ha : q.assignment.lookup id with
    | some a =>
      rw [ha] at hst
      simp only [] at hst
      exact absurd hst.symm hsm
    | none =>
      rw [ha] at hst
      simp only [] at hst
      cases hp : q.ticketIndex.lookup id with
      | none =>
        rw [hp] at hst
        simp only [] at hst
        exact absurd hst (by decide)
      | some p =>
        rw [hp] at hst
        simp only [] at hst
        rcases hwf.index_status id p hp with h1 | h1
        · exact ⟨p, rfl, hst, hinb p h1.2.1⟩
        · rw [h1.1] at hst
          exact absurd hst.symm hsm

/-- C40 on a session of five calls (two joins, a pass that pairs them, a leave, a third
join): the ids are fresh, the second ticket polls `matched` with its stored assignment,
and the third polls `searching` and waits in its bucket. -/
theorem C40_queue_consistency_witness :
    FreshIDs [] sessionOps
      ∧ (Poll (runOps (NewQueueManager "") sessionOps) "t_1000001000").status = "matched"
      ∧ (∃ a, (Poll (runOps (NewQueueManager "") sessionOps) "t_1000001000").assignment = some a
          ∧ (runOps (NewQueueManager "") sessionOps).assignment.lookup "t_1000001000" = some a)
      ∧ (Poll (runOps (NewQueueManager "") sessionOps) "t_1000002000").status = "searching"
      ∧ (∃ p, (runOps (NewQueueManager "") sessionOps).ticketIndex.lookup "t_1000002000"
            = some p
          ∧ ((runOps (NewQueueManager "") sessionOps).deref p).status = "searching"
          ∧ p ∈ (runOps (NewQueueManager "") sessionOps).bucket
              (bucketKey ((runOps (NewQueueManager "") sessionOps).deref p).region
                ((runOps (NewQueueManager "") sessionOps).deref p).playlist)) :=
  have hfresh : FreshIDs [] sessionOps :=
    ⟨by decide, by decide, by decide, trivial⟩
  have h1 : (Poll (runOps (NewQueueManager "") sessionOps) "t_1000001000").status = "matched" := by
    decide!
  have h2 : (Poll (runOps (NewQueueManager "") sessionOps) "t_1000002000").status
      = "searching" := by decide!
  ⟨hfresh, h1, (C40_queue_consistency "" sessionOps hfresh).2.2.2.1 "t_1000001000" h1, h2,
    (C40_queue_consistency "" sessionOps hfresh).2.2.2.2 "t_1000002000" h2⟩

end Matchmaking
